import Mathlib

/-!
bee_os real-time kernel: a shallow embedding of the C sources

The C objects live in a typed memory `Mem`: one store per C struct type, indexed by
address.  A pointer is a natural number and `0` is `NULL`.  Every C function
`f(T **p, ...)` becomes a Lean function taking the memory and the pointer values `*p`,
and returning the status code together with the new memory (and the values written
through output parameters).

`size_t` is the 32-bit unsigned type of the Cortex-M target.  Increments and decrements
that the code does not guard (`lock_count++`, `lock_count--`) wrap modulo `2^32`;
counters that are guarded by a comparison just before (`token`, list `size`) cannot wrap
and use plain arithmetic.
-/

namespace BeeOS

/-! ## Status codes and constants -/

/-- Number of values of `size_t` on the 32-bit target. -/
abbrev SIZE_T_MOD : Nat := 4294967296

/-- The macro `ERROR_INFO(sub_component_status, component_register, component_status)` of
`utils/support.h`: `((sub) << (reg)) | (status)`, computed in `size_t`. -/
def ERROR_INFO (sub_component_status component_register component_status : Nat) : Nat :=
  ((sub_component_status <<< component_register) ||| component_status) % SIZE_T_MOD

-- utils/linked_list.h
abbrev LINKED_LIST_SUCCESS : Nat := 0
abbrev LINKED_LIST_ELEMENT_SUCCESS : Nat := 0
abbrev LINKED_LIST_NO_MEMORY : Nat := 1
abbrev LINKED_LIST_ELEMENT_NO_MEMORY : Nat := 2
abbrev LINKED_LIST_IRREGULAR_STRUCTURE : Nat := 3
abbrev LINKED_LIST_NO_ELEMENT : Nat := 4
abbrev LINKED_LIST_ELEMENT_IS_NULL : Nat := 5
abbrev LINKED_LIST_SOURCE_IS_EMPTY : Nat := 6
abbrev LINKED_LIST_LENGTH : Nat := 3

-- kernel/semaphore.h
abbrev SEMAPHORE_SUCCESS : Nat := 0
abbrev SEMAPHORE_NO_MEMORY : Nat := 1
abbrev SEMAPHORE_NO_TOKENS : Nat := 2
abbrev SEMAPHORE_NO_WAITING_LIST : Nat := 3
abbrev SEMAPHORE_UNABLE_TO_ACQUIRE : Nat := 4
abbrev SEMAPHORE_REACHED_MAX_TOKENS : Nat := 5
abbrev SEMAPHORE_TOKENS_OVERFLOW : Nat := 6
abbrev SEMAPHORE_UNABLE_TO_RELEASE : Nat := 7
abbrev SEMAPHORE_LENGTH : Nat := 3
abbrev SEMAPHORE_BINARY_TOKEN : Nat := 1
abbrev SEMAPHORE_LINKED_LIST_ERROR_REGISTER : Nat := SEMAPHORE_LENGTH

-- kernel/mutex.h
abbrev MUTEX_SUCCESS : Nat := 0
abbrev MUTEX_NO_MEMORY : Nat := 1
abbrev MUTEX_NO_SEMAPHORE : Nat := 2
abbrev MUTEX_NO_OWNER_TASK : Nat := 3
abbrev MUTEX_UNABLE_TO_DELETE : Nat := 4
abbrev MUTEX_IRREGULAR_STRUCTURE : Nat := 5
abbrev MUTEX_UNABLE_TO_ACQUIRE : Nat := 6
abbrev MUTEX_UNABLE_TO_RELEASE : Nat := 7
abbrev MUTEX_OWNED_BY_OTHER_TASK : Nat := 8
abbrev MUTEX_LENGTH : Nat := 4
abbrev MUTEX_SEMAPHORE_ERROR_REGISTER : Nat := MUTEX_LENGTH

-- utils/dictionary.h
abbrev DICTIONARY_SUCCESS : Nat := 0
abbrev DICTIONARY_NO_MEMORY : Nat := 1
abbrev DICTIONARY_DATA_NO_MEMORY : Nat := 2
abbrev DICTIONARY_OVERFLOW : Nat := 3
abbrev DICTIONARY_VALUE_IS_NULL : Nat := 4

-- utils/queue.h
abbrev QUEUE_SUCCESS : Nat := 0
abbrev QUEUE_NO_MEMORY : Nat := 1
abbrev QUEUE_IS_NULL : Nat := 2
abbrev QUEUE_DATA_NO_MEMORY : Nat := 3
abbrev QUEUE_PREVENTED_OVERRITE : Nat := 4
abbrev QUEUE_NO_ELEMENT : Nat := 5
abbrev QUEUE_COPY_ERROR : Nat := 6
abbrev QUEUE_LENGTH : Nat := 3

-- kernel/task.h
abbrev TASK_SUCCESS : Nat := 0
abbrev TASK_NO_MEMORY : Nat := 1
abbrev TASK_DATA_NO_MEMORY : Nat := 2
abbrev TASK_LENGTH : Nat := 3
abbrev TASK_UNDEFINED_STATE : Nat := 4

-- kernel/tcb.h, the enum `TCB_eTastStates_t`
abbrev TaskState_Created : Nat := 0
abbrev TaskState_Ready : Nat := 1
abbrev TaskState_Running : Nat := 2
abbrev TaskState_Blocked : Nat := 3
abbrev TaskState_Deleted : Nat := 4
abbrev TaskState_MAX_STATE : Nat := 5

-- kernel/message_queue.h
abbrev MESSAGE_QUEUE_SUCCESS : Nat := 0
abbrev MESSAGE_QUEUE_IDENTIFIER_SUCCESS : Nat := 0
abbrev MESSAGE_QUEUE_NO_MEMORY : Nat := 1
abbrev MESSAGE_QUEUE_NO_QUEUE : Nat := 2
abbrev MESSAGE_QUEUE_NO_IDENTIFIER : Nat := 3
abbrev MESSAGE_QUEUE_NO_RECEIVING_LIST : Nat := 4
abbrev MESSAGE_QUEUE_NO_SENDING_LIST : Nat := 5
abbrev MESSAGE_QUEUE_UNABLE_TO_SEND : Nat := 6
abbrev MESSAGE_QUEUE_UNABLE_TO_RECEIVE : Nat := 7
abbrev MESSAGE_QUEUE_NO_TASK_WAITING_LIST_ELEMENT : Nat := 8
abbrev MESSAGE_QUEUE_UNABLE_TO_DELETE : Nat := 9
abbrev MESSAGE_QUEUE_LINKED_LIST_ERROR_REGISTER : Nat := 10
abbrev MESSAGE_QUEUE_INVALID_TASK_REGISTER : Nat := 11
abbrev MESSAGE_QUEUE_LENGTH : Nat := 4
abbrev MESSAGE_QUEUE_LINK_LIST_ERROR_REGISTER : Nat := MESSAGE_QUEUE_LENGTH
abbrev MESSAGE_QUEUE_QUEUE_ERROR_REGISTER : Nat :=
  MESSAGE_QUEUE_LINK_LIST_ERROR_REGISTER + QUEUE_LENGTH
abbrev MESSAGE_QUEUE_RECEIVING_LINKED_LIST_ERROR_REGISTER : Nat :=
  MESSAGE_QUEUE_QUEUE_ERROR_REGISTER + LINKED_LIST_LENGTH
abbrev MESSAGE_QUEUE_SENDING_LINKED_LIST_ERROR_REGISTER : Nat :=
  MESSAGE_QUEUE_RECEIVING_LINKED_LIST_ERROR_REGISTER + LINKED_LIST_LENGTH
abbrev MESSAGE_QUEUE_TASK_ERROR_REGISTER : Nat :=
  MESSAGE_QUEUE_LINK_LIST_ERROR_REGISTER + TASK_LENGTH

-- kernel/kernel.h
abbrev KERNEL_MAX_TASK : Nat := 64
abbrev KERNEL_MAX_MESSAGE_QUEUE : Nat := 8
abbrev KERNEL_MAX_SEMAPHORE : Nat := 8
abbrev KERNEL_MAX_MUTEX : Nat := 8
abbrev KERNEL_SUCCESS : Nat := 0
abbrev KERNEL_UNABLE_TO_REINSERT_TASK : Nat := 19
abbrev KERNEL_UNABLE_TO_ACQUIRE_MUTEX : Nat := 28
abbrev KERNEL_UNABLE_TO_RELEASE_MUTEX : Nat := 29
abbrev KERNEL_DICTIONARY_ERROR_REGISTER : Nat := DICTIONARY_NO_MEMORY
abbrev KERNEL_LINK_LIST_ERROR_REGISTER : Nat :=
  KERNEL_DICTIONARY_ERROR_REGISTER + LINKED_LIST_LENGTH
abbrev KERNEL_TASK_ERROR_REGISTER : Nat := KERNEL_LINK_LIST_ERROR_REGISTER + TASK_LENGTH
abbrev KERNEL_MESSAGE_QUEUE_ERROR_REGISTER : Nat :=
  KERNEL_TASK_ERROR_REGISTER + MESSAGE_QUEUE_LENGTH
abbrev KERNEL_SEMAPHORE_ERROR_REGISTER : Nat :=
  KERNEL_MESSAGE_QUEUE_ERROR_REGISTER + SEMAPHORE_LENGTH
abbrev KERNEL_MUTEX_ERROR_REGISTER : Nat := KERNEL_SEMAPHORE_ERROR_REGISTER + MUTEX_LENGTH

-- kernel/kernel.h, the enum `Kernel_Status_e`
abbrev EN_KERNEL_NOT_INITIALIZED : Nat := 0
abbrev EN_KERNEL_STARTING : Nat := 1
abbrev EN_KERNEL_RUNNING : Nat := 2
abbrev EN_KERNEL_ERROR : Nat := 3
abbrev EN_KERNEL_IDLE : Nat := 4
abbrev EN_KERNEL_MAX_STATE : Nat := 5

/-! ## C structs -/

/-- The struct `linked_list_element_t` (utils/linked_list.h). -/
structure linked_list_element_t where
  data : Nat
  previous : Nat
  next : Nat
deriving DecidableEq

/-- The struct `linked_list_t` (utils/linked_list.h). -/
structure linked_list_t where
  head : Nat
  tail : Nat
  size : Nat
deriving DecidableEq

/-- The struct `semaphore_t` (kernel/semaphore.h). -/
structure semaphore_t where
  id : Nat
  token : Nat
  max_token : Nat
  task_waiting_list : Nat
deriving DecidableEq

/-- The struct `mutex_t` (kernel/mutex.h). -/
structure mutex_t where
  binary_semaphore : Nat
  owner : Nat
  lock_count : Nat
deriving DecidableEq

/-- The struct `dictionary_t` (utils/dictionary.h); `data` is the address of the slot
array. -/
structure dictionary_t where
  data : Nat
  size : Nat
deriving DecidableEq

/-- The struct `queue_t` (utils/queue.h); `data` is the address of the array of element
pointers. -/
structure queue_t where
  size : Nat
  length : Nat
  element_size : Nat
  head : Nat
  tail : Nat
  data : Nat
deriving DecidableEq

/-- The struct `TCB_sctTCB_t` (kernel/tcb.h), without the stack array. -/
structure TCB_sctTCB_t where
  u8TaskId : Nat
  u8TaskPrio : Nat
  eTaskState : Nat
  u32TaskSP : Nat
deriving DecidableEq

/-- The struct `event_register_t` (kernel/task.h); `notification_conditions` is the
function pointer. -/
structure event_register_t where
  wanted_events : Nat
  received_events : Nat
  notification_conditions : Nat
  timeout : Nat
deriving DecidableEq

/-- The struct `task_t` (kernel/task.h), without the name and the trace information. -/
structure task_t where
  task_data : Nat
  task_main : Nat
  time_quantum : Nat
  time_quantum_remaining : Nat
  cause : Nat
  message : Nat
  message_set : Bool
  delta_time : Nat
  event_register : event_register_t
  blocked_timeout_list : Nat
  blocked_timeout_list_element : Nat
  return_value : Nat
deriving DecidableEq

/-- The struct `message_queue_t` (kernel/message_queue.h). -/
structure message_queue_t where
  message_queue_identifier : Nat
  qcb : Nat
  receiving_task_list : Nat
  sending_task_list : Nat
deriving DecidableEq

/-- Typed memory: one store per struct type, indexed by address.  `slots a i` is the
`i`-th entry of the pointer array at address `a` (the `void **data` of a dictionary or of
a queue) and `byte a` the byte at address `a` of the payload memory. -/
structure Mem where
  element : Nat → linked_list_element_t
  list : Nat → linked_list_t
  semaphore : Nat → semaphore_t
  mutex : Nat → mutex_t
  task : Nat → task_t
  tcb : Nat → TCB_sctTCB_t
  dictionary : Nat → dictionary_t
  queue : Nat → queue_t
  message_queue : Nat → message_queue_t
  slots : Nat → Nat → Nat
  byte : Nat → Nat

/-- Memory in which every cell is zero. -/
def Mem.zero : Mem where
  element := fun _ => ⟨0, 0, 0⟩
  list := fun _ => ⟨0, 0, 0⟩
  semaphore := fun _ => ⟨0, 0, 0, 0⟩
  mutex := fun _ => ⟨0, 0, 0⟩
  task := fun _ => ⟨0, 0, 0, 0, 0, 0, false, 0, ⟨0, 0, 0, 0⟩, 0, 0, 0⟩
  tcb := fun _ => ⟨0, 0, 0, 0⟩
  dictionary := fun _ => ⟨0, 0⟩
  queue := fun _ => ⟨0, 0, 0, 0, 0, 0⟩
  message_queue := fun _ => ⟨0, 0, 0, 0⟩
  slots := fun _ _ => 0
  byte := fun _ => 0

/-- What a function with the output parameters `element` and `task` leaves behind: the
returned status, the memory, and the values of `*element` and `*task` on return. -/
structure Out where
  status : Nat
  mem : Mem
  element : Nat
  task : Nat

/-- The C expression `x + 1` on a `size_t`. -/
def size_t_inc (x : Nat) : Nat := (x + 1) % SIZE_T_MOD

/-- The C expression `x - 1` on a `size_t`. -/
def size_t_dec (x : Nat) : Nat := (x + (SIZE_T_MOD - 1)) % SIZE_T_MOD

/-! ### Field writes -/

/-- The write `e->next = v`. -/
def Mem.setNext (m : Mem) (e v : Nat) : Mem :=
  { m with element := Function.update m.element e { m.element e with next := v } }

/-- The write `e->previous = v`. -/
def Mem.setPrevious (m : Mem) (e v : Nat) : Mem :=
  { m with element := Function.update m.element e { m.element e with previous := v } }

/-- The write `l->head = v`. -/
def Mem.setHead (m : Mem) (l v : Nat) : Mem :=
  { m with list := Function.update m.list l { m.list l with head := v } }

/-- The write `l->tail = v`. -/
def Mem.setTail (m : Mem) (l v : Nat) : Mem :=
  { m with list := Function.update m.list l { m.list l with tail := v } }

/-- The write `l->size = v`. -/
def Mem.setSize (m : Mem) (l v : Nat) : Mem :=
  { m with list := Function.update m.list l { m.list l with size := v } }

/-- The write `s->token = v`. -/
def Mem.setToken (m : Mem) (s v : Nat) : Mem :=
  { m with semaphore := Function.update m.semaphore s { m.semaphore s with token := v } }

/-- The write `s->id = v`. -/
def Mem.setId (m : Mem) (s v : Nat) : Mem :=
  { m with semaphore := Function.update m.semaphore s { m.semaphore s with id := v } }

/-- The write `s->max_token = v`. -/
def Mem.setMaxToken (m : Mem) (s v : Nat) : Mem :=
  { m with semaphore := Function.update m.semaphore s { m.semaphore s with max_token := v } }

/-- The write `s->task_waiting_list = v`. -/
def Mem.setTaskWaitingList (m : Mem) (s v : Nat) : Mem :=
  { m with semaphore :=
      Function.update m.semaphore s { m.semaphore s with task_waiting_list := v } }

/-- The write `x->binary_semaphore = v`. -/
def Mem.setBinarySemaphore (m : Mem) (x v : Nat) : Mem :=
  { m with mutex := Function.update m.mutex x { m.mutex x with binary_semaphore := v } }

/-- The write `x->owner = v`. -/
def Mem.setOwner (m : Mem) (x v : Nat) : Mem :=
  { m with mutex := Function.update m.mutex x { m.mutex x with owner := v } }

/-- The write `x->lock_count = v`. -/
def Mem.setLockCount (m : Mem) (x v : Nat) : Mem :=
  { m with mutex := Function.update m.mutex x { m.mutex x with lock_count := v } }

/-! ## utils/linked_list.c -/

/-- The function `linked_list_checking`: a list is valid when its pointer is not `NULL`. -/
def linked_list_checking (linked_list : Nat) : Nat :=
  if linked_list = 0 then LINKED_LIST_NO_MEMORY else LINKED_LIST_SUCCESS

/-- The function `linked_list_element_checking`. -/
def linked_list_element_checking (linked_list_element : Nat) : Nat :=
  if linked_list_element = 0 then LINKED_LIST_ELEMENT_NO_MEMORY else LINKED_LIST_ELEMENT_SUCCESS

/-- The function `linked_list_create`; `a` is the address returned by `malloc`
(`0` when the allocation fails). -/
def linked_list_create (m : Mem) (a : Nat) : Nat × Mem :=
  if a = 0 then (LINKED_LIST_NO_MEMORY, m)
  else
    let m := m.setSize a 0
    let m := m.setHead a 0
    let m := m.setTail a 0
    (LINKED_LIST_SUCCESS, m)

/-- The block "remove linked list element from source" of `linked_list_transfer`
(lines 459-492), which `linked_list_transfer_after` repeats verbatim (lines 550-584):
unlink `e` from `src`, decrement the size and reset the links of `e`. -/
def linked_list_unlink (m : Mem) (src e : Nat) : Mem :=
  let m :=
    if e = (m.list src).head then
      -- linked list element is sources head
      let m := m.setHead src (m.element (m.list src).head).previous
      if (m.list src).head ≠ 0 then m.setNext (m.list src).head 0 else m
    else if (m.element e).next ≠ 0 then
      -- linked list element is between or tail
      m.setPrevious (m.element e).next (m.element e).previous
    else m
  let m :=
    if e = (m.list src).tail then
      -- linked list element is sources tail
      let m := m.setTail src (m.element (m.list src).tail).next
      if (m.list src).tail ≠ 0 then m.setPrevious (m.list src).tail 0 else m
    else if (m.element e).previous ≠ 0 then
      -- linked list element is between or head
      m.setNext (m.element e).previous (m.element e).next
    else m
  -- linked list element was removed
  let m := m.setSize src ((m.list src).size - 1)
  -- set linked list element to default before insert in destination
  let m := m.setNext e 0
  m.setPrevious e 0

/-- The block of `linked_list_transfer` that inserts `e` at the head of `dst`
(lines 494-506). -/
def linked_list_link_head (m : Mem) (dst e : Nat) : Mem :=
  let m :=
    if (m.list dst).size = 0 then
      let m := m.setTail dst e
      m.setHead dst e
    else
      let m := m.setNext (m.list dst).head e
      let m := m.setPrevious e (m.list dst).head
      m.setHead dst e
  m.setSize dst ((m.list dst).size + 1)

/-- The function `linked_list_transfer(dst, src, e)`. -/
def linked_list_transfer (m : Mem) (dst src e : Nat) : Nat × Mem :=
  if linked_list_checking dst ≠ LINKED_LIST_SUCCESS then (linked_list_checking dst, m)
  else if linked_list_checking src ≠ LINKED_LIST_SUCCESS then (linked_list_checking src, m)
  else if linked_list_element_checking e ≠ LINKED_LIST_SUCCESS then
    (linked_list_element_checking e, m)
  else if (m.list src).size = 0 then (LINKED_LIST_SOURCE_IS_EMPTY, m)
  else (LINKED_LIST_SUCCESS, linked_list_link_head (linked_list_unlink m src e) dst e)

/-! ## kernel/semaphore.c -/

/-- The function `semaphore_checking`. -/
def semaphore_checking (m : Mem) (semaphore : Nat) : Nat :=
  if semaphore = 0 then SEMAPHORE_NO_MEMORY
  else if (m.semaphore semaphore).token > (m.semaphore semaphore).max_token then
    SEMAPHORE_TOKENS_OVERFLOW
  else if linked_list_checking (m.semaphore semaphore).task_waiting_list ≠ LINKED_LIST_SUCCESS then
    ERROR_INFO (linked_list_checking (m.semaphore semaphore).task_waiting_list)
      SEMAPHORE_LINKED_LIST_ERROR_REGISTER SEMAPHORE_NO_WAITING_LIST
  else SEMAPHORE_SUCCESS

/-- The function `semaphore_create`; `a` is the address `malloc` returns for the semaphore
and `al` the one it returns for the waiting list (`0` when that allocation fails).  The C
code tests the double pointer `semaphore` instead of `*semaphore`, so a failed allocation
of the semaphore itself is not detected; the fields are written through `a` in every
case.  `linked_list_create` stores `al` into `task_waiting_list` before it tests it. -/
def semaphore_create (m : Mem) (a al : Nat) (id token : Nat) : Nat × Mem :=
  let m := m.setId a id
  let m := m.setToken a token
  let m := m.setMaxToken a token
  let m := m.setTaskWaitingList a al
  let r := linked_list_create m al
  if r.1 ≠ LINKED_LIST_SUCCESS then
    (ERROR_INFO r.1 SEMAPHORE_LENGTH SEMAPHORE_NO_WAITING_LIST, r.2)
  else (SEMAPHORE_SUCCESS, r.2)

/-- The function `semaphore_acquire`. -/
def semaphore_acquire (m : Mem) (semaphore running_task_list running_task_element : Nat) (_task : Nat) :
    Nat × Mem :=
  if semaphore_checking m semaphore ≠ SEMAPHORE_SUCCESS then (semaphore_checking m semaphore, m)
  else if (m.semaphore semaphore).token = 0 then
    let r := linked_list_transfer m (m.semaphore semaphore).task_waiting_list
      running_task_list running_task_element
    if r.1 ≠ LINKED_LIST_SUCCESS then
      (ERROR_INFO r.1 SEMAPHORE_LINKED_LIST_ERROR_REGISTER SEMAPHORE_UNABLE_TO_ACQUIRE, r.2)
    else (SEMAPHORE_NO_TOKENS, r.2)
  else
    (SEMAPHORE_SUCCESS, m.setToken semaphore ((m.semaphore semaphore).token - 1))

/-- The function `semaphore_release`; `element` and `task` are the values of the output
parameters `*element` and `*task` on entry. -/
def semaphore_release (m : Mem) (semaphore element task : Nat) : Out :=
  if semaphore_checking m semaphore ≠ SEMAPHORE_SUCCESS then
    ⟨semaphore_checking m semaphore, m, element, task⟩
  else if (m.semaphore semaphore).token ≥ (m.semaphore semaphore).max_token then
    ⟨SEMAPHORE_REACHED_MAX_TOKENS, m, element, task⟩
  else if (m.list (m.semaphore semaphore).task_waiting_list).size ≠ 0 then
    let element := (m.list (m.semaphore semaphore).task_waiting_list).head
    if linked_list_element_checking element ≠ LINKED_LIST_SUCCESS then
      ⟨ERROR_INFO (linked_list_element_checking element) SEMAPHORE_LINKED_LIST_ERROR_REGISTER
        SEMAPHORE_UNABLE_TO_RELEASE, m, element, task⟩
    else
      let task := (m.element element).data
      ⟨SEMAPHORE_SUCCESS, m.setToken semaphore ((m.semaphore semaphore).token + 1),
        element, task⟩
  else
    -- mutex binary semaphore return task must be null
    ⟨SEMAPHORE_SUCCESS, m.setToken semaphore ((m.semaphore semaphore).token + 1), element, 0⟩

/-- The function `semaphore_acquire_non_blocking`. -/
def semaphore_acquire_non_blocking (m : Mem) (semaphore : Nat) : Nat × Mem :=
  if semaphore_checking m semaphore ≠ SEMAPHORE_SUCCESS then (semaphore_checking m semaphore, m)
  else if (m.semaphore semaphore).token = 0 then (SEMAPHORE_NO_TOKENS, m)
  else (SEMAPHORE_SUCCESS, m.setToken semaphore ((m.semaphore semaphore).token - 1))

/-- The function `semaphore_release_non_blocking`. -/
def semaphore_release_non_blocking (m : Mem) (semaphore : Nat) : Nat × Mem :=
  if semaphore_checking m semaphore ≠ SEMAPHORE_SUCCESS then (semaphore_checking m semaphore, m)
  else if (m.semaphore semaphore).token ≥ (m.semaphore semaphore).max_token then
    (SEMAPHORE_REACHED_MAX_TOKENS, m)
  else (SEMAPHORE_SUCCESS, m.setToken semaphore ((m.semaphore semaphore).token + 1))

/-! ## kernel/mutex.c -/

/-- The function `mutex_checking`. -/
def mutex_checking (m : Mem) (mutex : Nat) : Nat :=
  if mutex = 0 then MUTEX_NO_MEMORY
  else if semaphore_checking m (m.mutex mutex).binary_semaphore ≠ SEMAPHORE_SUCCESS then
    ERROR_INFO (semaphore_checking m (m.mutex mutex).binary_semaphore)
      MUTEX_SEMAPHORE_ERROR_REGISTER MUTEX_NO_SEMAPHORE
  else if ((m.mutex mutex).owner = 0 ∧ (m.mutex mutex).lock_count ≠ 0)
      ∨ ((m.mutex mutex).owner ≠ 0 ∧ (m.mutex mutex).lock_count = 0) then
    MUTEX_IRREGULAR_STRUCTURE
  else MUTEX_SUCCESS

/-- The function `mutex_create`; `a`, `as` and `al` are the addresses `malloc` returns for
the mutex, its binary semaphore and the waiting list.  As in `semaphore_create` the test
after the first `malloc` looks at the double pointer and never fires. -/
def mutex_create (m : Mem) (a as al : Nat) (id : Nat) : Nat × Mem :=
  -- mutex only contains binary semaphore
  let m := m.setBinarySemaphore a as
  let r := semaphore_create m as al id SEMAPHORE_BINARY_TOKEN
  if r.1 ≠ SEMAPHORE_SUCCESS then (ERROR_INFO r.1 MUTEX_LENGTH MUTEX_NO_SEMAPHORE, r.2)
  else
    let m := r.2.setOwner a 0
    let m := m.setLockCount a 0
    (MUTEX_SUCCESS, m)

/-- The function `mutex_acquire`. -/
def mutex_acquire (m : Mem) (mutex running_task_list running_task_element task : Nat) :
    Nat × Mem :=
  if mutex_checking m mutex ≠ MUTEX_SUCCESS then (mutex_checking m mutex, m)
  else if task = (m.mutex mutex).owner then
    (MUTEX_SUCCESS, m.setLockCount mutex (size_t_inc (m.mutex mutex).lock_count))
  else
    let r := semaphore_acquire m (m.mutex mutex).binary_semaphore running_task_list
      running_task_element task
    if r.1 = SEMAPHORE_NO_TOKENS then (MUTEX_OWNED_BY_OTHER_TASK, r.2)
    else if r.1 ≠ SEMAPHORE_SUCCESS then
      (ERROR_INFO r.1 MUTEX_SEMAPHORE_ERROR_REGISTER MUTEX_UNABLE_TO_ACQUIRE, r.2)
    else
      let m := r.2.setOwner mutex task
      (MUTEX_SUCCESS, m.setLockCount mutex (size_t_inc (m.mutex mutex).lock_count))

/-- The function `mutex_release`; `element` and `task` are the values of `*element` and
`*task` on entry (`*task` is the releasing task), and they come back as outputs. -/
def mutex_release (m : Mem) (mutex element task : Nat) : Out :=
  if mutex_checking m mutex ≠ MUTEX_SUCCESS then ⟨mutex_checking m mutex, m, element, task⟩
  else if task ≠ (m.mutex mutex).owner then ⟨MUTEX_OWNED_BY_OTHER_TASK, m, element, task⟩
  else if (m.mutex mutex).lock_count = 1 then
    let r := semaphore_release m (m.mutex mutex).binary_semaphore element task
    if r.status ≠ SEMAPHORE_SUCCESS then
      ⟨ERROR_INFO r.status MUTEX_SEMAPHORE_ERROR_REGISTER MUTEX_UNABLE_TO_RELEASE,
        r.mem, r.element, r.task⟩
    else
      let m := r.mem.setOwner mutex 0
      ⟨MUTEX_SUCCESS, m.setLockCount mutex (size_t_dec (m.mutex mutex).lock_count),
        r.element, r.task⟩
  else
    ⟨MUTEX_SUCCESS, m.setLockCount mutex (size_t_dec (m.mutex mutex).lock_count),
      element, task⟩

/-- The function `mutex_acquire_non_blocking`. -/
def mutex_acquire_non_blocking (m : Mem) (mutex task : Nat) : Nat × Mem :=
  if mutex_checking m mutex ≠ MUTEX_SUCCESS then (mutex_checking m mutex, m)
  else if (m.mutex mutex).owner = 0 then
    let r := semaphore_acquire_non_blocking m (m.mutex mutex).binary_semaphore
    if r.1 ≠ SEMAPHORE_SUCCESS then
      (ERROR_INFO r.1 MUTEX_SEMAPHORE_ERROR_REGISTER MUTEX_UNABLE_TO_ACQUIRE, r.2)
    else
      let m := r.2.setOwner mutex task
      (MUTEX_SUCCESS, m.setLockCount mutex (size_t_inc (m.mutex mutex).lock_count))
  else if task = (m.mutex mutex).owner then
    (MUTEX_SUCCESS, m.setLockCount mutex (size_t_inc (m.mutex mutex).lock_count))
  else (MUTEX_OWNED_BY_OTHER_TASK, m)

/-- The function `mutex_release_non_blocking`. -/
def mutex_release_non_blocking (m : Mem) (mutex task : Nat) : Nat × Mem :=
  if mutex_checking m mutex ≠ MUTEX_SUCCESS then (mutex_checking m mutex, m)
  else if task ≠ (m.mutex mutex).owner then (MUTEX_OWNED_BY_OTHER_TASK, m)
  else if (m.mutex mutex).lock_count = 1 then
    let r := semaphore_release_non_blocking m (m.mutex mutex).binary_semaphore
    if r.1 ≠ SEMAPHORE_SUCCESS then
      (ERROR_INFO r.1 MUTEX_SEMAPHORE_ERROR_REGISTER MUTEX_UNABLE_TO_RELEASE, r.2)
    else
      let m := r.2.setOwner mutex 0
      (MUTEX_SUCCESS, m.setLockCount mutex (size_t_dec (m.mutex mutex).lock_count))
  else (MUTEX_SUCCESS, m.setLockCount mutex (size_t_dec (m.mutex mutex).lock_count))

/-! ## Representation of a linked list -/

/-- A doubly linked segment: the nodes `xs`, in this order, are chained by `next` and
`previous`; the first node has `previous = p` and the last one `next = n`. -/
def Seg (E : Nat → linked_list_element_t) : Nat → List Nat → Nat → Prop
  | _, [], _ => True
  | p, x :: xs, n =>
    x ≠ 0 ∧ (E x).previous = p ∧ (E x).next = xs.headD n ∧ Seg E x xs n

/-- The list header `l` and the element store `E` represent the node sequence `xs`, read
from tail to head: `tail` is the first node and `head` the last, `tail->previous` and
`head->next` are `NULL`, following `next` from the tail visits exactly the nodes `xs`, and
`size` is their number. -/
def IsList (E : Nat → linked_list_element_t) (l : linked_list_t) (xs : List Nat) : Prop :=
  xs.Nodup ∧ Seg E 0 xs 0 ∧ l.tail = xs.headD 0 ∧ l.head = xs.getLastD 0 ∧ l.size = xs.length

instance Seg.decidable (E : Nat → linked_list_element_t) :
    ∀ (p : Nat) (xs : List Nat) (n : Nat), Decidable (Seg E p xs n)
  | _, [], _ => isTrue trivial
  | p, x :: xs, n =>
    have := Seg.decidable E x xs n
    inferInstanceAs (Decidable (x ≠ 0 ∧ (E x).previous = p ∧ (E x).next = xs.headD n ∧ Seg E x xs n))

instance IsList.decidable (E : Nat → linked_list_element_t) (l : linked_list_t)
    (xs : List Nat) : Decidable (IsList E l xs) :=
  inferInstanceAs (Decidable (xs.Nodup ∧ Seg E 0 xs 0 ∧ l.tail = xs.headD 0 ∧
    l.head = xs.getLastD 0 ∧ l.size = xs.length))

/-- The nodes `xs` are chained by their `next` pointers, the last of them pointing to
`n`; the `previous` pointers are not looked at. -/
def NextSeg (E : Nat → linked_list_element_t) : List Nat → Nat → Prop
  | [], _ => True
  | x :: xs, n => x ≠ 0 ∧ (E x).next = xs.headD n ∧ NextSeg E xs n

/-- Read from tail to head, the list with the header `l` is the node sequence `xs`:
following `next` from `tail` visits exactly the nodes `xs`, none of them twice, the last
of them is `head`, whose `next` is `NULL`, and `size` is their number. -/
def ReadsAs (E : Nat → linked_list_element_t) (l : linked_list_t) (xs : List Nat) : Prop :=
  xs.Nodup ∧ NextSeg E xs 0 ∧ l.tail = xs.headD 0 ∧ l.head = xs.getLastD 0 ∧
    l.size = xs.length

instance NextSeg.decidable (E : Nat → linked_list_element_t) :
    ∀ (xs : List Nat) (n : Nat), Decidable (NextSeg E xs n)
  | [], _ => isTrue trivial
  | x :: xs, n =>
    have := NextSeg.decidable E xs n
    inferInstanceAs (Decidable (x ≠ 0 ∧ (E x).next = xs.headD n ∧ NextSeg E xs n))

instance ReadsAs.decidable (E : Nat → linked_list_element_t) (l : linked_list_t)
    (xs : List Nat) : Decidable (ReadsAs E l xs) :=
  inferInstanceAs (Decidable (xs.Nodup ∧ NextSeg E xs 0 ∧ l.tail = xs.headD 0 ∧
    l.head = xs.getLastD 0 ∧ l.size = xs.length))

/-- Only the element store and the list store differ between `m` and `m2`. -/
def OnlyLists (m m2 : Mem) : Prop :=
  m2 = { m with element := m2.element, list := m2.list }

/-- A valid semaphore: `semaphore_checking` accepts it and its waiting list is a
well-formed list whose nodes are `ws`, read from tail to head. -/
def semaphore_valid (m : Mem) (s : Nat) (ws : List Nat) : Prop :=
  semaphore_checking m s = SEMAPHORE_SUCCESS ∧
  IsList m.element (m.list (m.semaphore s).task_waiting_list) ws

/-- A memory with a binary semaphore at address 1 (waiting list 3, empty) and a ready
list at address 2 holding the nodes 11 and 12 of the tasks 101 and 102. -/
def mem_sem (token : Nat) : Mem :=
  { Mem.zero with
    semaphore := fun a => if a = 1 then ⟨0, token, 1, 3⟩ else ⟨0, 0, 0, 0⟩
    list := fun a => if a = 2 then ⟨12, 11, 2⟩ else ⟨0, 0, 0⟩
    element := fun a =>
      if a = 11 then ⟨101, 0, 12⟩ else if a = 12 then ⟨102, 11, 0⟩ else ⟨0, 0, 0⟩ }

/-- The semaphore invariant `token ≤ max_token` of the semaphore at address `x`. -/
def token_le_max (m : Mem) (x : Nat) : Prop :=
  (m.semaphore x).token ≤ (m.semaphore x).max_token

/-- The mutex invariant (I6): `lock_count == 0` exactly when `owner == NULL`. -/
def mutex_owner_inv (m : Mem) (x : Nat) : Prop :=
  (m.mutex x).lock_count = 0 ↔ (m.mutex x).owner = 0

/-- A memory with a mutex at address 5 over the binary semaphore 1 of `mem_sem`. -/
def mem_mutex (token owner lock_count : Nat) : Mem :=
  { mem_sem token with
    mutex := fun a => if a = 5 then ⟨1, owner, lock_count⟩ else ⟨0, 0, 0⟩ }

/-! ### Whole-cell writes -/

/-- Store the task control block `v` at address `a`. -/
def Mem.setTcb (m : Mem) (a : Nat) (v : TCB_sctTCB_t) : Mem :=
  { m with tcb := Function.update m.tcb a v }

/-- Store the task `v` at address `a`. -/
def Mem.setTask (m : Mem) (a : Nat) (v : task_t) : Mem :=
  { m with task := Function.update m.task a v }

/-- Store the queue control block `v` at address `a`. -/
def Mem.setQueue (m : Mem) (a : Nat) (v : queue_t) : Mem :=
  { m with queue := Function.update m.queue a v }

/-- Replace the payload bytes. -/
def Mem.setBytes (m : Mem) (b : Nat → Nat) : Mem :=
  { m with byte := b }

/-! ## kernel/task.c -/

/-- The function `task_checking`. -/
def task_checking (m : Mem) (task : Nat) : Nat :=
  if task = 0 then TASK_NO_MEMORY
  else if (m.task task).task_data = 0 then TASK_DATA_NO_MEMORY
  else TASK_SUCCESS

/-- The write `task->task_data->eTaskState = v`. -/
def Mem.setTaskState (m : Mem) (task v : Nat) : Mem :=
  m.setTcb (m.task task).task_data { m.tcb (m.task task).task_data with eTaskState := v }

/-- The function `task_set_state`.  The state is stored before the `switch` looks at it;
the trace calls of the `switch` have no effect on the memory. -/
def task_set_state (m : Mem) (task task_state : Nat) : Nat × Mem :=
  if task_checking m task ≠ TASK_SUCCESS then (task_checking m task, m)
  else
    let m := m.setTaskState task task_state
    if task_state = TaskState_Created ∨ task_state = TaskState_Ready
        ∨ task_state = TaskState_Running ∨ task_state = TaskState_Blocked
        ∨ task_state = TaskState_Deleted then (TASK_SUCCESS, m)
    else (TASK_UNDEFINED_STATE, m)

/-! ## utils/dictionary.c -/

/-- The function `dictionary_checking`. -/
def dictionary_checking (m : Mem) (dictionary : Nat) : Nat :=
  if dictionary = 0 then DICTIONARY_NO_MEMORY
  else if (m.dictionary dictionary).data = 0 then DICTIONARY_DATA_NO_MEMORY
  else DICTIONARY_SUCCESS

/-- The function `dictionary_get`: the status and the value of `*value` on return, `value`
being its value on entry.  The key is not compared with the size. -/
def dictionary_get (m : Mem) (dictionary key value : Nat) : Nat × Nat :=
  if dictionary_checking m dictionary ≠ DICTIONARY_SUCCESS then
    (dictionary_checking m dictionary, value)
  else if m.slots (m.dictionary dictionary).data key = 0 then
    (DICTIONARY_VALUE_IS_NULL, m.slots (m.dictionary dictionary).data key)
  else (DICTIONARY_SUCCESS, m.slots (m.dictionary dictionary).data key)

/-! ## utils/queue.c -/

/-- The library function `memcpy(dst, src, n)` on the payload bytes. -/
def memcpy (byte : Nat → Nat) (dst src n : Nat) : Nat → Nat :=
  fun a => if dst ≤ a ∧ a < dst + n then byte (src + (a - dst)) else byte a

/-- The function `queue_checking`. -/
def queue_checking (m : Mem) (queue : Nat) : Nat :=
  if queue = 0 then QUEUE_IS_NULL
  else if (m.queue queue).data = 0 then QUEUE_DATA_NO_MEMORY
  else if m.slots (m.queue queue).data 0 = 0 then QUEUE_DATA_NO_MEMORY
  else QUEUE_SUCCESS

/-- The function `queue_push_front`: store at the position after `head`. -/
def queue_push_front (m : Mem) (queue element element_size : Nat) : Nat × Mem :=
  if queue_checking m queue ≠ QUEUE_SUCCESS then (queue_checking m queue, m)
  else
    let next_position := size_t_inc (m.queue queue).head % (m.queue queue).size
    if next_position = (m.queue queue).tail ∧ (m.queue queue).length ≠ 0 then
      (QUEUE_PREVENTED_OVERRITE, m)
    else
      let m := m.setBytes
        (memcpy m.byte (m.slots (m.queue queue).data next_position) element element_size)
      let m := m.setQueue queue { m.queue queue with head := next_position }
      let m := m.setQueue queue
        { m.queue queue with length := size_t_inc (m.queue queue).length }
      (QUEUE_SUCCESS, m)

/-- The function `queue_push_back`: store at the position before `tail`. -/
def queue_push_back (m : Mem) (queue element element_size : Nat) : Nat × Mem :=
  if queue_checking m queue ≠ QUEUE_SUCCESS then (queue_checking m queue, m)
  else
    let next_position :=
      ((m.queue queue).tail + size_t_dec (m.queue queue).size) % SIZE_T_MOD
        % (m.queue queue).size
    if next_position = (m.queue queue).head ∧ (m.queue queue).length ≠ 0 then
      (QUEUE_PREVENTED_OVERRITE, m)
    else
      let m := m.setBytes
        (memcpy m.byte (m.slots (m.queue queue).data next_position) element element_size)
      let m := m.setQueue queue { m.queue queue with tail := next_position }
      let m := m.setQueue queue
        { m.queue queue with length := size_t_inc (m.queue queue).length }
      (QUEUE_SUCCESS, m)

/-! ## kernel/message_queue.c -/

/-- The function `message_queue_identifier_checking`: it is called with the address of
the field `message_queue_identifier`, which is never `NULL`. -/
def message_queue_identifier_checking : Nat := MESSAGE_QUEUE_IDENTIFIER_SUCCESS

/-- The function `message_queue_checking`; it checks the receiving list twice and the
sending list never. -/
def message_queue_checking (m : Mem) (message_queue : Nat) : Nat :=
  if message_queue = 0 then MESSAGE_QUEUE_NO_MEMORY
  else if message_queue_identifier_checking ≠ MESSAGE_QUEUE_IDENTIFIER_SUCCESS then
    message_queue_identifier_checking
  else if queue_checking m (m.message_queue message_queue).qcb ≠ QUEUE_SUCCESS then
    ERROR_INFO (queue_checking m (m.message_queue message_queue).qcb)
      MESSAGE_QUEUE_QUEUE_ERROR_REGISTER MESSAGE_QUEUE_QUEUE_ERROR_REGISTER
  else if linked_list_checking (m.message_queue message_queue).receiving_task_list
      ≠ LINKED_LIST_SUCCESS then
    ERROR_INFO (linked_list_checking (m.message_queue message_queue).receiving_task_list)
      MESSAGE_QUEUE_RECEIVING_LINKED_LIST_ERROR_REGISTER MESSAGE_QUEUE_NO_RECEIVING_LIST
  else if linked_list_checking (m.message_queue message_queue).receiving_task_list
      ≠ LINKED_LIST_SUCCESS then
    ERROR_INFO (linked_list_checking (m.message_queue message_queue).receiving_task_list)
      MESSAGE_QUEUE_SENDING_LINKED_LIST_ERROR_REGISTER MESSAGE_QUEUE_NO_SENDING_LIST
  else MESSAGE_QUEUE_SUCCESS

/-- The write `task->message_set = v`. -/
def Mem.setMessageSet (m : Mem) (task : Nat) (v : Bool) : Mem :=
  m.setTask task { m.task task with message_set := v }

/-- The function `message_queue_send`; `element` and `task` are the values of the output
parameters `*element` and `*task` on entry, `message` is the address of the payload.
`memcpy` returns its destination, so the test after it never fires. -/
def message_queue_send (m : Mem) (message_queue element task message element_size : Nat)
    (urgent : Bool) : Out :=
  if message_queue_checking m message_queue ≠ MESSAGE_QUEUE_SUCCESS then
    ⟨message_queue_checking m message_queue, m, element, task⟩
  else if (m.list (m.message_queue message_queue).receiving_task_list).size > 0 then
    -- assign return values
    let element := (m.list (m.message_queue message_queue).receiving_task_list).tail
    let task := (m.element element).data
    if task_checking m task ≠ TASK_SUCCESS then
      ⟨ERROR_INFO (task_checking m task) MESSAGE_QUEUE_INVALID_TASK_REGISTER
        MESSAGE_QUEUE_UNABLE_TO_SEND, m, element, task⟩
    else
      -- copy message
      let m := m.setBytes (memcpy m.byte (m.task task).message message element_size)
      -- signal task on next receive a message was stored
      let m := m.setMessageSet task true
      ⟨MESSAGE_QUEUE_SUCCESS, m, element, task⟩
  else
    let r := if urgent then queue_push_back m (m.message_queue message_queue).qcb message
        element_size
      else queue_push_front m (m.message_queue message_queue).qcb message element_size
    if r.1 ≠ QUEUE_SUCCESS then
      ⟨ERROR_INFO r.1 MESSAGE_QUEUE_LENGTH MESSAGE_QUEUE_UNABLE_TO_SEND, r.2, element, task⟩
    else ⟨MESSAGE_QUEUE_SUCCESS, r.2, element, task⟩

/-! ## kernel/kernel.c and stm/kernel/kernel.c: the scheduler state -/

/-- The global variables of the kernel together with the memory.  `interrupts_enabled`
stands for the interrupt mask of the processor.  kernel/kernel.c declares
`g_dictionary_priority` and `g_dictionary_priority_next` as `uint8_t` while
stm/kernel/kernel.c defines them as `size_t`; all values stored are below 256. -/
structure Kernel where
  mem : Mem
  g_running_task_current : Nat
  g_running_task_next : Nat
  g_running_task_previous : Nat
  g_prioritized_tasks : Nat
  g_list_of_tasks : Nat
  g_delayed_tasks : Nat
  g_linked_list_task_iterator : Nat
  g_linked_list_task_iterator_next : Nat
  g_priority_group_current : Nat
  g_priority_group_next : Nat
  g_task_lower_priority : Nat
  g_task_lowest_priority : Nat
  g_dictionary_priority : Nat
  g_dictionary_priority_next : Nat
  g_available_tasks : Nat
  g_message_queue_list : Nat
  g_message_queue_ids : Nat
  g_semaphore_list : Nat
  g_semaphore_ids : Nat
  g_mutex_list : Nat
  g_mutex_ids : Nat
  g_kernel_status : Nat
  g_kernel_critical_section_active : Bool
  g_blocked_tasks : Nat
  g_terminated_tasks_list : Nat
  inheritance_cooldown : Nat
  interrupts_enabled : Bool

/-- Replace the memory of a kernel state. -/
def Kernel.setMem (K : Kernel) (m : Mem) : Kernel :=
  { K with mem := m }

/-- The function `kernel_toggle_critical_section`. -/
def kernel_toggle_critical_section (K : Kernel) : Kernel :=
  let K :=
    if K.g_kernel_critical_section_active then
      -- kernel_disable_interrupts()
      { K with interrupts_enabled := false }
    else
      -- kernel_enable_interrupts()
      { K with interrupts_enabled := true }
  { K with g_kernel_critical_section_active := !K.g_kernel_critical_section_active }

/-- The function `kernel_reinsert_task(source, element, task)`. -/
def kernel_reinsert_task (K : Kernel) (source element task : Nat) : Nat × Kernel :=
  -- get the priority group for the task
  let r := dictionary_get K.mem K.g_prioritized_tasks
    (K.mem.tcb (K.mem.task task).task_data).u8TaskPrio 0
  if r.1 ≠ DICTIONARY_SUCCESS then
    (ERROR_INFO r.1 KERNEL_DICTIONARY_ERROR_REGISTER KERNEL_UNABLE_TO_REINSERT_TASK, K)
  else
    let priority_group := r.2
    -- transfer the task from the source list to its priority group
    let t := linked_list_transfer K.mem priority_group source element
    let K := K.setMem t.2
    if t.1 ≠ LINKED_LIST_ELEMENT_SUCCESS then
      (ERROR_INFO t.1 KERNEL_SEMAPHORE_ERROR_REGISTER KERNEL_UNABLE_TO_REINSERT_TASK, K)
    else
      -- mark task as ready again
      let K := K.setMem (task_set_state K.mem task TaskState_Ready).2
      let incoming_priority := (K.mem.tcb (K.mem.task task).task_data).u8TaskPrio
      if incoming_priority < K.g_dictionary_priority ∨ K.g_kernel_status = EN_KERNEL_IDLE then
        (KERNEL_SUCCESS,
          { K with
            g_priority_group_next := priority_group
            g_linked_list_task_iterator_next := (K.mem.list priority_group).tail
            g_running_task_next := task
            g_dictionary_priority_next := incoming_priority
            g_dictionary_priority := incoming_priority })
      else
        (KERNEL_SUCCESS,
          { K with
            g_linked_list_task_iterator_next :=
              (K.mem.element K.g_linked_list_task_iterator).next
            g_running_task_next :=
              (K.mem.element (K.mem.element K.g_linked_list_task_iterator).next).data })

/-- The function `kernel_mutex_release(id)`.  The local `status` first holds the status of
`mutex_release` and is overwritten by the status of `kernel_reinsert_task` when that is
called. -/
def kernel_mutex_release (K : Kernel) (id : Nat) : Nat × Kernel :=
  if id ≥ KERNEL_MAX_MUTEX then (KERNEL_UNABLE_TO_RELEASE_MUTEX, K)
  else
    -- critical section start
    let K := kernel_toggle_critical_section K
    -- get the requested mutex by the id from the mutex dictionary
    let d := dictionary_get K.mem K.g_mutex_list id 0
    if d.1 ≠ DICTIONARY_SUCCESS then
      (ERROR_INFO d.1 KERNEL_DICTIONARY_ERROR_REGISTER KERNEL_UNABLE_TO_RELEASE_MUTEX, K)
    else
      let mutex := d.2
      -- task_t* task = g_running_task_current; linked_list_element_t* element = NULL;
      let r := mutex_release K.mem mutex 0 K.g_running_task_current
      let K := K.setMem r.mem
      if r.task ≠ 0 then
        let q := kernel_reinsert_task K
          (K.mem.semaphore (K.mem.mutex mutex).binary_semaphore).task_waiting_list
          r.element r.task
        if q.1 ≠ KERNEL_SUCCESS then (q.1, q.2)
        else if q.1 ≠ MUTEX_SUCCESS then
          (ERROR_INFO q.1 KERNEL_MUTEX_ERROR_REGISTER KERNEL_UNABLE_TO_RELEASE_MUTEX, q.2)
        else
          -- critical section end
          (KERNEL_SUCCESS, kernel_toggle_critical_section q.2)
      else if r.status ≠ MUTEX_SUCCESS then
        (ERROR_INFO r.status KERNEL_MUTEX_ERROR_REGISTER KERNEL_UNABLE_TO_RELEASE_MUTEX, K)
      else
        -- critical section end
        (KERNEL_SUCCESS, kernel_toggle_critical_section K)

/-- A well-formed mutex: `mutex_checking` accepts it, its semaphore is binary, the token is
taken exactly when the mutex has an owner, and the waiting list of its semaphore is a
well-formed list whose nodes are `ws`, read from tail to head. -/
def mutex_wf (m : Mem) (x : Nat) (ws : List Nat) : Prop :=
  mutex_checking m x = MUTEX_SUCCESS ∧
  IsList m.element (m.list (m.semaphore (m.mutex x).binary_semaphore).task_waiting_list) ws ∧
  (m.semaphore (m.mutex x).binary_semaphore).max_token = SEMAPHORE_BINARY_TOKEN ∧
  ((m.semaphore (m.mutex x).binary_semaphore).token = 0 ↔ (m.mutex x).owner ≠ 0)

/-- The statuses, in call order, and the final memory of `n` successive calls of
`mutex_acquire` on the mutex `x` by the task `t` with ready list `rl` and node `re`. -/
def mutex_acquire_times (x rl re t : Nat) : Nat → Mem → List Nat × Mem
  | 0, m => ([], m)
  | n + 1, m =>
    ((mutex_acquire m x rl re t).1 ::
        (mutex_acquire_times x rl re t n (mutex_acquire m x rl re t).2).1,
      (mutex_acquire_times x rl re t n (mutex_acquire m x rl re t).2).2)

/-- The statuses, in call order, and the final memory of `n` successive calls of
`mutex_release` on the mutex `x` by the task `t`; as in the facade, each call starts with
`*element = NULL` and `*task = t`. -/
def mutex_release_times (x t : Nat) : Nat → Mem → List Nat × Mem
  | 0, m => ([], m)
  | n + 1, m =>
    ((mutex_release m x 0 t).status ::
        (mutex_release_times x t n (mutex_release m x 0 t).mem).1,
      (mutex_release_times x t n (mutex_release m x 0 t).mem).2)

/-- The state of a mutex `x` without waiters: the mutex, its binary semaphore (maximum
one token) and the waiting list are allocated, the waiting list is empty, and the owner
is `o`, the lock count `k` and the token count `tok`.  The free mutex is
`mutex_state m x 0 0 1`. -/
def mutex_state (m : Mem) (x o k tok : Nat) : Prop :=
  x ≠ 0 ∧ (m.mutex x).binary_semaphore ≠ 0 ∧
  (m.semaphore (m.mutex x).binary_semaphore).task_waiting_list ≠ 0 ∧
  (m.mutex x).owner = o ∧ (m.mutex x).lock_count = k ∧
  (m.semaphore (m.mutex x).binary_semaphore).token = tok ∧
  (m.semaphore (m.mutex x).binary_semaphore).max_token = 1 ∧
  (m.list (m.semaphore (m.mutex x).binary_semaphore).task_waiting_list).size = 0

/-- A kernel state in which every global and every memory cell is zero. -/
def Kernel.zero : Kernel where
  mem := Mem.zero
  g_running_task_current := 0
  g_running_task_next := 0
  g_running_task_previous := 0
  g_prioritized_tasks := 0
  g_list_of_tasks := 0
  g_delayed_tasks := 0
  g_linked_list_task_iterator := 0
  g_linked_list_task_iterator_next := 0
  g_priority_group_current := 0
  g_priority_group_next := 0
  g_task_lower_priority := 0
  g_task_lowest_priority := 0
  g_dictionary_priority := 0
  g_dictionary_priority_next := 0
  g_available_tasks := 0
  g_message_queue_list := 0
  g_message_queue_ids := 0
  g_semaphore_list := 0
  g_semaphore_ids := 0
  g_mutex_list := 0
  g_mutex_ids := 0
  g_kernel_status := 0
  g_kernel_critical_section_active := false
  g_blocked_tasks := 0
  g_terminated_tasks_list := 0
  inheritance_cooldown := 0
  interrupts_enabled := true

/-- A running kernel with two tasks 101 and 102 of priority 0 (nodes 11 and 12 of the
priority group at address 2), task 101 running, and the mutex 5 of `mem_mutex`
registered under id 0 and owned by task 101 with the given lock count. -/
def kernel_mutex_example (lock_count : Nat) : Kernel :=
  { Kernel.zero with
    mem :=
      { mem_mutex 0 101 lock_count with
        task := fun a =>
          if a = 101 then ⟨201, 0, 0, 0, 0, 0, false, 0, ⟨0, 0, 0, 0⟩, 0, 0, 0⟩
          else if a = 102 then ⟨202, 0, 0, 0, 0, 0, false, 0, ⟨0, 0, 0, 0⟩, 0, 0, 0⟩
          else ⟨0, 0, 0, 0, 0, 0, false, 0, ⟨0, 0, 0, 0⟩, 0, 0, 0⟩
        tcb := fun a =>
          if a = 201 then ⟨1, 0, TaskState_Running, 0⟩
          else if a = 202 then ⟨2, 0, TaskState_Ready, 0⟩ else ⟨0, 0, 0, 0⟩
        dictionary := fun a =>
          if a = 30 then ⟨31, KERNEL_MAX_MUTEX⟩
          else if a = 40 then ⟨41, KERNEL_MAX_TASK⟩ else ⟨0, 0⟩
        slots := fun a i =>
          if a = 31 ∧ i = 0 then 5 else if a = 41 ∧ i = 0 then 2 else 0 }
    g_running_task_current := 101
    g_running_task_next := 102
    g_linked_list_task_iterator := 11
    g_linked_list_task_iterator_next := 12
    g_priority_group_current := 2
    g_priority_group_next := 2
    g_prioritized_tasks := 40
    g_mutex_list := 30
    g_dictionary_priority_next := 1
    g_available_tasks := 2
    g_kernel_status := EN_KERNEL_RUNNING }

/-- A memory with a message queue at address 60: ring at address 61 (capacity 2, element
size 4, slot array 62 whose cells start at the bytes 1000 and 1004, currently holding one
message), receiver-wait list 63 holding the nodes 12 (task 102, parked first, at the
tail) and 11 (task 101, at the head), sender-wait list 64 (empty).  Task 102 has parked
the buffer at byte 2000, task 101 the buffer at byte 3000; the bytes 500..503 hold the
payload 1, 2, 3, 4. -/
def mem_mq : Mem :=
  { Mem.zero with
    message_queue := fun a => if a = 60 then ⟨1, 61, 63, 64⟩ else ⟨0, 0, 0, 0⟩
    queue := fun a => if a = 61 then ⟨2, 1, 4, 0, 0, 62⟩ else ⟨0, 0, 0, 0, 0, 0⟩
    slots := fun a i => if a = 62 then (if i = 0 then 1000 else if i = 1 then 1004 else 0) else 0
    list := fun a => if a = 63 then ⟨11, 12, 2⟩ else ⟨0, 0, 0⟩
    element := fun a =>
      if a = 12 then ⟨102, 0, 11⟩ else if a = 11 then ⟨101, 12, 0⟩ else ⟨0, 0, 0⟩
    task := fun a =>
      if a = 101 then ⟨201, 0, 0, 0, 0, 3000, false, 0, ⟨0, 0, 0, 0⟩, 0, 0, 0⟩
      else if a = 102 then ⟨202, 0, 0, 0, 0, 2000, false, 0, ⟨0, 0, 0, 0⟩, 0, 0, 0⟩
      else ⟨0, 0, 0, 0, 0, 0, false, 0, ⟨0, 0, 0, 0⟩, 0, 0, 0⟩
    byte := fun a =>
      if a = 500 then 1 else if a = 501 then 2 else if a = 502 then 3
      else if a = 503 then 4 else if a = 1000 then 9 else 0 }


/-! ## utils/linked_list.c: push, pop, transfer after a node, splice

The `size` of a list counts allocated nodes and is incremented with plain arithmetic.
The decrement of `linked_list_pop_front` is not guarded by a test of `size` and wraps at
zero. -/

/-- The write `e->data = v`. -/
def Mem.setData (m : Mem) (e v : Nat) : Mem :=
  { m with element := Function.update m.element e { m.element e with data := v } }

/-- The C statement `size--` on the `size_t` field of a list: it wraps at zero. -/
def size_t_pred (x : Nat) : Nat := if x = 0 then SIZE_T_MOD - 1 else x - 1

/-- The function `linked_list_element_create`; `a` is the address returned by `malloc`
(`0` when the allocation fails, and then also the value of `*linked_list_element`) and
`data` the value of `*data`. -/
def linked_list_element_create (m : Mem) (a data : Nat) : Nat × Mem :=
  if a = 0 then (LINKED_LIST_ELEMENT_NO_MEMORY, m)
  else
    let m := m.setData a data
    let m := m.setPrevious a 0
    (LINKED_LIST_ELEMENT_SUCCESS, m.setNext a 0)

/-- The function `linked_list_push_back`: the new node `a` becomes the tail. -/
def linked_list_push_back (m : Mem) (linked_list a data : Nat) : Nat × Mem :=
  if linked_list_checking linked_list ≠ LINKED_LIST_SUCCESS then
    (linked_list_checking linked_list, m)
  else if (linked_list_element_create m a data).1 ≠ LINKED_LIST_ELEMENT_SUCCESS then
    linked_list_element_create m a data
  else
    let m := (linked_list_element_create m a data).2
    let m :=
      if (m.list linked_list).size = 0 then
        -- first element
        let m := m.setTail linked_list a
        m.setHead linked_list a
      else
        -- next element
        let m := m.setNext a (m.list linked_list).tail
        let m := m.setPrevious (m.list linked_list).tail a
        m.setTail linked_list a
    (LINKED_LIST_SUCCESS, m.setSize linked_list ((m.list linked_list).size + 1))

/-- The function `linked_list_push_front`: the new node `a` becomes the head. -/
def linked_list_push_front (m : Mem) (linked_list a data : Nat) : Nat × Mem :=
  if linked_list_checking linked_list ≠ LINKED_LIST_SUCCESS then
    (linked_list_checking linked_list, m)
  else if (linked_list_element_create m a data).1 ≠ LINKED_LIST_ELEMENT_SUCCESS then
    linked_list_element_create m a data
  else
    let m := (linked_list_element_create m a data).2
    let m :=
      if (m.list linked_list).size = 0 then
        -- first element
        let m := m.setHead linked_list a
        m.setTail linked_list a
      else
        -- next element
        let m := m.setPrevious a (m.list linked_list).head
        let m := m.setNext (m.list linked_list).head a
        m.setHead linked_list a
    (LINKED_LIST_SUCCESS, m.setSize linked_list ((m.list linked_list).size + 1))

/-- What `linked_list_pop_front` leaves behind: the status, the memory and the value of
`*data` on return. -/
structure Popped where
  status : Nat
  mem : Mem
  data : Nat

/-- The function `linked_list_pop_front`; `data` is the value of `*data` on entry.  The
node is freed, which does not change the memory contents; the `next` pointer of the new
head is not reset. -/
def linked_list_pop_front (m : Mem) (linked_list data : Nat) : Popped :=
  if linked_list_checking linked_list ≠ LINKED_LIST_SUCCESS then
    ⟨linked_list_checking linked_list, m, data⟩
  else if (m.list linked_list).head = 0 then ⟨LINKED_LIST_NO_ELEMENT, m, data⟩
  else
    -- obtain data
    let data := (m.element (m.list linked_list).head).data
    -- remove data element
    let m := m.setSize linked_list (size_t_pred (m.list linked_list).size)
    if (m.list linked_list).size = 0 ∧ (m.list linked_list).tail = (m.list linked_list).head
    then
      -- linked list is empty
      let m := m.setTail linked_list 0
      ⟨LINKED_LIST_SUCCESS, m.setHead linked_list 0, data⟩
    else if (m.list linked_list).size = 0 ∧
        (m.list linked_list).tail ≠ (m.list linked_list).head then
      ⟨LINKED_LIST_IRREGULAR_STRUCTURE, m, data⟩
    else
      -- remove head
      ⟨LINKED_LIST_SUCCESS,
        m.setHead linked_list (m.element (m.list linked_list).head).previous, data⟩

/-- The block of `linked_list_transfer_after` that inserts `e` into `dst`
(lines 586-613); `after` is the value of `*linked_list_element_destination_after`. -/
def linked_list_link_after (m : Mem) (dst after e : Nat) : Mem :=
  let m :=
    if (m.list dst).size = 0 then
      let m := m.setTail dst e
      m.setHead dst e
    else if (m.list dst).head = after then
      -- insert at destinations head
      let m := m.setNext (m.list dst).head e
      let m := m.setPrevious e (m.list dst).head
      m.setHead dst e
    else if after = 0 then
      -- insert before destinations tail
      let m := m.setNext e (m.list dst).tail
      let m := m.setPrevious (m.list dst).tail e
      m.setTail dst e
    else
      -- insert after the given node; `e->previous` is not written
      let m := m.setPrevious (m.element after).next e
      let m := m.setNext e (m.element after).next
      m.setNext after e
  m.setSize dst ((m.list dst).size + 1)

/-- The function `linked_list_transfer_after(dst, after, src, e)`. -/
def linked_list_transfer_after (m : Mem) (dst after src e : Nat) : Nat × Mem :=
  if linked_list_checking dst ≠ LINKED_LIST_SUCCESS then (linked_list_checking dst, m)
  else if linked_list_checking src ≠ LINKED_LIST_SUCCESS then (linked_list_checking src, m)
  else if linked_list_element_checking e ≠ LINKED_LIST_SUCCESS then
    (linked_list_element_checking e, m)
  else if (m.list src).size = 0 then (LINKED_LIST_SOURCE_IS_EMPTY, m)
  else (LINKED_LIST_SUCCESS, linked_list_link_after (linked_list_unlink m src e) dst after e)

/-- The function `linked_list_move_linked_list_after(dst, src)`. -/
def linked_list_move_linked_list_after (m : Mem) (dst src : Nat) : Nat × Mem :=
  if linked_list_checking dst ≠ LINKED_LIST_SUCCESS then (linked_list_checking dst, m)
  else if linked_list_checking src ≠ LINKED_LIST_SUCCESS then (linked_list_checking src, m)
  else if (m.list src).size = 0 then (LINKED_LIST_SOURCE_IS_EMPTY, m)
  else
    let m :=
      if (m.list dst).size = 0 then
        -- the destination takes over the tail of the source
        m.setTail dst (m.list src).tail
      else
        -- the lists are concatenated
        let m := m.setNext (m.list dst).head (m.list src).tail
        m.setPrevious (m.list src).tail (m.list dst).head
    -- update new head
    let m := m.setHead dst (m.list src).head
    -- remove content from source and update each sizes
    let m := m.setTail src 0
    let m := m.setHead src 0
    let m := m.setSize dst ((m.list dst).size + (m.list src).size)
    (LINKED_LIST_SUCCESS, m.setSize src 0)

/-- Push the payloads `ps.map Prod.snd` with `linked_list_push_back`, one call per pair,
the first component of each pair being the address `malloc` returns for the node; the
statuses of the calls and the final memory. -/
def linked_list_push_back_all (l : Nat) : List (Nat × Nat) → Mem → List Nat × Mem
  | [], m => ([], m)
  | p :: ps, m =>
    let r := linked_list_push_back m l p.1 p.2
    let rest := linked_list_push_back_all l ps r.2
    (r.1 :: rest.1, rest.2)

/-- Push the payloads `ps.map Prod.snd` with `linked_list_push_front`, one call per pair. -/
def linked_list_push_front_all (l : Nat) : List (Nat × Nat) → Mem → List Nat × Mem
  | [], m => ([], m)
  | p :: ps, m =>
    let r := linked_list_push_front m l p.1 p.2
    let rest := linked_list_push_front_all l ps r.2
    (r.1 :: rest.1, rest.2)

/-- Call `linked_list_pop_front` `n` times (each with `*data = NULL` on entry): the
status and the popped payload of each call, and the final memory. -/
def linked_list_pop_front_times (l : Nat) : Nat → Mem → List (Nat × Nat) × Mem
  | 0, m => ([], m)
  | n + 1, m =>
    let r := linked_list_pop_front m l 0
    let rest := linked_list_pop_front_times l n r.mem
    ((r.status, r.data) :: rest.1, rest.2)

/-- A memory with the list 2 holding the nodes 11, 12 (read from tail to head) and the
list 4 holding the nodes 21, 22, 23; the payload of node `n` is `n + 100`. -/
def mem_lists : Mem :=
  { Mem.zero with
    list := fun a => if a = 2 then ⟨12, 11, 2⟩ else if a = 4 then ⟨23, 21, 3⟩ else ⟨0, 0, 0⟩
    element := fun a =>
      if a = 11 then ⟨111, 0, 12⟩ else if a = 12 then ⟨112, 11, 0⟩
      else if a = 21 then ⟨121, 0, 22⟩ else if a = 22 then ⟨122, 21, 23⟩
      else if a = 23 then ⟨123, 22, 0⟩ else ⟨0, 0, 0⟩ }

/-- A memory with the empty list 2. -/
def mem_empty_list : Mem := (linked_list_create Mem.zero 2).2

/-! ## utils/queue.c: creation and reading; kernel/message_queue.c: receiving

Addresses of payload bytes are natural numbers.  `queue_create` computes the address of
every cell, `data[0] + i * element_size`, in 32 bits; the statements about a created ring
assume that the storage block of `queue_size * element_size` bytes lies inside the address
space, so that no cell address wraps. -/

/-- The write `data[i] = v` on the pointer array at address `a`. -/
def Mem.setSlot (m : Mem) (a i v : Nat) : Mem :=
  { m with slots := Function.update m.slots a (Function.update (m.slots a) i v) }

/-- The loop of `queue_create` (lines 70-77) over the `n` indices from `i` on: the slot `i`
gets `(char *) data[0] + i * element_size`, computed in 32 bits, and the function returns
`QUEUE_DATA_NO_MEMORY` when that pointer is `NULL`. -/
def queue_create_slots (d b element_size : Nat) : Nat → Nat → Mem → Nat × Mem
  | _, 0, m => (QUEUE_SUCCESS, m)
  | i, n + 1, m =>
    let m := m.setSlot d i ((b + i * element_size) % SIZE_T_MOD)
    if m.slots d i = 0 then (QUEUE_DATA_NO_MEMORY, m)
    else queue_create_slots d b element_size (i + 1) n m

/-- The function `queue_create`; `a`, `d` and `b` are the addresses that the three calls
of `malloc` return (`0` when an allocation fails): `a` for the control block, `d` for
the array of `queue_size` slot pointers and `b` for the storage block, which is requested
with `queue_size * element_size` bytes, a product computed in `size_t`.  The result of the
third call is stored without a test. -/
def queue_create (m : Mem) (a d b queue_size element_size : Nat) : Nat × Mem :=
  if a = 0 then (QUEUE_NO_MEMORY, m)
  else
    -- default initialization
    let m := m.setQueue a { m.queue a with size := queue_size }
    let m := m.setQueue a { m.queue a with length := 0 }
    let m := m.setQueue a { m.queue a with head := size_t_dec (m.queue a).size }
    let m := m.setQueue a { m.queue a with tail := 0 }
    let m := m.setQueue a { m.queue a with element_size := element_size }
    -- create data entries
    let m := m.setQueue a { m.queue a with data := d }
    if (m.queue a).data = 0 then (QUEUE_DATA_NO_MEMORY, m)
    else
      -- assign continuous memory space
      let m := m.setSlot (m.queue a).data 0 b
      queue_create_slots (m.queue a).data (m.slots (m.queue a).data 0) (m.queue a).element_size 1
        ((m.queue a).size - 1) m

/-- The function `queue_read`; `element` is the value of `*element`, the address of the
buffer that receives the bytes.  The assignment `element = NULL` on the empty queue only
changes the parameter; `memcpy` returns its destination, so the test after it never
fires. -/
def queue_read (m : Mem) (queue element : Nat) : Nat × Mem :=
  if queue_checking m queue ≠ QUEUE_SUCCESS then (queue_checking m queue, m)
  else if (m.queue queue).length = 0 then (QUEUE_NO_ELEMENT, m)
  else
    -- calculate next tail position and jump back if necessary
    let next_position := size_t_inc (m.queue queue).tail % (m.queue queue).size
    let m := m.setBytes
      (memcpy m.byte element (m.slots (m.queue queue).data (m.queue queue).tail)
        (m.queue queue).element_size)
    -- update queue
    let m := m.setQueue queue { m.queue queue with tail := next_position }
    let m := m.setQueue queue { m.queue queue with length := size_t_dec (m.queue queue).length }
    (QUEUE_SUCCESS, m)

/-- The write `task->message = v`. -/
def Mem.setMessage (m : Mem) (task v : Nat) : Mem :=
  m.setTask task { m.task task with message := v }

/-- What `message_queue_receive` leaves behind: the status, the memory and the values of
the output parameters `*sender_element`, `*sender_task` and `*message` on return. -/
structure Received where
  status : Nat
  mem : Mem
  sender_element : Nat
  sender_task : Nat
  message : Nat

/-- The function `message_queue_receive`; `sender_element`, `sender_task` and `message`
are the values of the output parameters on entry, `message` being the address of the
buffer of the caller.  Only the status `QUEUE_NO_ELEMENT` of `queue_read` parks the
receiver. -/
def message_queue_receive (m : Mem) (message_queue running_task_list running_task_element
    receiver_task sender_element sender_task message : Nat) : Received :=
  if message_queue_checking m message_queue ≠ MESSAGE_QUEUE_SUCCESS then
    ⟨message_queue_checking m message_queue, m, sender_element, sender_task, message⟩
  else if task_checking m receiver_task ≠ TASK_SUCCESS then
    ⟨ERROR_INFO (task_checking m receiver_task) MESSAGE_QUEUE_TASK_ERROR_REGISTER
      MESSAGE_QUEUE_UNABLE_TO_RECEIVE, m, sender_element, sender_task, message⟩
  else if (m.task receiver_task).message_set = true then
    -- parked message can be used, reset signal mechanic
    let m := m.setMessageSet receiver_task false
    let message := (m.task receiver_task).message
    let m := m.setMessage receiver_task 0
    -- try to obtain blocked sending task
    if (m.list (m.message_queue message_queue).sending_task_list).size > 0 then
      ⟨MESSAGE_QUEUE_SUCCESS, m, (m.list (m.message_queue message_queue).sending_task_list).tail,
        (m.element (m.list (m.message_queue message_queue).sending_task_list).tail).data,
        message⟩
    else ⟨MESSAGE_QUEUE_SUCCESS, m, sender_element, sender_task, message⟩
  else
    -- a message was not parked to a task
    let r := queue_read m (m.message_queue message_queue).qcb message
    if r.1 = QUEUE_NO_ELEMENT then
      -- no message found and the task about to block
      let m := r.2.setMessage receiver_task message
      let t := linked_list_transfer m (m.message_queue message_queue).receiving_task_list
        running_task_list running_task_element
      if t.1 ≠ LINKED_LIST_SUCCESS then
        ⟨ERROR_INFO t.1 MESSAGE_QUEUE_LINKED_LIST_ERROR_REGISTER MESSAGE_QUEUE_UNABLE_TO_RECEIVE,
          t.2, sender_element, sender_task, message⟩
      else ⟨MESSAGE_QUEUE_UNABLE_TO_RECEIVE, t.2, sender_element, sender_task, message⟩
    else
      -- a message was assigned, try to obtain blocked sending task
      let m := r.2
      if (m.list (m.message_queue message_queue).sending_task_list).size > 0 then
        ⟨MESSAGE_QUEUE_SUCCESS, m,
          (m.list (m.message_queue message_queue).sending_task_list).tail,
          (m.element (m.list (m.message_queue message_queue).sending_task_list).tail).data,
          message⟩
      else ⟨MESSAGE_QUEUE_SUCCESS, m, sender_element, sender_task, message⟩

/-- The function `message_queue_send_blocking`; `receiver_element` and `receiver_task`
are the values of the output parameters on entry. -/
def message_queue_send_blocking (m : Mem) (message_queue running_task_list sender_element
    receiver_element receiver_task message element_size : Nat) (urgent : Bool) : Out :=
  -- solve blocked sending by checking on failure for send messages
  let r := message_queue_send m message_queue receiver_element receiver_task message
    element_size urgent
  if r.status ≠ MESSAGE_QUEUE_SUCCESS then
    -- sending a message has failed and the sender is being inserted
    let t := linked_list_transfer r.mem (r.mem.message_queue message_queue).sending_task_list
      running_task_list sender_element
    ⟨ERROR_INFO t.1 MESSAGE_QUEUE_SENDING_LINKED_LIST_ERROR_REGISTER
      MESSAGE_QUEUE_UNABLE_TO_SEND, t.2, r.element, r.task⟩
  else ⟨MESSAGE_QUEUE_SUCCESS, r.mem, r.element, r.task⟩

/-! ### The contents of a ring -/

/-- The `n` bytes at the address `a`. -/
def read_bytes (m : Mem) (a n : Nat) : List Nat :=
  (List.range n).map (fun i => m.byte (a + i))

/-- The address of the cell that holds the `j`-th unread element of the ring `q`,
counted from the one that `queue_read` returns next. -/
def queue_cell (m : Mem) (q j : Nat) : Nat :=
  m.slots (m.queue q).data (((m.queue q).tail + j) % (m.queue q).size)

/-- The unread elements of the ring `q`, in the order in which `queue_read` returns them,
each as the list of its `element_size` bytes. -/
def queue_contents (m : Mem) (q : Nat) : List (List Nat) :=
  (List.range (m.queue q).length).map
    (fun j => read_bytes m (queue_cell m q j) (m.queue q).element_size)

/-- A ring as `queue_create` builds it and the operations keep it: allocated, with a
capacity of at least 1 that is a `size_t` value, indices inside the capacity, the position
after `head` being `length` positions after `tail`, and the cells laid out one after the
other in the storage block. -/
def queue_wf (m : Mem) (q : Nat) : Prop :=
  q ≠ 0 ∧ (m.queue q).data ≠ 0 ∧ m.slots (m.queue q).data 0 ≠ 0 ∧
  1 ≤ (m.queue q).size ∧ (m.queue q).size < SIZE_T_MOD ∧
  (m.queue q).head < (m.queue q).size ∧ (m.queue q).tail < (m.queue q).size ∧
  (m.queue q).length ≤ (m.queue q).size ∧
  ((m.queue q).head + 1) % (m.queue q).size =
    ((m.queue q).tail + (m.queue q).length) % (m.queue q).size ∧
  ∀ i, i < (m.queue q).size →
    m.slots (m.queue q).data i = m.slots (m.queue q).data 0 + i * (m.queue q).element_size

/-- The byte range `[a, a + n)` lies outside the storage block of the ring `q`. -/
def outside_ring (m : Mem) (q a n : Nat) : Prop :=
  a + n ≤ m.slots (m.queue q).data 0 ∨
  m.slots (m.queue q).data 0 + (m.queue q).size * (m.queue q).element_size ≤ a

/-- One operation on a ring: a push at the front or at the back of `element_size` bytes
from the address `element`, or a read into the buffer at the address `element`. -/
inductive queue_op where
  | push_front (element element_size : Nat)
  | push_back (element element_size : Nat)
  | read (element : Nat)

/-- The memory after one operation on the ring `q`. -/
def queue_apply (q : Nat) (m : Mem) : queue_op → Mem
  | queue_op.push_front element element_size => (queue_push_front m q element element_size).2
  | queue_op.push_back element element_size => (queue_push_back m q element element_size).2
  | queue_op.read element => (queue_read m q element).2

/-- The memory after a sequence of operations on the ring `q`. -/
def queue_run (q : Nat) (m : Mem) (ops : List queue_op) : Mem :=
  ops.foldl (queue_apply q) m

/-- Push the elements at the addresses `srcs`, each of `element_size` bytes, with
`queue_push_front`: the statuses of the calls and the final memory. -/
def queue_push_front_all (q element_size : Nat) : List Nat → Mem → List Nat × Mem
  | [], m => ([], m)
  | src :: srcs, m =>
    let r := queue_push_front m q src element_size
    let rest := queue_push_front_all q element_size srcs r.2
    (r.1 :: rest.1, rest.2)

/-- Call `queue_read` once for every buffer address of `dsts`: the status of each call
with the bytes found in its buffer right after the call, and the final memory. -/
def queue_read_all (q : Nat) : List Nat → Mem → List (Nat × List Nat) × Mem
  | [], m => ([], m)
  | dst :: dsts, m =>
    let r := queue_read m q dst
    let rest := queue_read_all q dsts r.2
    ((r.1, read_bytes r.2 dst (m.queue q).element_size) :: rest.1, rest.2)

/-- Call `message_queue_receive` once for every receiver of `calls`, given as the task and
the address of its buffer (the running list is `rl`, the node of each receiver `re`, and
the output parameters start as `NULL`): the status of each call with the bytes found
behind the returned `*message` right after the call, and the final memory. -/
def message_queue_receive_all (mq rl re : Nat) : List (Nat × Nat) → Mem →
    List (Nat × List Nat) × Mem
  | [], m => ([], m)
  | c :: calls, m =>
    let r := message_queue_receive m mq rl re c.1 0 0 c.2
    let rest := message_queue_receive_all mq rl re calls r.mem
    ((r.status, read_bytes r.mem r.message (m.queue (m.message_queue mq).qcb).element_size)
      :: rest.1, rest.2)

/-- A memory with the ring 61 that `queue_create` builds for capacity 3 and element size
2 (slot array 62, storage block at byte 1000), and the bytes 1, 2, 3, 4, 5, 6 at the
addresses 500..505. -/
def mem_ring : Mem :=
  (queue_create
    { Mem.zero with
      byte := fun a => if 500 ≤ a ∧ a < 506 then a - 499 else 0 } 61 62 1000 3 2).2

/-- The memory `mem_ring` with a message queue at address 60 over the ring 61, with the
empty receiver-wait list 63 and the empty sender-wait list 64, the running list 2 with
the nodes 11 and 12 of the tasks 101 and 102 (control blocks 201 and 202). -/
def mem_mq_ring : Mem :=
  { mem_ring with
    message_queue := fun a => if a = 60 then ⟨1, 61, 63, 64⟩ else ⟨0, 0, 0, 0⟩
    list := fun a => if a = 2 then ⟨12, 11, 2⟩ else ⟨0, 0, 0⟩
    element := fun a =>
      if a = 11 then ⟨101, 0, 12⟩ else if a = 12 then ⟨102, 11, 0⟩ else ⟨0, 0, 0⟩
    task := fun a =>
      if a = 101 then ⟨201, 0, 0, 0, 0, 0, false, 0, ⟨0, 0, 0, 0⟩, 0, 0, 0⟩
      else if a = 102 then ⟨202, 0, 0, 0, 0, 0, false, 0, ⟨0, 0, 0, 0⟩, 0, 0, 0⟩
      else ⟨0, 0, 0, 0, 0, 0, false, 0, ⟨0, 0, 0, 0⟩, 0, 0, 0⟩ }

/-- Only the queue store and the payload bytes differ between `m` and `m2`. -/
def OnlyRing (m m2 : Mem) : Prop :=
  m2 = { m with queue := m2.queue, byte := m2.byte }

/-- The memory `mem_mq_ring` after three messages (bytes 1, 2; 3, 4; 5, 6) were pushed:
the ring of the message queue 60 is full. -/
def mem_mq_full : Mem :=
  (queue_push_front_all 61 2 [500, 502, 504] mem_mq_ring).2

/-- The memory `mem_mq_ring` after two messages (bytes 1, 2; 3, 4) were pushed at the
front, as a send that is not urgent does: the ring of the message queue 60 has room for
one more message. -/
def mem_mq_two : Mem :=
  (queue_push_front_all 61 2 [500, 502] mem_mq_ring).2

/-! ## Further status codes of kernel/kernel.h -/

abbrev KERNEL_UNABLE_TO_ADD_TASK : Nat := 3
abbrev KERNEL_UNABLE_TO_SEND_MESSAGE : Nat := 6
abbrev KERNEL_UNABLE_TO_ADD_SEMAPHORE : Nat := 9
abbrev KERNEL_UNABLE_TO_ACQUIRE_SEMAPHORE : Nat := 10
abbrev KERNEL_UNABLE_TO_RELEASE_SEMAPHORE : Nat := 11
abbrev KERNEL_UNABLE_TO_DELETE_SEMAPHORE : Nat := 13
abbrev KERNEL_UNABLE_TO_SCHEDULE_TASK : Nat := 16
abbrev KERNEL_UNABLE_TO_DELAY_TASK : Nat := 20
abbrev KERNEL_UNABLE_TO_SEND_EVENTS : Nat := 24
abbrev KERNEL_UNABLE_TO_RECEIVE_EVENTS : Nat := 25
abbrev KERNEL_UNABLE_TO_CREATE_MUTEX : Nat := 30
abbrev KERNEL_UNABLE_TO_DELETE_MUTEX : Nat := 31

/-! ## Arithmetic of `size_t` -/

/-- The C expression `x + y` on `size_t`. -/
def size_t_add (x y : Nat) : Nat := (x + y) % SIZE_T_MOD

/-- The C expression `x - y` on `size_t`. -/
def size_t_sub (x y : Nat) : Nat := (x % SIZE_T_MOD + (SIZE_T_MOD - y % SIZE_T_MOD)) % SIZE_T_MOD

/-- The C expression `~x` on `size_t`. -/
def size_t_not (x : Nat) : Nat := (SIZE_T_MOD - 1) ^^^ (x % SIZE_T_MOD)

/-! ## utils/linked_list.c: insertion after a node, deletion

`free` gives the block back to the allocator and leaves the contents of the memory as
they are. -/

/-- The function `linked_list_insert_after`; `linked_list_element` is the value of
`*linked_list_element`, `a` the address `malloc` returns for the new node and `data` the
value of `*data`. -/
def linked_list_insert_after (m : Mem) (linked_list linked_list_element a data : Nat) :
    Nat × Mem :=
  if linked_list_checking linked_list ≠ LINKED_LIST_SUCCESS then
    (linked_list_checking linked_list, m)
  -- check if linked list is empty and use push front instead
  else if (m.list linked_list).head = 0 ∨ (m.element (m.list linked_list).head).next = 0 then
    linked_list_push_front m linked_list a data
  else if (linked_list_element_create m a data).1 ≠ LINKED_LIST_ELEMENT_SUCCESS then
    linked_list_element_create m a data
  else
    let m := (linked_list_element_create m a data).2
    -- insert carrier in between
    let m := m.setPrevious a linked_list_element
    let m := m.setNext a (m.element linked_list_element).next
    let m := m.setPrevious (m.element linked_list_element).next a
    let m := m.setNext linked_list_element a
    (LINKED_LIST_SUCCESS, m.setSize linked_list ((m.list linked_list).size + 1))

/-- The loop of `linked_list_delete` (lines 100-107): as long as the tail is not `NULL`,
the tail moves to its `next` node, the old tail is released and `size` is decremented.
`fuel` bounds the number of tests of the loop condition; `none` means that the bound was
reached. -/
def linked_list_delete_loop (linked_list : Nat) : Nat → Mem → Option Mem
  | 0, _ => none
  | fuel + 1, m =>
    if (m.list linked_list).tail ≠ 0 then
      let tail := (m.list linked_list).tail
      let m := m.setTail linked_list (m.element (m.list linked_list).tail).next
      let m := m.setPrevious tail 0
      let m := m.setSize linked_list (size_t_pred (m.list linked_list).size)
      linked_list_delete_loop linked_list fuel m
    else some m

/-- What a `delete` function leaves behind: the status, the memory and the value of the
pointer `*p` it was called on (set to `NULL` on success). -/
structure Deleted where
  status : Nat
  mem : Mem
  pointer : Nat

/-- The function `linked_list_delete`. -/
def linked_list_delete (fuel : Nat) (m : Mem) (linked_list : Nat) : Option Deleted :=
  if linked_list_checking linked_list ≠ LINKED_LIST_SUCCESS then
    some ⟨linked_list_checking linked_list, m, linked_list⟩
  else
    match linked_list_delete_loop linked_list fuel m with
    | none => none
    | some m =>
      -- check for irregular structure
      if (m.list linked_list).size ≠ 0 then some ⟨LINKED_LIST_IRREGULAR_STRUCTURE, m, linked_list⟩
      else some ⟨LINKED_LIST_SUCCESS, m, 0⟩

/-! ## utils/dictionary.c: creation and insertion -/

/-- Store the dictionary header `v` at address `a`. -/
def Mem.setDictionary (m : Mem) (a : Nat) (v : dictionary_t) : Mem :=
  { m with dictionary := Function.update m.dictionary a v }

/-- The loop of `dictionary_create` (lines 60-62) over the `n` indices from `i` on. -/
def dictionary_create_slots (d : Nat) : Nat → Nat → Mem → Mem
  | _, 0, m => m
  | i, n + 1, m => dictionary_create_slots d (i + 1) n (m.setSlot d i 0)

/-- The function `dictionary_create`; `a` and `d` are the addresses `malloc` returns for
the header and for the slot array.  The test after the first `malloc` looks at the double
pointer and never fires. -/
def dictionary_create (m : Mem) (a d size : Nat) : Nat × Mem :=
  let m := m.setDictionary a { m.dictionary a with size := size }
  let m := m.setDictionary a { m.dictionary a with data := d }
  if (m.dictionary a).data = 0 then (DICTIONARY_DATA_NO_MEMORY, m)
  else
    (DICTIONARY_SUCCESS,
      dictionary_create_slots (m.dictionary a).data 0 (m.dictionary a).size m)

/-- The function `dictionary_add`; `value` is the value of `*value`. -/
def dictionary_add (m : Mem) (dictionary key value : Nat) : Nat × Mem :=
  if dictionary_checking m dictionary ≠ DICTIONARY_SUCCESS then
    (dictionary_checking m dictionary, m)
  else if key ≥ (m.dictionary dictionary).size then (DICTIONARY_OVERFLOW, m)
  else (DICTIONARY_SUCCESS, m.setSlot (m.dictionary dictionary).data key value)

/-! ## kernel/task.c: creation and bookkeeping -/

/-- The write `task->delta_time = v`. -/
def Mem.setDeltaTime (m : Mem) (task v : Nat) : Mem :=
  m.setTask task { m.task task with delta_time := v }

/-- The write `task->time_quantum_remaining = v`. -/
def Mem.setTimeQuantumRemaining (m : Mem) (task v : Nat) : Mem :=
  m.setTask task { m.task task with time_quantum_remaining := v }

/-- The event register `r` with `received_events` replaced. -/
def event_register_t.setReceived (r : event_register_t) (v : Nat) : event_register_t :=
  { r with received_events := v }

/-- The write `task->event_register.received_events = v`. -/
def Mem.setReceivedEvents (m : Mem) (task v : Nat) : Mem :=
  m.setTask task { m.task task with event_register := (m.task task).event_register.setReceived v }

/-- The write `task->blocked_timeout_list = v`. -/
def Mem.setBlockedTimeoutList (m : Mem) (task v : Nat) : Mem :=
  m.setTask task { m.task task with blocked_timeout_list := v }

/-- The write `task->blocked_timeout_list_element = v`. -/
def Mem.setBlockedTimeoutListElement (m : Mem) (task v : Nat) : Mem :=
  m.setTask task { m.task task with blocked_timeout_list_element := v }

/-- The write `task->task_main = v`. -/
def Mem.setTaskMain (m : Mem) (task v : Nat) : Mem :=
  m.setTask task { m.task task with task_main := v }

/-- The write `task->task_data = v`. -/
def Mem.setTaskData (m : Mem) (task v : Nat) : Mem :=
  m.setTask task { m.task task with task_data := v }

/-- The write `task->time_quantum = v`. -/
def Mem.setTimeQuantum (m : Mem) (task v : Nat) : Mem :=
  m.setTask task { m.task task with time_quantum := v }

/-- The write of the four fields of `task->event_register`. -/
def Mem.setEventRegister (m : Mem) (task : Nat) (v : event_register_t) : Mem :=
  m.setTask task { m.task task with event_register := v }

/-- The write `task->task_data->u8TaskId = v`. -/
def Mem.setTaskId (m : Mem) (task v : Nat) : Mem :=
  m.setTcb (m.task task).task_data { m.tcb (m.task task).task_data with u8TaskId := v }

/-- The write `task->task_data->u8TaskPrio = v`. -/
def Mem.setTaskPrio (m : Mem) (task v : Nat) : Mem :=
  m.setTcb (m.task task).task_data { m.tcb (m.task task).task_data with u8TaskPrio := v }

/-- The write `task->task_data->u32TaskSP = v`. -/
def Mem.setTaskSP (m : Mem) (task v : Nat) : Mem :=
  m.setTcb (m.task task).task_data { m.tcb (m.task task).task_data with u32TaskSP := v }

/-- The function `task_create`; `a` and `atcb` are the addresses `malloc` returns for the
task and for its control block, and `sp` is the initial value of `u32TaskSP` (the address
of `au32TaskStack[TCB_TASK_STACK_SIZE - 16]` on the target, `0` elsewhere).  The stack
array, the name and the trace information are not part of the memory model. -/
def task_create (m : Mem) (a atcb sp task_main u8_task_id u8_task_priority time_quantum
    wanted_events notification_conditions timeout : Nat) : Nat × Mem :=
  if a = 0 then (TASK_NO_MEMORY, m)
  else
    let m := m.setTaskMain a task_main
    let m := m.setTaskData a atcb
    if (m.task a).task_data = 0 then (TASK_DATA_NO_MEMORY, m)
    else
      let m := m.setTaskId a u8_task_id
      let m := m.setTaskPrio a u8_task_priority
      let m := m.setTaskState a TaskState_Created
      let m := m.setTimeQuantum a time_quantum
      let m := m.setTimeQuantumRemaining a 0
      let m := m.setMessage a 0
      let m := m.setMessageSet a false
      let m := m.setDeltaTime a 0
      let m := m.setEventRegister a ⟨wanted_events, 0, notification_conditions, timeout⟩
      let m := m.setTaskSP a sp
      (TASK_SUCCESS, (task_set_state m a TaskState_Created).2)

/-- The function `task_reset_time_quantum_remaining`. -/
def task_reset_time_quantum_remaining (m : Mem) (task : Nat) : Nat × Mem :=
  if task_checking m task ≠ TASK_SUCCESS then (task_checking m task, m)
  else (TASK_SUCCESS, m.setTimeQuantumRemaining task (m.task task).time_quantum)

/-- The function `task_set_blocked_info`. -/
def task_set_blocked_info (m : Mem) (task blocked_timeout_list blocked_timeout_list_element :
    Nat) : Nat × Mem :=
  if task_checking m task ≠ TASK_SUCCESS then (task_checking m task, m)
  else
    let m := m.setBlockedTimeoutList task blocked_timeout_list
    (TASK_SUCCESS, m.setBlockedTimeoutListElement task blocked_timeout_list_element)

/-! ## kernel/semaphore.c and kernel/mutex.c: deletion -/

/-- The function `semaphore_delete`.  `linked_list_delete` is called on the field
`task_waiting_list` and sets it to `NULL` when it succeeds; the value of `*semaphore` on
return is the third component. -/
def semaphore_delete (fuel : Nat) (m : Mem) (semaphore : Nat) : Option Deleted :=
  if semaphore_checking m semaphore ≠ SEMAPHORE_SUCCESS then
    some ⟨semaphore_checking m semaphore, m, semaphore⟩
  else
    match linked_list_delete fuel m (m.semaphore semaphore).task_waiting_list with
    | none => none
    | some r =>
      let m := r.mem.setTaskWaitingList semaphore r.pointer
      if r.status ≠ LINKED_LIST_SUCCESS then
        some ⟨ERROR_INFO r.status SEMAPHORE_LENGTH SEMAPHORE_NO_WAITING_LIST, m, semaphore⟩
      else some ⟨SEMAPHORE_SUCCESS, m, 0⟩

/-- The function `mutex_delete`.  The binary semaphore is deleted before the owner is
looked at. -/
def mutex_delete (fuel : Nat) (m : Mem) (mutex : Nat) : Option Deleted :=
  if mutex_checking m mutex ≠ MUTEX_SUCCESS then some ⟨mutex_checking m mutex, m, mutex⟩
  else
    match semaphore_delete fuel m (m.mutex mutex).binary_semaphore with
    | none => none
    | some r =>
      let m := r.mem.setBinarySemaphore mutex r.pointer
      if r.status ≠ SEMAPHORE_SUCCESS then
        some ⟨ERROR_INFO r.status MUTEX_SEMAPHORE_ERROR_REGISTER MUTEX_NO_SEMAPHORE, m, mutex⟩
      else if (m.mutex mutex).owner ≠ 0 then some ⟨MUTEX_UNABLE_TO_DELETE, m, mutex⟩
      else some ⟨MUTEX_SUCCESS, m, 0⟩

/-! ## kernel/kernel.c: registration of tasks -/

/-- The second half of `kernel_add_task` (lines 343-364): the task is pushed at the head
of its priority group and counted; `n` is the address `malloc` returns for the list
node. -/
def kernel_add_task_insert (K : Kernel) (task n u8_task_priority : Nat) : Nat × Kernel :=
  -- insert the task in the corresponding priority group
  let g := dictionary_get K.mem K.g_prioritized_tasks u8_task_priority 0
  if g.1 ≠ DICTIONARY_SUCCESS then
    (ERROR_INFO g.1 KERNEL_DICTIONARY_ERROR_REGISTER KERNEL_UNABLE_TO_ADD_TASK, K)
  else
    let p := linked_list_push_front K.mem g.2 n task
    let K := K.setMem p.2
    if p.1 ≠ LINKED_LIST_SUCCESS then
      (ERROR_INFO p.1 KERNEL_LINK_LIST_ERROR_REGISTER KERNEL_UNABLE_TO_ADD_TASK, K)
    else
      -- preset for priority inheritance
      let K :=
        if u8_task_priority > K.g_task_lowest_priority then
          { K with
            g_task_lower_priority := u8_task_priority
            g_task_lowest_priority := u8_task_priority }
        else K
      (KERNEL_SUCCESS, { K with g_available_tasks := size_t_inc K.g_available_tasks })

/-- The function `kernel_add_task`; `a`, `atcb` and `n` are the addresses `malloc` returns
for the task, its control block and its list node, `sp` the initial stack pointer.  The
parameters `u8_task_id` and `u8_task_priority` have the type `uint8_t`.  When the lookup
of the id in `g_list_of_tasks` succeeds, neither branch of the `if` is taken and the
function goes on. -/
def kernel_add_task (K : Kernel) (a atcb sp n task_main u8_task_id u8_task_priority
    time_quantum wanted_events notification_conditions timeout : Nat) : Nat × Kernel :=
  let r := task_create K.mem a atcb sp task_main u8_task_id u8_task_priority time_quantum
    wanted_events notification_conditions timeout
  let K := K.setMem r.2
  if r.1 ≠ TASK_SUCCESS then
    (ERROR_INFO r.1 KERNEL_TASK_ERROR_REGISTER KERNEL_UNABLE_TO_ADD_TASK, K)
  else
    let g := dictionary_get K.mem K.g_list_of_tasks u8_task_id 0
    if g.1 = DICTIONARY_VALUE_IS_NULL then
      let d := dictionary_add K.mem K.g_list_of_tasks u8_task_id a
      let K := K.setMem d.2
      if d.1 ≠ DICTIONARY_SUCCESS then
        (ERROR_INFO d.1 KERNEL_DICTIONARY_ERROR_REGISTER KERNEL_UNABLE_TO_ADD_TASK, K)
      else kernel_add_task_insert K a n u8_task_priority
    else if g.1 ≠ DICTIONARY_SUCCESS then
      (ERROR_INFO g.1 KERNEL_DICTIONARY_ERROR_REGISTER KERNEL_UNABLE_TO_ADD_TASK, K)
    else kernel_add_task_insert K a n u8_task_priority

/-! ## kernel/kernel.c: the facades of the semaphore, the mutex and the message queue -/

/-- The function `kernel_semaphore_create`: the status, the state and the value of `*id`
on return, `id` being its value on entry; `a` and `al` are the addresses `malloc` returns
for the semaphore and for its waiting list. -/
def kernel_semaphore_create (K : Kernel) (a al id tokens : Nat) : Nat × Kernel × Nat :=
  -- return immediately if the amount of semaphores exceeded
  if K.g_semaphore_ids ≥ KERNEL_MAX_SEMAPHORE then (KERNEL_UNABLE_TO_ADD_SEMAPHORE, K, id)
  else
    let r := semaphore_create K.mem a al K.g_semaphore_ids tokens
    let K := K.setMem r.2
    if r.1 ≠ SEMAPHORE_SUCCESS then
      (ERROR_INFO r.1 KERNEL_SEMAPHORE_ERROR_REGISTER KERNEL_UNABLE_TO_ADD_SEMAPHORE, K, id)
    else
      -- insert semaphore in a dictionary for fast access
      let d := dictionary_add K.mem K.g_semaphore_list K.g_semaphore_ids a
      let K := K.setMem d.2
      if d.1 ≠ DICTIONARY_SUCCESS then
        (ERROR_INFO d.1 KERNEL_DICTIONARY_ERROR_REGISTER KERNEL_UNABLE_TO_ADD_SEMAPHORE, K, id)
      else
        (KERNEL_SUCCESS, { K with g_semaphore_ids := size_t_inc K.g_semaphore_ids },
          K.g_semaphore_ids)

/-- The function `kernel_mutex_create`; `a`, `as` and `al` are the addresses `malloc`
returns for the mutex, its binary semaphore and the waiting list. -/
def kernel_mutex_create (K : Kernel) (a as al id : Nat) : Nat × Kernel × Nat :=
  -- return immediately if the amount of mutexes exceeded
  if K.g_mutex_ids ≥ KERNEL_MAX_MUTEX then (KERNEL_UNABLE_TO_CREATE_MUTEX, K, id)
  else
    let r := mutex_create K.mem a as al K.g_mutex_ids
    let K := K.setMem r.2
    if r.1 ≠ MUTEX_SUCCESS then
      (ERROR_INFO r.1 KERNEL_MUTEX_ERROR_REGISTER KERNEL_UNABLE_TO_CREATE_MUTEX, K, id)
    else
      -- insert mutex in a dictionary for fast access
      let d := dictionary_add K.mem K.g_mutex_list K.g_mutex_ids a
      let K := K.setMem d.2
      if d.1 ≠ DICTIONARY_SUCCESS then
        (ERROR_INFO d.1 KERNEL_DICTIONARY_ERROR_REGISTER KERNEL_UNABLE_TO_CREATE_MUTEX, K, id)
      else (KERNEL_SUCCESS, { K with g_mutex_ids := size_t_inc K.g_mutex_ids }, K.g_mutex_ids)

/-- The loop of `kernel_semaphore_delete` (lines 764-769) and of `kernel_mutex_delete`
(lines 1035-1040) on the semaphore `semaphore`: as long as the waiting list is not empty,
its tail goes back to its priority group.  `fuel` bounds the number of tests of the loop
condition. -/
def kernel_delete_flush (semaphore : Nat) : Nat → Kernel → Option (Nat × Kernel)
  | 0, _ => none
  | fuel + 1, K =>
    if (K.mem.list (K.mem.semaphore semaphore).task_waiting_list).size > 0 then
      let r := kernel_reinsert_task K (K.mem.semaphore semaphore).task_waiting_list
        (K.mem.list (K.mem.semaphore semaphore).task_waiting_list).tail
        (K.mem.element (K.mem.list (K.mem.semaphore semaphore).task_waiting_list).tail).data
      if r.1 ≠ KERNEL_SUCCESS then some r else kernel_delete_flush semaphore fuel r.2
    else some (KERNEL_SUCCESS, K)

/-- The function `kernel_semaphore_delete`: the status, the state and the value of `*id`
on return.  `semaphore_delete` is called on the local copy of the pointer that
`dictionary_get` has read; the dictionary is not written. -/
def kernel_semaphore_delete (fuel : Nat) (K : Kernel) (id : Nat) : Option (Nat × Kernel × Nat) :=
  let d := dictionary_get K.mem K.g_semaphore_list id 0
  if d.1 ≠ DICTIONARY_SUCCESS then
    some (ERROR_INFO d.1 KERNEL_DICTIONARY_ERROR_REGISTER KERNEL_UNABLE_TO_DELETE_SEMAPHORE,
      K, id)
  else
    match kernel_delete_flush d.2 fuel K with
    | none => none
    | some f =>
      if f.1 ≠ KERNEL_SUCCESS then some (f.1, f.2, id)
      else
        match semaphore_delete fuel f.2.mem d.2 with
        | none => none
        | some r =>
          if r.status ≠ SEMAPHORE_SUCCESS then
            some (ERROR_INFO r.status KERNEL_SEMAPHORE_ERROR_REGISTER
              KERNEL_UNABLE_TO_DELETE_SEMAPHORE, f.2.setMem r.mem, id)
          else some (KERNEL_SUCCESS, f.2.setMem r.mem, 0)

/-- The function `kernel_mutex_delete`: the status, the state and the value of `*id` on
return.  The loop does not write the field `binary_semaphore` of the mutex. -/
def kernel_mutex_delete (fuel : Nat) (K : Kernel) (id : Nat) : Option (Nat × Kernel × Nat) :=
  let d := dictionary_get K.mem K.g_mutex_list id 0
  if d.1 ≠ DICTIONARY_SUCCESS then
    some (ERROR_INFO d.1 KERNEL_DICTIONARY_ERROR_REGISTER KERNEL_UNABLE_TO_DELETE_MUTEX, K, id)
  else
    match kernel_delete_flush (K.mem.mutex d.2).binary_semaphore fuel K with
    | none => none
    | some f =>
      if f.1 ≠ KERNEL_SUCCESS then some (f.1, f.2, id)
      else
        match mutex_delete fuel f.2.mem d.2 with
        | none => none
        | some r =>
          if r.status ≠ MUTEX_SUCCESS then
            some (ERROR_INFO r.status KERNEL_MUTEX_ERROR_REGISTER KERNEL_UNABLE_TO_DELETE_MUTEX,
              f.2.setMem r.mem, id)
          else some (KERNEL_SUCCESS, f.2.setMem r.mem, 0)

/-- The function `kernel_semaphore_release(id)`.  As in `kernel_mutex_release` the local
`status` is overwritten by the status of `kernel_reinsert_task` when that is called. -/
def kernel_semaphore_release (K : Kernel) (id : Nat) : Nat × Kernel :=
  if id ≥ KERNEL_MAX_SEMAPHORE then (KERNEL_UNABLE_TO_RELEASE_SEMAPHORE, K)
  else
    -- critical section start
    let K := kernel_toggle_critical_section K
    -- get the requested semaphore by the id from the semaphore dictionary
    let d := dictionary_get K.mem K.g_semaphore_list id 0
    if d.1 ≠ DICTIONARY_SUCCESS then
      (ERROR_INFO d.1 KERNEL_DICTIONARY_ERROR_REGISTER KERNEL_UNABLE_TO_RELEASE_SEMAPHORE, K)
    else
      let semaphore := d.2
      -- task_t* task = NULL; linked_list_element_t* element = NULL;
      let r := semaphore_release K.mem semaphore 0 0
      let K := K.setMem r.mem
      if r.task ≠ 0 then
        let q := kernel_reinsert_task K (K.mem.semaphore semaphore).task_waiting_list
          r.element r.task
        if q.1 ≠ KERNEL_SUCCESS then (q.1, q.2)
        else if q.1 ≠ SEMAPHORE_SUCCESS then
          (ERROR_INFO q.1 KERNEL_SEMAPHORE_ERROR_REGISTER KERNEL_UNABLE_TO_RELEASE_SEMAPHORE,
            q.2)
        else
          -- critical section end
          (KERNEL_SUCCESS, kernel_toggle_critical_section q.2)
      else if r.status ≠ SEMAPHORE_SUCCESS then
        (ERROR_INFO r.status KERNEL_SEMAPHORE_ERROR_REGISTER KERNEL_UNABLE_TO_RELEASE_SEMAPHORE,
          K)
      else
        -- critical section end
        (KERNEL_SUCCESS, kernel_toggle_critical_section K)

/-- The function `kernel_semaphore_acquire_non_blocking(id)`. -/
def kernel_semaphore_acquire_non_blocking (K : Kernel) (id : Nat) : Nat × Kernel :=
  if id ≥ KERNEL_MAX_SEMAPHORE then (KERNEL_UNABLE_TO_ACQUIRE_SEMAPHORE, K)
  else
    -- critical section start
    let K := kernel_toggle_critical_section K
    -- get the requested semaphore by the id from the semaphore dictionary
    let d := dictionary_get K.mem K.g_semaphore_list id 0
    if d.1 ≠ DICTIONARY_SUCCESS then
      (ERROR_INFO d.1 KERNEL_DICTIONARY_ERROR_REGISTER KERNEL_UNABLE_TO_ACQUIRE_SEMAPHORE, K)
    else
      -- try to obtain a token from the semaphore
      let r := semaphore_acquire_non_blocking K.mem d.2
      -- critical section end
      let K := kernel_toggle_critical_section (K.setMem r.2)
      if r.1 ≠ SEMAPHORE_SUCCESS then
        (ERROR_INFO r.1 KERNEL_SEMAPHORE_ERROR_REGISTER KERNEL_UNABLE_TO_ACQUIRE_SEMAPHORE, K)
      else (KERNEL_SUCCESS, K)

/-- The function `message_queue_identifier_checking` on an arbitrary argument: only the
pointer passed is compared with `NULL`. -/
def message_queue_identifier_checking_of (message_queue_identifier : Nat) : Nat :=
  if message_queue_identifier = 0 then MESSAGE_QUEUE_NO_IDENTIFIER
  else MESSAGE_QUEUE_IDENTIFIER_SUCCESS

/-- The function `kernel_message_queue_send`; `message_queue_identifier` is the pointer
passed and `id` the value of `(*message_queue_identifier)->id`.  The status of
`kernel_reinsert_task` is dropped. -/
def kernel_message_queue_send (K : Kernel) (message_queue_identifier id message
    element_size : Nat) (urgent : Bool) : Nat × Kernel :=
  if message_queue_identifier_checking_of message_queue_identifier
      ≠ MESSAGE_QUEUE_IDENTIFIER_SUCCESS then
    (ERROR_INFO (message_queue_identifier_checking_of message_queue_identifier)
      KERNEL_MESSAGE_QUEUE_ERROR_REGISTER KERNEL_UNABLE_TO_SEND_MESSAGE, K)
  else
    -- obtain message queue
    let d := dictionary_get K.mem K.g_message_queue_list id 0
    if d.1 ≠ 0 then
      (ERROR_INFO d.1 KERNEL_MESSAGE_QUEUE_ERROR_REGISTER KERNEL_UNABLE_TO_SEND_MESSAGE, K)
    else
      -- critical section start
      let K := kernel_toggle_critical_section K
      -- send message and be ready for reinserting a task
      let r := message_queue_send K.mem d.2 0 0 message element_size urgent
      let K := K.setMem r.mem
      if r.status ≠ MESSAGE_QUEUE_SUCCESS then
        (ERROR_INFO r.status KERNEL_MESSAGE_QUEUE_ERROR_REGISTER KERNEL_UNABLE_TO_SEND_MESSAGE,
          K)
      else
        let K :=
          if r.task ≠ 0 then
            -- task was returned
            (kernel_reinsert_task K (K.mem.message_queue d.2).receiving_task_list r.element
              r.task).2
          else K
        -- critical section end
        (KERNEL_SUCCESS, kernel_toggle_critical_section K)

/-! ## kernel/kernel.c: delays

A call of `kernel_swap_task` hands the processor to another task and comes back when the
caller is scheduled again.  A facade that reaches this call is modelled up to it: the
state in which the caller gives up the processor.  What the facade does after it has
been resumed is a second function of the state found at that moment. -/

/-- What the loop over the delay list leaves behind: the status of the failing
`task_checking` (or `TASK_SUCCESS`), the memory, the iterator and the sum of deltas. -/
structure DelayScan where
  status : Nat
  mem : Mem
  iterator : Nat
  delta_sum : Nat

/-- The loop of `kernel_delay` (lines 1257-1286), repeated verbatim in
`kernel_event_receive_timeout` (lines 1352-1380): `task` is the running task, `delay` the
delay asked for.  The loop checks the running task, not the delayed one.  `fuel` bounds
the number of tests of the loop condition. -/
def kernel_delay_scan (task delay : Nat) : Nat → Mem → Nat → Nat → Option DelayScan
  | 0, _, _, _ => none
  | fuel + 1, m, iterator, delta_sum =>
    if iterator = 0 then some ⟨TASK_SUCCESS, m, iterator, delta_sum⟩
    else if task_checking m task ≠ TASK_SUCCESS then
      some ⟨task_checking m task, m, iterator, delta_sum⟩
    else
      -- sum up the deltas to get the delayed time for each task
      let delayed_task := (m.element iterator).data
      let delta_sum := size_t_add delta_sum (m.task delayed_task).delta_time
      if delta_sum > delay then
        -- task is inserted before an already delayed task
        let delta_sum := size_t_sub delta_sum (m.task delayed_task).delta_time
        let m := m.setDeltaTime delayed_task
          (size_t_sub (m.task delayed_task).delta_time (size_t_sub delay delta_sum))
        -- go a step back, because the linked list supports only insert after
        some ⟨TASK_SUCCESS, m, (m.element iterator).previous, delta_sum⟩
      else if (m.element iterator).next = 0 then
        -- end of list reached
        some ⟨TASK_SUCCESS, m, iterator, delta_sum⟩
      else kernel_delay_scan task delay fuel m (m.element iterator).next delta_sum

/-- The function `kernel_delay` up to its call of `kernel_swap_task`: the status it
returns and the state in which the caller is suspended (with the critical section
entered), or the state at the early return. -/
def kernel_delay (fuel : Nat) (K : Kernel) (delay_millisecods : Nat) : Option (Nat × Kernel) :=
  if delay_millisecods = 0 then some (KERNEL_SUCCESS, K)
  else
    -- critical section start
    let K := kernel_toggle_critical_section K
    -- checking for valid linked list
    if linked_list_checking K.g_delayed_tasks ≠ LINKED_LIST_SUCCESS then
      some (ERROR_INFO (linked_list_checking K.g_delayed_tasks) KERNEL_LINK_LIST_ERROR_REGISTER
        KERNEL_UNABLE_TO_DELAY_TASK, K)
    else
      -- iterate over the delayed list and insert the task in the list by a delta
      match kernel_delay_scan K.g_running_task_current delay_millisecods fuel K.mem
          (K.mem.list K.g_delayed_tasks).tail 0 with
      | none => none
      | some s =>
        if s.status ≠ TASK_SUCCESS then
          some (ERROR_INFO s.status KERNEL_TASK_ERROR_REGISTER KERNEL_UNABLE_TO_DELAY_TASK,
            K.setMem s.mem)
        else
          -- determine the delta time to delay the task
          let m := s.mem.setDeltaTime K.g_running_task_current
            (size_t_sub delay_millisecods s.delta_sum)
          -- insert task in delayed task list at the position determined by the iteration
          let t := linked_list_transfer_after m K.g_delayed_tasks s.iterator
            K.g_priority_group_current K.g_linked_list_task_iterator
          if t.1 ≠ LINKED_LIST_SUCCESS then
            some (ERROR_INFO t.1 KERNEL_LINK_LIST_ERROR_REGISTER KERNEL_UNABLE_TO_DELAY_TASK,
              K.setMem t.2)
          else some (KERNEL_SUCCESS, K.setMem t.2)

/-! ## kernel/kernel.c: events -/

/-- The last statements of `kernel_event_receive_timeout` (lines 1414-1419): the events
read are handed out and the wanted ones are deleted from the register.  The result is
the status, the value of `*received_events` and the state. -/
def kernel_event_receive_finish (K : Kernel) (task_received_events status : Nat) :
    Nat × Nat × Kernel :=
  (status, task_received_events,
    K.setMem (K.mem.setReceivedEvents K.g_running_task_current
      ((K.mem.task K.g_running_task_current).event_register.received_events &&&
        size_t_not (K.mem.task K.g_running_task_current).event_register.wanted_events)))

/-- How a call of a facade that may block goes on: it returns (status, value of
`*received_events`, state), or it reaches `kernel_swap_task` in the given state. -/
inductive Blocking where
  | returned : Nat → Nat → Kernel → Blocking
  | swapped : Kernel → Blocking

/-- The function `kernel_event_receive_timeout` up to its call of `kernel_swap_task`;
`received_events` is the value of `*received_events` on entry. -/
def kernel_event_receive_timeout (fuel : Nat) (K : Kernel) (received_events : Nat) :
    Option Blocking :=
  -- shorten the variables
  let task_wanted_events := (K.mem.task K.g_running_task_current).event_register.wanted_events
  -- critical section start
  let K := kernel_toggle_critical_section K
  -- abort loop if wanted events were set
  let task_received_events :=
    (K.mem.task K.g_running_task_current).event_register.received_events
  if task_wanted_events &&& task_received_events = task_wanted_events then
    -- critical section end
    let K := kernel_toggle_critical_section K
    let r := kernel_event_receive_finish K task_received_events KERNEL_SUCCESS
    some (Blocking.returned r.1 r.2.1 r.2.2)
  else
    let task := K.g_running_task_current
    let delay_milliseconds := (K.mem.task task).event_register.timeout
    -- insert in delayed task list
    if delay_milliseconds = 0 then
      some (Blocking.returned KERNEL_UNABLE_TO_RECEIVE_EVENTS received_events K)
    -- checking for valid linked list
    else if linked_list_checking K.g_delayed_tasks ≠ LINKED_LIST_SUCCESS then
      some (Blocking.returned
        (ERROR_INFO (linked_list_checking K.g_delayed_tasks) KERNEL_LINK_LIST_ERROR_REGISTER
          KERNEL_UNABLE_TO_RECEIVE_EVENTS) received_events K)
    else
      -- iterate over the delayed list and insert the task in the list by a delta
      match kernel_delay_scan task delay_milliseconds fuel K.mem
          (K.mem.list K.g_delayed_tasks).tail 0 with
      | none => none
      | some s =>
        if s.status ≠ TASK_SUCCESS then
          some (Blocking.returned
            (ERROR_INFO s.status KERNEL_TASK_ERROR_REGISTER KERNEL_UNABLE_TO_RECEIVE_EVENTS)
            received_events (K.setMem s.mem))
        else
          -- determine the delta time to delay the task
          let m := s.mem.setDeltaTime task (size_t_sub delay_milliseconds s.delta_sum)
          let t := linked_list_transfer_after m K.g_delayed_tasks s.iterator
            K.g_priority_group_current K.g_linked_list_task_iterator
          if t.1 ≠ LINKED_LIST_SUCCESS then
            some (Blocking.returned
              (ERROR_INFO t.1 KERNEL_LINK_LIST_ERROR_REGISTER KERNEL_UNABLE_TO_RECEIVE_EVENTS)
              received_events (K.setMem t.2))
          else
            let b :=
              if s.iterator = 0 then
                task_set_blocked_info t.2 K.g_running_task_current K.g_delayed_tasks
                  (t.2.list K.g_delayed_tasks).tail
              else
                task_set_blocked_info t.2 K.g_running_task_current K.g_delayed_tasks
                  (t.2.element s.iterator).next
            if b.1 ≠ TASK_SUCCESS then
              some (Blocking.returned
                (ERROR_INFO b.1 KERNEL_TASK_ERROR_REGISTER KERNEL_UNABLE_TO_RECEIVE_EVENTS)
                received_events (K.setMem b.2))
            else some (Blocking.swapped (K.setMem b.2))

/-- The function `kernel_event_receive_timeout` from the return of `kernel_swap_task` on
(lines 1403-1419): `K` is the state in which the caller runs again and
`task_wanted_events` the local read at entry.  The `else` block declares its own
`status` (line 1341); the assignment `status = KERNEL_SUCCESS` of line 1407 goes to that
inner variable, and the `return status` of line 1419 reads the outer one, which still
holds its initial value `KERNEL_UNABLE_TO_RECEIVE_EVENTS`. -/
def kernel_event_receive_timeout_resume (K : Kernel) (task_wanted_events : Nat) :
    Nat × Nat × Kernel :=
  let K := kernel_toggle_critical_section K
  let task_received_events :=
    (K.mem.task K.g_running_task_current).event_register.received_events
  -- the `status` of the `else` block, assigned on line 1407 and not read afterwards
  let status_of_block :=
    if task_wanted_events &&& task_received_events = task_wanted_events then KERNEL_SUCCESS
    else TASK_SUCCESS
  -- the `status` of the function, returned on line 1419
  let status := KERNEL_UNABLE_TO_RECEIVE_EVENTS
  -- critical section end
  let K := kernel_toggle_critical_section K
  kernel_event_receive_finish K task_received_events (status_of_block, status).2

/-- The function `kernel_event_send`.  `call f r w` is the value that the notification
callback at address `f` leaves in `received_event` when it is called with
`received_event = r` and the wanted events `w`; the callback writes nothing else of the
kernel state.  The statuses of `kernel_reinsert_task` are dropped. -/
def kernel_event_send (call : Nat → Nat → Nat → Nat) (K : Kernel) (task_id event : Nat) :
    Nat × Kernel :=
  -- critical section start
  let K := kernel_toggle_critical_section K
  -- obtain task were an event should be set
  let d := dictionary_get K.mem K.g_list_of_tasks task_id 0
  if d.1 ≠ DICTIONARY_SUCCESS then
    (ERROR_INFO d.1 KERNEL_DICTIONARY_ERROR_REGISTER KERNEL_UNABLE_TO_SEND_EVENTS, K)
  else
    let task := d.2
    -- shorten event variables and notification condition
    let wanted_events := (K.mem.task task).event_register.wanted_events
    let notification_conditions := (K.mem.task task).event_register.notification_conditions
    -- preset received event in order to allow to reset them by the notification condition
    let received_event := (K.mem.task task).event_register.received_events ||| event
    let received_event :=
      if notification_conditions ≠ 0 then call notification_conditions received_event wanted_events
      else received_event
    -- update received event
    let K := K.setMem (K.mem.setReceivedEvents task
      ((K.mem.task task).event_register.received_events ||| received_event))
    -- check if the addressed task can be reinserted
    if received_event &&& wanted_events = wanted_events then
      if (K.mem.task task).blocked_timeout_list = K.g_blocked_tasks then
        let K := (kernel_reinsert_task K (K.mem.task task).blocked_timeout_list
          (K.mem.task task).blocked_timeout_list_element task).2
        let K := K.setMem (K.mem.setBlockedTimeoutList task 0)
        let K := K.setMem (K.mem.setBlockedTimeoutListElement task 0)
        (KERNEL_SUCCESS, kernel_toggle_critical_section K)
      else if (K.mem.task task).blocked_timeout_list = K.g_delayed_tasks then
        -- resume addressed task before timeout elapsed
        let next_delayed_task_element :=
          (K.mem.element (K.mem.task task).blocked_timeout_list_element).next
        if next_delayed_task_element ≠ 0 ∧ task_checking K.mem task ≠ TASK_SUCCESS then
          (ERROR_INFO (task_checking K.mem task) KERNEL_TASK_ERROR_REGISTER
            KERNEL_UNABLE_TO_SEND_EVENTS, K)
        else
          let K :=
            if next_delayed_task_element ≠ 0 then
              -- update delta time
              let next_delayed_task := (K.mem.element next_delayed_task_element).data
              let K := K.setMem (K.mem.setDeltaTime next_delayed_task
                (size_t_add (K.mem.task next_delayed_task).delta_time
                  (K.mem.task task).delta_time))
              K.setMem (K.mem.setDeltaTime task 0)
            else K
          let K := (kernel_reinsert_task K (K.mem.task task).blocked_timeout_list
            (K.mem.task task).blocked_timeout_list_element task).2
          let K := K.setMem (K.mem.setBlockedTimeoutList task 0)
          let K := K.setMem (K.mem.setBlockedTimeoutListElement task 0)
          (KERNEL_SUCCESS, kernel_toggle_critical_section K)
      else
        -- addressed task is no longer inserted in a delayed task list or blocked list
        let K := K.setMem (K.mem.setBlockedTimeoutList task 0)
        let K := K.setMem (K.mem.setBlockedTimeoutListElement task 0)
        (KERNEL_SUCCESS, kernel_toggle_critical_section K)
    else
      -- critical section end
      (KERNEL_SUCCESS, kernel_toggle_critical_section K)

/-! ## stm/kernel/kernel.c: the status machine, the start of a task and the tick handler

`kernel_set_status` spins in `while (true)` on a transition it does not allow; a function
that can reach such a loop returns `none` when it does. -/

/-- The function `kernel_set_status`: `none` when it never returns. -/
def kernel_set_status (K : Kernel) (status : Nat) : Option (Nat × Kernel) :=
  if status = EN_KERNEL_STARTING then
    if K.g_kernel_status ≠ EN_KERNEL_NOT_INITIALIZED then none
    else some (KERNEL_SUCCESS, { K with g_kernel_status := status })
  else if status = EN_KERNEL_RUNNING then
    if ¬ (K.g_kernel_status = EN_KERNEL_STARTING ∨ K.g_kernel_status = EN_KERNEL_IDLE) then none
    else some (KERNEL_SUCCESS, { K with g_kernel_status := status })
  else if status = EN_KERNEL_IDLE then
    if K.g_kernel_status ≠ EN_KERNEL_RUNNING then none
    else some (KERNEL_SUCCESS, { K with g_kernel_status := status })
  else none

/-- The function `kernel_exit_idle`; the calls into the hardware abstraction layer do not
touch the kernel state. -/
def kernel_exit_idle (K : Kernel) : Option Kernel :=
  (kernel_set_status K EN_KERNEL_RUNNING).map Prod.snd

/-- The error exit of `kernel_start_task`: `kernel_set_status(EN_KERNEL_ERROR)` followed
by the return of the composite status. -/
def kernel_start_task_error (K : Kernel) (status : Nat) : Option (Nat × Kernel) :=
  (kernel_set_status K EN_KERNEL_ERROR).map
    (fun r => (ERROR_INFO status KERNEL_TASK_ERROR_REGISTER KERNEL_UNABLE_TO_SCHEDULE_TASK, r.2))

/-- The block "implements priority inheritance" of `kernel_start_task` (lines 319-362),
`inheritance_cooldown` being its static local: the status (`KERNEL_SUCCESS` when the
block runs to its end) and the state. -/
def kernel_start_task_inheritance (K : Kernel) : Nat × Kernel :=
  -- lower_priority might point to the last used priority group
  let K :=
    if K.g_task_lower_priority ≤ K.g_dictionary_priority then
      { K with g_task_lower_priority := K.g_task_lowest_priority }
    else K
  -- move priority groups, if the current priority group is lower
  if K.inheritance_cooldown = 0 ∧ K.g_task_lower_priority > K.g_dictionary_priority then
    -- obtain priority group and check for errors
    let lo := dictionary_get K.mem K.g_prioritized_tasks K.g_task_lower_priority 0
    if lo.1 ≠ DICTIONARY_SUCCESS then
      (ERROR_INFO lo.1 KERNEL_DICTIONARY_ERROR_REGISTER KERNEL_UNABLE_TO_SCHEDULE_TASK, K)
    else
      -- obtain higher priority group and check for errors
      let K := { K with g_task_lower_priority := K.g_task_lower_priority - 1 }
      let hi := dictionary_get K.mem K.g_prioritized_tasks K.g_task_lower_priority 0
      if hi.1 ≠ DICTIONARY_SUCCESS then
        (ERROR_INFO hi.1 KERNEL_DICTIONARY_ERROR_REGISTER KERNEL_UNABLE_TO_SCHEDULE_TASK, K)
      else
        -- check if current priority group was reached and move priority group
        let moved_elements := (K.mem.list lo.2).size
        let K := K.setMem (linked_list_move_linked_list_after K.mem hi.2 lo.2).2
        if K.g_dictionary_priority = K.g_task_lower_priority then
          -- reset inheritance and set cool down
          (KERNEL_SUCCESS,
            { K with
              g_task_lower_priority := K.g_task_lowest_priority
              inheritance_cooldown := moved_elements })
        else (KERNEL_SUCCESS, K)
  else (KERNEL_SUCCESS, K)

/-- The block "set current task information and preset next task" of `kernel_start_task`
(lines 364-402), which ends with the request of the context switch and
`kernel_enable_interrupts`.  In the second branch the iterator itself, cast to a task, is
stored as the running task. -/
def kernel_start_task_select (K : Kernel) (priority_group linked_list_element task : Nat) :
    Kernel :=
  let K :=
    { K with
      g_running_task_current := task
      g_linked_list_task_iterator := linked_list_element
      g_priority_group_current := priority_group
      g_priority_group_next := priority_group }
  let K :=
    if K.g_linked_list_task_iterator ≠ 0 then
      -- set next task
      let K :=
        { K with
          g_linked_list_task_iterator_next := (K.mem.element K.g_linked_list_task_iterator).next }
      let K :=
        if K.g_linked_list_task_iterator_next = 0 then
          -- end of priority group and restart with first element
          { K with
            g_linked_list_task_iterator_next := (K.mem.list K.g_priority_group_current).tail }
        else K
      { K with
        g_running_task_next := (K.mem.element K.g_linked_list_task_iterator_next).data
        g_dictionary_priority_next := size_t_inc K.g_dictionary_priority }
    else if (K.mem.list K.g_priority_group_current).size = 0 then
      -- jump to next priority group
      let K :=
        { K with
          g_priority_group_current :=
            (dictionary_get K.mem K.g_prioritized_tasks K.g_dictionary_priority_next
              K.g_priority_group_current).2 }
      let K := { K with g_priority_group_next := K.g_priority_group_current }
      let K :=
        { K with g_linked_list_task_iterator := (K.mem.list K.g_priority_group_current).tail }
      { K with
        g_running_task_current := K.g_linked_list_task_iterator
        g_dictionary_priority := K.g_dictionary_priority_next }
    else
      -- end of priority group and restart with first element
      let K :=
        { K with g_linked_list_task_iterator := (K.mem.list K.g_priority_group_current).tail }
      let K :=
        { K with
          g_running_task_current := (K.mem.element K.g_linked_list_task_iterator).data
          g_linked_list_task_iterator_next := (K.mem.element K.g_linked_list_task_iterator).next }
      { K with
        g_running_task_next := (K.mem.element K.g_linked_list_task_iterator_next).data
        g_dictionary_priority_next := size_t_inc K.g_dictionary_priority }
  -- kernel_enable_interrupts()
  { K with interrupts_enabled := true }

/-- The function `kernel_start_task(priority_group, linked_list_element, task)`, the
arguments being the values of the three pointers at the call. -/
def kernel_start_task (K : Kernel) (priority_group linked_list_element task : Nat) :
    Option (Nat × Kernel) :=
  -- update task state and check for errors
  let r := task_set_state K.mem task TaskState_Ready
  let K := K.setMem r.2
  if r.1 ≠ TASK_SUCCESS then kernel_start_task_error K r.1
  else
    -- set time quantum
    let q := task_reset_time_quantum_remaining K.mem task
    let K := K.setMem q.2
    if q.1 ≠ TASK_SUCCESS then kernel_start_task_error K q.1
    else
      -- set previous task and set it to ready if not blocked
      let K := { K with g_running_task_previous := K.g_running_task_current }
      let p :=
        if K.g_running_task_previous ≠ 0 ∧
            (K.mem.tcb (K.mem.task K.g_running_task_previous).task_data).eTaskState
              ≠ TaskState_Blocked then
          task_set_state K.mem K.g_running_task_previous TaskState_Ready
        else (TASK_SUCCESS, K.mem)
      let K := K.setMem p.2
      if p.1 ≠ TASK_SUCCESS ∧ p.1 ≠ TASK_NO_MEMORY then kernel_start_task_error K p.1
      else
        let i := kernel_start_task_inheritance K
        if i.1 ≠ KERNEL_SUCCESS then some i
        else
          some (KERNEL_SUCCESS,
            kernel_start_task_select i.2 priority_group linked_list_element task)

/-- The function `kernel_update`, the handler of the tick interrupt; `HAL_IncTick` and the
trace calls do not touch the kernel state.  The local `status` starts as `(size_t) -1`. -/
def kernel_update (K : Kernel) : Option Kernel :=
  -- exit immediately, if kernel is not running yet
  if K.g_running_task_current = 0 ∨ K.g_kernel_status = EN_KERNEL_NOT_INITIALIZED
      ∨ K.g_kernel_status = EN_KERNEL_ERROR then some K
  -- return during critical section
  else if K.g_kernel_critical_section_active = true then some K
  else
    -- handle delta times in delayed task list
    let r : Nat × Kernel :=
      if (K.mem.list K.g_delayed_tasks).size > 0 then
        let task := (K.mem.element (K.mem.list K.g_delayed_tasks).tail).data
        if (K.mem.task task).delta_time = 0 then
          -- reinsert task from delay list to its priority group
          kernel_reinsert_task K K.g_delayed_tasks (K.mem.list K.g_delayed_tasks).tail task
        else
          -- decrement delta time
          (SIZE_T_MOD - 1,
            K.setMem (K.mem.setDeltaTime task (size_t_dec (K.mem.task task).delta_time)))
      else (SIZE_T_MOD - 1, K)
    let K := r.2
    -- check if time quantum has elapsed and update kernel state
    if (K.mem.task K.g_running_task_current).time_quantum_remaining = 0
        ∧ K.g_kernel_critical_section_active = false
        ∧ K.g_kernel_status ≠ EN_KERNEL_IDLE then
      (kernel_start_task K K.g_priority_group_next K.g_linked_list_task_iterator_next
        K.g_running_task_next).map Prod.snd
    else if K.g_kernel_status = EN_KERNEL_IDLE ∧ r.1 = KERNEL_SUCCESS then
      -- exit idle
      kernel_exit_idle K
    else if (K.mem.task K.g_running_task_current).time_quantum_remaining > 0 then
      -- decrement time quantum
      some (K.setMem (K.mem.setTimeQuantumRemaining K.g_running_task_current
        (size_t_dec (K.mem.task K.g_running_task_current).time_quantum_remaining)))
    else some K

/-- The state after `n` ticks: `n` calls of `kernel_update`. -/
def kernel_update_times : Nat → Kernel → Option Kernel
  | 0, K => some K
  | n + 1, K => (kernel_update K).bind (kernel_update_times n)

/-! ## Frame relations -/

/-- The globals that `kernel_toggle_critical_section`, `kernel_reinsert_task` and the
writes to the memory leave alone. -/
def same_globals (K K2 : Kernel) : Prop :=
  K2.g_running_task_current = K.g_running_task_current ∧
  K2.g_prioritized_tasks = K.g_prioritized_tasks ∧
  K2.g_list_of_tasks = K.g_list_of_tasks ∧
  K2.g_delayed_tasks = K.g_delayed_tasks ∧
  K2.g_blocked_tasks = K.g_blocked_tasks ∧
  K2.g_priority_group_current = K.g_priority_group_current ∧
  K2.g_linked_list_task_iterator = K.g_linked_list_task_iterator ∧
  K2.g_semaphore_list = K.g_semaphore_list ∧
  K2.g_semaphore_ids = K.g_semaphore_ids ∧
  K2.g_mutex_list = K.g_mutex_list ∧
  K2.g_mutex_ids = K.g_mutex_ids ∧
  K2.g_message_queue_list = K.g_message_queue_list ∧
  K2.g_kernel_status = K.g_kernel_status ∧
  K2.g_available_tasks = K.g_available_tasks

/-- Only the tasks and their control blocks differ between `m` and `m2`. -/
def OnlyTasks (m m2 : Mem) : Prop :=
  m2 = { m with task := m2.task, tcb := m2.tcb }

/-- The dictionaries (headers and slots) are the same in `m` and `m2`. -/
def same_tables (m m2 : Mem) : Prop :=
  m2.slots = m.slots ∧ m2.dictionary = m.dictionary

/-- The dictionaries and the globals of `same_globals` are the same in `K` and `K2`. -/
def registry_kept (K K2 : Kernel) : Prop :=
  same_tables K.mem K2.mem ∧ same_globals K K2

/-! ## A kernel with four tasks -/

/-- The memory of `kernel_example`: the tasks 101, ..., 104 (control blocks 201, ..., 204,
ids 1, ..., 4, priority 0, time quantum 100) sit in the nodes 11, ..., 14 of the priority
group at address 2; the lists 7, 8 and 3 are empty.  Every task wants the event `0x08`
with a timeout of 10 ticks.  The dictionaries 40 (priority groups), 50 (tasks),
60 (semaphores), 30 (mutexes) and 70 (message queues) have their slots at 41, 51, 61, 31
and 71; the semaphore 1 (one token, waiting list 3) has the id 0 and so has the mutex 5
(binary semaphore 6 with the waiting list 9, no owner). -/
def mem_kernel : Mem :=
  { Mem.zero with
    list := fun a => if a = 2 then ⟨14, 11, 4⟩ else ⟨0, 0, 0⟩
    element := fun a =>
      if a = 11 then ⟨101, 0, 12⟩ else if a = 12 then ⟨102, 11, 13⟩
      else if a = 13 then ⟨103, 12, 14⟩ else if a = 14 then ⟨104, 13, 0⟩ else ⟨0, 0, 0⟩
    task := fun a =>
      if 101 ≤ a ∧ a ≤ 104 then
        ⟨a + 100, 0, 100, 100, 0, 0, false, 0, ⟨8, 0, 0, 10⟩, 0, 0, 0⟩
      else ⟨0, 0, 0, 0, 0, 0, false, 0, ⟨0, 0, 0, 0⟩, 0, 0, 0⟩
    tcb := fun a =>
      if a = 201 then ⟨1, 0, TaskState_Running, 0⟩
      else if 202 ≤ a ∧ a ≤ 204 then ⟨a - 200, 0, TaskState_Ready, 0⟩ else ⟨0, 0, 0, 0⟩
    semaphore := fun a =>
      if a = 1 then ⟨0, 1, 1, 3⟩ else if a = 6 then ⟨0, 1, 1, 9⟩ else ⟨0, 0, 0, 0⟩
    mutex := fun a => if a = 5 then ⟨6, 0, 0⟩ else ⟨0, 0, 0⟩
    dictionary := fun a =>
      if a = 40 then ⟨41, KERNEL_MAX_TASK⟩ else if a = 50 then ⟨51, KERNEL_MAX_TASK⟩
      else if a = 60 then ⟨61, KERNEL_MAX_SEMAPHORE⟩ else if a = 30 then ⟨31, KERNEL_MAX_MUTEX⟩
      else if a = 70 then ⟨71, KERNEL_MAX_MESSAGE_QUEUE⟩ else ⟨0, 0⟩
    slots := fun a i =>
      if a = 41 ∧ i = 0 then 2 else if a = 51 ∧ 1 ≤ i ∧ i ≤ 4 then 100 + i
      else if a = 61 ∧ i = 0 then 1 else if a = 31 ∧ i = 0 then 5 else 0 }

/-- A running kernel over `mem_kernel`: task 101 runs, task 102 is next, the delay list is
the list 7 and the blocked-on-events list the list 8. -/
def kernel_example : Kernel :=
  { Kernel.zero with
    mem := mem_kernel
    g_running_task_current := 101
    g_running_task_next := 102
    g_linked_list_task_iterator := 11
    g_linked_list_task_iterator_next := 12
    g_priority_group_current := 2
    g_priority_group_next := 2
    g_prioritized_tasks := 40
    g_list_of_tasks := 50
    g_delayed_tasks := 7
    g_blocked_tasks := 8
    g_semaphore_list := 60
    g_semaphore_ids := 1
    g_mutex_list := 30
    g_mutex_ids := 1
    g_message_queue_list := 70
    g_dictionary_priority_next := 1
    g_available_tasks := 4
    g_kernel_status := EN_KERNEL_RUNNING }

/-- The state in which the task `task` of the node `element` of the priority group
`priority_group` runs: `kernel_start_task` stores the three pointers (lines 365-367) and
`kernel_schedule_task` leaves the critical section (lines 198-200). -/
def Kernel.run (K : Kernel) (priority_group element task : Nat) : Kernel :=
  { K with
    g_running_task_current := task
    g_linked_list_task_iterator := element
    g_priority_group_current := priority_group
    g_kernel_critical_section_active := false }

/-- A sequence of calls of `kernel_delay`, each by the task `c.2.1` of the node `c.1` of
the priority group `priority_group` with the delay `c.2.2`; the statuses and the final
state. -/
def kernel_delay_calls (fuel priority_group : Nat) :
    List (Nat × Nat × Nat) → Kernel → Option (List Nat × Kernel)
  | [], K => some ([], K)
  | c :: cs, K =>
    match kernel_delay fuel (K.run priority_group c.1 c.2.1) c.2.2 with
    | none => none
    | some r =>
      match kernel_delay_calls fuel priority_group cs r.2 with
      | none => none
      | some rest => some (r.1 :: rest.1, rest.2)

/-- The nodes met when following `next` from the node `x`, at most `fuel` of them. -/
def list_walk (m : Mem) : Nat → Nat → List Nat
  | 0, _ => []
  | fuel + 1, x => if x = 0 then [] else x :: list_walk m fuel (m.element x).next

/-- The nodes of the delay list from its front (the tail) on, each with the delta of its
task and with its cumulative delta, the sum of the deltas up to and including it. -/
def delay_list_view (K : Kernel) (fuel : Nat) : List (Nat × Nat × Nat) :=
  let nodes := list_walk K.mem fuel (K.mem.list K.g_delayed_tasks).tail
  let deltas := nodes.map (fun x => (K.mem.task (K.mem.element x).data).delta_time)
  (List.range nodes.length).map
    (fun i => (nodes.getD i 0, deltas.getD i 0, (deltas.take (i + 1)).sum))

/-- The notification callback of the test tasks (test_tasks.c, `notification_condition`)
in the calls in which it clears the wanted events: `*received_events &= ~wanted_events`. -/
def notification_condition (_f received_events wanted_events : Nat) : Nat :=
  received_events &&& size_t_not wanted_events

/-- The value that `kernel_event_send` holds in `received_event` when it tests whether
the task `task` can be resumed: the events received so far together with `event`, as the
notification callback of the task (if it has one) leaves them. -/
def kernel_event_send_filtered (call : Nat → Nat → Nat → Nat) (m : Mem) (task event : Nat) :
    Nat :=
  if (m.task task).event_register.notification_conditions ≠ 0 then
    call (m.task task).event_register.notification_conditions
      ((m.task task).event_register.received_events ||| event)
      (m.task task).event_register.wanted_events
  else (m.task task).event_register.received_events ||| event

/-- The state in which a call has reached `kernel_swap_task`, if it has. -/
def Blocking.swappedState : Blocking → Option Kernel
  | Blocking.returned _ _ _ => none
  | Blocking.swapped K => some K

/-- The status and the value of `*received_events` of a call that has returned. -/
def Blocking.result : Blocking → Option (Nat × Nat)
  | Blocking.returned s r _ => some (s, r)
  | Blocking.swapped _ => none

/-- The critical-section flag at the end of a call (at its return or at the call of
`kernel_swap_task`). -/
def Blocking.flag : Blocking → Bool
  | Blocking.returned _ _ K => K.g_kernel_critical_section_active
  | Blocking.swapped K => K.g_kernel_critical_section_active

/-- Scenario "events with timeout": in `kernel_example` task 101 (wanted events `0x08`,
timeout 10) calls `kernel_event_receive_timeout` and is parked in the delay list; task
102 then runs and sends the event `0x08` to the task of id 1; task 101 runs again and its
call goes on after `kernel_swap_task`.  The result is the state when task 101 is parked,
the state after the event was sent, and the status, the value of `*received_events` and
the state at the return of the call. -/
def event_scenario : Option (Kernel × Kernel × Nat × Nat × Kernel) :=
  match (kernel_event_receive_timeout 5 kernel_example 0).bind Blocking.swappedState with
  | none => none
  | some K1 =>
    let K2 := (kernel_event_send notification_condition (K1.run 2 12 102) 1 8).2
    some (K1, K2, kernel_event_receive_timeout_resume (K2.run 2 11 101) 8)

/-- The kernel `kernel_example` before `kernel_init` has created the delay list. -/
def kernel_example_no_delay_list : Kernel :=
  { kernel_example with g_delayed_tasks := 0 }

/-- The kernel `kernel_example` with the timeout of task 101 set to `0`. -/
def kernel_example_no_timeout : Kernel :=
  kernel_example.setMem (kernel_example.mem.setEventRegister 101 ⟨8, 0, 0, 0⟩)

/-- The kernel `kernel_example` with task 102 (wanted events `0x08`, callback at address
900) parked on the blocked-on-events list 8: node 12 is the only node of that list. -/
def kernel_example_blocked : Kernel :=
  kernel_example.setMem
    (((((linked_list_transfer kernel_example.mem 8 2 12).2.setEventRegister 102
      ⟨8, 0, 900, 10⟩).setBlockedTimeoutList 102 8).setBlockedTimeoutListElement 102
        12).setTaskState 102 TaskState_Blocked)

/-- A kernel whose message queue of id 0 is the full queue of `mem_mq_full`. -/
def kernel_example_mq_full : Kernel :=
  { Kernel.zero with
    mem :=
      { mem_mq_full with
        dictionary := fun a => if a = 70 then ⟨71, KERNEL_MAX_MESSAGE_QUEUE⟩ else ⟨0, 0⟩
        slots := fun a i => if a = 71 then (if i = 0 then 60 else 0) else mem_mq_full.slots a i }
    g_message_queue_list := 70
    g_message_queue_ids := 1
    g_kernel_status := EN_KERNEL_RUNNING }

/-- The kernel `kernel_example` after `kernel_semaphore_delete` on the id 0. -/
def kernel_example_semaphore_deleted : Kernel :=
  ((kernel_semaphore_delete 2 kernel_example 0).getD (1, kernel_example, 1)).2.1

/-- The kernel `kernel_example` after `kernel_mutex_delete` on the id 0. -/
def kernel_example_mutex_deleted : Kernel :=
  ((kernel_mutex_delete 2 kernel_example 0).getD (1, kernel_example, 1)).2.1

/-- The function `linked_list_pop_back`; `data` is the value of `*data` on entry.  The
node is freed, which does not change the memory contents; the `previous` pointer of the
new tail is not reset. -/
def linked_list_pop_back (m : Mem) (linked_list data : Nat) : Popped :=
  if linked_list_checking linked_list ≠ LINKED_LIST_SUCCESS then
    ⟨linked_list_checking linked_list, m, data⟩
  else if (m.list linked_list).tail = 0 then ⟨LINKED_LIST_NO_ELEMENT, m, data⟩
  else
    -- obtain data
    let data := (m.element (m.list linked_list).tail).data
    -- remove data element
    let m := m.setSize linked_list (size_t_pred (m.list linked_list).size)
    if (m.list linked_list).size = 0 ∧ (m.list linked_list).tail = (m.list linked_list).head
    then
      let m := m.setTail linked_list 0
      ⟨LINKED_LIST_SUCCESS, m.setHead linked_list 0, data⟩
    else if (m.list linked_list).size = 0 ∧
        (m.list linked_list).tail ≠ (m.list linked_list).head then
      ⟨LINKED_LIST_IRREGULAR_STRUCTURE, m, data⟩
    else
      ⟨LINKED_LIST_SUCCESS,
        m.setTail linked_list (m.element (m.list linked_list).tail).next, data⟩

/-- The function `linked_list_pop_inner(list, e, data)`; `data` is the value of `*data` on
entry.  The head and the tail are handed to `linked_list_pop_front` and
`linked_list_pop_back`. -/
def linked_list_pop_inner (m : Mem) (linked_list linked_list_element data : Nat) : Popped :=
  if linked_list_checking linked_list ≠ LINKED_LIST_SUCCESS then
    ⟨linked_list_checking linked_list, m, data⟩
  else if linked_list_element = 0 then ⟨LINKED_LIST_NO_ELEMENT, m, data⟩
  else
    -- obtain data
    let data := (m.element linked_list_element).data
    -- remove data
    if (m.list linked_list).size = 0 ∧ (m.list linked_list).tail = (m.list linked_list).head
    then
      -- linked list is empty
      let m := m.setTail linked_list 0
      let m := m.setHead linked_list 0
      ⟨LINKED_LIST_SUCCESS, m.setSize linked_list (size_t_pred (m.list linked_list).size), data⟩
    else if (m.list linked_list).size = 0 ∧
        (m.list linked_list).tail ≠ (m.list linked_list).head then
      ⟨LINKED_LIST_IRREGULAR_STRUCTURE, m, data⟩
    else if linked_list_element = (m.list linked_list).head then
      -- simplify with pop front
      linked_list_pop_front m linked_list data
    else if linked_list_element = (m.list linked_list).tail then
      -- simplify with pop back
      linked_list_pop_back m linked_list data
    else
      -- remove element in between
      let m := m.setPrevious (m.element linked_list_element).next
        (m.element linked_list_element).previous
      let m := m.setNext (m.element linked_list_element).previous
        (m.element linked_list_element).next
      -- decrease size, when the element was remove in between and not by pop
      ⟨LINKED_LIST_SUCCESS, m.setSize linked_list (size_t_pred (m.list linked_list).size), data⟩

/-! ## kernel/task.c: the priority of a task -/

/-- The function `task_set_priority`; the parameter `u8_task_priority` has the type
`uint8_t`. -/
def task_set_priority (m : Mem) (task u8_task_priority : Nat) : Nat × Mem :=
  if task_checking m task ≠ TASK_SUCCESS then (task_checking m task, m)
  else (TASK_SUCCESS, m.setTaskPrio task u8_task_priority)

/-! ## kernel/kernel.c: initialisation and start

`kernel_init` allocates with `malloc`; the function `malloc : Nat → Nat` gives the address
returned by the n-th call (`0` when that allocation fails). -/

abbrev TASK_MAX_PRIORITY : Nat := 63
abbrev KERNEL_NO_PRIORITIZED_TASKS : Nat := 1
abbrev KERNEL_NO_DELAYED_TASKS : Nat := 2
abbrev KERNEL_NO_SEMAPHORES : Nat := 8
abbrev KERNEL_NO_LIST_OF_TASKS : Nat := 21
abbrev KERNEL_NO_BLOCKED_TASKS : Nat := 22
abbrev KERNEL_NO_MUTEXES : Nat := 26
abbrev KERNEL_UNABLE_TO_CHANGE_TASK_PRIORITY : Nat := 33
abbrev KERNEL_NO_TERMINATED_TASKS_LIST : Nat := 34

/-- The globals as their initialisers leave them (kernel/kernel.c lines 72-100,
stm/kernel/kernel.c lines 57-74); the memory is not yet used. -/
def Kernel.boot : Kernel :=
  { Kernel.zero with g_dictionary_priority_next := 1 }

/-- The writes of `kernel_init` to the globals that hold its allocations. -/
def Kernel.setPrioritizedTasks (K : Kernel) (v : Nat) : Kernel := { K with g_prioritized_tasks := v }
def Kernel.setListOfTasks (K : Kernel) (v : Nat) : Kernel := { K with g_list_of_tasks := v }
def Kernel.setDelayedTasks (K : Kernel) (v : Nat) : Kernel := { K with g_delayed_tasks := v }
def Kernel.setMessageQueueList (K : Kernel) (v : Nat) : Kernel := { K with g_message_queue_list := v }
def Kernel.setSemaphoreList (K : Kernel) (v : Nat) : Kernel := { K with g_semaphore_list := v }
def Kernel.setMutexList (K : Kernel) (v : Nat) : Kernel := { K with g_mutex_list := v }
def Kernel.setBlockedTasks (K : Kernel) (v : Nat) : Kernel := { K with g_blocked_tasks := v }
def Kernel.setTerminatedTasksList (K : Kernel) (v : Nat) : Kernel := { K with g_terminated_tasks_list := v }
def Kernel.setInterruptsEnabled (K : Kernel) (v : Bool) : Kernel := { K with interrupts_enabled := v }

/-- The loop of `kernel_init` that creates the priority groups (lines 144-157), for the
`n` priorities from `priority` on; the group of the priority `i` gets the address
`malloc (2 + i)`. -/
def kernel_init_groups (malloc : Nat → Nat) : Nat → Nat → Kernel → Nat × Kernel
  | 0, _, K => (KERNEL_SUCCESS, K)
  | n + 1, priority, K =>
    let l := linked_list_create K.mem (malloc (2 + priority))
    let K := K.setMem l.2
    if l.1 ≠ LINKED_LIST_SUCCESS then
      (ERROR_INFO l.1 KERNEL_LINK_LIST_ERROR_REGISTER KERNEL_NO_PRIORITIZED_TASKS, K)
    else
      let d := dictionary_add K.mem K.g_prioritized_tasks priority (malloc (2 + priority))
      let K := K.setMem d.2
      if d.1 ≠ DICTIONARY_SUCCESS then
        (ERROR_INFO d.1 KERNEL_DICTIONARY_ERROR_REGISTER KERNEL_NO_PRIORITIZED_TASKS, K)
      else kernel_init_groups malloc n (priority + 1) K

/-- The function `kernel_init`.  `kernel_set_system_functions` installs the handlers with
the interrupts disabled and enables them again.  The calls of `malloc` are numbered in
the order in which they happen: 0 and 1 for the table of the priority groups, 2 to 65 for
the groups, 66 and 67 for the table of the tasks, 68 for the delay list, 69 to 74 for the
tables of the message queues, the semaphores and the mutexes, 75 for the blocked list and
76 for the list of the terminated tasks. -/
def kernel_init (malloc : Nat → Nat) (K : Kernel) : Nat × Kernel :=
  -- set relevant system functions, depending on the used platform
  let K := K.setInterruptsEnabled true
  -- create prioritized task list with groups
  let K := K.setPrioritizedTasks (malloc 0)
  let d := dictionary_create K.mem (malloc 0) (malloc 1) KERNEL_MAX_TASK
  let K := K.setMem d.2
  if d.1 ≠ DICTIONARY_SUCCESS then
    (ERROR_INFO d.1 KERNEL_DICTIONARY_ERROR_REGISTER KERNEL_NO_PRIORITIZED_TASKS, K)
  else
    -- add priority groups to priority list
    let g := kernel_init_groups malloc KERNEL_MAX_TASK 0 K
    let K := g.2
    if g.1 ≠ KERNEL_SUCCESS then g
    else
      -- create dictionary which lists all tasks by there linked list element
      let K := K.setListOfTasks (malloc 66)
      let d := dictionary_create K.mem (malloc 66) (malloc 67) KERNEL_MAX_TASK
      let K := K.setMem d.2
      if d.1 ≠ DICTIONARY_SUCCESS then
        (ERROR_INFO d.1 KERNEL_DICTIONARY_ERROR_REGISTER KERNEL_NO_LIST_OF_TASKS, K)
      else
        -- create linked list which lists all delayed tasks
        let K := K.setDelayedTasks (malloc 68)
        let l := linked_list_create K.mem (malloc 68)
        let K := K.setMem l.2
        if l.1 ≠ LINKED_LIST_SUCCESS then
          (ERROR_INFO l.1 KERNEL_LINK_LIST_ERROR_REGISTER KERNEL_NO_DELAYED_TASKS, K)
        else
          -- using a dictionary for a fast access of message queues
          let K := K.setMessageQueueList (malloc 69)
          let d := dictionary_create K.mem (malloc 69) (malloc 70) KERNEL_MAX_MESSAGE_QUEUE
          let K := K.setMem d.2
          if d.1 ≠ DICTIONARY_SUCCESS then (d.1, K)
          else
            -- using a dictionary for a fast access of semaphores
            let K := K.setSemaphoreList (malloc 71)
            let d := dictionary_create K.mem (malloc 71) (malloc 72) KERNEL_MAX_SEMAPHORE
            let K := K.setMem d.2
            if d.1 ≠ DICTIONARY_SUCCESS then
              (ERROR_INFO d.1 KERNEL_DICTIONARY_ERROR_REGISTER KERNEL_NO_SEMAPHORES, K)
            else
              let K := K.setMutexList (malloc 73)
              let d := dictionary_create K.mem (malloc 73) (malloc 74) KERNEL_MAX_MUTEX
              let K := K.setMem d.2
              if d.1 ≠ DICTIONARY_SUCCESS then
                (ERROR_INFO d.1 KERNEL_DICTIONARY_ERROR_REGISTER KERNEL_NO_MUTEXES, K)
              else
                let K := K.setBlockedTasks (malloc 75)
                let l := linked_list_create K.mem (malloc 75)
                let K := K.setMem l.2
                if l.1 ≠ LINKED_LIST_SUCCESS then
                  (ERROR_INFO l.1 KERNEL_LINK_LIST_ERROR_REGISTER KERNEL_NO_BLOCKED_TASKS, K)
                else
                  let K := K.setTerminatedTasksList (malloc 76)
                  let l := linked_list_create K.mem (malloc 76)
                  let K := K.setMem l.2
                  if l.1 ≠ LINKED_LIST_SUCCESS then
                    (ERROR_INFO l.1 KERNEL_LINK_LIST_ERROR_REGISTER
                      KERNEL_NO_TERMINATED_TASKS_LIST, K)
                  else (KERNEL_SUCCESS, K)

/-- The loop of `kernel_start` that rewrites the priority of every task of a group (lines
416-424), from the node `iterator` on: the status of the failing `task_set_priority` (or
`TASK_SUCCESS`) and the memory.  `fuel` bounds the number of tests of the loop
condition. -/
def kernel_start_update_priorities (task_priority : Nat) : Nat → Mem → Nat → Option (Nat × Mem)
  | 0, _, _ => none
  | fuel + 1, m, iterator =>
    if iterator = 0 then some (TASK_SUCCESS, m)
    else
      let r := task_set_priority m (m.element iterator).data task_priority
      if r.1 ≠ TASK_SUCCESS then some r
      else kernel_start_update_priorities task_priority fuel r.2 (r.2.element iterator).next

/-- The inner loop of the compaction of `kernel_start` (lines 401-430) for the empty
group `priority_group` of the priority `task_priority`: `n` is the number of iterations
left and `lower_task_priority` the loop variable.  The first non-empty group found gets
the priority `task_priority` written into its tasks and is moved into `priority_group`.
The status is `KERNEL_SUCCESS` when the loop is left by `break` or by its condition, and
the value that `kernel_start` returns when it returns from inside the loop. -/
def kernel_start_fill (fuel task_priority priority_group : Nat) :
    Nat → Nat → Kernel → Option (Nat × Kernel)
  | 0, _, K => some (KERNEL_SUCCESS, K)
  | n + 1, lower_task_priority, K =>
    let d := dictionary_get K.mem K.g_prioritized_tasks lower_task_priority 0
    if d.1 = DICTIONARY_VALUE_IS_NULL then
      kernel_start_fill fuel task_priority priority_group n (lower_task_priority + 1) K
    else if d.1 ≠ DICTIONARY_SUCCESS then
      some (ERROR_INFO d.1 KERNEL_DICTIONARY_ERROR_REGISTER
        KERNEL_UNABLE_TO_CHANGE_TASK_PRIORITY, K)
    else if (K.mem.list d.2).size = 0 then
      kernel_start_fill fuel task_priority priority_group n (lower_task_priority + 1) K
    else
      -- update priority according to the priority group, where the tasks are being reinserted
      match kernel_start_update_priorities task_priority fuel K.mem (K.mem.list d.2).tail with
      | none => none
      | some u =>
        let K := K.setMem u.2
        if u.1 ≠ TASK_SUCCESS then
          some (ERROR_INFO u.1 KERNEL_TASK_ERROR_REGISTER
            KERNEL_UNABLE_TO_CHANGE_TASK_PRIORITY, K)
        else
          let K :=
            { K with
              g_task_lower_priority := task_priority
              g_task_lowest_priority := task_priority }
          some (KERNEL_SUCCESS,
            K.setMem (linked_list_move_linked_list_after K.mem priority_group d.2).2)

/-- The loop "reallocate tasks by compacting" of `kernel_start` (lines 388-431): `n` is
the number of iterations left and `task_priority` the loop variable.  The status is
`KERNEL_SUCCESS` when the loop runs to its end, and the value that `kernel_start` returns
when it returns from inside the loop. -/
def kernel_start_compact (fuel : Nat) : Nat → Nat → Kernel → Option (Nat × Kernel)
  | 0, _, K => some (KERNEL_SUCCESS, K)
  | n + 1, task_priority, K =>
    let d := dictionary_get K.mem K.g_prioritized_tasks task_priority 0
    if d.1 ≠ DICTIONARY_SUCCESS then
      some (ERROR_INFO d.1 KERNEL_DICTIONARY_ERROR_REGISTER
        KERNEL_UNABLE_TO_CHANGE_TASK_PRIORITY, K)
    else if (K.mem.list d.2).size > 0 then
      kernel_start_compact fuel n (task_priority + 1) K
    else
      -- empty priority list discovered
      match kernel_start_fill fuel task_priority d.2 (TASK_MAX_PRIORITY + 1 - task_priority)
          task_priority K with
      | none => none
      | some r =>
        if r.1 ≠ KERNEL_SUCCESS then some r
        else kernel_start_compact fuel n (task_priority + 1) r.2

/-- The first part of `kernel_start` (lines 377-431): the status becomes `Starting` and
the priorities are compacted. -/
def kernel_start_compaction (fuel : Nat) (K : Kernel) : Option (Nat × Kernel) :=
  match kernel_set_status K EN_KERNEL_STARTING with
  | none => none
  | some s => kernel_start_compact fuel TASK_MAX_PRIORITY 0 s.2

/-! ## Sequences of context switches -/

/-- A sequence of calls of `kernel_start_task`, each with the priority group `c.1`, the
node `c.2.1` and the task `c.2.2`: the statuses and the final state. -/
def kernel_start_task_calls : List (Nat × Nat × Nat) → Kernel → Option (List Nat × Kernel)
  | [], K => some ([], K)
  | c :: cs, K =>
    match kernel_start_task K c.1 c.2.1 c.2.2 with
    | none => none
    | some r =>
      match kernel_start_task_calls cs r.2 with
      | none => none
      | some rest => some (r.1 :: rest.1, rest.2)

/-! ## A kernel with five tasks at the priorities 0, 3 and 10 -/

/-- The state after `kernel_init` on the globals at boot, the n-th call of `malloc`
returning the address `1000 + n`: the table of the priority groups is at 1000 (slots at
1001), the group of the priority `p` at `1002 + p`, the table of the tasks at 1066 (slots
at 1067), the delay list at 1068, the blocked list at 1075 and the list of the terminated
tasks at 1076. -/
def kernel_initial : Kernel :=
  (kernel_init (fun n => 1000 + n) Kernel.boot).2

/-- A sequence of calls of `kernel_add_task`, each `c` giving the address of the task
`c.1` (its control block is at `c.1 + 100` and its list node at `c.1 - 90`), the id
`c.2.1` and the priority `c.2.2`; every task has the time quantum 100, wants the event
`0x08` and has the timeout 10.  The statuses and the final state. -/
def kernel_add_tasks : List (Nat × Nat × Nat) → Kernel → List Nat × Kernel
  | [], K => ([], K)
  | c :: cs, K =>
    let r := kernel_add_task K c.1 (c.1 + 100) 0 (c.1 - 90) 0 c.2.1 c.2.2 100 8 0 10
    let rest := kernel_add_tasks cs r.2
    (r.1 :: rest.1, rest.2)

/-- The state after `kernel_init` and five calls of `kernel_add_task`: the tasks 101 and
102 (ids 1 and 2) with the priority 0, the tasks 103 and 104 (ids 3 and 4) with the
priority 3 and the task 105 (id 5) with the priority 10. -/
def kernel_five_tasks : Kernel :=
  (kernel_add_tasks [(101, 1, 0), (102, 2, 0), (103, 3, 3), (104, 4, 3), (105, 5, 10)]
    kernel_initial).2

/-- The nodes of the priority groups `0, ..., n - 1`, each group read from its tail on
(at most `fuel` nodes). -/
def priority_groups_view (K : Kernel) (fuel n : Nat) : List (List Nat) :=
  (List.range n).map (fun p =>
    list_walk K.mem fuel
      (K.mem.list (dictionary_get K.mem K.g_prioritized_tasks p 0).2).tail)

/-- The state after the compaction of `kernel_start` on `kernel_five_tasks`. -/
def kernel_five_tasks_compacted : Kernel :=
  ((kernel_start_compaction 5 kernel_five_tasks).getD (1, kernel_five_tasks)).2

/-- The state in which `kernel_start` has requested the first context switch: after the
compaction, `kernel_set_status(EN_KERNEL_RUNNING)` and the call of `kernel_start_task`
for the first task of the group of the priority 0 (lines 473-474). -/
def kernel_five_tasks_started : Kernel :=
  (((kernel_set_status kernel_five_tasks_compacted EN_KERNEL_RUNNING).bind
    (fun s => kernel_start_task s.2 1002 11 101)).getD (1, kernel_five_tasks_compacted)).2

/-- The state after the next context switch, to the task 102. -/
def kernel_five_tasks_promoted : Kernel :=
  ((kernel_start_task kernel_five_tasks_started 1002 12 102).getD
    (1, kernel_five_tasks_started)).2

/-- The promotion target of `kernel_start_task` after its reset (stm/kernel/kernel.c lines
329-331): `g_task_lower_priority`, replaced by `g_task_lowest_priority` when it is not
above the current priority. -/
def promotion_target (K : Kernel) : Nat :=
  if K.g_task_lower_priority ≤ K.g_dictionary_priority then K.g_task_lowest_priority
  else K.g_task_lower_priority

/-! ## A kernel with two priority groups -/

/-- The memory of `kernel_example` with a second priority group: the list 20 is the group
of the priority 1 and holds the nodes 15 and 16 with the tasks 105 and 106 (control
blocks 205 and 206, ids 5 and 6, priority 1). -/
def mem_two_groups : Mem :=
  { mem_kernel with
    list := fun a => if a = 20 then ⟨16, 15, 2⟩ else mem_kernel.list a
    element := fun a =>
      if a = 15 then ⟨105, 0, 16⟩ else if a = 16 then ⟨106, 15, 0⟩ else mem_kernel.element a
    task := fun a =>
      if a = 105 ∨ a = 106 then ⟨a + 100, 0, 100, 100, 0, 0, false, 0, ⟨8, 0, 0, 10⟩, 0, 0, 0⟩
      else mem_kernel.task a
    tcb := fun a =>
      if a = 205 ∨ a = 206 then ⟨a - 200, 1, TaskState_Ready, 0⟩ else mem_kernel.tcb a
    slots := fun a i =>
      if a = 41 ∧ i = 1 then 20 else if a = 51 ∧ (i = 5 ∨ i = 6) then 100 + i
      else mem_kernel.slots a i }

/-- The kernel of `kernel_example` over `mem_two_groups`: task 101 of the priority 0 runs,
the lowest occupied priority and the promotion target are 1, the cooldown is 0. -/
def kernel_two_groups : Kernel :=
  { kernel_example with
    mem := mem_two_groups
    g_task_lower_priority := 1
    g_task_lowest_priority := 1
    g_available_tasks := 6 }

/-- The kernel `kernel_two_groups` after task 105 (node 15 of the group 20, priority 1) has
called `kernel_delay(5)` and task 104, the head of the group 2 of the priority 0, has been
started: node 15 waits in the delay list 7 and the current iterator is node 14. -/
def kernel_two_groups_delayed : Kernel :=
  (((kernel_delay 10 (kernel_two_groups.run 20 15 105) 5).getD (1, kernel_two_groups)).2.run
    2 14 104)

/-! ## A receive with timeout that expires, followed by a late event -/

/-- The state in which `kernel_event_receive_timeout` suspends the running task of `K`, or
`K` itself when the call returns without suspending. -/
def kernel_event_receive_timeout_parked (fuel : Nat) (K : Kernel) : Kernel :=
  match kernel_event_receive_timeout fuel K 0 with
  | some (Blocking.swapped K1) => K1
  | _ => K

/-- The kernel `kernel_example` after task 101 has called `kernel_event_receive_timeout`
(wanted events `0x08`, timeout 10) and task 102 of the node 12 has been started: node 11
waits in the delay list 7 with the delta 10. -/
def kernel_example_receiving : Kernel :=
  (kernel_event_receive_timeout_parked 5 kernel_example).run 2 12 102

/-- The state of `kernel_example_receiving` after ten ticks: the delta of task 101 is 0. -/
def kernel_example_timed_out : Kernel :=
  (kernel_update_times 10 kernel_example_receiving).getD kernel_example_receiving

/-- The state of `kernel_example_receiving` after eleven ticks: the tick handler has moved
node 11 back to the priority group 2. -/
def kernel_example_woken : Kernel :=
  (kernel_update kernel_example_timed_out).getD kernel_example_timed_out

/-- The state after task 103 of the node 13 has called `kernel_delay(50)` in
`kernel_example_woken` and task 104 of the node 14 has been started. -/
def kernel_example_woken_delay : Kernel :=
  ((kernel_delay 5 (kernel_example_woken.run 2 13 103) 50).getD
    (1, kernel_example_woken)).2.run 2 14 104

/-- The call `kernel_event_send(1, 0x08)` by task 104 in `kernel_example_woken_delay`:
the event that task 101 had waited for arrives after its timeout. -/
def kernel_example_late_event : Nat × Kernel :=
  kernel_event_send (fun _ r _ => r) kernel_example_woken_delay 1 8

/-- The fields of a list header and the nodes met when following `next` from its tail. -/
def list_view (K : Kernel) (l fuel : Nat) : List Nat × List Nat :=
  ([(K.mem.list l).head, (K.mem.list l).tail, (K.mem.list l).size],
    list_walk K.mem fuel (K.mem.list l).tail)

/-! ## The table of the priority groups -/

/-- The address of the priority group of the priority `p`: the value that
`dictionary_get(&g_prioritized_tasks, p, ...)` hands out. -/
def priority_group_of (K : Kernel) (p : Nat) : Nat :=
  (dictionary_get K.mem K.g_prioritized_tasks p 0).2

/-- The control block of the task held by the node `x`. -/
def node_tcb (m : Mem) (x : Nat) : Nat := (m.task (m.element x).data).task_data

/-- The table of the priority groups holds, for every priority `p` below
`KERNEL_MAX_TASK`, a well-formed list with the nodes `c p` (read from tail to head): every
slot is set, the groups are different lists with different nodes, every node holds a
valid task whose priority field is `p`, and different nodes hold tasks with different
control blocks. -/
def priority_table (K : Kernel) (c : Nat → List Nat) : Prop :=
  (∀ p < KERNEL_MAX_TASK,
    (dictionary_get K.mem K.g_prioritized_tasks p 0).1 = DICTIONARY_SUCCESS) ∧
  (∀ p < KERNEL_MAX_TASK, ∀ q < KERNEL_MAX_TASK, p ≠ q →
    priority_group_of K p ≠ priority_group_of K q) ∧
  (∀ p < KERNEL_MAX_TASK, IsList K.mem.element (K.mem.list (priority_group_of K p)) (c p)) ∧
  (∀ p < KERNEL_MAX_TASK, ∀ q < KERNEL_MAX_TASK, p ≠ q → ∀ x ∈ c p, x ∉ c q) ∧
  (∀ p < KERNEL_MAX_TASK, ∀ x ∈ c p,
    task_checking K.mem (K.mem.element x).data = TASK_SUCCESS ∧
    (K.mem.tcb (node_tcb K.mem x)).u8TaskPrio = p) ∧
  (∀ p < KERNEL_MAX_TASK, ∀ q < KERNEL_MAX_TASK, ∀ x ∈ c p, ∀ y ∈ c q, x ≠ y →
    node_tcb K.mem x ≠ node_tcb K.mem y)

/-- The nodes of the priority groups of `kernel_five_tasks`. -/
def five_tasks_groups (p : Nat) : List Nat :=
  if p = 0 then [11, 12] else if p = 3 then [13, 14] else if p = 10 then [15] else []

/-- The tracked lowest occupied priority `low` is the greatest priority with a task, as
`kernel_add_task` leaves it (kernel/kernel.c lines 356-360). -/
def lowest_tracked (c : Nat → List Nat) (low : Nat) : Prop :=
  (∀ j < KERNEL_MAX_TASK, c j ≠ [] → j ≤ low) ∧
  ((∃ j < KERNEL_MAX_TASK, c j ≠ []) → low < KERNEL_MAX_TASK ∧ c low ≠ [])

/-- What holds when the compaction loop of `kernel_start` tests its condition with the
loop variable `p`: no group has been moved yet and the groups below `p` are occupied, or
the last iteration has filled the group `p - 1`, or all groups from some priority on are
empty. -/
def compaction_state (p : Nat) (c : Nat → List Nat) (low : Nat) : Prop :=
  ((∀ i < p, c i ≠ []) ∧ lowest_tracked c low) ∨
  (∃ s, p = s + 1 ∧ (∀ i ≤ s, c i ≠ []) ∧ low = s ∧ c p = []) ∨
  (∃ p0 ≤ p, (∀ i < p0, c i ≠ []) ∧ (∀ j, p0 ≤ j → j < KERNEL_MAX_TASK → c j = []) ∧
    lowest_tracked c low)

/-- The groups `c2` are the groups `c` moved to smaller priorities: every group of `c` is
a group of `c2` at a priority that is not greater, every group of `c2` comes from `c`,
and two groups keep their order. -/
def groups_compacted (c c2 : Nat → List Nat) : Prop :=
  (∀ p < KERNEL_MAX_TASK, c p ≠ [] → ∃ p2 ≤ p, c2 p2 = c p) ∧
  (∀ p2 < KERNEL_MAX_TASK, c2 p2 ≠ [] → ∃ p < KERNEL_MAX_TASK, p2 ≤ p ∧ c p = c2 p2) ∧
  (∀ p q, p < q → q < KERNEL_MAX_TASK → c p ≠ [] → c q ≠ [] →
    ∃ p2 q2, p2 < q2 ∧ q2 ≤ q ∧ c2 p2 = c p ∧ c2 q2 = c q)
set_option linter.unusedTactic false
set_option linter.unreachableTactic false
set_option linter.unusedVariables false

/-! ## Lemmas on lists and segments -/

theorem getLastD_append (l1 l2 : List Nat) (d : Nat) :
    (l1 ++ l2).getLastD d = l2.getLastD (l1.getLastD d) := by
  induction l1 generalizing d with
  | nil => simp
  | cons x xs ih => rw [List.cons_append, List.getLastD_cons, List.getLastD_cons, ih]
theorem headD_append (l1 l2 : List Nat) (d : Nat) :
    (l1 ++ l2).headD d = l1.headD (l2.headD d) := by
  cases l1 <;> simp
theorem getLastD_mem {xs : List Nat} (h : xs ≠ []) (d : Nat) : xs.getLastD d ∈ xs := by
  induction xs generalizing d with
  | nil => exact absurd rfl h
  | cons y ys ih =>
    rw [List.getLastD_cons]
    cases ys with
    | nil => simp
    | cons z zs => exact List.mem_cons_of_mem _ (ih (by simp) y)
theorem getLastD_of_ne_nil {xs : List Nat} (h : xs ≠ []) (a b : Nat) :
    xs.getLastD a = xs.getLastD b := by
  cases xs with
  | nil => exact absurd rfl h
  | cons y ys => rw [List.getLastD_cons, List.getLastD_cons]

theorem headD_mem {xs : List Nat} (h : xs ≠ []) (d : Nat) : xs.headD d ∈ xs := by
  cases xs with
  | nil => exact absurd rfl h
  | cons y ys => simp

theorem Seg_append (E : Nat → linked_list_element_t) (l1 l2 : List Nat) (p n : Nat) :
    Seg E p (l1 ++ l2) n ↔ Seg E p l1 (l2.headD n) ∧ Seg E (l1.getLastD p) l2 n := by
  induction l1 generalizing p with
  | nil => simp [Seg]
  | cons x xs ih =>
    have h1 : (xs ++ l2).headD n = xs.headD (l2.headD n) := by cases xs <;> simp
    have h2 : (x :: xs).getLastD p = xs.getLastD x := by cases xs <;> simp [List.getLastD]
    show (x ≠ 0 ∧ (E x).previous = p ∧ (E x).next = (xs ++ l2).headD n ∧ Seg E x (xs ++ l2) n) ↔
      (x ≠ 0 ∧ (E x).previous = p ∧ (E x).next = xs.headD (l2.headD n) ∧
        Seg E x xs (l2.headD n)) ∧ Seg E ((x :: xs).getLastD p) l2 n
    rw [h1, h2, ih x]
    tauto

theorem Seg_nonzero {E : Nat → linked_list_element_t} {xs : List Nat} {p n : Nat}
    (h : Seg E p xs n) : ∀ x ∈ xs, x ≠ 0 := by
  induction xs generalizing p with
  | nil => simp
  | cons y ys ih =>
    obtain ⟨h0, -, -, h3⟩ := h
    intro x hx
    rcases List.mem_cons.1 hx with rfl | hx
    · exact h0
    · exact ih h3 x hx

theorem Seg_congr {E E' : Nat → linked_list_element_t} {xs : List Nat} {p n : Nat}
    (h : Seg E p xs n)
    (hprev : ∀ x ∈ xs, (E' x).previous = (E x).previous)
    (hnext : ∀ x ∈ xs, (E' x).next = (E x).next) : Seg E' p xs n := by
  induction xs generalizing p with
  | nil => trivial
  | cons y ys ih =>
    obtain ⟨h0, h1, h2, h3⟩ := h
    refine ⟨h0, ?_, ?_, ?_⟩
    · rw [hprev y (List.mem_cons_self _ _), h1]
    · rw [hnext y (List.mem_cons_self _ _), h2]
    · exact ih h3 (fun x hx => hprev x (List.mem_cons_of_mem _ hx))
        (fun x hx => hnext x (List.mem_cons_of_mem _ hx))

/-- Redirect the `next` of the last node of a segment; the other links are kept. -/
theorem Seg_retarget_end {E E' : Nat → linked_list_element_t} {xs : List Nat} {p n n' : Nat}
    (h : Seg E p xs n) (hnd : xs.Nodup)
    (hprev : ∀ x ∈ xs, (E' x).previous = (E x).previous)
    (hnext : ∀ x ∈ xs, x ≠ xs.getLastD 0 → (E' x).next = (E x).next)
    (hlast : xs ≠ [] → (E' (xs.getLastD 0)).next = n') :
    Seg E' p xs n' := by
  induction xs generalizing p with
  | nil => trivial
  | cons y ys ih =>
    obtain ⟨h0, h1, h2, h3⟩ := h
    have hy : y ∉ ys := (List.nodup_cons.1 hnd).1
    have hl : ∀ z zs, (y :: z :: zs).getLastD 0 = (z :: zs).getLastD 0 := by
      intro z zs; rw [List.getLastD_cons, List.getLastD_cons, List.getLastD_cons]
    refine ⟨h0, ?_, ?_, ?_⟩
    · rw [hprev y (List.mem_cons_self _ _), h1]
    · cases ys with
      | nil => simpa using hlast (by simp)
      | cons z zs =>
        have hne : y ≠ (y :: z :: zs).getLastD 0 := by
          rw [hl]
          intro hEq
          exact hy (hEq ▸ getLastD_mem (by simp) 0)
        rw [hnext y (List.mem_cons_self _ _) hne, h2]
        rfl
    · apply ih h3 (List.nodup_cons.1 hnd).2
      · intro x hx; exact hprev x (List.mem_cons_of_mem _ hx)
      · intro x hx hne
        apply hnext x (List.mem_cons_of_mem _ hx)
        cases ys with
        | nil => simp at hx
        | cons z zs => rwa [hl]
      · intro hne
        have := hlast (by simp)
        cases ys with
        | nil => exact absurd rfl hne
        | cons z zs => rwa [hl] at this

/-- Redirect the `previous` of the first node of a segment; the other links are kept. -/
theorem Seg_retarget_start {E E' : Nat → linked_list_element_t} {xs : List Nat} {p p' n : Nat}
    (h : Seg E p xs n) (hnd : xs.Nodup)
    (hnext : ∀ x ∈ xs, (E' x).next = (E x).next)
    (hprev : ∀ x ∈ xs, x ≠ xs.headD 0 → (E' x).previous = (E x).previous)
    (hfirst : xs ≠ [] → (E' (xs.headD 0)).previous = p') :
    Seg E' p' xs n := by
  cases xs with
  | nil => trivial
  | cons y ys =>
    obtain ⟨h0, _, h2, h3⟩ := h
    have hy : y ∉ ys := (List.nodup_cons.1 hnd).1
    refine ⟨h0, by simpa using hfirst (by simp), ?_, ?_⟩
    · rw [hnext y (List.mem_cons_self _ _), h2]
    · apply Seg_congr h3
      · intro x hx
        apply hprev x (List.mem_cons_of_mem _ hx)
        simp only [List.headD_cons]
        rintro rfl
        exact hy hx
      · intro x hx
        exact hnext x (List.mem_cons_of_mem _ hx)

/-! ## The two halves of `linked_list_transfer` -/

theorem OnlyLists.refl (m : Mem) : OnlyLists m m := rfl

theorem OnlyLists.trans {m m1 m2 : Mem} (h1 : OnlyLists m m1) (h2 : OnlyLists m1 m2) :
    OnlyLists m m2 := by
  unfold OnlyLists at *
  cases m; cases m1; cases m2
  simp only [Mem.mk.injEq] at *
  simp_all

theorem OnlyLists.semaphore {m m2 : Mem} (h : OnlyLists m m2) : m2.semaphore = m.semaphore := by
  unfold OnlyLists at h; rw [h]

theorem OnlyLists.mutex {m m2 : Mem} (h : OnlyLists m m2) : m2.mutex = m.mutex := by
  unfold OnlyLists at h; rw [h]




theorem unlink_spec (m : Mem) (src e pv nx : Nat)
    (hpv : (m.element e).previous = pv) (hnx : (m.element e).next = nx)
    (hpe : pv ≠ e) (hne : nx ≠ e) (hpn : pv = nx → pv = 0)
    (hhead : e = (m.list src).head ↔ nx = 0) (htail : e = (m.list src).tail ↔ pv = 0) :
    (∀ x, x ≠ e → ((linked_list_unlink m src e).element x).next =
        if x = pv ∧ pv ≠ 0 then nx else (m.element x).next) ∧
    (∀ x, x ≠ e → ((linked_list_unlink m src e).element x).previous =
        if x = nx ∧ nx ≠ 0 then pv else (m.element x).previous) ∧
    ((linked_list_unlink m src e).element e).next = 0 ∧
    ((linked_list_unlink m src e).element e).previous = 0 ∧
    (∀ x, ((linked_list_unlink m src e).element x).data = (m.element x).data) ∧
    ((linked_list_unlink m src e).list src).head = (if nx = 0 then pv else (m.list src).head) ∧
    ((linked_list_unlink m src e).list src).tail = (if pv = 0 then nx else (m.list src).tail) ∧
    ((linked_list_unlink m src e).list src).size = (m.list src).size - 1 ∧
    (∀ l, l ≠ src → (linked_list_unlink m src e).list l = m.list l) ∧
    OnlyLists m (linked_list_unlink m src e) := by
  have hpe' : e ≠ pv := Ne.symm hpe
  have hne' : e ≠ nx := Ne.symm hne
  by_cases h1 : nx = 0 <;> by_cases h2 : pv = 0
  all_goals
    have hh := hhead
    have ht := htail
    simp only [h1, h2, iff_true, iff_false] at hh ht
  · -- only node
    have hh' : (m.list src).head = e := hh.symm
    have ht' : (m.list src).tail = e := ht.symm
    subst h1 h2
    simp [linked_list_unlink, Mem.setHead, Mem.setNext, Mem.setPrevious, Mem.setTail,
      Mem.setSize, Function.update_apply, OnlyLists, hh', ht', hpv, hnx]
    refine ⟨fun x hx => by simp [hx], fun x hx => by simp [hx],
      fun x => by split_ifs with h <;> simp [h], fun l h1 h2 => absurd h2 h1⟩
  · -- head, not tail
    have hh' : (m.list src).head = e := hh.symm
    subst h1
    simp [linked_list_unlink, Mem.setHead, Mem.setNext, Mem.setPrevious, Mem.setTail,
      Mem.setSize, Function.update_apply, OnlyLists, hh', ht, hpv, hnx, h2, hpe, hpe']
    refine ⟨fun x hx => ?_, fun x hx => ?_, fun x => ?_, fun l h1 h2 => absurd h2 h1⟩ <;>
      split_ifs with hA hB <;> first | rfl | (subst hA; rfl) | (subst hB; rfl) | (exact absurd hA hx) | simp
  · -- tail, not head
    have ht' : (m.list src).tail = e := ht.symm
    subst h2
    simp [linked_list_unlink, Mem.setHead, Mem.setNext, Mem.setPrevious, Mem.setTail,
      Mem.setSize, Function.update_apply, OnlyLists, ht', hh, hpv, hnx, h1, hne, hne']
    refine ⟨fun x hx => ?_, fun x hx => ?_, fun x => ?_, fun l h1 h2 => absurd h2 h1⟩ <;>
      split_ifs with hA hB <;> first | rfl | (subst hA; rfl) | (subst hB; rfl) | (exact absurd hA hx) | simp
  · have hpn' : pv ≠ nx := fun h => h2 (hpn h)
    simp [linked_list_unlink, Mem.setHead, Mem.setNext, Mem.setPrevious, Mem.setTail,
      Mem.setSize, Function.update_apply, OnlyLists, ht, hh, hpv, hnx, h1, h2, hne, hpe, hne', hpe', hpn']
    refine ⟨fun x hx => ?_, fun x hx => ?_, fun x => ?_, fun l h1 h2 => absurd h2 h1⟩ <;>
      split_ifs with hA hB hC <;>
      first
      | rfl | (subst hA; rfl) | (subst hB; rfl) | (subst hC; rfl) | (exact absurd hA hx)
      | (exact absurd (hA.symm.trans hB) hpn') | simp

theorem link_head_spec (m : Mem) (dst e : Nat) :
    (∀ x, ((linked_list_link_head m dst e).element x).next =
        if x = (m.list dst).head ∧ (m.list dst).size ≠ 0 then e else (m.element x).next) ∧
    (∀ x, ((linked_list_link_head m dst e).element x).previous =
        if x = e ∧ (m.list dst).size ≠ 0 then (m.list dst).head else (m.element x).previous) ∧
    (∀ x, ((linked_list_link_head m dst e).element x).data = (m.element x).data) ∧
    ((linked_list_link_head m dst e).list dst).head = e ∧
    ((linked_list_link_head m dst e).list dst).tail =
      (if (m.list dst).size = 0 then e else (m.list dst).tail) ∧
    ((linked_list_link_head m dst e).list dst).size = (m.list dst).size + 1 ∧
    (∀ l, l ≠ dst → (linked_list_link_head m dst e).list l = m.list l) ∧
    OnlyLists m (linked_list_link_head m dst e) := by
  by_cases h : (m.list dst).size = 0
  · simp [linked_list_link_head, Mem.setHead, Mem.setNext, Mem.setPrevious, Mem.setTail,
      Mem.setSize, Function.update_apply, OnlyLists, h]
    exact fun l h1 h2 => absurd h2 h1
  · simp [linked_list_link_head, Mem.setHead, Mem.setNext, Mem.setPrevious, Mem.setTail,
      Mem.setSize, Function.update_apply, OnlyLists, h]
    refine ⟨fun x => ?_, fun x => ?_, fun x => ?_, fun l h1 h2 => absurd h2 h1⟩ <;>
      split_ifs with hA hB hC <;>
      first
      | rfl | (subst hA; rfl) | (subst hB; rfl) | (subst hC; rfl) | (exfalso; omega)
      | (subst hA; rw [← hB])

theorem element_ext {a b : linked_list_element_t} (h1 : a.data = b.data)
    (h2 : a.previous = b.previous) (h3 : a.next = b.next) : a = b := by
  cases a; cases b; simp_all

theorem IsList.frame {E E' : Nat → linked_list_element_t} {l l' : linked_list_t}
    {zs : List Nat} (h : IsList E l zs) (hl : l' = l) (hE : ∀ x ∈ zs, E' x = E x) :
    IsList E' l' zs := by
  obtain ⟨h1, h2, h3, h4, h5⟩ := h
  subst hl
  exact ⟨h1, Seg_congr h2 (fun x hx => by rw [hE x hx]) (fun x hx => by rw [hE x hx]),
    h3, h4, h5⟩

theorem IsList.nonzero {E : Nat → linked_list_element_t} {l : linked_list_t}
    {zs : List Nat} (h : IsList E l zs) : ∀ x ∈ zs, x ≠ 0 :=
  Seg_nonzero h.2.1

/-- Facts about a node `e` of a represented list `l1 ++ e :: l2`. -/
theorem IsList.split_facts {E : Nat → linked_list_element_t} {l : linked_list_t}
    {l1 l2 : List Nat} {e : Nat} (h : IsList E l (l1 ++ e :: l2)) :
    e ≠ 0 ∧ e ∉ l1 ∧ e ∉ l2 ∧ l1.Nodup ∧ l2.Nodup ∧ (∀ x ∈ l1, x ∉ l2) ∧
    (E e).previous = l1.getLastD 0 ∧ (E e).next = l2.headD 0 ∧
    Seg E 0 l1 e ∧ Seg E e l2 0 ∧
    l.tail = l1.headD e ∧ l.head = l2.getLastD e ∧ l.size = l1.length + l2.length + 1 := by
  obtain ⟨h1, h2, h3, h4, h5⟩ := h
  rw [Seg_append] at h2
  obtain ⟨s1, s0, s2, s3, s4⟩ := h2
  rw [List.nodup_append] at h1
  obtain ⟨n1, n2, n3⟩ := h1
  rw [List.nodup_cons] at n2
  refine ⟨s0, ?_, n2.1, n1, n2.2, ?_, s2, s3, by simpa using s1, s4, ?_, ?_, ?_⟩
  · intro he
    exact n3 he (List.mem_cons_self _ _)
  · intro x hx hx2
    exact n3 hx (List.mem_cons_of_mem _ hx2)
  · rw [h3, headD_append]; rfl
  · rw [h4, getLastD_append, List.getLastD_cons]
  · rw [h5]; simp; omega

/-- Removing the node `e` from the represented list `l1 ++ e :: l2` leaves the list
`l1 ++ l2`, resets the links of `e` and touches no node outside the list. -/
theorem unlink_isList {m : Mem} {src e : Nat} {l1 l2 : List Nat}
    (h : IsList m.element (m.list src) (l1 ++ e :: l2)) :
    IsList (linked_list_unlink m src e).element ((linked_list_unlink m src e).list src)
      (l1 ++ l2) ∧
    ((linked_list_unlink m src e).element e).next = 0 ∧
    ((linked_list_unlink m src e).element e).previous = 0 ∧
    (∀ x, x ∉ l1 ++ e :: l2 → (linked_list_unlink m src e).element x = m.element x) ∧
    (∀ x, ((linked_list_unlink m src e).element x).data = (m.element x).data) ∧
    (∀ l, l ≠ src → (linked_list_unlink m src e).list l = m.list l) ∧
    OnlyLists m (linked_list_unlink m src e) := by
  obtain ⟨e0, e1, e2, n1, n2, dj, hp, hn, s1, s2, ht, hh, hs⟩ := h.split_facts
  have z1 : ∀ x ∈ l1, x ≠ 0 := Seg_nonzero s1
  have z2 : ∀ x ∈ l2, x ≠ 0 := Seg_nonzero s2
  have pvmem : l1 ≠ [] → l1.getLastD 0 ∈ l1 := fun hne => getLastD_mem hne 0
  have nxmem : l2 ≠ [] → l2.headD 0 ∈ l2 := fun hne => headD_mem hne 0
  have pv0 : l1.getLastD 0 = 0 ↔ l1 = [] := by
    constructor
    · intro h0
      by_contra hne
      exact z1 _ (pvmem hne) h0
    · rintro rfl; rfl
  have nx0 : l2.headD 0 = 0 ↔ l2 = [] := by
    constructor
    · intro h0
      by_contra hne
      exact z2 _ (nxmem hne) h0
    · rintro rfl; rfl
  have hpe : l1.getLastD 0 ≠ e := by
    intro hEq
    by_cases hne : l1 = []
    · subst hne; exact e0 hEq.symm
    · exact e1 (hEq ▸ pvmem hne)
  have hne : l2.headD 0 ≠ e := by
    intro hEq
    by_cases hne : l2 = []
    · subst hne; exact e0 hEq.symm
    · exact e2 (hEq ▸ nxmem hne)
  have hpn : l1.getLastD 0 = l2.headD 0 → l1.getLastD 0 = 0 := by
    intro hEq
    by_contra h0
    have hl1 : l1 ≠ [] := fun hc => h0 (pv0.2 hc)
    have hl2 : l2 ≠ [] := fun hc => h0 (hEq.trans (nx0.2 hc))
    exact dj _ (pvmem hl1) (hEq ▸ nxmem hl2)
  have hhead : e = (m.list src).head ↔ l2.headD 0 = 0 := by
    rw [nx0, hh]
    constructor
    · intro hEq
      by_contra hl2
      exact e2 (hEq ▸ getLastD_mem hl2 e)
    · rintro rfl; rfl
  have htail : e = (m.list src).tail ↔ l1.getLastD 0 = 0 := by
    rw [pv0, ht]
    constructor
    · intro hEq
      by_contra hl1
      exact e1 (hEq ▸ headD_mem hl1 e)
    · rintro rfl; rfl
  obtain ⟨q1, q2, q3, q4, q5, q6, q7, q8, q9, q10⟩ :=
    unlink_spec m src e _ _ hp hn hpe hne hpn hhead htail
  have x1 : ∀ x ∈ l1, x ≠ e := fun x hx hEq => e1 (hEq ▸ hx)
  have x2 : ∀ x ∈ l2, x ≠ e := fun x hx hEq => e2 (hEq ▸ hx)
  refine ⟨⟨?_, ?_, ?_, ?_, ?_⟩, q3, q4, ?_, q5, q9, q10⟩
  · exact List.nodup_append.2 ⟨n1, n2, fun x hx hx2 => dj x hx hx2⟩
  · rw [Seg_append]
    constructor
    · apply Seg_retarget_end s1 n1
      · intro x hx
        rw [q2 x (x1 x hx), if_neg]
        rintro ⟨hEq, hnz⟩
        exact dj x hx (hEq ▸ nxmem (fun hc => hnz (nx0.2 hc)))
      · intro x hx hxl
        rw [q1 x (x1 x hx), if_neg]
        rintro ⟨hEq, -⟩
        exact hxl hEq
      · intro hl1
        rw [q1 _ hpe, if_pos ⟨rfl, fun hc => hl1 (pv0.1 hc)⟩]
    · apply Seg_retarget_start s2 n2
      · intro x hx
        rw [q1 x (x2 x hx), if_neg]
        rintro ⟨hEq, hnz⟩
        exact dj x (hEq ▸ pvmem (fun hc => hnz (pv0.2 hc))) hx
      · intro x hx hxl
        rw [q2 x (x2 x hx), if_neg]
        rintro ⟨hEq, -⟩
        exact hxl hEq
      · intro hl2
        rw [q2 _ hne, if_pos ⟨rfl, fun hc => hl2 (nx0.1 hc)⟩]
  · rw [q7, headD_append]
    split_ifs with hc
    · rw [pv0.1 hc]; rfl
    · rw [ht]
      exact (by
        cases l1 with
        | nil => exact absurd rfl (fun hc2 => hc (pv0.2 hc2))
        | cons y ys => rfl)
  · rw [q6, getLastD_append]
    split_ifs with hc
    · rw [nx0.1 hc]; rfl
    · rw [hh]
      exact getLastD_of_ne_nil (fun hc2 => hc (nx0.2 hc2)) _ _
  · rw [q8, hs, List.length_append]; omega
  · intro x hx
    have hxe : x ≠ e := fun hEq => hx (by simp [hEq])
    apply element_ext (q5 x)
    · rw [q2 x hxe, if_neg]
      rintro ⟨hEq, hnz⟩
      apply hx
      rw [hEq]
      exact List.mem_append_right _ (List.mem_cons_of_mem _ (nxmem (fun hc => hnz (nx0.2 hc))))
    · rw [q1 x hxe, if_neg]
      rintro ⟨hEq, hnz⟩
      apply hx
      rw [hEq]
      exact List.mem_append_left _ (pvmem (fun hc => hnz (pv0.2 hc)))

/-- Inserting the unlinked node `e` at the head of the represented list `ys` gives the
list `ys ++ [e]` and touches no node other than `e` and the old head. -/
theorem link_head_isList {m : Mem} {dst e : Nat} {ys : List Nat}
    (h : IsList m.element (m.list dst) ys) (he0 : e ≠ 0) (hey : e ∉ ys)
    (hn : (m.element e).next = 0) (hp : (m.element e).previous = 0) :
    IsList (linked_list_link_head m dst e).element ((linked_list_link_head m dst e).list dst)
      (ys ++ [e]) ∧
    (∀ x, x ∉ ys → x ≠ e → (linked_list_link_head m dst e).element x = m.element x) ∧
    (∀ x, ((linked_list_link_head m dst e).element x).data = (m.element x).data) ∧
    (∀ l, l ≠ dst → (linked_list_link_head m dst e).list l = m.list l) ∧
    OnlyLists m (linked_list_link_head m dst e) := by
  obtain ⟨nd, sg, ht, hh, hs⟩ := h
  obtain ⟨q1, q2, q3, q4, q5, q6, q7, q8⟩ := link_head_spec m dst e
  have z : ∀ x ∈ ys, x ≠ 0 := Seg_nonzero sg
  have sz : (m.list dst).size = 0 ↔ ys = [] := by
    rw [hs]; exact List.length_eq_zero
  have hdmem : ys ≠ [] → (m.list dst).head ∈ ys := fun hne => hh ▸ getLastD_mem hne 0
  refine ⟨⟨?_, ?_, ?_, ?_, ?_⟩, ?_, q3, q7, q8⟩
  · rw [List.nodup_append]
    refine ⟨nd, List.nodup_singleton e, ?_⟩
    intro x hx hx2
    rw [List.mem_singleton] at hx2
    exact hey (hx2 ▸ hx)
  · rw [Seg_append]
    constructor
    · apply Seg_retarget_end sg nd
      · intro x hx
        rw [q2, if_neg]
        rintro ⟨hEq, -⟩
        exact hey (hEq ▸ hx)
      · intro x hx hxl
        rw [q1, if_neg]
        rintro ⟨hEq, -⟩
        exact hxl (hEq.trans hh)
      · intro hne
        rw [← hh, q1, if_pos ⟨rfl, fun hc => hne (sz.1 hc)⟩]
        rfl
    · refine ⟨he0, ?_, ?_, trivial⟩
      · rw [q2]
        split_ifs with hc
        · exact hh
        · have : ys = [] := by
            by_contra hne
            exact hc ⟨rfl, fun h0 => hne (sz.1 h0)⟩
          rw [hp, this]; rfl
      · rw [q1, if_neg, hn]; rfl
        rintro ⟨hEq, hnz⟩
        exact hey (hEq ▸ hdmem (fun hc => hnz (sz.2 hc)))
  · rw [q5, headD_append]
    split_ifs with hc
    · rw [sz.1 hc]; rfl
    · rw [ht]
      exact (by
        cases ys with
        | nil => exact absurd rfl (fun hc2 => hc (sz.2 hc2))
        | cons y ys => rfl)
  · rw [q4, getLastD_append]; rfl
  · rw [q6, hs, List.length_append]; rfl
  · intro x hx hxe
    apply element_ext (q3 x)
    · rw [q2, if_neg]
      rintro ⟨hEq, -⟩
      exact hxe hEq
    · rw [q1, if_neg]
      rintro ⟨hEq, hnz⟩
      exact hx (hEq ▸ hdmem (fun hc => hnz (sz.2 hc)))

theorem transfer_eq {m : Mem} {dst src e : Nat} (hd0 : dst ≠ 0) (hs0 : src ≠ 0) (he0 : e ≠ 0)
    (hsz : (m.list src).size ≠ 0) :
    linked_list_transfer m dst src e =
      (LINKED_LIST_SUCCESS, linked_list_link_head (linked_list_unlink m src e) dst e) := by
  simp [linked_list_transfer, linked_list_checking, linked_list_element_checking, hd0, hs0,
    he0, hsz]

/-- The effect of `linked_list_transfer` on represented lists: the node `e` leaves the
source `l1 ++ e :: l2` and becomes the new head of the destination `ys`. -/
theorem transfer_isList {m : Mem} {dst src e : Nat} {ys l1 l2 : List Nat}
    (hd0 : dst ≠ 0) (hs0 : src ≠ 0) (hds : dst ≠ src)
    (hsrc : IsList m.element (m.list src) (l1 ++ e :: l2))
    (hdst : IsList m.element (m.list dst) ys)
    (hdj : ∀ x ∈ ys, x ∉ l1 ++ e :: l2) :
    (linked_list_transfer m dst src e).1 = LINKED_LIST_SUCCESS ∧
    IsList (linked_list_transfer m dst src e).2.element
      ((linked_list_transfer m dst src e).2.list dst) (ys ++ [e]) ∧
    IsList (linked_list_transfer m dst src e).2.element
      ((linked_list_transfer m dst src e).2.list src) (l1 ++ l2) ∧
    (∀ x, x ∉ ys → x ∉ l1 ++ e :: l2 →
      (linked_list_transfer m dst src e).2.element x = m.element x) ∧
    (∀ x, ((linked_list_transfer m dst src e).2.element x).data = (m.element x).data) ∧
    (∀ l, l ≠ dst → l ≠ src → (linked_list_transfer m dst src e).2.list l = m.list l) ∧
    OnlyLists m (linked_list_transfer m dst src e).2 := by
  have he0 : e ≠ 0 := hsrc.split_facts.1
  have hsz : (m.list src).size ≠ 0 := by
    rw [hsrc.2.2.2.2]; simp
  rw [transfer_eq hd0 hs0 he0 hsz]
  obtain ⟨u1, u2, u3, u4, u5, u6, u7⟩ := unlink_isList hsrc
  have hey : e ∉ ys := fun hc => hdj e hc (by simp)
  have hdst1 : IsList (linked_list_unlink m src e).element
      ((linked_list_unlink m src e).list dst) ys :=
    hdst.frame (u6 dst hds) (fun x hx => u4 x (hdj x hx))
  obtain ⟨k1, k2, k3, k4, k5⟩ := link_head_isList hdst1 he0 hey u2 u3
  refine ⟨rfl, k1, ?_, ?_, ?_, ?_, ?_⟩
  · apply u1.frame (k4 src (Ne.symm hds))
    intro x hx
    apply k2 x
    · intro hxy
      apply hdj x hxy
      rcases List.mem_append.1 hx with h1 | h2
      · exact List.mem_append_left _ h1
      · exact List.mem_append_right _ (List.mem_cons_of_mem _ h2)
    · rintro rfl
      obtain ⟨-, e1, e2, -⟩ := hsrc.split_facts
      rcases List.mem_append.1 hx with h1 | h2
      · exact e1 h1
      · exact e2 h2
  · intro x hx1 hx2
    show (linked_list_link_head (linked_list_unlink m src e) dst e).element x = m.element x
    rw [k2 x hx1 (fun hc => hx2 (by simp [hc])), u4 x hx2]
  · intro x
    show ((linked_list_link_head (linked_list_unlink m src e) dst e).element x).data = _
    rw [k3, u5]
  · intro l h1 h2
    show (linked_list_link_head (linked_list_unlink m src e) dst e).list l = _
    rw [k4 l h1, u6 l h2]
  · exact u7.trans k5

/-- The same as `transfer_isList`, with the source list given as a whole. -/
theorem transfer_isList_erase {m : Mem} {dst src e : Nat} {ys xs : List Nat}
    (hd0 : dst ≠ 0) (hs0 : src ≠ 0) (hds : dst ≠ src)
    (hsrc : IsList m.element (m.list src) xs) (hdst : IsList m.element (m.list dst) ys)
    (he : e ∈ xs) (hdj : ∀ x ∈ ys, x ∉ xs) :
    (linked_list_transfer m dst src e).1 = LINKED_LIST_SUCCESS ∧
    IsList (linked_list_transfer m dst src e).2.element
      ((linked_list_transfer m dst src e).2.list dst) (ys ++ [e]) ∧
    IsList (linked_list_transfer m dst src e).2.element
      ((linked_list_transfer m dst src e).2.list src) (xs.erase e) ∧
    (∀ x, x ∉ ys → x ∉ xs → (linked_list_transfer m dst src e).2.element x = m.element x) ∧
    (∀ x, ((linked_list_transfer m dst src e).2.element x).data = (m.element x).data) ∧
    (∀ l, l ≠ dst → l ≠ src → (linked_list_transfer m dst src e).2.list l = m.list l) ∧
    OnlyLists m (linked_list_transfer m dst src e).2 := by
  obtain ⟨l1, l2, rfl⟩ := List.append_of_mem he
  have hnot : e ∉ l1 := hsrc.split_facts.2.1
  have herase : (l1 ++ e :: l2).erase e = l1 ++ l2 := by
    rw [List.erase_append_right _ hnot, List.erase_cons_head]
  rw [herase]
  exact transfer_isList hd0 hs0 hds hsrc hdst hdj

theorem semaphore_checking_ok {m : Mem} {s : Nat}
    (h : semaphore_checking m s = SEMAPHORE_SUCCESS) :
    s ≠ 0 ∧ (m.semaphore s).token ≤ (m.semaphore s).max_token ∧
    (m.semaphore s).task_waiting_list ≠ 0 := by
  unfold semaphore_checking at h
  by_cases h1 : s = 0
  · rw [if_pos h1] at h; exact absurd h (by decide)
  rw [if_neg h1] at h
  by_cases h2 : (m.semaphore s).token > (m.semaphore s).max_token
  · rw [if_pos h2] at h; exact absurd h (by decide)
  rw [if_neg h2] at h
  by_cases h3 : (m.semaphore s).task_waiting_list = 0
  · rw [h3] at h
    exact absurd h (by decide)
  · exact ⟨h1, Nat.le_of_not_lt h2, h3⟩

theorem onlyLists_setNext (m : Mem) (e v : Nat) : OnlyLists m (m.setNext e v) := rfl
theorem onlyLists_setPrevious (m : Mem) (e v : Nat) : OnlyLists m (m.setPrevious e v) := rfl
theorem onlyLists_setHead (m : Mem) (l v : Nat) : OnlyLists m (m.setHead l v) := rfl
theorem onlyLists_setTail (m : Mem) (l v : Nat) : OnlyLists m (m.setTail l v) := rfl
theorem onlyLists_setSize (m : Mem) (l v : Nat) : OnlyLists m (m.setSize l v) := rfl

theorem onlyLists_unlink (m : Mem) (src e : Nat) : OnlyLists m (linked_list_unlink m src e) := by
  unfold linked_list_unlink
  simp only []
  split_ifs <;> unfold OnlyLists <;> rfl

theorem onlyLists_link_head (m : Mem) (dst e : Nat) :
    OnlyLists m (linked_list_link_head m dst e) := by
  unfold linked_list_link_head
  simp only []
  split_ifs <;> unfold OnlyLists <;> rfl

theorem onlyLists_transfer (m : Mem) (dst src e : Nat) :
    OnlyLists m (linked_list_transfer m dst src e).2 := by
  unfold linked_list_transfer
  split_ifs
  · exact OnlyLists.refl m
  · exact OnlyLists.refl m
  · exact OnlyLists.refl m
  · exact OnlyLists.refl m
  · exact (onlyLists_unlink m src e).trans (onlyLists_link_head _ dst e)

/-- With no token left, `semaphore_acquire` moves the node `re` from the ready list to the
head of the waiting list and returns `SEMAPHORE_NO_TOKENS`. -/
theorem semaphore_acquire_no_tokens {m : Mem} {s rl re : Nat} (t : Nat) {ws rs : List Nat}
    (hv : semaphore_valid m s ws) (h0 : (m.semaphore s).token = 0) (hrl : rl ≠ 0)
    (hne : rl ≠ (m.semaphore s).task_waiting_list)
    (hr : IsList m.element (m.list rl) rs) (hre : re ∈ rs) (hdj : ∀ x ∈ ws, x ∉ rs) :
    (semaphore_acquire m s rl re t).1 = SEMAPHORE_NO_TOKENS ∧
    (semaphore_acquire m s rl re t).2.semaphore = m.semaphore ∧
    (semaphore_acquire m s rl re t).2.mutex = m.mutex ∧
    IsList (semaphore_acquire m s rl re t).2.element
      ((semaphore_acquire m s rl re t).2.list rl) (rs.erase re) ∧
    IsList (semaphore_acquire m s rl re t).2.element
      ((semaphore_acquire m s rl re t).2.list (m.semaphore s).task_waiting_list)
      (ws ++ [re]) ∧
    (∀ x, ((semaphore_acquire m s rl re t).2.element x).data = (m.element x).data) := by
  obtain ⟨hc, hw⟩ := hv
  obtain ⟨hs0, hle, hwl⟩ := semaphore_checking_ok hc
  obtain ⟨t1, t2, t3, -, t5, -, t7⟩ :=
    transfer_isList_erase hwl hrl (Ne.symm hne) hr hw hre hdj
  simp only [semaphore_acquire, hc, ne_eq, not_true_eq_false, if_false, h0, if_true, t1]
  exact ⟨trivial, t7.semaphore, t7.mutex, t3, t2, t5⟩

/-- With a token available, `semaphore_acquire` only decrements the token count. -/
theorem semaphore_acquire_token {m : Mem} {s : Nat} (rl re t : Nat)
    (hc : semaphore_checking m s = SEMAPHORE_SUCCESS) (hpos : (m.semaphore s).token ≠ 0) :
    semaphore_acquire m s rl re t =
      (SEMAPHORE_SUCCESS, m.setToken s ((m.semaphore s).token - 1)) := by
  simp [semaphore_acquire, hc, hpos]

/-! ## Lemmas on the mutex -/

theorem semaphore_checking_values (m : Mem) (s : Nat) :
    semaphore_checking m s = SEMAPHORE_SUCCESS ∨ semaphore_checking m s = SEMAPHORE_NO_MEMORY ∨
    semaphore_checking m s = SEMAPHORE_TOKENS_OVERFLOW ∨ semaphore_checking m s = 11 := by
  unfold semaphore_checking
  by_cases h1 : s = 0
  · rw [if_pos h1]; exact Or.inr (Or.inl rfl)
  rw [if_neg h1]
  by_cases h2 : (m.semaphore s).token > (m.semaphore s).max_token
  · rw [if_pos h2]; exact Or.inr (Or.inr (Or.inl rfl))
  rw [if_neg h2]
  by_cases h3 : (m.semaphore s).task_waiting_list = 0
  · rw [h3]; exact Or.inr (Or.inr (Or.inr (by decide)))
  · left
    simp [linked_list_checking, h3]

theorem mutex_checking_ok {m : Mem} {x : Nat} (h : mutex_checking m x = MUTEX_SUCCESS) :
    x ≠ 0 ∧ semaphore_checking m (m.mutex x).binary_semaphore = SEMAPHORE_SUCCESS ∧
    ((m.mutex x).lock_count = 0 ↔ (m.mutex x).owner = 0) := by
  unfold mutex_checking at h
  by_cases h1 : x = 0
  · rw [if_pos h1] at h; exact absurd h (by decide)
  rw [if_neg h1] at h
  by_cases h2 : semaphore_checking m (m.mutex x).binary_semaphore = SEMAPHORE_SUCCESS
  · rw [if_neg (not_not.2 h2)] at h
    by_cases h3 : ((m.mutex x).owner = 0 ∧ (m.mutex x).lock_count ≠ 0)
      ∨ ((m.mutex x).owner ≠ 0 ∧ (m.mutex x).lock_count = 0)
    · rw [if_pos h3] at h; exact absurd h (by decide)
    · refine ⟨h1, h2, ?_⟩
      constructor
      · intro hl; by_contra ho; exact h3 (Or.inr ⟨ho, hl⟩)
      · intro ho; by_contra hl; exact h3 (Or.inl ⟨ho, hl⟩)
  · rw [if_pos h2] at h
    exfalso
    rcases semaphore_checking_values m (m.mutex x).binary_semaphore with k | k | k | k
    · exact h2 k
    · rw [k] at h; exact absurd h (by decide)
    · rw [k] at h; exact absurd h (by decide)
    · rw [k] at h; exact absurd h (by decide)

theorem mutex_checking_of {m : Mem} {x : Nat} (h1 : x ≠ 0)
    (h2 : semaphore_checking m (m.mutex x).binary_semaphore = SEMAPHORE_SUCCESS)
    (h3 : (m.mutex x).lock_count = 0 ↔ (m.mutex x).owner = 0) :
    mutex_checking m x = MUTEX_SUCCESS := by
  unfold mutex_checking
  rw [if_neg h1, if_neg (not_not.2 h2), if_neg]
  rintro (⟨a, b⟩ | ⟨a, b⟩)
  · exact b (h3.2 a)
  · exact a (h3.1 b)

theorem semaphore_acquire_mutex (m : Mem) (s rl re t : Nat) :
    (semaphore_acquire m s rl re t).2.mutex = m.mutex := by
  unfold semaphore_acquire
  simp only []
  split_ifs
  · rfl
  · exact (onlyLists_transfer _ _ _ _).mutex
  · exact (onlyLists_transfer _ _ _ _).mutex
  · rfl

theorem semaphore_release_mutex (m : Mem) (s el t : Nat) :
    (semaphore_release m s el t).mem.mutex = m.mutex := by
  unfold semaphore_release
  simp only []
  split_ifs <;> rfl

theorem semaphore_acquire_non_blocking_mutex (m : Mem) (s : Nat) :
    (semaphore_acquire_non_blocking m s).2.mutex = m.mutex := by
  unfold semaphore_acquire_non_blocking
  split_ifs <;> rfl

theorem semaphore_release_non_blocking_mutex (m : Mem) (s : Nat) :
    (semaphore_release_non_blocking m s).2.mutex = m.mutex := by
  unfold semaphore_release_non_blocking
  split_ifs <;> rfl

theorem size_t_inc_pos {k : Nat} (h : k + 1 < SIZE_T_MOD) : size_t_inc k = k + 1 := by
  unfold size_t_inc; exact Nat.mod_eq_of_lt h

theorem size_t_dec_pos {k : Nat} (h0 : 0 < k) (h : k < SIZE_T_MOD) : size_t_dec k = k - 1 := by
  unfold size_t_dec SIZE_T_MOD at *
  omega

theorem semaphore_checking_congr {m m2 : Mem} (h : m2.semaphore = m.semaphore) (s : Nat) :
    semaphore_checking m2 s = semaphore_checking m s := by
  unfold semaphore_checking
  rw [h]

/-- On a valid semaphore below its maximum with a non-empty waiting list,
`semaphore_release` surfaces the head of the waiting list. -/
theorem semaphore_release_nonempty {m : Mem} {s : Nat} (el t : Nat) {ws : List Nat}
    (hv : semaphore_valid m s ws) (hlt : (m.semaphore s).token < (m.semaphore s).max_token)
    (hws : ws ≠ []) :
    semaphore_release m s el t =
      ⟨SEMAPHORE_SUCCESS, m.setToken s ((m.semaphore s).token + 1), ws.getLastD 0,
        (m.element (ws.getLastD 0)).data⟩ := by
  obtain ⟨hc, hw⟩ := hv
  have hsz : (m.list (m.semaphore s).task_waiting_list).size ≠ 0 := by
    rw [hw.2.2.2.2]
    exact fun h => hws (List.length_eq_zero.1 h)
  have hhd : (m.list (m.semaphore s).task_waiting_list).head = ws.getLastD 0 := hw.2.2.2.1
  have hh0 : ws.getLastD 0 ≠ 0 := hw.nonzero _ (getLastD_mem hws 0)
  unfold semaphore_release
  rw [if_neg (not_not.2 hc), if_neg (Nat.not_le.2 hlt), if_pos hsz]
  simp only [hhd]
  rw [if_neg]
  unfold linked_list_element_checking
  rw [if_neg hh0]
  exact not_not.2 rfl


theorem semaphore_checking_of {m : Mem} {s : Nat} (h1 : s ≠ 0)
    (h2 : (m.semaphore s).token ≤ (m.semaphore s).max_token)
    (h3 : (m.semaphore s).task_waiting_list ≠ 0) :
    semaphore_checking m s = SEMAPHORE_SUCCESS := by
  simp [semaphore_checking, h1, Nat.not_lt.2 h2, linked_list_checking, h3]

theorem mutex_state_of_free {m : Mem} {x : Nat} (hwf : mutex_wf m x [])
    (ho : (m.mutex x).owner = 0) : mutex_state m x 0 0 1 := by
  obtain ⟨hc, hw, hmax, htok⟩ := hwf
  obtain ⟨hx0, hsc, hinv⟩ := mutex_checking_ok hc
  obtain ⟨hb0, hle, hwl⟩ := semaphore_checking_ok hsc
  have hmax1 : (m.semaphore (m.mutex x).binary_semaphore).max_token = 1 := hmax
  have htk : (m.semaphore (m.mutex x).binary_semaphore).token ≠ 0 := fun h0 => (htok.1 h0) ho
  refine ⟨hx0, hb0, hwl, ho, hinv.2 ho, ?_, hmax1, hw.2.2.2.2⟩
  rw [hmax1] at hle; omega

theorem mutex_state_checking {m : Mem} {x o k tok : Nat} (h : mutex_state m x o k tok)
    (hok : k = 0 ↔ o = 0) (htok : tok ≤ 1) :
    mutex_checking m x = MUTEX_SUCCESS ∧
    semaphore_checking m (m.mutex x).binary_semaphore = SEMAPHORE_SUCCESS := by
  obtain ⟨h1, h2, h3, h4, h5, h6, h7, h8⟩ := h
  have hs : semaphore_checking m (m.mutex x).binary_semaphore = SEMAPHORE_SUCCESS :=
    semaphore_checking_of h2 (by rw [h6, h7]; exact htok) h3
  exact ⟨mutex_checking_of h1 hs (by rw [h4, h5]; exact hok), hs⟩

/-- Acquiring the free mutex. -/
theorem mutex_acquire_free {m : Mem} {x t : Nat} (rl re : Nat)
    (h : mutex_state m x 0 0 1) (ht : t ≠ 0) :
    (mutex_acquire m x rl re t).1 = MUTEX_SUCCESS ∧
    mutex_state (mutex_acquire m x rl re t).2 x t 1 0 := by
  obtain ⟨hc, hs⟩ := mutex_state_checking h (by simp) (le_refl 1)
  obtain ⟨h1, h2, h3, h4, h5, h6, h7, h8⟩ := h
  have hto : t ≠ (m.mutex x).owner := by rw [h4]; exact ht
  have heq : mutex_acquire m x rl re t =
      (MUTEX_SUCCESS, ((m.setToken (m.mutex x).binary_semaphore 0).setOwner x t).setLockCount x
        1) := by
    simp [mutex_acquire, hc, hto, semaphore_acquire_token rl re t hs (by rw [h6]; decide), h6,
      Mem.setOwner, Mem.setToken, h5, size_t_inc]
  rw [heq]
  refine ⟨rfl, ?_⟩
  simp [mutex_state, Mem.setLockCount, Mem.setOwner, Mem.setToken, h1, h2, h3, h7, h8]

/-- Acquiring a mutex again by its owner. -/
theorem mutex_acquire_held {m : Mem} {x t k : Nat} (rl re : Nat)
    (h : mutex_state m x t k 0) (ht : t ≠ 0) (hk : k ≠ 0) (hov : k + 1 < SIZE_T_MOD) :
    (mutex_acquire m x rl re t).1 = MUTEX_SUCCESS ∧
    mutex_state (mutex_acquire m x rl re t).2 x t (k + 1) 0 := by
  obtain ⟨hc, hs⟩ := mutex_state_checking h (by simp [hk, ht]) (Nat.zero_le 1)
  obtain ⟨h1, h2, h3, h4, h5, h6, h7, h8⟩ := h
  have heq : mutex_acquire m x rl re t =
      (MUTEX_SUCCESS, m.setLockCount x (k + 1)) := by
    simp [mutex_acquire, hc, h4, h5, size_t_inc_pos hov]
  rw [heq]
  refine ⟨rfl, ?_⟩
  simp [mutex_state, Mem.setLockCount, h1, h2, h3, h4, h6, h7, h8]

/-- Releasing a mutex that its owner holds more than once. -/
theorem mutex_release_held {m : Mem} {x t k : Nat}
    (h : mutex_state m x t (k + 2) 0) (ht : t ≠ 0) (hov : k + 2 < SIZE_T_MOD) :
    (mutex_release m x 0 t).status = MUTEX_SUCCESS ∧
    mutex_state (mutex_release m x 0 t).mem x t (k + 1) 0 := by
  obtain ⟨hc, hs⟩ := mutex_state_checking h (by simp [ht]) (Nat.zero_le 1)
  obtain ⟨h1, h2, h3, h4, h5, h6, h7, h8⟩ := h
  have hd : size_t_dec (k + 2) = k + 1 := by
    rw [size_t_dec_pos (by omega) hov]; rfl
  have heq : mutex_release m x 0 t = ⟨MUTEX_SUCCESS, m.setLockCount x (k + 1), 0, t⟩ := by
    simp [mutex_release, hc, h4, h5, hd]
  rw [heq]
  refine ⟨rfl, ?_⟩
  simp [mutex_state, Mem.setLockCount, h1, h2, h3, h4, h6, h7, h8]

/-- Releasing a mutex that its owner holds once. -/
theorem mutex_release_last {m : Mem} {x t : Nat}
    (h : mutex_state m x t 1 0) (ht : t ≠ 0) :
    (mutex_release m x 0 t).status = MUTEX_SUCCESS ∧
    mutex_state (mutex_release m x 0 t).mem x 0 0 1 := by
  obtain ⟨hc, hs⟩ := mutex_state_checking h (by simp [ht]) (Nat.zero_le 1)
  obtain ⟨h1, h2, h3, h4, h5, h6, h7, h8⟩ := h
  have hd : size_t_dec 1 = 0 := by decide
  have heq : mutex_release m x 0 t =
      ⟨MUTEX_SUCCESS, ((m.setToken (m.mutex x).binary_semaphore 1).setOwner x 0).setLockCount x
        0, 0, 0⟩ := by
    simp [mutex_release, semaphore_release, hc, hs, h4, h5, h6, h7, h8, hd, Mem.setOwner,
      Mem.setToken]
  rw [heq]
  refine ⟨rfl, ?_⟩
  simp [mutex_state, Mem.setLockCount, Mem.setOwner, Mem.setToken, h1, h2, h3, h7, h8]
/-! ## Claims on the counting semaphore -/

/-- C1. `semaphore_acquire` on a valid semaphore `s` (accepted by `semaphore_checking`,
waiting list well formed with nodes `ws`).  With `token > 0` it returns
`SEMAPHORE_SUCCESS`, the token count drops by exactly one and the list headers and list
nodes (hence the waiter list and the ready list) are unchanged.  With `token = 0`, when
the node `re` is a node of the well-formed ready list `rl` (nodes `rs`, read from tail to
head), it returns `SEMAPHORE_NO_TOKENS`, the token count stays `0`, the ready list
becomes `rs` without `re`, and the waiter list becomes `ws` followed by `re`, that is
`re` is its new head; the payload of `re` is untouched. -/
theorem semaphore_acquire_contract (m : Mem) (s rl re t : Nat) (ws rs : List Nat)
    (hv : semaphore_valid m s ws) :
    (0 < (m.semaphore s).token →
      (semaphore_acquire m s rl re t).1 = SEMAPHORE_SUCCESS ∧
      ((semaphore_acquire m s rl re t).2.semaphore s).token + 1 = (m.semaphore s).token ∧
      (semaphore_acquire m s rl re t).2.list = m.list ∧
      (semaphore_acquire m s rl re t).2.element = m.element) ∧
    ((m.semaphore s).token = 0 → rl ≠ 0 → rl ≠ (m.semaphore s).task_waiting_list →
      IsList m.element (m.list rl) rs → re ∈ rs → (∀ x ∈ ws, x ∉ rs) →
      (semaphore_acquire m s rl re t).1 = SEMAPHORE_NO_TOKENS ∧
      ((semaphore_acquire m s rl re t).2.semaphore s).token = 0 ∧
      ((semaphore_acquire m s rl re t).2.semaphore s).task_waiting_list =
        (m.semaphore s).task_waiting_list ∧
      IsList (semaphore_acquire m s rl re t).2.element
        ((semaphore_acquire m s rl re t).2.list rl) (rs.erase re) ∧
      IsList (semaphore_acquire m s rl re t).2.element
        ((semaphore_acquire m s rl re t).2.list (m.semaphore s).task_waiting_list)
        (ws ++ [re]) ∧
      ((semaphore_acquire m s rl re t).2.element re).data = (m.element re).data) := by
  constructor
  · intro hpos
    have hne : (m.semaphore s).token ≠ 0 := Nat.pos_iff_ne_zero.1 hpos
    rw [semaphore_acquire_token rl re t hv.1 hne]
    refine ⟨rfl, ?_, rfl, rfl⟩
    simp only [Mem.setToken, Function.update_same]
    omega
  · intro h0 hrl hne hr hre hdj
    obtain ⟨k1, k2, -, k4, k5, k6⟩ := semaphore_acquire_no_tokens t hv h0 hrl hne hr hre hdj
    refine ⟨k1, ?_, ?_, k4, k5, k6 re⟩
    · rw [k2]; exact h0
    · rw [k2]

/-- C1, witness: the semaphore of `mem_sem` with one token and with none. -/
theorem semaphore_acquire_contract_witness :
    (semaphore_valid (mem_sem 1) 1 [] ∧ 0 < ((mem_sem 1).semaphore 1).token ∧
      (semaphore_acquire (mem_sem 1) 1 2 11 101).1 = SEMAPHORE_SUCCESS ∧
      ((semaphore_acquire (mem_sem 1) 1 2 11 101).2.semaphore 1).token + 1 = 1) ∧
    (semaphore_valid (mem_sem 0) 1 [] ∧ IsList (mem_sem 0).element ((mem_sem 0).list 2) [11, 12] ∧
      (semaphore_acquire (mem_sem 0) 1 2 11 101).1 = SEMAPHORE_NO_TOKENS ∧
      IsList (semaphore_acquire (mem_sem 0) 1 2 11 101).2.element
        ((semaphore_acquire (mem_sem 0) 1 2 11 101).2.list 2) [12] ∧
      IsList (semaphore_acquire (mem_sem 0) 1 2 11 101).2.element
        ((semaphore_acquire (mem_sem 0) 1 2 11 101).2.list 3) [11]) := by
  have hv1 : semaphore_valid (mem_sem 1) 1 [] := by unfold semaphore_valid; decide
  have hv0 : semaphore_valid (mem_sem 0) 1 [] := by unfold semaphore_valid; decide
  have hr : IsList (mem_sem 0).element ((mem_sem 0).list 2) [11, 12] := by decide
  have h1 := (semaphore_acquire_contract (mem_sem 1) 1 2 11 101 [] [11, 12] hv1).1 (by decide)
  have h0 := (semaphore_acquire_contract (mem_sem 0) 1 2 11 101 [] [11, 12] hv0).2 rfl
    (by decide) (by decide) hr (by decide) (by decide)
  exact ⟨⟨hv1, by decide, h1.1, h1.2.1⟩, ⟨hv0, hr, h0.1, h0.2.2.2.1, h0.2.2.2.2.1⟩⟩

/-- C2. `semaphore_release` on a valid semaphore `s` (waiting list well formed with nodes
`ws`).  With `token = max_token` it returns `SEMAPHORE_REACHED_MAX_TOKENS` and changes
neither the memory nor the output parameters.  Otherwise it returns `SEMAPHORE_SUCCESS`,
the token count grows by exactly one, `max_token` stays, the waiter list still holds
exactly the nodes `ws` (no list header and no node is written), and when the waiter list
is empty the output task is `NULL`. -/
theorem semaphore_release_contract (m : Mem) (s el t : Nat) (ws : List Nat)
    (hv : semaphore_valid m s ws) :
    ((m.semaphore s).token = (m.semaphore s).max_token →
      (semaphore_release m s el t).status = SEMAPHORE_REACHED_MAX_TOKENS ∧
      (semaphore_release m s el t).mem = m ∧
      (semaphore_release m s el t).element = el ∧
      (semaphore_release m s el t).task = t) ∧
    ((m.semaphore s).token ≠ (m.semaphore s).max_token →
      (semaphore_release m s el t).status = SEMAPHORE_SUCCESS ∧
      ((semaphore_release m s el t).mem.semaphore s).token = (m.semaphore s).token + 1 ∧
      ((semaphore_release m s el t).mem.semaphore s).max_token = (m.semaphore s).max_token ∧
      (semaphore_release m s el t).mem.list = m.list ∧
      (semaphore_release m s el t).mem.element = m.element ∧
      IsList (semaphore_release m s el t).mem.element
        ((semaphore_release m s el t).mem.list
          ((semaphore_release m s el t).mem.semaphore s).task_waiting_list) ws ∧
      (ws = [] → (semaphore_release m s el t).task = 0)) := by
  obtain ⟨hc, hw⟩ := hv
  obtain ⟨hs0, hle, hwl⟩ := semaphore_checking_ok hc
  constructor
  · intro heq
    simp [semaphore_release, hc, heq]
  · intro hne
    have hlt : ¬ (m.semaphore s).token ≥ (m.semaphore s).max_token := by omega
    by_cases hsz : (m.list (m.semaphore s).task_waiting_list).size = 0
    · have hrel : semaphore_release m s el t =
          ⟨SEMAPHORE_SUCCESS, m.setToken s ((m.semaphore s).token + 1), el, 0⟩ := by
        simp [semaphore_release, hc, hlt, hsz]
      rw [hrel]
      refine ⟨rfl, by simp [Mem.setToken], by simp [Mem.setToken], rfl, rfl, ?_, fun _ => rfl⟩
      simpa [Mem.setToken] using hw
    · have hws : ws ≠ [] := by
        intro h0
        apply hsz
        rw [hw.2.2.2.2, h0]; rfl
      have hhd : (m.list (m.semaphore s).task_waiting_list).head ≠ 0 := by
        rw [hw.2.2.2.1]
        exact hw.nonzero _ (getLastD_mem hws 0)
      have hrel : semaphore_release m s el t =
          ⟨SEMAPHORE_SUCCESS, m.setToken s ((m.semaphore s).token + 1),
            (m.list (m.semaphore s).task_waiting_list).head,
            (m.element (m.list (m.semaphore s).task_waiting_list).head).data⟩ := by
        simp [semaphore_release, hc, hlt, hsz, linked_list_element_checking, hhd]
      rw [hrel]
      refine ⟨rfl, by simp [Mem.setToken], by simp [Mem.setToken], rfl, rfl, ?_,
        fun h0 => absurd h0 hws⟩
      simpa [Mem.setToken] using hw

/-- C2, witness: the semaphore of `mem_sem` at its maximum and with no token. -/
theorem semaphore_release_contract_witness :
    (semaphore_valid (mem_sem 1) 1 [] ∧
      (semaphore_release (mem_sem 1) 1 7 9).status = SEMAPHORE_REACHED_MAX_TOKENS ∧
      (semaphore_release (mem_sem 1) 1 7 9).task = 9) ∧
    (semaphore_valid (mem_sem 0) 1 [] ∧
      (semaphore_release (mem_sem 0) 1 7 9).status = SEMAPHORE_SUCCESS ∧
      ((semaphore_release (mem_sem 0) 1 7 9).mem.semaphore 1).token = 1 ∧
      (semaphore_release (mem_sem 0) 1 7 9).task = 0) := by
  have hv1 : semaphore_valid (mem_sem 1) 1 [] := by unfold semaphore_valid; decide
  have hv0 : semaphore_valid (mem_sem 0) 1 [] := by unfold semaphore_valid; decide
  have h1 := (semaphore_release_contract (mem_sem 1) 1 7 9 [] hv1).1 (by decide)
  have h0 := (semaphore_release_contract (mem_sem 0) 1 7 9 [] hv0).2 (by decide)
  exact ⟨⟨hv1, h1.1, h1.2.2.2⟩, ⟨hv0, h0.1, h0.2.1, h0.2.2.2.2.2.2 rfl⟩⟩

/-- C3 (the code serves the newest waiter).  On a valid semaphore with `token = 0` and
`max_token > 0`, let two distinct nodes `e1` and `e2` of the well-formed ready list block
through `semaphore_acquire`, `e1` first.  Both calls return `SEMAPHORE_NO_TOKENS` and the
waiting list becomes `ws, e1, e2` read from tail to head.  The following
`semaphore_release` returns `SEMAPHORE_SUCCESS` and surfaces the node `e2` with its task,
the one that blocked last, and not `e1`. -/
theorem semaphore_release_surfaces_newest_waiter (m : Mem) (s rl e1 e2 t1 t2 el t : Nat)
    (ws rs : List Nat) (hv : semaphore_valid m s ws) (h0 : (m.semaphore s).token = 0)
    (hmax : 0 < (m.semaphore s).max_token) (hrl : rl ≠ 0)
    (hne : rl ≠ (m.semaphore s).task_waiting_list)
    (hr : IsList m.element (m.list rl) rs) (h1 : e1 ∈ rs) (h2 : e2 ∈ rs) (h12 : e1 ≠ e2)
    (hdj : ∀ x ∈ ws, x ∉ rs) :
    (semaphore_acquire m s rl e1 t1).1 = SEMAPHORE_NO_TOKENS ∧
    (semaphore_acquire (semaphore_acquire m s rl e1 t1).2 s rl e2 t2).1 = SEMAPHORE_NO_TOKENS ∧
    IsList (semaphore_acquire (semaphore_acquire m s rl e1 t1).2 s rl e2 t2).2.element
      ((semaphore_acquire (semaphore_acquire m s rl e1 t1).2 s rl e2 t2).2.list
        (m.semaphore s).task_waiting_list) (ws ++ [e1] ++ [e2]) ∧
    (semaphore_release (semaphore_acquire (semaphore_acquire m s rl e1 t1).2 s rl e2 t2).2
      s el t).status = SEMAPHORE_SUCCESS ∧
    (semaphore_release (semaphore_acquire (semaphore_acquire m s rl e1 t1).2 s rl e2 t2).2
      s el t).element = e2 ∧
    (semaphore_release (semaphore_acquire (semaphore_acquire m s rl e1 t1).2 s rl e2 t2).2
      s el t).task = (m.element e2).data ∧
    (semaphore_release (semaphore_acquire (semaphore_acquire m s rl e1 t1).2 s rl e2 t2).2
      s el t).element ≠ e1 := by
  obtain ⟨a1, a2, -, a4, a5, a6⟩ := semaphore_acquire_no_tokens t1 hv h0 hrl hne hr h1 hdj
  have hv1 : semaphore_valid (semaphore_acquire m s rl e1 t1).2 s (ws ++ [e1]) := by
    refine ⟨?_, ?_⟩
    · rw [semaphore_checking_congr a2]; exact hv.1
    · rw [a2]; exact a5
  have h01 : ((semaphore_acquire m s rl e1 t1).2.semaphore s).token = 0 := by rw [a2]; exact h0
  have hne1 : rl ≠ ((semaphore_acquire m s rl e1 t1).2.semaphore s).task_waiting_list := by
    rw [a2]; exact hne
  have h21 : e2 ∈ rs.erase e1 := (List.mem_erase_of_ne (Ne.symm h12)).2 h2
  have hdj1 : ∀ x ∈ ws ++ [e1], x ∉ rs.erase e1 := by
    intro x hx hx2
    rcases List.mem_append.1 hx with hw | he
    · exact hdj x hw (List.mem_of_mem_erase hx2)
    · rw [List.mem_singleton] at he
      subst he
      exact (List.Nodup.not_mem_erase hr.1) hx2
  obtain ⟨b1, b2, -, -, b5, b6⟩ :=
    semaphore_acquire_no_tokens t2 hv1 h01 hrl hne1 a4 h21 hdj1
  rw [a2] at b5
  have hv2 : semaphore_valid (semaphore_acquire (semaphore_acquire m s rl e1 t1).2 s rl e2
      t2).2 s (ws ++ [e1] ++ [e2]) := by
    refine ⟨?_, ?_⟩
    · rw [semaphore_checking_congr b2, semaphore_checking_congr a2]; exact hv.1
    · rw [b2, a2]; exact b5
  have hlt : ((semaphore_acquire (semaphore_acquire m s rl e1 t1).2 s rl e2 t2).2.semaphore
      s).token < ((semaphore_acquire (semaphore_acquire m s rl e1 t1).2 s rl e2
      t2).2.semaphore s).max_token := by
    rw [b2, a2, h0]; exact hmax
  have hlast : (ws ++ [e1] ++ [e2]).getLastD 0 = e2 := by
    rw [getLastD_append]; rfl
  rw [semaphore_release_nonempty el t hv2 hlt (by simp), hlast]
  refine ⟨a1, b1, b5, rfl, rfl, ?_, Ne.symm h12⟩
  show ((semaphore_acquire (semaphore_acquire m s rl e1 t1).2 s rl e2 t2).2.element e2).data
    = _
  rw [b6, a6]

/-- C3, witness: on the semaphore of `mem_sem` with no token, task 101 (node 11) blocks
first and task 102 (node 12) second; the release surfaces node 12 with task 102, while
task 101 blocked earliest. -/
theorem semaphore_release_surfaces_newest_waiter_witness :
    semaphore_valid (mem_sem 0) 1 [] ∧
    IsList (mem_sem 0).element ((mem_sem 0).list 2) [11, 12] ∧
    (semaphore_acquire (mem_sem 0) 1 2 11 101).1 = SEMAPHORE_NO_TOKENS ∧
    (semaphore_acquire (semaphore_acquire (mem_sem 0) 1 2 11 101).2 1 2 12 102).1 =
      SEMAPHORE_NO_TOKENS ∧
    (semaphore_release
      (semaphore_acquire (semaphore_acquire (mem_sem 0) 1 2 11 101).2 1 2 12 102).2 1 0 0).status
      = SEMAPHORE_SUCCESS ∧
    (semaphore_release
      (semaphore_acquire (semaphore_acquire (mem_sem 0) 1 2 11 101).2 1 2 12 102).2 1 0 0).element
      = 12 ∧
    (semaphore_release
      (semaphore_acquire (semaphore_acquire (mem_sem 0) 1 2 11 101).2 1 2 12 102).2 1 0 0).task
      = 102 := by
  have hv : semaphore_valid (mem_sem 0) 1 [] := by unfold semaphore_valid; decide
  have hr : IsList (mem_sem 0).element ((mem_sem 0).list 2) [11, 12] := by decide
  have k := semaphore_release_surfaces_newest_waiter (mem_sem 0) 1 2 11 12 101 102 0 0 []
    [11, 12] hv (by decide) (by decide) (by decide) (by decide) hr (by decide) (by decide)
    (by decide) (by decide)
  exact ⟨hv, hr, k.1, k.2.1, k.2.2.2.1, k.2.2.2.2.1, k.2.2.2.2.2.1⟩

theorem semaphore_store_acquire (m : Mem) (s rl re t : Nat) :
    (semaphore_acquire m s rl re t).2.semaphore = m.semaphore ∨
    (0 < (m.semaphore s).token ∧ (semaphore_acquire m s rl re t).2.semaphore =
      Function.update m.semaphore s
        { m.semaphore s with token := (m.semaphore s).token - 1 }) := by
  unfold semaphore_acquire
  simp only []
  split_ifs with h1 h2 h3
  · exact Or.inl rfl
  · exact Or.inl (onlyLists_transfer _ _ _ _).semaphore
  · exact Or.inl (onlyLists_transfer _ _ _ _).semaphore
  · exact Or.inr ⟨Nat.pos_of_ne_zero h2, rfl⟩

/-- C4. `token ≤ max_token` is an invariant of every semaphore: it holds for the
semaphore that `semaphore_create` has just written (whatever status it returns), and when
it holds for a semaphore `x` it still holds for `x` after `semaphore_acquire`,
`semaphore_release`, `semaphore_acquire_non_blocking` and
`semaphore_release_non_blocking` on any semaphore `s` and with any other arguments,
whatever status these return. -/
theorem semaphore_token_invariant (m : Mem) (s x : Nat) :
    (∀ a al id token, token_le_max (semaphore_create m a al id token).2 a) ∧
    (token_le_max m x →
      (∀ rl re t, token_le_max (semaphore_acquire m s rl re t).2 x) ∧
      (∀ el t, token_le_max (semaphore_release m s el t).mem x) ∧
      token_le_max (semaphore_acquire_non_blocking m s).2 x ∧
      token_le_max (semaphore_release_non_blocking m s).2 x) := by
  constructor
  · intro a al id token
    unfold token_le_max semaphore_create linked_list_create
    simp only []
    split_ifs <;>
      simp [Mem.setId, Mem.setToken, Mem.setMaxToken, Mem.setTaskWaitingList, Mem.setSize,
        Mem.setHead, Mem.setTail]
  · intro hx
    unfold token_le_max at hx ⊢
    refine ⟨?_, ?_, ?_, ?_⟩
    · intro rl re t
      rcases semaphore_store_acquire m s rl re t with h | ⟨hpos, h⟩
      · rw [h]; exact hx
      · rw [h]
        by_cases hxs : x = s
        · subst hxs
          simp only [Function.update_same]
          omega
        · rw [Function.update_noteq hxs]; exact hx
    · intro el t
      unfold semaphore_release
      simp only []
      split_ifs with h1 h2 h3 h4
      · exact hx
      · exact hx
      · exact hx
      · by_cases hxs : x = s
        · subst hxs
          simp only [Mem.setToken, Function.update_same]
          omega
        · simp only [Mem.setToken, Function.update_noteq hxs]; exact hx
      · by_cases hxs : x = s
        · subst hxs
          simp only [Mem.setToken, Function.update_same]
          omega
        · simp only [Mem.setToken, Function.update_noteq hxs]; exact hx
    · unfold semaphore_acquire_non_blocking
      split_ifs with h1 h2
      · exact hx
      · exact hx
      · by_cases hxs : x = s
        · subst hxs
          simp only [Mem.setToken, Function.update_same]
          omega
        · simp only [Mem.setToken, Function.update_noteq hxs]; exact hx
    · unfold semaphore_release_non_blocking
      split_ifs with h1 h2
      · exact hx
      · exact hx
      · by_cases hxs : x = s
        · subst hxs
          simp only [Mem.setToken, Function.update_same]
          omega
        · simp only [Mem.setToken, Function.update_noteq hxs]; exact hx

/-- C4, witness: the semaphore of `mem_sem` with one token satisfies the invariant, and so
do the memories after each of the four operations. -/
theorem semaphore_token_invariant_witness :
    token_le_max (mem_sem 1) 1 ∧
    token_le_max (semaphore_acquire (mem_sem 1) 1 2 11 101).2 1 ∧
    token_le_max (semaphore_release (mem_sem 1) 1 0 0).mem 1 ∧
    token_le_max (semaphore_acquire_non_blocking (mem_sem 1) 1).2 1 ∧
    token_le_max (semaphore_release_non_blocking (mem_sem 1) 1).2 1 := by
  have h : token_le_max (mem_sem 1) 1 := by unfold token_le_max; decide
  have k := (semaphore_token_invariant (mem_sem 1) 1 1).2 h
  exact ⟨h, k.1 2 11 101, k.2.1 0 0, k.2.2.1, k.2.2.2⟩

/-! ## Claims on the recursive mutex -/

theorem mutex_create_success {m : Mem} {a as al id : Nat}
    (h : (mutex_create m a as al id).1 = MUTEX_SUCCESS) :
    ((mutex_create m a as al id).2.mutex a).owner = 0 ∧
    ((mutex_create m a as al id).2.mutex a).lock_count = 0 := by
  unfold mutex_create at h ⊢
  simp only [] at h ⊢
  split_ifs at h ⊢ with h1
  · exfalso
    unfold semaphore_create at h h1
    simp only [] at h h1
    split_ifs at h h1 with h2
    · unfold linked_list_create at h h2
      split_ifs at h h2 with h3
      · have hne : ERROR_INFO (ERROR_INFO LINKED_LIST_NO_MEMORY SEMAPHORE_LENGTH
            SEMAPHORE_NO_WAITING_LIST) MUTEX_LENGTH MUTEX_NO_SEMAPHORE ≠ MUTEX_SUCCESS := by
          decide
        exact hne h
      · exact h2 rfl
    · exact h1 rfl
  · simp [Mem.setOwner, Mem.setLockCount]

/-- C5. `lock_count == 0 <=> owner == NULL` is an invariant of the mutex.  It holds for
the mutex written by a successful `mutex_create`.  When it holds for the mutex `y`, then
for every non-null calling task `t` it still holds for `y` after `mutex_acquire`,
`mutex_release`, `mutex_acquire_non_blocking` and `mutex_release_non_blocking` on a
mutex `x`, on every return path, provided `lock_count` of `x` is a `size_t` value and,
for the two acquiring operations, the increment does not overflow. -/
theorem mutex_owner_invariant (m : Mem) (x y : Nat) :
    (∀ a as al id, (mutex_create m a as al id).1 = MUTEX_SUCCESS →
      mutex_owner_inv (mutex_create m a as al id).2 a) ∧
    (mutex_owner_inv m y → ∀ t, t ≠ 0 → (m.mutex x).lock_count < SIZE_T_MOD →
      ((m.mutex x).lock_count + 1 < SIZE_T_MOD →
        (∀ rl re, mutex_owner_inv (mutex_acquire m x rl re t).2 y) ∧
        mutex_owner_inv (mutex_acquire_non_blocking m x t).2 y) ∧
      (∀ el, mutex_owner_inv (mutex_release m x el t).mem y) ∧
      mutex_owner_inv (mutex_release_non_blocking m x t).2 y) := by
  constructor
  · intro a as al id h
    obtain ⟨h1, h2⟩ := mutex_create_success h
    unfold mutex_owner_inv
    rw [h1, h2]
  · intro hy t ht hsz
    have key : ∀ (m2 : Mem) (o c : Nat), m2.mutex = m.mutex → (c = 0 ↔ o = 0) →
        mutex_owner_inv ((m2.setOwner x o).setLockCount x c) y := by
      intro m2 o c hm hoc
      unfold mutex_owner_inv at hy ⊢
      by_cases hyx : y = x
      · subst hyx
        simpa [Mem.setOwner, Mem.setLockCount] using hoc
      · simpa [Mem.setOwner, Mem.setLockCount, Function.update_noteq hyx, hm] using hy
    have key2 : ∀ (m2 : Mem) (c : Nat), m2.mutex = m.mutex → (c = 0 ↔ (m.mutex x).owner = 0) →
        mutex_owner_inv (m2.setLockCount x c) y := by
      intro m2 c hm hoc
      unfold mutex_owner_inv at hy ⊢
      by_cases hyx : y = x
      · subst hyx
        simpa [Mem.setLockCount, hm] using hoc
      · simpa [Mem.setLockCount, Function.update_noteq hyx, hm] using hy
    have same : ∀ (m2 : Mem), m2.mutex = m.mutex → mutex_owner_inv m2 y := by
      intro m2 hm
      unfold mutex_owner_inv at hy ⊢
      rw [hm]; exact hy
    have inc_ne : (m.mutex x).lock_count + 1 < SIZE_T_MOD →
        size_t_inc (m.mutex x).lock_count ≠ 0 := by
      intro hov; rw [size_t_inc_pos hov]; omega
    have dec_one : size_t_dec 1 = 0 := by decide
    refine ⟨fun hov => ⟨fun rl re => ?_, ?_⟩, fun el => ?_, ?_⟩
    · unfold mutex_acquire
      simp only []
      split_ifs with h1 h2 h3 h4
      · exact hy
      · apply key2 m _ rfl
        rw [← h2]
        exact ⟨fun h => absurd h (inc_ne hov), fun h => absurd h ht⟩
      · exact same _ (semaphore_acquire_mutex _ _ _ _ _)
      · exact same _ (semaphore_acquire_mutex _ _ _ _ _)
      · have hm := semaphore_acquire_mutex m (m.mutex x).binary_semaphore rl re t
        have : ((semaphore_acquire m (m.mutex x).binary_semaphore rl re t).2.setOwner x t).mutex x
            = { m.mutex x with owner := t } := by
          simp [Mem.setOwner, hm]
        rw [this]
        apply key _ _ _ hm
        exact ⟨fun h => absurd h (inc_ne hov), fun h => absurd h ht⟩
    · unfold mutex_acquire_non_blocking
      simp only []
      split_ifs with h1 h2 h3 h4
      · exact hy
      · exact same _ (semaphore_acquire_non_blocking_mutex _ _)
      · have hm := semaphore_acquire_non_blocking_mutex m (m.mutex x).binary_semaphore
        have : ((semaphore_acquire_non_blocking m (m.mutex x).binary_semaphore).2.setOwner x
            t).mutex x = { m.mutex x with owner := t } := by
          simp [Mem.setOwner, hm]
        rw [this]
        apply key _ _ _ hm
        exact ⟨fun h => absurd h (inc_ne hov), fun h => absurd h ht⟩
      · apply key2 m _ rfl
        rw [← h4]
        exact ⟨fun h => absurd h (inc_ne hov), fun h => absurd h ht⟩
      · exact hy
    · unfold mutex_release
      simp only []
      split_ifs with h1 h2 h3 h4
      · exact hy
      · exact hy
      · exact same _ (semaphore_release_mutex _ _ _ _)
      · have hm := semaphore_release_mutex m (m.mutex x).binary_semaphore el t
        have : ((semaphore_release m (m.mutex x).binary_semaphore el t).mem.setOwner x
            0).mutex x = { m.mutex x with owner := 0 } := by
          simp [Mem.setOwner, hm]
        rw [this]
        apply key _ _ _ hm
        simp only [h3, dec_one]
      · apply key2 m _ rfl
        have hck := (mutex_checking_ok (not_not.1 h1)).2.2
        have ho : (m.mutex x).owner ≠ 0 := by
          rw [← not_not.1 h2]; exact ht
        have hc : (m.mutex x).lock_count ≠ 0 := fun h => ho (hck.1 h)
        rw [size_t_dec_pos (Nat.pos_of_ne_zero hc) hsz]
        exact ⟨fun h => absurd h (by omega), fun h => absurd h ho⟩
    · unfold mutex_release_non_blocking
      simp only []
      split_ifs with h1 h2 h3 h4
      · exact hy
      · exact hy
      · exact same _ (semaphore_release_non_blocking_mutex _ _)
      · have hm := semaphore_release_non_blocking_mutex m (m.mutex x).binary_semaphore
        have : ((semaphore_release_non_blocking m (m.mutex x).binary_semaphore).2.setOwner x
            0).mutex x = { m.mutex x with owner := 0 } := by
          simp [Mem.setOwner, hm]
        rw [this]
        apply key _ _ _ hm
        simp only [h3, dec_one]
      · apply key2 m _ rfl
        have hck := (mutex_checking_ok (not_not.1 h1)).2.2
        have ho : (m.mutex x).owner ≠ 0 := by
          rw [← not_not.1 h2]; exact ht
        have hc : (m.mutex x).lock_count ≠ 0 := fun h => ho (hck.1 h)
        rw [size_t_dec_pos (Nat.pos_of_ne_zero hc) hsz]
        exact ⟨fun h => absurd h (by omega), fun h => absurd h ho⟩

/-- C5, witness: a successful `mutex_create`, and the four operations by the owner
(task 101) on the mutex of `mem_mutex` held once. -/
theorem mutex_owner_invariant_witness :
    ((mutex_create Mem.zero 5 1 3 0).1 = MUTEX_SUCCESS ∧
      mutex_owner_inv (mutex_create Mem.zero 5 1 3 0).2 5) ∧
    (mutex_owner_inv (mem_mutex 0 101 1) 5 ∧
      mutex_owner_inv (mutex_acquire (mem_mutex 0 101 1) 5 2 11 101).2 5 ∧
      mutex_owner_inv (mutex_acquire_non_blocking (mem_mutex 0 101 1) 5 101).2 5 ∧
      mutex_owner_inv (mutex_release (mem_mutex 0 101 1) 5 0 101).mem 5 ∧
      mutex_owner_inv (mutex_release_non_blocking (mem_mutex 0 101 1) 5 101).2 5) := by
  have hc : (mutex_create Mem.zero 5 1 3 0).1 = MUTEX_SUCCESS := by decide
  have hi : mutex_owner_inv (mem_mutex 0 101 1) 5 := by unfold mutex_owner_inv; decide
  have k := (mutex_owner_invariant (mem_mutex 0 101 1) 5 5).2 hi 101 (by decide) (by decide)
  exact ⟨⟨hc, (mutex_owner_invariant Mem.zero 5 5).1 5 1 3 0 hc⟩,
    ⟨hi, (k.1 (by decide)).1 2 11, (k.1 (by decide)).2, k.2.1 0, k.2.2⟩⟩

/-- C7. A non-owner's release fails atomically.  For every task `t` different from the
current owner of the mutex `x` (the owner may be `NULL`, the mutex being free),
`mutex_release` and `mutex_release_non_blocking` fail and leave the whole memory (owner,
lock count, token count and waiter list included) and the output parameters unchanged;
on every mutex that `mutex_checking` accepts the status they return is
`MUTEX_OWNED_BY_OTHER_TASK`. -/
theorem mutex_release_non_owner (m : Mem) (x el t : Nat) (ht : t ≠ (m.mutex x).owner) :
    (mutex_release m x el t).status ≠ MUTEX_SUCCESS ∧
    (mutex_release m x el t).mem = m ∧
    (mutex_release m x el t).element = el ∧
    (mutex_release m x el t).task = t ∧
    (mutex_release_non_blocking m x t).1 ≠ MUTEX_SUCCESS ∧
    (mutex_release_non_blocking m x t).2 = m ∧
    (mutex_checking m x = MUTEX_SUCCESS →
      (mutex_release m x el t).status = MUTEX_OWNED_BY_OTHER_TASK ∧
      (mutex_release_non_blocking m x t).1 = MUTEX_OWNED_BY_OTHER_TASK) := by
  by_cases hc : mutex_checking m x = MUTEX_SUCCESS
  · simp [mutex_release, mutex_release_non_blocking, hc, ht]
  · simp [mutex_release, mutex_release_non_blocking, hc]

/-- C7, witness: task 102 releases the mutex of `mem_mutex` owned by task 101, and task
102 releases the free mutex. -/
theorem mutex_release_non_owner_witness :
    (mutex_checking (mem_mutex 0 101 1) 5 = MUTEX_SUCCESS ∧
      (mutex_release (mem_mutex 0 101 1) 5 0 102).status = MUTEX_OWNED_BY_OTHER_TASK ∧
      (mutex_release_non_blocking (mem_mutex 0 101 1) 5 102).1 = MUTEX_OWNED_BY_OTHER_TASK ∧
      (mutex_release (mem_mutex 0 101 1) 5 0 102).mem = mem_mutex 0 101 1) ∧
    (mutex_checking (mem_mutex 1 0 0) 5 = MUTEX_SUCCESS ∧
      (mutex_release (mem_mutex 1 0 0) 5 0 102).status = MUTEX_OWNED_BY_OTHER_TASK ∧
      (mutex_release_non_blocking (mem_mutex 1 0 0) 5 102).1 = MUTEX_OWNED_BY_OTHER_TASK ∧
      (mutex_release (mem_mutex 1 0 0) 5 0 102).mem = mem_mutex 1 0 0) := by
  have h1 : mutex_checking (mem_mutex 0 101 1) 5 = MUTEX_SUCCESS := by decide
  have h2 : mutex_checking (mem_mutex 1 0 0) 5 = MUTEX_SUCCESS := by decide
  have k1 := mutex_release_non_owner (mem_mutex 0 101 1) 5 0 102 (by decide)
  have k2 := mutex_release_non_owner (mem_mutex 1 0 0) 5 0 102 (by decide)
  exact ⟨⟨h1, (k1.2.2.2.2.2.2 h1).1, (k1.2.2.2.2.2.2 h1).2, k1.2.1⟩,
    ⟨h2, (k2.2.2.2.2.2.2 h2).1, (k2.2.2.2.2.2.2 h2).2, k2.2.1⟩⟩

/-- C6. `mutex_acquire` by a non-null task `t` on a well-formed mutex `x`.  If `t` is the
owner it returns `MUTEX_SUCCESS`, `lock_count` is incremented (a `size_t` increment, which
is `lock_count + 1` unless `lock_count` is `SIZE_MAX`), the owner stays, and neither the
semaphore store nor any list header or node is written.  If the mutex is free it returns `MUTEX_SUCCESS`, the semaphore token
goes from 1 to 0, `owner = t` and `lock_count = 1`.  If another task owns it, and the
node `re` is a node of the well-formed ready list `rl` (nodes `rs`), it returns
`MUTEX_OWNED_BY_OTHER_TASK`, owner and lock count are unchanged, `re` leaves the ready
list and becomes the head of the waiting list of the semaphore. -/
theorem mutex_acquire_contract (m : Mem) (x rl re t : Nat) (ws rs : List Nat)
    (hwf : mutex_wf m x ws) (ht : t ≠ 0) :
    (t = (m.mutex x).owner →
      (mutex_acquire m x rl re t).1 = MUTEX_SUCCESS ∧
      ((mutex_acquire m x rl re t).2.mutex x).lock_count = size_t_inc (m.mutex x).lock_count ∧
      ((m.mutex x).lock_count + 1 < SIZE_T_MOD →
        ((mutex_acquire m x rl re t).2.mutex x).lock_count = (m.mutex x).lock_count + 1) ∧
      ((mutex_acquire m x rl re t).2.mutex x).owner = t ∧
      (mutex_acquire m x rl re t).2.semaphore = m.semaphore ∧
      (mutex_acquire m x rl re t).2.list = m.list ∧
      (mutex_acquire m x rl re t).2.element = m.element) ∧
    ((m.mutex x).owner = 0 →
      (mutex_acquire m x rl re t).1 = MUTEX_SUCCESS ∧
      (m.semaphore (m.mutex x).binary_semaphore).token = 1 ∧
      ((mutex_acquire m x rl re t).2.semaphore (m.mutex x).binary_semaphore).token = 0 ∧
      ((mutex_acquire m x rl re t).2.mutex x).owner = t ∧
      ((mutex_acquire m x rl re t).2.mutex x).lock_count = 1 ∧
      (mutex_acquire m x rl re t).2.list = m.list ∧
      (mutex_acquire m x rl re t).2.element = m.element) ∧
    ((m.mutex x).owner ≠ 0 → t ≠ (m.mutex x).owner → rl ≠ 0 →
      rl ≠ (m.semaphore (m.mutex x).binary_semaphore).task_waiting_list →
      IsList m.element (m.list rl) rs → re ∈ rs → (∀ y ∈ ws, y ∉ rs) →
      (mutex_acquire m x rl re t).1 = MUTEX_OWNED_BY_OTHER_TASK ∧
      ((mutex_acquire m x rl re t).2.mutex x).owner = (m.mutex x).owner ∧
      ((mutex_acquire m x rl re t).2.mutex x).lock_count = (m.mutex x).lock_count ∧
      (mutex_acquire m x rl re t).2.semaphore = m.semaphore ∧
      IsList (mutex_acquire m x rl re t).2.element
        ((mutex_acquire m x rl re t).2.list rl) (rs.erase re) ∧
      IsList (mutex_acquire m x rl re t).2.element
        ((mutex_acquire m x rl re t).2.list
          (m.semaphore (m.mutex x).binary_semaphore).task_waiting_list) (ws ++ [re]) ∧
      ((mutex_acquire m x rl re t).2.element re).data = (m.element re).data) := by
  obtain ⟨hc, hw, hmax, htok⟩ := hwf
  obtain ⟨hx0, hsc, hinv⟩ := mutex_checking_ok hc
  obtain ⟨-, hle, -⟩ := semaphore_checking_ok hsc
  refine ⟨fun hto => ?_, fun ho => ?_, fun ho hto hrl hne hr hre hdj => ?_⟩
  · have heq : mutex_acquire m x rl re t =
        (MUTEX_SUCCESS, m.setLockCount x (size_t_inc (m.mutex x).lock_count)) := by
      simp [mutex_acquire, hc, hto]
    rw [heq]
    refine ⟨rfl, by simp [Mem.setLockCount], ?_, ?_, rfl, rfl, rfl⟩
    · intro hov
      simp [Mem.setLockCount, size_t_inc_pos hov]
    · simp [Mem.setLockCount, hto]
  · have hto : t ≠ (m.mutex x).owner := by rw [ho]; exact ht
    have htk : (m.semaphore (m.mutex x).binary_semaphore).token ≠ 0 := by
      intro h0; exact (htok.1 h0) ho
    have ht1 : (m.semaphore (m.mutex x).binary_semaphore).token = 1 := by
      have hmax1 : (m.semaphore (m.mutex x).binary_semaphore).max_token = 1 := hmax
      rw [hmax1] at hle; omega
    have hl0 : (m.mutex x).lock_count = 0 := hinv.2 ho
    have heq : mutex_acquire m x rl re t =
        (MUTEX_SUCCESS, ((m.setToken (m.mutex x).binary_semaphore 0).setOwner x t).setLockCount x
          1) := by
      simp [mutex_acquire, hc, hto, semaphore_acquire_token rl re t hsc htk, ht1,
        Mem.setOwner, Mem.setToken, hl0, size_t_inc]
    rw [heq]
    refine ⟨rfl, ht1, by simp [Mem.setLockCount, Mem.setOwner, Mem.setToken],
      by simp [Mem.setLockCount, Mem.setOwner], by simp [Mem.setLockCount], rfl, rfl⟩
  · have h0 : (m.semaphore (m.mutex x).binary_semaphore).token = 0 := htok.2 ho
    obtain ⟨k1, k2, k3, k4, k5, k6⟩ :=
      semaphore_acquire_no_tokens t ⟨hsc, hw⟩ h0 hrl hne hr hre hdj
    have heq : mutex_acquire m x rl re t =
        (MUTEX_OWNED_BY_OTHER_TASK,
          (semaphore_acquire m (m.mutex x).binary_semaphore rl re t).2) := by
      simp [mutex_acquire, hc, hto, k1]
    rw [heq]
    refine ⟨rfl, by rw [k3], by rw [k3], k2, k4, k5, k6 re⟩

/-- C6, witness: on the mutex of `mem_mutex`, the owner acquires again, a task acquires
the free mutex, and task 102 is parked behind the owner 101. -/
theorem mutex_acquire_contract_witness :
    (mutex_wf (mem_mutex 0 101 1) 5 [] ∧
      (mutex_acquire (mem_mutex 0 101 1) 5 2 11 101).1 = MUTEX_SUCCESS ∧
      ((mutex_acquire (mem_mutex 0 101 1) 5 2 11 101).2.mutex 5).lock_count = 2) ∧
    (mutex_wf (mem_mutex 1 0 0) 5 [] ∧
      (mutex_acquire (mem_mutex 1 0 0) 5 2 11 101).1 = MUTEX_SUCCESS ∧
      ((mutex_acquire (mem_mutex 1 0 0) 5 2 11 101).2.mutex 5).owner = 101) ∧
    (IsList (mem_mutex 0 101 1).element ((mem_mutex 0 101 1).list 2) [11, 12] ∧
      (mutex_acquire (mem_mutex 0 101 1) 5 2 12 102).1 = MUTEX_OWNED_BY_OTHER_TASK ∧
      IsList (mutex_acquire (mem_mutex 0 101 1) 5 2 12 102).2.element
        ((mutex_acquire (mem_mutex 0 101 1) 5 2 12 102).2.list 3) [12]) := by
  have w1 : mutex_wf (mem_mutex 0 101 1) 5 [] := by unfold mutex_wf; decide
  have w2 : mutex_wf (mem_mutex 1 0 0) 5 [] := by unfold mutex_wf; decide
  have hr : IsList (mem_mutex 0 101 1).element ((mem_mutex 0 101 1).list 2) [11, 12] := by
    decide
  have a := (mutex_acquire_contract (mem_mutex 0 101 1) 5 2 11 101 [] [11, 12] w1
    (by decide)).1 (by decide)
  have b := (mutex_acquire_contract (mem_mutex 1 0 0) 5 2 11 101 [] [11, 12] w2
    (by decide)).2.1 (by decide)
  have c := (mutex_acquire_contract (mem_mutex 0 101 1) 5 2 12 102 [] [11, 12] w1
    (by decide)).2.2 (by decide) (by decide) (by decide) (by decide) hr (by decide)
    (by decide)
  exact ⟨⟨w1, a.1, a.2.2.1 (by decide)⟩, ⟨w2, b.1, b.2.2.2.1⟩, ⟨hr, c.1, c.2.2.2.2.2.1⟩⟩

theorem mutex_acquire_times_held {x t : Nat} (rl re : Nat) (ht : t ≠ 0) :
    ∀ (n : Nat) (m : Mem) (k : Nat), mutex_state m x t k 0 → k ≠ 0 → k + n < SIZE_T_MOD →
      (mutex_acquire_times x rl re t n m).1 = List.replicate n MUTEX_SUCCESS ∧
      mutex_state (mutex_acquire_times x rl re t n m).2 x t (k + n) 0 := by
  intro n
  induction n with
  | zero => intro m k h _ _; exact ⟨rfl, h⟩
  | succ n ih =>
    intro m k h hk hov
    obtain ⟨a1, a2⟩ := mutex_acquire_held rl re h ht hk (by omega)
    obtain ⟨b1, b2⟩ := ih _ (k + 1) a2 (by omega) (by omega)
    refine ⟨?_, ?_⟩
    · show (mutex_acquire m x rl re t).1 ::
        (mutex_acquire_times x rl re t n (mutex_acquire m x rl re t).2).1 = _
      rw [a1, b1]; rfl
    · show mutex_state (mutex_acquire_times x rl re t n (mutex_acquire m x rl re t).2).2 x t
        (k + (n + 1)) 0
      have : k + (n + 1) = k + 1 + n := by omega
      rw [this]; exact b2

theorem mutex_release_times_held {x t : Nat} (ht : t ≠ 0) :
    ∀ (j : Nat) (m : Mem) (k : Nat), mutex_state m x t (k + j) 0 → k ≠ 0 →
      k + j < SIZE_T_MOD →
      (mutex_release_times x t j m).1 = List.replicate j MUTEX_SUCCESS ∧
      mutex_state (mutex_release_times x t j m).2 x t k 0 := by
  intro j
  induction j with
  | zero => intro m k h _ _; exact ⟨rfl, h⟩
  | succ j ih =>
    intro m k h hk hov
    have hform : k + (j + 1) = (k - 1 + j) + 2 := by omega
    rw [hform] at h
    obtain ⟨a1, a2⟩ := mutex_release_held h ht (by omega)
    have hform2 : k - 1 + j + 1 = k + j := by omega
    rw [hform2] at a2
    obtain ⟨b1, b2⟩ := ih _ k a2 hk (by omega)
    refine ⟨?_, b2⟩
    show (mutex_release m x 0 t).status ::
      (mutex_release_times x t j (mutex_release m x 0 t).mem).1 = _
    rw [a1, b1]; rfl

theorem mutex_release_times_all {x t : Nat} (ht : t ≠ 0) :
    ∀ (j : Nat) (m : Mem), mutex_state m x t (j + 1) 0 → j + 1 < SIZE_T_MOD →
      (mutex_release_times x t (j + 1) m).1 = List.replicate (j + 1) MUTEX_SUCCESS ∧
      mutex_state (mutex_release_times x t (j + 1) m).2 x 0 0 1 := by
  intro j
  induction j with
  | zero =>
    intro m h _
    obtain ⟨a1, a2⟩ := mutex_release_last h ht
    refine ⟨?_, a2⟩
    show [(mutex_release m x 0 t).status] = _
    rw [a1]; rfl
  | succ j ih =>
    intro m h hov
    obtain ⟨a1, a2⟩ := mutex_release_held h ht hov
    obtain ⟨b1, b2⟩ := ih _ a2 (by omega)
    refine ⟨?_, b2⟩
    show (mutex_release m x 0 t).status ::
      (mutex_release_times x t (j + 1) (mutex_release m x 0 t).mem).1 = _
    rw [a1, b1]; rfl

/-- C8. Recursive acquire/release pairs are balanced.  Take a free mutex `x` (`owner =
NULL`, `lock_count = 0`, token 1 of its binary semaphore, no waiters), a non-null task
`t` and `1 ≤ n` with `n` a `size_t` value.  Then `n` calls of `mutex_acquire` by `t` all
return `MUTEX_SUCCESS` and leave `owner = t` and `lock_count = n`.  After them, any `j < n`
calls of `mutex_release` by `t` all return `MUTEX_SUCCESS` and leave `owner = t`, the token
taken (`token = 0`) and `lock_count = n - j`; and `n` calls all return `MUTEX_SUCCESS` and
leave `owner = NULL`, `lock_count = 0` and `token = 1`. -/
theorem mutex_recursion_balanced (m : Mem) (x rl re t n : Nat)
    (hfree : mutex_state m x 0 0 1) (ht : t ≠ 0) (h1 : 1 ≤ n) (hn : n < SIZE_T_MOD) :
    (mutex_acquire_times x rl re t n m).1 = List.replicate n MUTEX_SUCCESS ∧
    ((mutex_acquire_times x rl re t n m).2.mutex x).owner = t ∧
    ((mutex_acquire_times x rl re t n m).2.mutex x).lock_count = n ∧
    (∀ j, j < n →
      (mutex_release_times x t j (mutex_acquire_times x rl re t n m).2).1 =
        List.replicate j MUTEX_SUCCESS ∧
      ((mutex_release_times x t j (mutex_acquire_times x rl re t n m).2).2.mutex x).owner = t ∧
      ((mutex_release_times x t j (mutex_acquire_times x rl re t n m).2).2.semaphore
        ((mutex_release_times x t j (mutex_acquire_times x rl re t n m).2).2.mutex
          x).binary_semaphore).token = 0 ∧
      ((mutex_release_times x t j (mutex_acquire_times x rl re t n m).2).2.mutex x).lock_count =
        n - j) ∧
    (mutex_release_times x t n (mutex_acquire_times x rl re t n m).2).1 =
      List.replicate n MUTEX_SUCCESS ∧
    ((mutex_release_times x t n (mutex_acquire_times x rl re t n m).2).2.mutex x).owner = 0 ∧
    ((mutex_release_times x t n (mutex_acquire_times x rl re t n m).2).2.mutex x).lock_count = 0 ∧
    ((mutex_release_times x t n (mutex_acquire_times x rl re t n m).2).2.semaphore
      ((mutex_release_times x t n (mutex_acquire_times x rl re t n m).2).2.mutex
        x).binary_semaphore).token = 1 := by
  obtain ⟨n, rfl⟩ : ∃ k, n = k + 1 := ⟨n - 1, by omega⟩
  obtain ⟨a1, a2⟩ := mutex_acquire_free rl re hfree ht
  obtain ⟨b1, b2⟩ := mutex_acquire_times_held rl re ht n _ 1 a2 (by decide) (by omega)
  have hst : mutex_state (mutex_acquire_times x rl re t (n + 1) m).2 x t (n + 1) 0 := by
    show mutex_state (mutex_acquire_times x rl re t n (mutex_acquire m x rl re t).2).2 x t
      (n + 1) 0
    rw [Nat.add_comm]; exact b2
  refine ⟨?_, hst.2.2.2.1, hst.2.2.2.2.1, ?_, ?_⟩
  · show (mutex_acquire m x rl re t).1 ::
      (mutex_acquire_times x rl re t n (mutex_acquire m x rl re t).2).1 = _
    rw [a1, b1]; rfl
  · intro j hj
    have hform : (n + 1 - j) + j = n + 1 := by omega
    have hst2 : mutex_state (mutex_acquire_times x rl re t (n + 1) m).2 x t
        ((n + 1 - j) + j) 0 := by
      rw [hform]; exact hst
    obtain ⟨c1, c2⟩ := mutex_release_times_held ht j _ (n + 1 - j) hst2 (by omega) (by omega)
    exact ⟨c1, c2.2.2.2.1, c2.2.2.2.2.2.1, c2.2.2.2.2.1⟩
  · obtain ⟨c1, c2⟩ := mutex_release_times_all ht n _ hst hn
    exact ⟨c1, c2.2.2.2.1, c2.2.2.2.2.1, c2.2.2.2.2.2.1⟩

/-- C8, witness: three acquires and three releases of the free mutex of `mem_mutex` by
task 101 (scenario S2). -/
theorem mutex_recursion_balanced_witness :
    mutex_state (mem_mutex 1 0 0) 5 0 0 1 ∧
    (mutex_acquire_times 5 2 11 101 3 (mem_mutex 1 0 0)).1 =
      [MUTEX_SUCCESS, MUTEX_SUCCESS, MUTEX_SUCCESS] ∧
    ((mutex_acquire_times 5 2 11 101 3 (mem_mutex 1 0 0)).2.mutex 5).lock_count = 3 ∧
    (mutex_release_times 5 101 3 (mutex_acquire_times 5 2 11 101 3 (mem_mutex 1 0 0)).2).1 =
      [MUTEX_SUCCESS, MUTEX_SUCCESS, MUTEX_SUCCESS] ∧
    ((mutex_release_times 5 101 3
      (mutex_acquire_times 5 2 11 101 3 (mem_mutex 1 0 0)).2).2.mutex 5).owner = 0 := by
  have w : mutex_state (mem_mutex 1 0 0) 5 0 0 1 := by unfold mutex_state; decide
  have k := mutex_recursion_balanced (mem_mutex 1 0 0) 5 2 11 101 3 w (by decide) (by decide)
    (by decide)
  exact ⟨w, k.1, k.2.2.1, k.2.2.2.2.1, k.2.2.2.2.2.1⟩

/-! ## Claims on the kernel facade -/

theorem dictionary_get_status (m : Mem) (d key v : Nat) :
    (dictionary_get m d key v).1 = DICTIONARY_SUCCESS ∧ (dictionary_get m d key v).2 ≠ 0 ∨
    (dictionary_get m d key v).1 = DICTIONARY_NO_MEMORY ∨
    (dictionary_get m d key v).1 = DICTIONARY_DATA_NO_MEMORY ∨
    (dictionary_get m d key v).1 = DICTIONARY_VALUE_IS_NULL := by
  unfold dictionary_get dictionary_checking
  by_cases h1 : d = 0
  · simp [h1]
  · by_cases h2 : (m.dictionary d).data = 0
    · simp [h1, h2]
    · by_cases h3 : m.slots (m.dictionary d).data key = 0
      · simp [h1, h2, h3]
      · simp [h1, h2, h3]

/-- With a `NULL` element `kernel_reinsert_task` fails and changes nothing. -/
theorem kernel_reinsert_task_null_element (K : Kernel) (source task : Nat) :
    (kernel_reinsert_task K source 0 task).1 ≠ KERNEL_SUCCESS ∧
    (kernel_reinsert_task K source 0 task).2 = K := by
  have e1 : ERROR_INFO DICTIONARY_NO_MEMORY KERNEL_DICTIONARY_ERROR_REGISTER
      KERNEL_UNABLE_TO_REINSERT_TASK ≠ KERNEL_SUCCESS := by decide
  have e2 : ERROR_INFO DICTIONARY_DATA_NO_MEMORY KERNEL_DICTIONARY_ERROR_REGISTER
      KERNEL_UNABLE_TO_REINSERT_TASK ≠ KERNEL_SUCCESS := by decide
  have e3 : ERROR_INFO DICTIONARY_VALUE_IS_NULL KERNEL_DICTIONARY_ERROR_REGISTER
      KERNEL_UNABLE_TO_REINSERT_TASK ≠ KERNEL_SUCCESS := by decide
  have e4 : ERROR_INFO LINKED_LIST_NO_MEMORY KERNEL_SEMAPHORE_ERROR_REGISTER
      KERNEL_UNABLE_TO_REINSERT_TASK ≠ KERNEL_SUCCESS := by decide
  have e5 : ERROR_INFO LINKED_LIST_ELEMENT_NO_MEMORY KERNEL_SEMAPHORE_ERROR_REGISTER
      KERNEL_UNABLE_TO_REINSERT_TASK ≠ KERNEL_SUCCESS := by decide
  unfold kernel_reinsert_task
  simp only []
  rcases dictionary_get_status K.mem K.g_prioritized_tasks
      (K.mem.tcb (K.mem.task task).task_data).u8TaskPrio 0 with ⟨h, hv⟩ | h | h | h
  · rw [h]
    simp only [ne_eq, not_true_eq_false, if_false]
    by_cases hs : source = 0
    · have ht : linked_list_transfer K.mem (dictionary_get K.mem K.g_prioritized_tasks
          (K.mem.tcb (K.mem.task task).task_data).u8TaskPrio 0).2 source 0 =
          (LINKED_LIST_NO_MEMORY, K.mem) := by
        simp [linked_list_transfer, linked_list_checking, hv, hs]
      rw [ht]
      exact ⟨e4, rfl⟩
    · have ht : linked_list_transfer K.mem (dictionary_get K.mem K.g_prioritized_tasks
          (K.mem.tcb (K.mem.task task).task_data).u8TaskPrio 0).2 source 0 =
          (LINKED_LIST_ELEMENT_NO_MEMORY, K.mem) := by
        simp [linked_list_transfer, linked_list_checking, linked_list_element_checking, hv, hs]
      rw [ht]
      exact ⟨e5, rfl⟩
  · rw [h]; exact ⟨e1, rfl⟩
  · rw [h]; exact ⟨e2, rfl⟩
  · rw [h]; exact ⟨e3, rfl⟩

/-- C9 (the facade rejects the nested release).  Whenever the running task owns the
registered mutex `x` of id `id` with `lock_count ≥ 2`, `kernel_mutex_release(id)` does
decrement `lock_count` and keep the owner, but `mutex_release` leaves `*task` at the
running task, so the facade calls `kernel_reinsert_task` with a `NULL` element, returns
its error status (not `KERNEL_SUCCESS`) and returns early with the critical-section flag
inverted with respect to its value at entry. -/
theorem kernel_mutex_release_nested_fails (K : Kernel) (id x : Nat)
    (hid : id < KERNEL_MAX_MUTEX)
    (hget : dictionary_get K.mem K.g_mutex_list id 0 = (DICTIONARY_SUCCESS, x))
    (hc : mutex_checking K.mem x = MUTEX_SUCCESS)
    (hown : (K.mem.mutex x).owner = K.g_running_task_current)
    (ht : K.g_running_task_current ≠ 0)
    (hl : 2 ≤ (K.mem.mutex x).lock_count) (hsz : (K.mem.mutex x).lock_count < SIZE_T_MOD) :
    (kernel_mutex_release K id).1 ≠ KERNEL_SUCCESS ∧
    (kernel_mutex_release K id).2.g_kernel_critical_section_active =
      !K.g_kernel_critical_section_active ∧
    ((kernel_mutex_release K id).2.mem.mutex x).lock_count = (K.mem.mutex x).lock_count - 1 ∧
    ((kernel_mutex_release K id).2.mem.mutex x).owner = K.g_running_task_current := by
  have hmem : (kernel_toggle_critical_section K).mem = K.mem := by
    unfold kernel_toggle_critical_section; split_ifs <;> rfl
  have hcur : (kernel_toggle_critical_section K).g_running_task_current =
      K.g_running_task_current := by
    unfold kernel_toggle_critical_section; split_ifs <;> rfl
  have hml : (kernel_toggle_critical_section K).g_mutex_list = K.g_mutex_list := by
    unfold kernel_toggle_critical_section; split_ifs <;> rfl
  have hfl : (kernel_toggle_critical_section K).g_kernel_critical_section_active =
      !K.g_kernel_critical_section_active := by
    unfold kernel_toggle_critical_section; split_ifs <;> rfl
  have hd : size_t_dec (K.mem.mutex x).lock_count = (K.mem.mutex x).lock_count - 1 :=
    size_t_dec_pos (by omega) hsz
  have hrel : mutex_release K.mem x 0 K.g_running_task_current =
      ⟨MUTEX_SUCCESS, K.mem.setLockCount x ((K.mem.mutex x).lock_count - 1), 0,
        K.g_running_task_current⟩ := by
    have h1 : (K.mem.mutex x).lock_count ≠ 1 := by omega
    simp [mutex_release, hc, hown, h1, hd]
  unfold kernel_mutex_release
  simp only [ge_iff_le, Nat.not_le.2 hid, if_false, hmem, hcur, hml, hget, ne_eq,
    not_true_eq_false, hrel, ht, not_false_eq_true, if_true]
  rw [if_pos (kernel_reinsert_task_null_element _ _ _).1,
    (kernel_reinsert_task_null_element _ _ _).2]
  refine ⟨(kernel_reinsert_task_null_element _ _ _).1, hfl, ?_, ?_⟩
  · simp [Kernel.setMem, Mem.setLockCount]
  · simp [Kernel.setMem, Mem.setLockCount, hown]

/-- C9, witness: in `kernel_mutex_example 2` task 101 holds the mutex of id 0 twice; the
facade returns the composite code 32787 (`LINKED_LIST_ELEMENT_NO_MEMORY` shifted into the
semaphore register, or-ed with `KERNEL_UNABLE_TO_REINSERT_TASK`) and leaves the
critical-section flag set although it was clear at entry. -/
theorem kernel_mutex_release_nested_fails_witness :
    (kernel_mutex_release (kernel_mutex_example 2) 0).1 = 32787 ∧
    (kernel_mutex_example 2).g_kernel_critical_section_active = false ∧
    (kernel_mutex_release (kernel_mutex_example 2) 0).2.g_kernel_critical_section_active
      = true ∧
    (kernel_mutex_release (kernel_mutex_example 2) 0).1 ≠ KERNEL_SUCCESS := by
  have k := kernel_mutex_release_nested_fails (kernel_mutex_example 2) 0 5 (by decide)
    (by decide) (by decide) (by decide) (by decide) (by decide) (by decide)
  exact ⟨by decide, rfl, k.2.1, k.1⟩

/-! ## Claims on the message queue -/

/-- C10. Direct delivery bypasses the ring.  Let `mq` be a message queue accepted by
`message_queue_checking` whose receiver-wait list is a well-formed non-empty list `rs`
(read from tail to head, so that its first node is the receiver that was parked first,
`linked_list_transfer` adding each parked node at the head), and let the task `recv` of
that first node pass `task_checking`.  Then `message_queue_send`, urgent or not, returns
`MESSAGE_QUEUE_SUCCESS`, outputs that node and `recv`, copies the `element_size` payload
bytes at `message` into the buffer `recv->message`, sets `recv->message_set`, leaves the
queue control blocks (length and indices), the slot arrays, the lists and every byte
outside that buffer unchanged; in particular every ring cell that does not overlap the
buffer keeps its contents. -/
theorem message_queue_send_direct (m : Mem) (mq el t message element_size : Nat)
    (urgent : Bool) (rs : List Nat)
    (hc : message_queue_checking m mq = MESSAGE_QUEUE_SUCCESS)
    (hr : IsList m.element (m.list (m.message_queue mq).receiving_task_list) rs)
    (hne : rs ≠ [])
    (htask : task_checking m (m.element (rs.headD 0)).data = TASK_SUCCESS) :
    (message_queue_send m mq el t message element_size urgent).status =
      MESSAGE_QUEUE_SUCCESS ∧
    (message_queue_send m mq el t message element_size urgent).element = rs.headD 0 ∧
    (message_queue_send m mq el t message element_size urgent).task =
      (m.element (rs.headD 0)).data ∧
    (∀ i, i < element_size →
      (message_queue_send m mq el t message element_size urgent).mem.byte
        ((m.task (m.element (rs.headD 0)).data).message + i) = m.byte (message + i)) ∧
    ((message_queue_send m mq el t message element_size urgent).mem.task
      (m.element (rs.headD 0)).data).message_set = true ∧
    ((message_queue_send m mq el t message element_size urgent).mem.task
      (m.element (rs.headD 0)).data).message = (m.task (m.element (rs.headD 0)).data).message ∧
    (message_queue_send m mq el t message element_size urgent).mem.queue = m.queue ∧
    (message_queue_send m mq el t message element_size urgent).mem.slots = m.slots ∧
    (message_queue_send m mq el t message element_size urgent).mem.list = m.list ∧
    (message_queue_send m mq el t message element_size urgent).mem.element = m.element ∧
    (∀ a, (a < (m.task (m.element (rs.headD 0)).data).message ∨
        (m.task (m.element (rs.headD 0)).data).message + element_size ≤ a) →
      (message_queue_send m mq el t message element_size urgent).mem.byte a = m.byte a) ∧
    ((∀ i j k, i < (m.queue (m.message_queue mq).qcb).size →
        j < (m.queue (m.message_queue mq).qcb).element_size → k < element_size →
        m.slots (m.queue (m.message_queue mq).qcb).data i + j ≠
          (m.task (m.element (rs.headD 0)).data).message + k) →
      ∀ i j, i < (m.queue (m.message_queue mq).qcb).size →
        j < (m.queue (m.message_queue mq).qcb).element_size →
        (message_queue_send m mq el t message element_size urgent).mem.byte
          (m.slots (m.queue (m.message_queue mq).qcb).data i + j) =
        m.byte (m.slots (m.queue (m.message_queue mq).qcb).data i + j)) := by
  have hsz : (m.list (m.message_queue mq).receiving_task_list).size > 0 := by
    rw [hr.2.2.2.2]
    exact List.length_pos.2 hne
  have htl : (m.list (m.message_queue mq).receiving_task_list).tail = rs.headD 0 := hr.2.2.1
  have heq : message_queue_send m mq el t message element_size urgent =
      ⟨MESSAGE_QUEUE_SUCCESS,
        (m.setBytes (memcpy m.byte (m.task (m.element (rs.headD 0)).data).message message
          element_size)).setMessageSet (m.element (rs.headD 0)).data true,
        rs.headD 0, (m.element (rs.headD 0)).data⟩ := by
    unfold message_queue_send
    rw [if_neg (not_not.2 hc), if_pos hsz]
    simp only [htl]
    rw [if_neg (not_not.2 htask)]
  rw [heq]
  have hframe : ∀ a, (a < (m.task (m.element (rs.headD 0)).data).message ∨
      (m.task (m.element (rs.headD 0)).data).message + element_size ≤ a) →
      memcpy m.byte (m.task (m.element (rs.headD 0)).data).message message element_size a
        = m.byte a := by
    intro a ha
    unfold memcpy
    rw [if_neg]
    omega
  refine ⟨rfl, rfl, rfl, ?_, ?_, ?_, rfl, rfl, rfl, rfl, hframe, ?_⟩
  · intro i hi
    show memcpy m.byte _ message element_size _ = _
    unfold memcpy
    rw [if_pos ⟨Nat.le_add_right _ _, by omega⟩]
    congr 1
    omega
  · simp [Mem.setMessageSet, Mem.setTask, Mem.setBytes]
  · simp [Mem.setMessageSet, Mem.setTask, Mem.setBytes]
  · intro hsep i j hi hj
    apply hframe
    by_contra hcon
    have h1 : (m.task (m.element (rs.headD 0)).data).message ≤
        m.slots (m.queue (m.message_queue mq).qcb).data i + j := by omega
    have h2 : m.slots (m.queue (m.message_queue mq).qcb).data i + j <
        (m.task (m.element (rs.headD 0)).data).message + element_size := by omega
    apply hsep i j (m.slots (m.queue (m.message_queue mq).qcb).data i + j -
      (m.task (m.element (rs.headD 0)).data).message) hi hj (by omega)
    omega

/-- C10, witness: a sender delivers the four payload bytes to the queue of `mem_mq`, on
which task 102 was parked before task 101; the payload lands in the buffer of task 102
and the ring still holds one message. -/
theorem message_queue_send_direct_witness :
    message_queue_checking mem_mq 60 = MESSAGE_QUEUE_SUCCESS ∧
    IsList mem_mq.element (mem_mq.list 63) [12, 11] ∧
    (message_queue_send mem_mq 60 0 0 500 4 false).status = MESSAGE_QUEUE_SUCCESS ∧
    (message_queue_send mem_mq 60 0 0 500 4 false).task = 102 ∧
    (message_queue_send mem_mq 60 0 0 500 4 true).task = 102 ∧
    (message_queue_send mem_mq 60 0 0 500 4 false).mem.byte 2003 = 4 ∧
    ((message_queue_send mem_mq 60 0 0 500 4 false).mem.task 102).message_set = true ∧
    ((message_queue_send mem_mq 60 0 0 500 4 false).mem.queue 61).length = 1 ∧
    (message_queue_send mem_mq 60 0 0 500 4 false).mem.byte 1000 = 9 := by
  have hc : message_queue_checking mem_mq 60 = MESSAGE_QUEUE_SUCCESS := by decide
  have hr : IsList mem_mq.element (mem_mq.list 63) [12, 11] := by decide
  have k := message_queue_send_direct mem_mq 60 0 0 500 4 false [12, 11] hc hr (by decide)
    (by decide)
  have k2 := message_queue_send_direct mem_mq 60 0 0 500 4 true [12, 11] hc hr (by decide)
    (by decide)
  refine ⟨hc, hr, k.1, k.2.2.1, k2.2.2.1, ?_, k.2.2.2.2.1, ?_, ?_⟩
  · exact k.2.2.2.1 3 (by decide)
  · rw [k.2.2.2.2.2.2.1]; rfl
  · exact k.2.2.2.2.2.2.2.2.2.2.1 1000 (Or.inl (by decide))

/-! ## Lemmas on the further list operations -/

/-- The writes of `linked_list_move_linked_list_after` with a non-empty source. -/
theorem move_spec (m : Mem) (dst src : Nat) (hd0 : dst ≠ 0) (hs0 : src ≠ 0) (hds : dst ≠ src)
    (hsz : (m.list src).size ≠ 0) :
    (linked_list_move_linked_list_after m dst src).1 = LINKED_LIST_SUCCESS ∧
    (∀ x, ((linked_list_move_linked_list_after m dst src).2.element x).next =
        if x = (m.list dst).head ∧ (m.list dst).size ≠ 0 then (m.list src).tail
        else (m.element x).next) ∧
    (∀ x, ((linked_list_move_linked_list_after m dst src).2.element x).previous =
        if x = (m.list src).tail ∧ (m.list dst).size ≠ 0 then (m.list dst).head
        else (m.element x).previous) ∧
    (∀ x, ((linked_list_move_linked_list_after m dst src).2.element x).data =
        (m.element x).data) ∧
    ((linked_list_move_linked_list_after m dst src).2.list dst).head = (m.list src).head ∧
    ((linked_list_move_linked_list_after m dst src).2.list dst).tail =
      (if (m.list dst).size = 0 then (m.list src).tail else (m.list dst).tail) ∧
    ((linked_list_move_linked_list_after m dst src).2.list dst).size =
      (m.list dst).size + (m.list src).size ∧
    (linked_list_move_linked_list_after m dst src).2.list src = ⟨0, 0, 0⟩ ∧
    (∀ l, l ≠ dst → l ≠ src → (linked_list_move_linked_list_after m dst src).2.list l =
      m.list l) ∧
    OnlyLists m (linked_list_move_linked_list_after m dst src).2 := by
  have hsd : src ≠ dst := fun h => hds h.symm
  by_cases h : (m.list dst).size = 0
  · simp [linked_list_move_linked_list_after, linked_list_checking, Mem.setHead, Mem.setNext,
      Mem.setPrevious, Mem.setTail, Mem.setSize, Function.update_apply, OnlyLists, h, hd0,
      hs0, hds, hsd, hsz]
    intro l h1 h2
    simp [h1, h2]
  · simp [linked_list_move_linked_list_after, linked_list_checking, Mem.setHead, Mem.setNext,
      Mem.setPrevious, Mem.setTail, Mem.setSize, Function.update_apply, OnlyLists, h, hd0,
      hs0, hds, hsd, hsz]
    refine ⟨fun x => ?_, fun x => ?_, fun x => ?_, fun l h1 h2 => ?_⟩
    · split_ifs <;> simp_all
    · split_ifs <;> simp_all
    · split_ifs <;> simp_all
    · simp [h1, h2]

/-- `linked_list_move_linked_list_after` on well-formed lists: the destination takes over
the nodes of the non-empty source. -/
theorem move_isList {m : Mem} {dst src : Nat} {ds ss : List Nat}
    (hd0 : dst ≠ 0) (hs0 : src ≠ 0) (hds : dst ≠ src)
    (hdst : IsList m.element (m.list dst) ds) (hsrc : IsList m.element (m.list src) ss)
    (hne : ss ≠ []) (hdj : ∀ x ∈ ds, x ∉ ss) :
    (linked_list_move_linked_list_after m dst src).1 = LINKED_LIST_SUCCESS ∧
    IsList (linked_list_move_linked_list_after m dst src).2.element
      ((linked_list_move_linked_list_after m dst src).2.list dst) (ds ++ ss) ∧
    (linked_list_move_linked_list_after m dst src).2.list src = ⟨0, 0, 0⟩ ∧
    (∀ x, ((linked_list_move_linked_list_after m dst src).2.element x).data =
        (m.element x).data) ∧
    (∀ l, l ≠ dst → l ≠ src → (linked_list_move_linked_list_after m dst src).2.list l =
      m.list l) ∧
    OnlyLists m (linked_list_move_linked_list_after m dst src).2 := by
  obtain ⟨nd, sg, ht, hh, hs⟩ := hdst
  obtain ⟨nd2, sg2, ht2, hh2, hs2⟩ := hsrc
  have hsz : (m.list src).size ≠ 0 := by
    rw [hs2]; exact fun h => hne (List.length_eq_zero.1 h)
  obtain ⟨q0, q1, q2, q3, q4, q5, q6, q7, q8, q9⟩ := move_spec m dst src hd0 hs0 hds hsz
  have sz : (m.list dst).size = 0 ↔ ds = [] := by
    rw [hs]; exact List.length_eq_zero
  have hhm : ds ≠ [] → (m.list dst).head ∈ ds := fun h => hh ▸ getLastD_mem h 0
  have htm : (m.list src).tail ∈ ss := ht2 ▸ headD_mem hne 0
  refine ⟨q0, ⟨?_, ?_, ?_, ?_, ?_⟩, q7, q3, q8, q9⟩
  · rw [List.nodup_append]
    exact ⟨nd, nd2, fun x hx hx2 => hdj x hx hx2⟩
  · rw [Seg_append]
    constructor
    · apply Seg_retarget_end sg nd
      · intro x hx
        rw [q2, if_neg]
        rintro ⟨hEq, -⟩
        exact hdj x hx (hEq ▸ htm)
      · intro x hx hxl
        rw [q1, if_neg]
        rintro ⟨hEq, -⟩
        exact hxl (hEq.trans hh)
      · intro hd
        rw [← hh, q1, if_pos ⟨rfl, fun hc => hd (sz.1 hc)⟩, ht2]
    · apply Seg_retarget_start sg2 nd2
      · intro x hx
        rw [q1, if_neg]
        rintro ⟨hEq, hnz⟩
        exact hdj x (hEq ▸ hhm (fun hc => hnz (sz.2 hc))) hx
      · intro x hx hxf
        rw [q2, if_neg]
        rintro ⟨hEq, -⟩
        exact hxf (hEq.trans ht2)
      · intro _
        rw [← ht2, q2]
        split_ifs with hc
        · exact hh
        · have hd : ds = [] := by
            by_contra hd
            exact hc ⟨rfl, fun h0 => hd (sz.1 h0)⟩
          subst hd
          cases ss with
          | nil => exact absurd rfl hne
          | cons y ys =>
            rw [ht2]
            exact sg2.2.1
  · rw [q5, headD_append]
    split_ifs with hc
    · rw [sz.1 hc, ht2]; rfl
    · rw [ht]
      cases ds with
      | nil => exact absurd rfl (fun hc2 => hc (sz.2 hc2))
      | cons y ys => rfl
  · rw [q4, getLastD_append, hh2]
    exact getLastD_of_ne_nil hne _ _
  · rw [q6, hs, hs2, List.length_append]
/-- The writes of `linked_list_push_back` with an allocated node. -/
theorem push_back_spec (m : Mem) (l a d : Nat) (hl : l ≠ 0) (ha : a ≠ 0) :
    (linked_list_push_back m l a d).1 = LINKED_LIST_SUCCESS ∧
    (∀ x, ((linked_list_push_back m l a d).2.element x).next =
        if x = a then (if (m.list l).size = 0 then 0 else (m.list l).tail)
        else (m.element x).next) ∧
    (∀ x, ((linked_list_push_back m l a d).2.element x).previous =
        if x = (m.list l).tail ∧ (m.list l).size ≠ 0 then a
        else if x = a then 0 else (m.element x).previous) ∧
    (∀ x, ((linked_list_push_back m l a d).2.element x).data =
        if x = a then d else (m.element x).data) ∧
    ((linked_list_push_back m l a d).2.list l).tail = a ∧
    ((linked_list_push_back m l a d).2.list l).head =
      (if (m.list l).size = 0 then a else (m.list l).head) ∧
    ((linked_list_push_back m l a d).2.list l).size = (m.list l).size + 1 ∧
    (∀ k, k ≠ l → (linked_list_push_back m l a d).2.list k = m.list k) ∧
    OnlyLists m (linked_list_push_back m l a d).2 := by
  by_cases h : (m.list l).size = 0
  · simp [linked_list_push_back, linked_list_element_create, linked_list_checking,
      Mem.setHead, Mem.setNext, Mem.setPrevious, Mem.setTail, Mem.setData,
      Mem.setSize, Function.update_apply, OnlyLists, h, hl, ha]
    refine ⟨fun x => ?_, fun x => ?_, fun x => ?_, fun k h1 h2 => absurd h2 h1⟩ <;>
      split_ifs <;> simp_all
  · simp [linked_list_push_back, linked_list_element_create, linked_list_checking,
      Mem.setHead, Mem.setNext, Mem.setPrevious, Mem.setTail, Mem.setData,
      Mem.setSize, Function.update_apply, OnlyLists, h, hl, ha]
    refine ⟨fun x => ?_, fun x => ?_, fun x => ?_, fun k h1 h2 => absurd h2 h1⟩ <;>
      split_ifs <;> simp_all

/-- The writes of `linked_list_push_front` with an allocated node. -/
theorem push_front_spec (m : Mem) (l a d : Nat) (hl : l ≠ 0) (ha : a ≠ 0) :
    (linked_list_push_front m l a d).1 = LINKED_LIST_SUCCESS ∧
    (∀ x, ((linked_list_push_front m l a d).2.element x).next =
        if x = (m.list l).head ∧ (m.list l).size ≠ 0 then a
        else if x = a then 0 else (m.element x).next) ∧
    (∀ x, ((linked_list_push_front m l a d).2.element x).previous =
        if x = a then (if (m.list l).size = 0 then 0 else (m.list l).head)
        else (m.element x).previous) ∧
    (∀ x, ((linked_list_push_front m l a d).2.element x).data =
        if x = a then d else (m.element x).data) ∧
    ((linked_list_push_front m l a d).2.list l).head = a ∧
    ((linked_list_push_front m l a d).2.list l).tail =
      (if (m.list l).size = 0 then a else (m.list l).tail) ∧
    ((linked_list_push_front m l a d).2.list l).size = (m.list l).size + 1 ∧
    (∀ k, k ≠ l → (linked_list_push_front m l a d).2.list k = m.list k) ∧
    OnlyLists m (linked_list_push_front m l a d).2 := by
  by_cases h : (m.list l).size = 0
  · simp [linked_list_push_front, linked_list_element_create, linked_list_checking,
      Mem.setHead, Mem.setNext, Mem.setPrevious, Mem.setTail, Mem.setData,
      Mem.setSize, Function.update_apply, OnlyLists, h, hl, ha]
    refine ⟨fun x => ?_, fun x => ?_, fun x => ?_, fun k h1 h2 => absurd h2 h1⟩ <;>
      split_ifs <;> simp_all
  · simp [linked_list_push_front, linked_list_element_create, linked_list_checking,
      Mem.setHead, Mem.setNext, Mem.setPrevious, Mem.setTail, Mem.setData,
      Mem.setSize, Function.update_apply, OnlyLists, h, hl, ha]
    refine ⟨fun x => ?_, fun x => ?_, fun x => ?_, fun k h1 h2 => absurd h2 h1⟩ <;>
      split_ifs <;> simp_all
/-- `linked_list_push_back` on a well-formed list: the new node becomes the tail. -/
theorem push_back_isList {m : Mem} {l a : Nat} (d : Nat) {ys : List Nat} (hl : l ≠ 0)
    (h : IsList m.element (m.list l) ys) (ha : a ≠ 0) (hay : a ∉ ys) :
    (linked_list_push_back m l a d).1 = LINKED_LIST_SUCCESS ∧
    IsList (linked_list_push_back m l a d).2.element
      ((linked_list_push_back m l a d).2.list l) (a :: ys) ∧
    (∀ x, ((linked_list_push_back m l a d).2.element x).data =
        if x = a then d else (m.element x).data) := by
  obtain ⟨nd, sg, ht, hh, hs⟩ := h
  obtain ⟨q0, q1, q2, q3, q4, q5, q6, -, -⟩ := push_back_spec m l a d hl ha
  have sz : (m.list l).size = 0 ↔ ys = [] := by
    rw [hs]; exact List.length_eq_zero
  have htm : ys ≠ [] → (m.list l).tail ∈ ys := fun hne => ht ▸ headD_mem hne 0
  refine ⟨q0, ⟨?_, ⟨ha, ?_, ?_, ?_⟩, ?_, ?_, ?_⟩, q3⟩
  · exact List.nodup_cons.2 ⟨hay, nd⟩
  · rw [q2, if_neg, if_pos rfl]
    rintro ⟨hEq, hnz⟩
    exact hay (hEq ▸ htm (fun hc => hnz (sz.2 hc)))
  · rw [q1, if_pos rfl]
    split_ifs with hc
    · rw [sz.1 hc]; rfl
    · exact ht
  · apply Seg_retarget_start sg nd
    · intro x hx
      rw [q1, if_neg]
      exact fun hEq => hay (hEq ▸ hx)
    · intro x hx hxf
      rw [q2, if_neg, if_neg]
      · exact fun hEq => hay (hEq ▸ hx)
      · rintro ⟨hEq, -⟩
        exact hxf (hEq.trans ht)
    · intro hne
      rw [← ht, q2, if_pos ⟨rfl, fun hc => hne (sz.1 hc)⟩]
  · exact q4
  · rw [q5]
    split_ifs with hc
    · rw [sz.1 hc]; rfl
    · rw [hh, List.getLastD_cons]
      exact getLastD_of_ne_nil (fun hc2 => hc (sz.2 hc2)) _ _
  · rw [q6, hs]; rfl

/-- `linked_list_push_front` on a well-formed list: the new node becomes the head. -/
theorem push_front_isList {m : Mem} {l a : Nat} (d : Nat) {ys : List Nat} (hl : l ≠ 0)
    (h : IsList m.element (m.list l) ys) (ha : a ≠ 0) (hay : a ∉ ys) :
    (linked_list_push_front m l a d).1 = LINKED_LIST_SUCCESS ∧
    IsList (linked_list_push_front m l a d).2.element
      ((linked_list_push_front m l a d).2.list l) (ys ++ [a]) ∧
    (∀ x, ((linked_list_push_front m l a d).2.element x).data =
        if x = a then d else (m.element x).data) := by
  obtain ⟨nd, sg, ht, hh, hs⟩ := h
  obtain ⟨q0, q1, q2, q3, q4, q5, q6, -, -⟩ := push_front_spec m l a d hl ha
  have sz : (m.list l).size = 0 ↔ ys = [] := by
    rw [hs]; exact List.length_eq_zero
  have hhm : ys ≠ [] → (m.list l).head ∈ ys := fun hne => hh ▸ getLastD_mem hne 0
  refine ⟨q0, ⟨?_, ?_, ?_, ?_, ?_⟩, q3⟩
  · rw [List.nodup_append]
    refine ⟨nd, List.nodup_singleton a, ?_⟩
    intro x hx hx2
    rw [List.mem_singleton] at hx2
    exact hay (hx2 ▸ hx)
  · rw [Seg_append]
    constructor
    · apply Seg_retarget_end sg nd
      · intro x hx
        rw [q2, if_neg]
        exact fun hEq => hay (hEq ▸ hx)
      · intro x hx hxl
        rw [q1, if_neg, if_neg]
        · exact fun hEq => hay (hEq ▸ hx)
        · rintro ⟨hEq, -⟩
          exact hxl (hEq.trans hh)
      · intro hne
        rw [← hh, q1, if_pos ⟨rfl, fun hc => hne (sz.1 hc)⟩]
        rfl
    · refine ⟨ha, ?_, ?_, trivial⟩
      · rw [q2, if_pos rfl]
        split_ifs with hc
        · rw [sz.1 hc]; rfl
        · exact hh
      · rw [q1, if_neg, if_pos rfl]; rfl
        rintro ⟨hEq, hnz⟩
        exact hay (hEq ▸ hhm (fun hc => hnz (sz.2 hc)))
  · rw [q5, headD_append]
    split_ifs with hc
    · rw [sz.1 hc]; rfl
    · rw [ht]
      cases ys with
      | nil => exact absurd rfl (fun hc2 => hc (sz.2 hc2))
      | cons y ys => rfl
  · rw [q4, getLastD_append]; rfl
  · rw [q6, hs, List.length_append]; rfl
/-- One `linked_list_pop_front` on a list whose nodes, read from tail to head, are
`xs ++ [x]`; the `next` pointer `n` of the head is not looked at. -/
theorem pop_front_step {m : Mem} {l : Nat} (d : Nat) {xs : List Nat} {x n : Nat} (hl : l ≠ 0)
    (sg : Seg m.element 0 (xs ++ [x]) n) (ht : (m.list l).tail = (xs ++ [x]).headD 0)
    (hh : (m.list l).head = x) (hs : (m.list l).size = xs.length + 1) :
    (linked_list_pop_front m l d).status = LINKED_LIST_SUCCESS ∧
    (linked_list_pop_front m l d).data = (m.element x).data ∧
    (linked_list_pop_front m l d).mem.element = m.element ∧
    ((linked_list_pop_front m l d).mem.list l).tail = xs.headD 0 ∧
    ((linked_list_pop_front m l d).mem.list l).head = xs.getLastD 0 ∧
    ((linked_list_pop_front m l d).mem.list l).size = xs.length := by
  rw [Seg_append] at sg
  obtain ⟨-, hx0, hprev, -, -⟩ := sg
  cases xs with
  | nil =>
    have ht2 : (m.list l).tail = x := ht
    simp [linked_list_pop_front, linked_list_checking, hl, hh, hx0, hs, ht2, size_t_pred,
      Mem.setSize, Mem.setTail, Mem.setHead]
  | cons y ys =>
    have ht2 : (m.list l).tail = y := ht
    simp [linked_list_pop_front, linked_list_checking, hl, hh, hx0, hs, ht2, size_t_pred,
      Mem.setSize, Mem.setTail, Mem.setHead]
    exact hprev
/-- Popping every node of a list from the head yields the payloads from head to tail and
leaves the list empty. -/
theorem pop_front_times_spec {l : Nat} (hl : l ≠ 0) (xs : List Nat) :
    ∀ (m : Mem) (n : Nat), Seg m.element 0 xs n → (m.list l).tail = xs.headD 0 →
      (m.list l).head = xs.getLastD 0 → (m.list l).size = xs.length →
      (linked_list_pop_front_times l xs.length m).1 =
        xs.reverse.map (fun x => (LINKED_LIST_SUCCESS, (m.element x).data)) ∧
      (linked_list_pop_front_times l xs.length m).2.list l = ⟨0, 0, 0⟩ ∧
      (linked_list_pop_front_times l xs.length m).2.element = m.element := by
  induction xs using List.reverseRecOn with
  | nil =>
    intro m n _ ht hh hs
    refine ⟨rfl, ?_, rfl⟩
    show m.list l = ⟨0, 0, 0⟩
    have e : m.list l = ⟨(m.list l).head, (m.list l).tail, (m.list l).size⟩ := rfl
    rw [e, ht, hh, hs]
    rfl
  | append_singleton xs x ih =>
    intro m n sg ht hh hs
    have hh2 : (m.list l).head = x := by rw [hh, getLastD_append]; rfl
    have hs2 : (m.list l).size = xs.length + 1 := by
      rw [hs, List.length_append]; rfl
    obtain ⟨p1, p2, p3, p4, p5, p6⟩ := pop_front_step 0 hl sg ht hh2 hs2
    have sg2 : Seg (linked_list_pop_front m l 0).mem.element 0 xs x := by
      rw [p3]
      exact ((Seg_append _ _ _ _ _).1 sg).1
    obtain ⟨i1, i2, i3⟩ := ih (linked_list_pop_front m l 0).mem x sg2 p4 p5 p6
    have hlen : (xs ++ [x]).length = xs.length + 1 := by
      rw [List.length_append]; rfl
    rw [hlen]
    refine ⟨?_, i2, i3.trans p3⟩
    show ((linked_list_pop_front m l 0).status, (linked_list_pop_front m l 0).data) ::
      (linked_list_pop_front_times l xs.length (linked_list_pop_front m l 0).mem).1 = _
    rw [i1, p1, p2, p3, List.reverse_append]
    rfl
/-- Pushing with `linked_list_push_back` onto a well-formed list, the nodes being new. -/
theorem push_back_all_spec {l : Nat} (hl : l ≠ 0) (ps : List (Nat × Nat)) :
    ∀ (m : Mem) (ys : List Nat), IsList m.element (m.list l) ys →
      (ps.map Prod.fst).Nodup → (∀ p ∈ ps, p.1 ≠ 0 ∧ p.1 ∉ ys) →
      (linked_list_push_back_all l ps m).1 = ps.map (fun _ => LINKED_LIST_SUCCESS) ∧
      IsList (linked_list_push_back_all l ps m).2.element
        ((linked_list_push_back_all l ps m).2.list l) ((ps.map Prod.fst).reverse ++ ys) ∧
      (∀ p ∈ ps, ((linked_list_push_back_all l ps m).2.element p.1).data = p.2) ∧
      (∀ x, x ∉ ps.map Prod.fst →
        ((linked_list_push_back_all l ps m).2.element x).data = (m.element x).data) := by
  induction ps with
  | nil =>
    intro m ys h _ _
    exact ⟨rfl, h, fun p hp => absurd hp (List.not_mem_nil p), fun x _ => rfl⟩
  | cons p ps ih =>
    intro m ys h hnd hnew
    rw [List.map_cons, List.nodup_cons] at hnd
    obtain ⟨s1, s2, s3⟩ := push_back_isList p.2 hl h (hnew p (List.mem_cons_self _ _)).1
      (hnew p (List.mem_cons_self _ _)).2
    have hnew2 : ∀ q ∈ ps, q.1 ≠ 0 ∧ q.1 ∉ p.1 :: ys := by
      intro q hq
      refine ⟨(hnew q (List.mem_cons_of_mem _ hq)).1, ?_⟩
      rw [List.mem_cons]
      rintro (hEq | hmem)
      · exact hnd.1 (hEq ▸ List.mem_map_of_mem Prod.fst hq)
      · exact (hnew q (List.mem_cons_of_mem _ hq)).2 hmem
    obtain ⟨i1, i2, i3, i4⟩ := ih (linked_list_push_back m l p.1 p.2).2 (p.1 :: ys) s2 hnd.2 hnew2
    refine ⟨?_, ?_, ?_, ?_⟩
    · show (linked_list_push_back m l p.1 p.2).1 ::
        (linked_list_push_back_all l ps (linked_list_push_back m l p.1 p.2).2).1 = _
      rw [i1, s1]; rfl
    · show IsList (linked_list_push_back_all l ps (linked_list_push_back m l p.1 p.2).2).2.element
        ((linked_list_push_back_all l ps (linked_list_push_back m l p.1 p.2).2).2.list l) _
      rw [List.map_cons, List.reverse_cons, List.append_assoc]
      exact i2
    · intro q hq
      show ((linked_list_push_back_all l ps (linked_list_push_back m l p.1 p.2).2).2.element
        q.1).data = q.2
      rcases List.mem_cons.1 hq with hEq | hmem
      · rw [hEq, i4 p.1 hnd.1, s3, if_pos rfl]
      · exact i3 q hmem
    · intro x hx
      show ((linked_list_push_back_all l ps (linked_list_push_back m l p.1 p.2).2).2.element
        x).data = _
      rw [List.map_cons, List.mem_cons, not_or] at hx
      rw [i4 x hx.2, s3, if_neg hx.1]

/-- Pushing with `linked_list_push_front` onto a well-formed list, the nodes being new. -/
theorem push_front_all_spec {l : Nat} (hl : l ≠ 0) (ps : List (Nat × Nat)) :
    ∀ (m : Mem) (ys : List Nat), IsList m.element (m.list l) ys →
      (ps.map Prod.fst).Nodup → (∀ p ∈ ps, p.1 ≠ 0 ∧ p.1 ∉ ys) →
      (linked_list_push_front_all l ps m).1 = ps.map (fun _ => LINKED_LIST_SUCCESS) ∧
      IsList (linked_list_push_front_all l ps m).2.element
        ((linked_list_push_front_all l ps m).2.list l) (ys ++ ps.map Prod.fst) ∧
      (∀ p ∈ ps, ((linked_list_push_front_all l ps m).2.element p.1).data = p.2) ∧
      (∀ x, x ∉ ps.map Prod.fst →
        ((linked_list_push_front_all l ps m).2.element x).data = (m.element x).data) := by
  induction ps with
  | nil =>
    intro m ys h _ _
    refine ⟨rfl, ?_, fun p hp => absurd hp (List.not_mem_nil p), fun x _ => rfl⟩
    rw [List.map_nil, List.append_nil]
    exact h
  | cons p ps ih =>
    intro m ys h hnd hnew
    rw [List.map_cons, List.nodup_cons] at hnd
    obtain ⟨s1, s2, s3⟩ := push_front_isList p.2 hl h (hnew p (List.mem_cons_self _ _)).1
      (hnew p (List.mem_cons_self _ _)).2
    have hnew2 : ∀ q ∈ ps, q.1 ≠ 0 ∧ q.1 ∉ ys ++ [p.1] := by
      intro q hq
      refine ⟨(hnew q (List.mem_cons_of_mem _ hq)).1, ?_⟩
      rw [List.mem_append, List.mem_singleton]
      rintro (hmem | hEq)
      · exact (hnew q (List.mem_cons_of_mem _ hq)).2 hmem
      · exact hnd.1 (hEq ▸ List.mem_map_of_mem Prod.fst hq)
    obtain ⟨i1, i2, i3, i4⟩ :=
      ih (linked_list_push_front m l p.1 p.2).2 (ys ++ [p.1]) s2 hnd.2 hnew2
    refine ⟨?_, ?_, ?_, ?_⟩
    · show (linked_list_push_front m l p.1 p.2).1 ::
        (linked_list_push_front_all l ps (linked_list_push_front m l p.1 p.2).2).1 = _
      rw [i1, s1]; rfl
    · show IsList
        (linked_list_push_front_all l ps (linked_list_push_front m l p.1 p.2).2).2.element
        ((linked_list_push_front_all l ps (linked_list_push_front m l p.1 p.2).2).2.list l) _
      rw [List.append_assoc] at i2
      exact i2
    · intro q hq
      show ((linked_list_push_front_all l ps (linked_list_push_front m l p.1 p.2).2).2.element
        q.1).data = q.2
      rcases List.mem_cons.1 hq with hEq | hmem
      · rw [hEq, i4 p.1 hnd.1, s3, if_pos rfl]
      · exact i3 q hmem
    · intro x hx
      show ((linked_list_push_front_all l ps (linked_list_push_front m l p.1 p.2).2).2.element
        x).data = _
      rw [List.map_cons, List.mem_cons, not_or] at hx
      rw [i4 x hx.2, s3, if_neg hx.1]
/-! ### Reading a field after a write -/

theorem setNext_next (m : Mem) (a v x : Nat) :
    ((m.setNext a v).element x).next = if x = a then v else (m.element x).next := by
  by_cases h : x = a <;> simp [Mem.setNext, Function.update_apply, h]

theorem setNext_previous (m : Mem) (a v x : Nat) :
    ((m.setNext a v).element x).previous = (m.element x).previous := by
  by_cases h : x = a <;> simp [Mem.setNext, Function.update_apply, h]

theorem setNext_data (m : Mem) (a v x : Nat) :
    ((m.setNext a v).element x).data = (m.element x).data := by
  by_cases h : x = a <;> simp [Mem.setNext, Function.update_apply, h]

theorem setPrevious_previous (m : Mem) (a v x : Nat) :
    ((m.setPrevious a v).element x).previous = if x = a then v else (m.element x).previous := by
  by_cases h : x = a <;> simp [Mem.setPrevious, Function.update_apply, h]

theorem setPrevious_next (m : Mem) (a v x : Nat) :
    ((m.setPrevious a v).element x).next = (m.element x).next := by
  by_cases h : x = a <;> simp [Mem.setPrevious, Function.update_apply, h]

theorem setPrevious_data (m : Mem) (a v x : Nat) :
    ((m.setPrevious a v).element x).data = (m.element x).data := by
  by_cases h : x = a <;> simp [Mem.setPrevious, Function.update_apply, h]

theorem setNext_list (m : Mem) (a v : Nat) : (m.setNext a v).list = m.list := rfl

theorem setPrevious_list (m : Mem) (a v : Nat) : (m.setPrevious a v).list = m.list := rfl

theorem setHead_element (m : Mem) (l v : Nat) : (m.setHead l v).element = m.element := rfl

theorem setTail_element (m : Mem) (l v : Nat) : (m.setTail l v).element = m.element := rfl

theorem setSize_element (m : Mem) (l v : Nat) : (m.setSize l v).element = m.element := rfl

theorem setHead_list (m : Mem) (l v k : Nat) :
    (m.setHead l v).list k = if k = l then { m.list l with head := v } else m.list k := by
  by_cases h : k = l <;> simp [Mem.setHead, Function.update_apply, h]

theorem setTail_list (m : Mem) (l v k : Nat) :
    (m.setTail l v).list k = if k = l then { m.list l with tail := v } else m.list k := by
  by_cases h : k = l <;> simp [Mem.setTail, Function.update_apply, h]

theorem setSize_list (m : Mem) (l v k : Nat) :
    (m.setSize l v).list k = if k = l then { m.list l with size := v } else m.list k := by
  by_cases h : k = l <;> simp [Mem.setSize, Function.update_apply, h]

/-- The writes of `linked_list_link_after` when `after` is a node other than the head of
the non-empty destination: the `previous` pointer of `e` is not among them. -/
theorem link_after_inner_spec (m : Mem) (dst after e : Nat) (hsz : (m.list dst).size ≠ 0)
    (hh : (m.list dst).head ≠ after) (ha : after ≠ 0) :
    (∀ x, ((linked_list_link_after m dst after e).element x).next =
        if x = after then e else if x = e then (m.element after).next
        else (m.element x).next) ∧
    (∀ x, ((linked_list_link_after m dst after e).element x).previous =
        if x = (m.element after).next then e else (m.element x).previous) ∧
    (∀ x, ((linked_list_link_after m dst after e).element x).data = (m.element x).data) ∧
    ((linked_list_link_after m dst after e).list dst).head = (m.list dst).head ∧
    ((linked_list_link_after m dst after e).list dst).tail = (m.list dst).tail ∧
    ((linked_list_link_after m dst after e).list dst).size = (m.list dst).size + 1 ∧
    (∀ l, l ≠ dst → (linked_list_link_after m dst after e).list l = m.list l) ∧
    OnlyLists m (linked_list_link_after m dst after e) := by
  simp only [linked_list_link_after, if_neg hsz, if_neg hh, if_neg ha]
  refine ⟨fun x => ?_, fun x => ?_, fun x => ?_, ?_, ?_, ?_, fun l h1 => ?_, ?_⟩
  · simp only [setSize_element, setNext_next, setPrevious_next]
  · simp only [setSize_element, setNext_previous, setPrevious_previous, setPrevious_next]
  · simp only [setSize_element, setNext_data, setPrevious_data]
  · simp [setSize_list, setNext_list, setPrevious_list]
  · simp [setSize_list, setNext_list, setPrevious_list]
  · simp [setSize_list, setNext_list, setPrevious_list]
  · simp [setSize_list, setNext_list, setPrevious_list, h1]
  · exact (((onlyLists_setPrevious _ _ _).trans (onlyLists_setNext _ _ _)).trans
      (onlyLists_setNext _ _ _)).trans (onlyLists_setSize _ _ _)

/-- The writes of `linked_list_link_after` when `after` is `NULL` and the destination is
not empty: `e` is linked in front of the tail. -/
theorem link_after_null_spec (m : Mem) (dst e : Nat) (hsz : (m.list dst).size ≠ 0)
    (hh : (m.list dst).head ≠ 0) :
    (∀ x, ((linked_list_link_after m dst 0 e).element x).next =
        if x = e then (m.list dst).tail else (m.element x).next) ∧
    (∀ x, ((linked_list_link_after m dst 0 e).element x).previous =
        if x = (m.list dst).tail then e else (m.element x).previous) ∧
    (∀ x, ((linked_list_link_after m dst 0 e).element x).data = (m.element x).data) ∧
    ((linked_list_link_after m dst 0 e).list dst).head = (m.list dst).head ∧
    ((linked_list_link_after m dst 0 e).list dst).tail = e ∧
    ((linked_list_link_after m dst 0 e).list dst).size = (m.list dst).size + 1 ∧
    (∀ l, l ≠ dst → (linked_list_link_after m dst 0 e).list l = m.list l) ∧
    OnlyLists m (linked_list_link_after m dst 0 e) := by
  simp only [linked_list_link_after, if_neg hsz, if_neg hh, if_true]
  refine ⟨fun x => ?_, fun x => ?_, fun x => ?_, ?_, ?_, ?_, fun l h1 => ?_, ?_⟩
  · simp only [setSize_element, setTail_element, setNext_next, setPrevious_next, setNext_list]
  · simp only [setSize_element, setTail_element, setNext_previous, setPrevious_previous,
      setNext_list]
  · simp only [setSize_element, setTail_element, setNext_data, setPrevious_data]
  · simp [setSize_list, setTail_list, setNext_list, setPrevious_list]
  · simp [setSize_list, setTail_list, setNext_list, setPrevious_list]
  · simp [setSize_list, setTail_list, setNext_list, setPrevious_list]
  · simp [setSize_list, setTail_list, setNext_list, setPrevious_list, h1]
  · exact (((onlyLists_setNext _ _ _).trans (onlyLists_setPrevious _ _ _)).trans
      (onlyLists_setTail _ _ _)).trans (onlyLists_setSize _ _ _)

/-- With an empty destination, or with `after` the head of the destination,
`linked_list_link_after` does what `linked_list_link_head` does. -/
theorem link_after_head_eq (m : Mem) (dst after e : Nat)
    (h : (m.list dst).size = 0 ∨ (m.list dst).head = after) :
    linked_list_link_after m dst after e = linked_list_link_head m dst e := by
  by_cases hsz : (m.list dst).size = 0
  · simp [linked_list_link_after, linked_list_link_head, hsz]
  · have hh : (m.list dst).head = after := h.resolve_left hsz
    simp [linked_list_link_after, linked_list_link_head, hsz, hh]
theorem transfer_after_eq {m : Mem} {dst src e : Nat} (after : Nat) (hd0 : dst ≠ 0)
    (hs0 : src ≠ 0) (he0 : e ≠ 0) (hsz : (m.list src).size ≠ 0) :
    linked_list_transfer_after m dst after src e =
      (LINKED_LIST_SUCCESS, linked_list_link_after (linked_list_unlink m src e) dst after e) := by
  simp [linked_list_transfer_after, linked_list_checking, linked_list_element_checking, hd0,
    hs0, he0, hsz]

/-- No list that contains `a` is represented when `a->next` is a node whose `previous`
is `NULL`. -/
theorem not_isList_of_back_link {E : Nat → linked_list_element_t} {l : linked_list_t}
    {a e : Nat} (ha : a ≠ 0) (he : e ≠ 0) (hn : (E a).next = e) (hp : (E e).previous = 0)
    (xs : List Nat) (hmem : a ∈ xs) : ¬ IsList E l xs := by
  intro h
  obtain ⟨a1, a2, rfl⟩ := List.append_of_mem hmem
  obtain ⟨-, -, -, -, -, -, -, f8, -, f10, -⟩ := h.split_facts
  cases a2 with
  | nil => exact he (hn.symm.trans f8)
  | cons b bs =>
    have hb : e = b := hn.symm.trans f8
    subst hb
    exact ha (f10.2.1.symm.trans hp)

/-- The effect of `linked_list_transfer_after` when `after` is a node of the destination
other than its head: every pointer is as in the list `l1 ++ after :: e :: l2` except
`e->previous`, which is `NULL`. -/
theorem transfer_after_inner {m : Mem} {dst after src e : Nat} {l1 l2 s1 s2 : List Nat}
    (hd0 : dst ≠ 0) (hs0 : src ≠ 0) (hds : dst ≠ src)
    (hdst : IsList m.element (m.list dst) (l1 ++ after :: l2)) (hl2 : l2 ≠ [])
    (hsrc : IsList m.element (m.list src) (s1 ++ e :: s2))
    (hdj : ∀ x ∈ l1 ++ after :: l2, x ∉ s1 ++ e :: s2) :
    (linked_list_transfer_after m dst after src e).1 = LINKED_LIST_SUCCESS ∧
    ((linked_list_transfer_after m dst after src e).2.element after).next = e ∧
    ((linked_list_transfer_after m dst after src e).2.element e).next = l2.headD 0 ∧
    ((linked_list_transfer_after m dst after src e).2.element (l2.headD 0)).previous = e ∧
    ((linked_list_transfer_after m dst after src e).2.element e).previous = 0 ∧
    ((linked_list_transfer_after m dst after src e).2.list dst).size =
      (m.list dst).size + 1 ∧
    IsList (linked_list_transfer_after m dst after src e).2.element
      ((linked_list_transfer_after m dst after src e).2.list src) (s1 ++ s2) ∧
    IsList (Function.update (linked_list_transfer_after m dst after src e).2.element e
        ⟨((linked_list_transfer_after m dst after src e).2.element e).data, after,
          ((linked_list_transfer_after m dst after src e).2.element e).next⟩)
      ((linked_list_transfer_after m dst after src e).2.list dst) (l1 ++ after :: e :: l2) ∧
    (∀ x, ((linked_list_transfer_after m dst after src e).2.element x).data =
      (m.element x).data) := by
  have he0 : e ≠ 0 := hsrc.split_facts.1
  have hsz : (m.list src).size ≠ 0 := by
    rw [hsrc.2.2.2.2]; simp
  rw [transfer_after_eq after hd0 hs0 he0 hsz]
  obtain ⟨u1, u2, u3, u4, u5, u6, -⟩ := unlink_isList hsrc
  have hdst1 : IsList (linked_list_unlink m src e).element
      ((linked_list_unlink m src e).list dst) (l1 ++ after :: l2) :=
    hdst.frame (u6 dst hds) (fun x hx => u4 x (hdj x hx))
  obtain ⟨a0, a1, a2, nd1, nd2, dj12, f7, f8, sgl, sgr, ftl, fhd, fsz⟩ := hdst1.split_facts
  have hnxm : l2.headD 0 ∈ l2 := headD_mem hl2 0
  have hsz1 : ((linked_list_unlink m src e).list dst).size ≠ 0 := by rw [fsz]; omega
  have hh1 : ((linked_list_unlink m src e).list dst).head ≠ after := by
    rw [fhd]
    intro hc
    exact a2 (hc ▸ getLastD_mem hl2 after)
  obtain ⟨q1, q2, q3, q4, q5, q6, q7, -⟩ :=
    link_after_inner_spec (linked_list_unlink m src e) dst after e hsz1 hh1 a0
  rw [f8] at q1 q2
  have hed : e ∉ l1 ++ after :: l2 := fun hc => hdj e hc (by simp)
  have hel1 : e ∉ l1 := fun hc => hed (List.mem_append_left _ hc)
  have hel2 : e ∉ l2 := fun hc => hed (List.mem_append_right _ (List.mem_cons_of_mem _ hc))
  have hea : e ≠ after := fun hc => hed (by simp [hc])
  have henx : e ≠ l2.headD 0 := fun hc => hel2 (hc ▸ hnxm)
  have hanx : after ≠ l2.headD 0 := fun hc => a2 (hc ▸ hnxm)
  have hes1 : e ∉ s1 := hsrc.split_facts.2.1
  have hes2 : e ∉ s2 := hsrc.split_facts.2.2.1
  show _ ∧ ((linked_list_link_after (linked_list_unlink m src e) dst after e).element
    after).next = e ∧ _
  refine ⟨rfl, ?_, ?_, ?_, ?_, ?_, ?_, ⟨?_, ?_, ?_, ?_, ?_⟩, ?_⟩
  · rw [q1, if_pos rfl]
  · show ((linked_list_link_after (linked_list_unlink m src e) dst after e).element e).next = _
    rw [q1, if_neg hea, if_pos rfl]
  · show ((linked_list_link_after (linked_list_unlink m src e) dst after e).element
      (l2.headD 0)).previous = _
    rw [q2, if_pos rfl]
  · show ((linked_list_link_after (linked_list_unlink m src e) dst after e).element
      e).previous = _
    rw [q2, if_neg henx, u3]
  · show ((linked_list_link_after (linked_list_unlink m src e) dst after e).list dst).size = _
    rw [q6, u6 dst hds]
  · show IsList (linked_list_link_after (linked_list_unlink m src e) dst after e).element
      ((linked_list_link_after (linked_list_unlink m src e) dst after e).list src) _
    apply u1.frame (q7 src (Ne.symm hds))
    intro x hx
    have hxs : x ∈ s1 ++ e :: s2 := by
      rcases List.mem_append.1 hx with h1 | h2
      · exact List.mem_append_left _ h1
      · exact List.mem_append_right _ (List.mem_cons_of_mem _ h2)
    have hxe : x ≠ e := by
      rintro rfl
      rcases List.mem_append.1 hx with h1 | h2
      · exact hes1 h1
      · exact hes2 h2
    apply element_ext (q3 x)
    · rw [q2, if_neg]
      intro hc
      exact hdj x (hc ▸ List.mem_append_right _ (List.mem_cons_of_mem _ hnxm)) hxs
    · rw [q1, if_neg, if_neg hxe]
      intro hc
      exact hdj x (by simp [hc]) hxs
  · -- no node occurs twice
    have hp : (l1 ++ after :: e :: l2).Perm (e :: (l1 ++ after :: l2)) := by
      have := @List.perm_middle Nat e (l1 ++ [after]) l2
      simpa using this
    rw [hp.nodup_iff, List.nodup_cons]
    exact ⟨hed, hdst1.1⟩
  · show Seg (Function.update
      (linked_list_link_after (linked_list_unlink m src e) dst after e).element e _) 0 _ 0
    rw [Seg_append]
    constructor
    · apply Seg_congr sgl
      · intro x hx
        have hxe : x ≠ e := fun hc => hel1 (hc ▸ hx)
        rw [Function.update_noteq hxe, q2, if_neg]
        exact fun hc => dj12 x hx (hc ▸ hnxm)
      · intro x hx
        have hxe : x ≠ e := fun hc => hel1 (hc ▸ hx)
        rw [Function.update_noteq hxe, q1, if_neg (fun hc : x = after => a1 (hc ▸ hx)), if_neg hxe]
    · refine ⟨a0, ?_, ?_, he0, ?_, ?_, ?_⟩
      · rw [Function.update_noteq (Ne.symm hea), q2, if_neg hanx]
        exact f7
      · rw [Function.update_noteq (Ne.symm hea), q1, if_pos rfl]
        rfl
      · rw [Function.update_same]
      · rw [Function.update_same]
        show ((linked_list_link_after (linked_list_unlink m src e) dst after e).element
          e).next = _
        rw [q1, if_neg hea, if_pos rfl]
      · apply Seg_retarget_start sgr nd2
        · intro x hx
          have hxe : x ≠ e := fun hc => hel2 (hc ▸ hx)
          rw [Function.update_noteq hxe, q1, if_neg (fun hc : x = after => a2 (hc ▸ hx)), if_neg hxe]
        · intro x hx hxf
          have hxe : x ≠ e := fun hc => hel2 (hc ▸ hx)
          rw [Function.update_noteq hxe, q2, if_neg hxf]
        · intro _
          rw [Function.update_noteq (Ne.symm henx), q2, if_pos rfl]
  · show ((linked_list_link_after (linked_list_unlink m src e) dst after e).list dst).tail = _
    rw [q5, ftl, headD_append]
    rfl
  · show ((linked_list_link_after (linked_list_unlink m src e) dst after e).list dst).head = _
    rw [q4, fhd, getLastD_append, List.getLastD_cons, List.getLastD_cons]
    exact getLastD_of_ne_nil hl2 _ _
  · show ((linked_list_link_after (linked_list_unlink m src e) dst after e).list dst).size = _
    rw [q6, fsz]
    simp
    omega
  · intro x
    show ((linked_list_link_after (linked_list_unlink m src e) dst after e).element x).data = _
    rw [q3, u5]
/-- `linked_list_unlink` writes no list header other than the one of the source. -/
theorem unlink_list_other (m : Mem) (src e l : Nat) (h : l ≠ src) :
    (linked_list_unlink m src e).list l = m.list l := by
  unfold linked_list_unlink
  simp only []
  split_ifs <;>
    simp [setSize_list, setHead_list, setTail_list, setNext_list, setPrevious_list, h]

/-- `linked_list_link_after` with `after = NULL` on a non-empty well-formed list: the
unlinked node `e` becomes the tail. -/
theorem link_after_null_isList {m : Mem} {dst e : Nat} {ys : List Nat}
    (h : IsList m.element (m.list dst) ys) (hne : ys ≠ []) (he0 : e ≠ 0) (hey : e ∉ ys)
    (hp : (m.element e).previous = 0) :
    IsList (linked_list_link_after m dst 0 e).element ((linked_list_link_after m dst 0 e).list dst)
      (e :: ys) ∧
    (∀ x, x ∉ ys → x ≠ e → (linked_list_link_after m dst 0 e).element x = m.element x) ∧
    (∀ x, ((linked_list_link_after m dst 0 e).element x).data = (m.element x).data) ∧
    (∀ l, l ≠ dst → (linked_list_link_after m dst 0 e).list l = m.list l) := by
  obtain ⟨nd, sg, ht, hh, hs⟩ := h
  have hsz : (m.list dst).size ≠ 0 := by
    rw [hs]; exact fun hc => hne (List.length_eq_zero.1 hc)
  have hh0 : (m.list dst).head ≠ 0 := by
    rw [hh]
    exact Seg_nonzero sg _ (getLastD_mem hne 0)
  have htm : (m.list dst).tail ∈ ys := ht ▸ headD_mem hne 0
  obtain ⟨q1, q2, q3, q4, q5, q6, q7, -⟩ := link_after_null_spec m dst e hsz hh0
  refine ⟨⟨?_, ⟨he0, ?_, ?_, ?_⟩, ?_, ?_, ?_⟩, ?_, q3, q7⟩
  · exact List.nodup_cons.2 ⟨hey, nd⟩
  · rw [q2, if_neg (fun hc : e = (m.list dst).tail => hey (hc ▸ htm)), hp]
  · rw [q1, if_pos rfl, ht]
  · apply Seg_retarget_start sg nd
    · intro x hx
      rw [q1, if_neg (fun hc : x = e => hey (hc ▸ hx))]
    · intro x hx hxf
      rw [q2, if_neg (fun hc : x = (m.list dst).tail => hxf (hc.trans ht))]
    · intro _
      rw [← ht, q2, if_pos rfl]
  · exact q5
  · rw [q4, hh, List.getLastD_cons]
    exact getLastD_of_ne_nil hne _ _
  · rw [q6, hs]; rfl
  · intro x hx hxe
    apply element_ext (q3 x)
    · rw [q2, if_neg (fun hc : x = (m.list dst).tail => hx (hc ▸ htm))]
    · rw [q1, if_neg hxe]

/-- `linked_list_transfer_after` with `after` the head of the destination, or with an
empty destination, is `linked_list_transfer`. -/
theorem transfer_after_head_eq {m : Mem} {dst after src e : Nat} (hds : dst ≠ src)
    (h : (m.list dst).size = 0 ∨ (m.list dst).head = after) :
    linked_list_transfer_after m dst after src e = linked_list_transfer m dst src e := by
  have hl : (linked_list_unlink m src e).list dst = m.list dst :=
    unlink_list_other m src e dst hds
  unfold linked_list_transfer_after linked_list_transfer
  rw [link_after_head_eq _ _ _ _ (by rw [hl]; exact h)]
/-- The effect of `linked_list_transfer_after` with `after = NULL`: the node `e` leaves
the source and becomes the tail of the destination. -/
theorem transfer_after_null {m : Mem} {dst src e : Nat} {ds s1 s2 : List Nat}
    (hd0 : dst ≠ 0) (hs0 : src ≠ 0) (hds : dst ≠ src)
    (hdst : IsList m.element (m.list dst) ds)
    (hsrc : IsList m.element (m.list src) (s1 ++ e :: s2))
    (hdj : ∀ x ∈ ds, x ∉ s1 ++ e :: s2) :
    (linked_list_transfer_after m dst 0 src e).1 = LINKED_LIST_SUCCESS ∧
    IsList (linked_list_transfer_after m dst 0 src e).2.element
      ((linked_list_transfer_after m dst 0 src e).2.list dst) (e :: ds) ∧
    IsList (linked_list_transfer_after m dst 0 src e).2.element
      ((linked_list_transfer_after m dst 0 src e).2.list src) (s1 ++ s2) ∧
    (∀ x, ((linked_list_transfer_after m dst 0 src e).2.element x).data =
      (m.element x).data) := by
  by_cases hnil : ds = []
  · subst hnil
    have hsz0 : (m.list dst).size = 0 := hdst.2.2.2.2
    rw [transfer_after_head_eq hds (Or.inl hsz0)]
    obtain ⟨t1, t2, t3, -, t5, -, -⟩ := transfer_isList hd0 hs0 hds hsrc hdst hdj
    exact ⟨t1, t2, t3, t5⟩
  · have he0 : e ≠ 0 := hsrc.split_facts.1
    have hsz : (m.list src).size ≠ 0 := by
      rw [hsrc.2.2.2.2]; simp
    rw [transfer_after_eq 0 hd0 hs0 he0 hsz]
    obtain ⟨u1, -, u3, u4, u5, u6, -⟩ := unlink_isList hsrc
    have hey : e ∉ ds := fun hc => hdj e hc (by simp)
    have hdst1 : IsList (linked_list_unlink m src e).element
        ((linked_list_unlink m src e).list dst) ds :=
      hdst.frame (u6 dst hds) (fun x hx => u4 x (hdj x hx))
    obtain ⟨k1, k2, k3, k4⟩ := link_after_null_isList hdst1 hnil he0 hey u3
    refine ⟨rfl, k1, ?_, ?_⟩
    · apply u1.frame (k4 src (Ne.symm hds))
      intro x hx
      apply k2 x
      · intro hxy
        apply hdj x hxy
        rcases List.mem_append.1 hx with h1 | h2
        · exact List.mem_append_left _ h1
        · exact List.mem_append_right _ (List.mem_cons_of_mem _ h2)
      · rintro rfl
        obtain ⟨-, e1, e2, -⟩ := hsrc.split_facts
        rcases List.mem_append.1 hx with h1 | h2
        · exact e1 h1
        · exact e2 h2
    · intro x
      show ((linked_list_link_after (linked_list_unlink m src e) dst 0 e).element x).data = _
      rw [k3, u5]

/-- In a list without repetition, erasing `e` from `l1 ++ e :: l2` leaves `l1 ++ l2`. -/
theorem erase_middle {l1 l2 : List Nat} {e : Nat} (h : e ∉ l1) :
    (l1 ++ e :: l2).erase e = l1 ++ l2 := by
  rw [List.erase_append_right _ h, List.erase_cons_head]

/-! ## Claims on the linked list -/

/-- C18. `linked_list_transfer(dst, src, e)` on two different well-formed lists `dst`
(nodes `ds`, read from tail to head) and `src` (nodes `ss`) that share no node, for every
node `e` of `src` (tail, head or inner): it returns `LINKED_LIST_SUCCESS`, `dst` is
afterwards the well-formed list `ds` followed by `e`, `src` the well-formed list `ss`
with `e` removed and the other nodes in their order, `dst.size` has grown by one and
`src.size` has shrunk by one; no payload changes. -/
theorem linked_list_transfer_contract (m : Mem) (dst src e : Nat) (ds ss : List Nat)
    (hd0 : dst ≠ 0) (hs0 : src ≠ 0) (hds : dst ≠ src)
    (hdst : IsList m.element (m.list dst) ds) (hsrc : IsList m.element (m.list src) ss)
    (he : e ∈ ss) (hdj : ∀ x ∈ ds, x ∉ ss) :
    (linked_list_transfer m dst src e).1 = LINKED_LIST_SUCCESS ∧
    IsList (linked_list_transfer m dst src e).2.element
      ((linked_list_transfer m dst src e).2.list dst) (ds ++ [e]) ∧
    IsList (linked_list_transfer m dst src e).2.element
      ((linked_list_transfer m dst src e).2.list src) (ss.erase e) ∧
    ((linked_list_transfer m dst src e).2.list dst).size = (m.list dst).size + 1 ∧
    ((linked_list_transfer m dst src e).2.list src).size + 1 = (m.list src).size ∧
    (∀ x, ((linked_list_transfer m dst src e).2.element x).data = (m.element x).data) := by
  obtain ⟨h1, h2, h3, -, h5, -, -⟩ := transfer_isList_erase hd0 hs0 hds hsrc hdst he hdj
  refine ⟨h1, h2, h3, ?_, ?_, h5⟩
  · rw [h2.2.2.2.2, hdst.2.2.2.2, List.length_append, List.length_singleton]
  · rw [h3.2.2.2.2, hsrc.2.2.2.2, List.length_erase_of_mem he]
    have := List.length_pos_of_mem he
    omega

/-- C18, witness: the tail 21, the inner node 22 and the head 23 of the list 4 of
`mem_lists` are moved to the list 2. -/
theorem linked_list_transfer_contract_witness :
    (IsList (linked_list_transfer mem_lists 2 4 21).2.element
        ((linked_list_transfer mem_lists 2 4 21).2.list 2) [11, 12, 21] ∧
      IsList (linked_list_transfer mem_lists 2 4 21).2.element
        ((linked_list_transfer mem_lists 2 4 21).2.list 4) [22, 23]) ∧
    (IsList (linked_list_transfer mem_lists 2 4 22).2.element
        ((linked_list_transfer mem_lists 2 4 22).2.list 2) [11, 12, 22] ∧
      IsList (linked_list_transfer mem_lists 2 4 22).2.element
        ((linked_list_transfer mem_lists 2 4 22).2.list 4) [21, 23]) ∧
    (IsList (linked_list_transfer mem_lists 2 4 23).2.element
        ((linked_list_transfer mem_lists 2 4 23).2.list 2) [11, 12, 23] ∧
      IsList (linked_list_transfer mem_lists 2 4 23).2.element
        ((linked_list_transfer mem_lists 2 4 23).2.list 4) [21, 22]) := by
  have hd : IsList mem_lists.element (mem_lists.list 2) [11, 12] := by decide
  have hs : IsList mem_lists.element (mem_lists.list 4) [21, 22, 23] := by decide
  have k1 := linked_list_transfer_contract mem_lists 2 4 21 [11, 12] [21, 22, 23]
    (by decide) (by decide) (by decide) hd hs (by decide) (by decide)
  have k2 := linked_list_transfer_contract mem_lists 2 4 22 [11, 12] [21, 22, 23]
    (by decide) (by decide) (by decide) hd hs (by decide) (by decide)
  have k3 := linked_list_transfer_contract mem_lists 2 4 23 [11, 12] [21, 22, 23]
    (by decide) (by decide) (by decide) hd hs (by decide) (by decide)
  exact ⟨⟨k1.2.1, k1.2.2.1⟩, ⟨k2.2.1, k2.2.2.1⟩, ⟨k3.2.1, k3.2.2.1⟩⟩

/-- C20. `linked_list_move_linked_list_after(dst, src)` on two different well-formed
lists `dst` (nodes `ds`, read from tail to head) and `src` (nodes `ss`) that share no
node.  For a non-empty `src` it returns `LINKED_LIST_SUCCESS`, `dst` is afterwards the
well-formed list `ds` followed by `ss`, `dst.size` is the sum of the two old sizes, and
`src` is empty (size 0, head and tail `NULL`); no payload changes.  For an empty `src` it
returns `LINKED_LIST_SOURCE_IS_EMPTY` and leaves the memory unchanged. -/
theorem linked_list_move_linked_list_after_contract (m : Mem) (dst src : Nat)
    (ds ss : List Nat) (hd0 : dst ≠ 0) (hs0 : src ≠ 0) (hds : dst ≠ src)
    (hdst : IsList m.element (m.list dst) ds) (hsrc : IsList m.element (m.list src) ss)
    (hdj : ∀ x ∈ ds, x ∉ ss) :
    (ss ≠ [] →
      (linked_list_move_linked_list_after m dst src).1 = LINKED_LIST_SUCCESS ∧
      IsList (linked_list_move_linked_list_after m dst src).2.element
        ((linked_list_move_linked_list_after m dst src).2.list dst) (ds ++ ss) ∧
      ((linked_list_move_linked_list_after m dst src).2.list dst).size =
        (m.list dst).size + (m.list src).size ∧
      ((linked_list_move_linked_list_after m dst src).2.list src).size = 0 ∧
      ((linked_list_move_linked_list_after m dst src).2.list src).head = 0 ∧
      ((linked_list_move_linked_list_after m dst src).2.list src).tail = 0 ∧
      IsList (linked_list_move_linked_list_after m dst src).2.element
        ((linked_list_move_linked_list_after m dst src).2.list src) [] ∧
      (∀ x, ((linked_list_move_linked_list_after m dst src).2.element x).data =
        (m.element x).data)) ∧
    (ss = [] →
      (linked_list_move_linked_list_after m dst src).1 = LINKED_LIST_SOURCE_IS_EMPTY ∧
      (linked_list_move_linked_list_after m dst src).2 = m) := by
  constructor
  · intro hne
    obtain ⟨h1, h2, h3, h4, -, -⟩ := move_isList hd0 hs0 hds hdst hsrc hne hdj
    refine ⟨h1, h2, ?_, ?_, ?_, ?_, ?_, h4⟩
    · rw [h2.2.2.2.2, hdst.2.2.2.2, hsrc.2.2.2.2, List.length_append]
    · rw [h3]
    · rw [h3]
    · rw [h3]
    · rw [h3]
      exact ⟨List.nodup_nil, trivial, rfl, rfl, rfl⟩
  · intro hnil
    have hsz : (m.list src).size = 0 := by rw [hsrc.2.2.2.2, hnil]; rfl
    simp [linked_list_move_linked_list_after, linked_list_checking, hd0, hs0, hsz]

/-- C20, witness: the list 4 of `mem_lists` is appended to the list 2, and the empty
list 4 of the resulting memory is appended once more. -/
theorem linked_list_move_linked_list_after_contract_witness :
    (IsList (linked_list_move_linked_list_after mem_lists 2 4).2.element
        ((linked_list_move_linked_list_after mem_lists 2 4).2.list 2) [11, 12, 21, 22, 23] ∧
      ((linked_list_move_linked_list_after mem_lists 2 4).2.list 2).size = 5 ∧
      (linked_list_move_linked_list_after mem_lists 2 4).2.list 4 = ⟨0, 0, 0⟩) ∧
    (linked_list_move_linked_list_after
        (linked_list_move_linked_list_after mem_lists 2 4).2 2 4).1 =
      LINKED_LIST_SOURCE_IS_EMPTY := by
  have hd : IsList mem_lists.element (mem_lists.list 2) [11, 12] := by decide
  have hs : IsList mem_lists.element (mem_lists.list 4) [21, 22, 23] := by decide
  have k := linked_list_move_linked_list_after_contract mem_lists 2 4 [11, 12] [21, 22, 23]
    (by decide) (by decide) (by decide) hd hs (by decide)
  have k1 := k.1 (by decide)
  refine ⟨⟨k1.2.1, ?_, by decide⟩, by decide⟩
  rw [k1.2.2.1]
  decide

/-- C17. Push and pop order of the linked list.  Let `l` be an empty list and `ps` a
finite sequence of pairs: the payload `p.2` to push and the address `p.1` that `malloc`
returns for its node (non-null, and different for different pushes).  Pushing all
payloads with `linked_list_push_back` succeeds, and `|ps|` calls of
`linked_list_pop_front` then succeed and yield the payloads in the order they were pushed
(FIFO).  Pushing all payloads with `linked_list_push_front` succeeds, and `|ps|` calls of
`linked_list_pop_front` then succeed and yield the payloads in reversed order.  In both
cases the list ends empty: size 0, head and tail `NULL`. -/
theorem linked_list_push_pop_order (m : Mem) (l : Nat) (ps : List (Nat × Nat)) (hl : l ≠ 0)
    (hempty : IsList m.element (m.list l) []) (hnd : (ps.map Prod.fst).Nodup)
    (hnz : ∀ p ∈ ps, p.1 ≠ 0) :
    ((linked_list_push_back_all l ps m).1 = ps.map (fun _ => LINKED_LIST_SUCCESS) ∧
      (linked_list_pop_front_times l ps.length (linked_list_push_back_all l ps m).2).1 =
        ps.map (fun p => (LINKED_LIST_SUCCESS, p.2)) ∧
      (linked_list_pop_front_times l ps.length (linked_list_push_back_all l ps m).2).2.list l =
        ⟨0, 0, 0⟩) ∧
    ((linked_list_push_front_all l ps m).1 = ps.map (fun _ => LINKED_LIST_SUCCESS) ∧
      (linked_list_pop_front_times l ps.length (linked_list_push_front_all l ps m).2).1 =
        ps.reverse.map (fun p => (LINKED_LIST_SUCCESS, p.2)) ∧
      (linked_list_pop_front_times l ps.length (linked_list_push_front_all l ps m).2).2.list l =
        ⟨0, 0, 0⟩) := by
  have hnew : ∀ p ∈ ps, p.1 ≠ 0 ∧ p.1 ∉ ([] : List Nat) :=
    fun p hp => ⟨hnz p hp, List.not_mem_nil _⟩
  constructor
  · obtain ⟨b1, b2, b3, -⟩ := push_back_all_spec hl ps m [] hempty hnd hnew
    rw [List.append_nil] at b2
    obtain ⟨c1, c2, -⟩ := pop_front_times_spec hl (ps.map Prod.fst).reverse
      (linked_list_push_back_all l ps m).2 0 b2.2.1 b2.2.2.1 b2.2.2.2.1 b2.2.2.2.2
    rw [List.length_reverse, List.length_map] at c1 c2
    refine ⟨b1, ?_, c2⟩
    rw [c1, List.reverse_reverse, List.map_map]
    apply List.map_congr_left
    intro p hp
    show (LINKED_LIST_SUCCESS, ((linked_list_push_back_all l ps m).2.element p.1).data) = _
    rw [b3 p hp]
  · obtain ⟨b1, b2, b3, -⟩ := push_front_all_spec hl ps m [] hempty hnd hnew
    rw [List.nil_append] at b2
    obtain ⟨c1, c2, -⟩ := pop_front_times_spec hl (ps.map Prod.fst)
      (linked_list_push_front_all l ps m).2 0 b2.2.1 b2.2.2.1 b2.2.2.2.1 b2.2.2.2.2
    rw [List.length_map] at c1 c2
    refine ⟨b1, ?_, c2⟩
    rw [c1, ← List.map_reverse, List.map_map]
    apply List.map_congr_left
    intro p hp
    show (LINKED_LIST_SUCCESS, ((linked_list_push_front_all l ps m).2.element p.1).data) = _
    rw [b3 p (List.mem_reverse.1 hp)]

/-- C17, witness: the payloads 5, 6, 7 pushed onto the empty list 2 with the new nodes 11,
12, 13. -/
theorem linked_list_push_pop_order_witness :
    IsList mem_empty_list.element (mem_empty_list.list 2) [] ∧
    (linked_list_pop_front_times 2 3
        (linked_list_push_back_all 2 [(11, 5), (12, 6), (13, 7)] mem_empty_list).2).1 =
      [(LINKED_LIST_SUCCESS, 5), (LINKED_LIST_SUCCESS, 6), (LINKED_LIST_SUCCESS, 7)] ∧
    (linked_list_pop_front_times 2 3
        (linked_list_push_front_all 2 [(11, 5), (12, 6), (13, 7)] mem_empty_list).2).1 =
      [(LINKED_LIST_SUCCESS, 7), (LINKED_LIST_SUCCESS, 6), (LINKED_LIST_SUCCESS, 5)] := by
  have h : IsList mem_empty_list.element (mem_empty_list.list 2) [] := by decide
  have k := linked_list_push_pop_order mem_empty_list 2 [(11, 5), (12, 6), (13, 7)]
    (by decide) h (by decide) (by decide)
  exact ⟨h, k.1.2.1, k.2.2.1⟩

/-- A chain of `next` and `previous` pointers is a chain of `next` pointers. -/
theorem Seg.nextSeg {E : Nat → linked_list_element_t} {xs : List Nat} {p n : Nat}
    (h : Seg E p xs n) : NextSeg E xs n := by
  induction xs generalizing p with
  | nil => trivial
  | cons x xs ih => exact ⟨h.1, h.2.2.1, ih h.2.2.2⟩

/-- A chain of `next` pointers depends on the `next` pointers of its nodes only. -/
theorem NextSeg_congr {E E2 : Nat → linked_list_element_t} {xs : List Nat} {n : Nat}
    (h : NextSeg E xs n) (hE : ∀ x ∈ xs, (E2 x).next = (E x).next) : NextSeg E2 xs n := by
  induction xs with
  | nil => trivial
  | cons x xs ih =>
    refine ⟨h.1, ?_, ih h.2.2 (fun y hy => hE y (List.mem_cons_of_mem _ hy))⟩
    rw [hE x (List.mem_cons_self _ _)]
    exact h.2.1

/-- A well-formed list reads, from tail to head, as its node sequence. -/
theorem IsList.readsAs {E : Nat → linked_list_element_t} {l : linked_list_t}
    {xs : List Nat} (h : IsList E l xs) : ReadsAs E l xs :=
  ⟨h.1, h.2.1.nextSeg, h.2.2.1, h.2.2.2.1, h.2.2.2.2⟩

/-- C19. `linked_list_transfer_after(dst, after, src, e)` on two different well-formed
lists `dst` (nodes `ds`, read from tail to head) and `src` (nodes `ss`) that share no
node, for a node `e` of `src`.  It returns `LINKED_LIST_SUCCESS`.  When `after` is `NULL`
or a node of `dst`, then `src` is the well-formed list `ss` without `e`, its other nodes
in their order, its size is one less, the size of `dst` is one more, and every node keeps
its payload.  With `after = NULL` the node `e` is the new tail of `dst`: read from tail to
head `dst` is `e :: ds`.  With `after` a node of `dst`, `ds = l1 ++ after :: l2`, `dst`
reads from tail to head as `l1 ++ after :: e :: l2`: `e` comes immediately after `after`
and the other nodes keep their order.  (Reading from tail to head follows the `next`
pointers, `ReadsAs`.  With `after = NULL` and with `after` the head of `dst` the
`previous` pointers are right as well, `IsList`.) -/
theorem linked_list_transfer_after_contract (m : Mem) (dst after src e : Nat)
    (ds ss : List Nat) (hd0 : dst ≠ 0) (hs0 : src ≠ 0) (hds : dst ≠ src)
    (hdst : IsList m.element (m.list dst) ds) (hsrc : IsList m.element (m.list src) ss)
    (he : e ∈ ss) (hdj : ∀ x ∈ ds, x ∉ ss) :
    (linked_list_transfer_after m dst after src e).1 = LINKED_LIST_SUCCESS ∧
    (after = 0 ∨ after ∈ ds →
      IsList (linked_list_transfer_after m dst after src e).2.element
        ((linked_list_transfer_after m dst after src e).2.list src) (ss.erase e) ∧
      ((linked_list_transfer_after m dst after src e).2.list src).size + 1
        = (m.list src).size ∧
      ((linked_list_transfer_after m dst after src e).2.list dst).size
        = (m.list dst).size + 1 ∧
      (∀ x, ((linked_list_transfer_after m dst after src e).2.element x).data
        = (m.element x).data)) ∧
    (after = 0 →
      ReadsAs (linked_list_transfer_after m dst after src e).2.element
        ((linked_list_transfer_after m dst after src e).2.list dst) (e :: ds) ∧
      IsList (linked_list_transfer_after m dst after src e).2.element
        ((linked_list_transfer_after m dst after src e).2.list dst) (e :: ds)) ∧
    (∀ l1 l2, ds = l1 ++ after :: l2 →
      ReadsAs (linked_list_transfer_after m dst after src e).2.element
        ((linked_list_transfer_after m dst after src e).2.list dst)
        (l1 ++ after :: e :: l2) ∧
      (l2 = [] →
        IsList (linked_list_transfer_after m dst after src e).2.element
          ((linked_list_transfer_after m dst after src e).2.list dst)
          (l1 ++ after :: e :: l2))) := by
  obtain ⟨s1, s2, rfl⟩ := List.append_of_mem he
  have he0 : e ≠ 0 := hsrc.split_facts.1
  have herase : (s1 ++ e :: s2).erase e = s1 ++ s2 := erase_middle hsrc.split_facts.2.1
  have hsz : (m.list src).size ≠ 0 := by
    rw [hsrc.2.2.2.2]; simp
  have hlen : (s1 ++ s2).length + 1 = (s1 ++ e :: s2).length := by
    simp [List.length_append]
    omega
  -- the three cases
  have hnull : after = 0 →
      IsList (linked_list_transfer_after m dst after src e).2.element
        ((linked_list_transfer_after m dst after src e).2.list dst) (e :: ds) ∧
      IsList (linked_list_transfer_after m dst after src e).2.element
        ((linked_list_transfer_after m dst after src e).2.list src) (s1 ++ s2) ∧
      (∀ x, ((linked_list_transfer_after m dst after src e).2.element x).data
        = (m.element x).data) := by
    rintro rfl
    obtain ⟨-, n2, n3, n4⟩ := transfer_after_null hd0 hs0 hds hdst hsrc hdj
    exact ⟨n2, n3, n4⟩
  have hhead : ∀ l1, ds = l1 ++ [after] →
      IsList (linked_list_transfer_after m dst after src e).2.element
        ((linked_list_transfer_after m dst after src e).2.list dst) (l1 ++ after :: [e]) ∧
      IsList (linked_list_transfer_after m dst after src e).2.element
        ((linked_list_transfer_after m dst after src e).2.list src) (s1 ++ s2) ∧
      (∀ x, ((linked_list_transfer_after m dst after src e).2.element x).data
        = (m.element x).data) := by
    intro l1 hl
    have hh : (m.list dst).head = after := by
      rw [hdst.2.2.2.1, hl, getLastD_append]
      rfl
    rw [transfer_after_head_eq hds (Or.inr hh)]
    obtain ⟨-, t2, t3, -, t5, -, -⟩ := transfer_isList hd0 hs0 hds hsrc hdst hdj
    rw [hl] at t2
    exact ⟨by simpa using t2, t3, t5⟩
  have hinner : ∀ l1 l2, ds = l1 ++ after :: l2 → l2 ≠ [] →
      ReadsAs (linked_list_transfer_after m dst after src e).2.element
        ((linked_list_transfer_after m dst after src e).2.list dst)
        (l1 ++ after :: e :: l2) ∧
      IsList (linked_list_transfer_after m dst after src e).2.element
        ((linked_list_transfer_after m dst after src e).2.list src) (s1 ++ s2) ∧
      (∀ x, ((linked_list_transfer_after m dst after src e).2.element x).data
        = (m.element x).data) := by
    rintro l1 l2 rfl hl2
    obtain ⟨-, -, -, -, -, -, i7, i8, i9⟩ :=
      transfer_after_inner hd0 hs0 hds hdst hl2 hsrc hdj
    obtain ⟨r1, r2, r3, r4, r5⟩ := i8.readsAs
    refine ⟨⟨r1, NextSeg_congr r2 (fun x _ => ?_), r3, r4, r5⟩, i7, i9⟩
    by_cases hx : x = e
    · rw [hx, Function.update_same]
    · rw [Function.update_noteq hx]
  have hsizes : ∀ {xs : List Nat},
      ReadsAs (linked_list_transfer_after m dst after src e).2.element
        ((linked_list_transfer_after m dst after src e).2.list dst) xs →
      xs.length = ds.length + 1 →
      IsList (linked_list_transfer_after m dst after src e).2.element
        ((linked_list_transfer_after m dst after src e).2.list src) (s1 ++ s2) →
      ((linked_list_transfer_after m dst after src e).2.list src).size + 1
        = (m.list src).size ∧
      ((linked_list_transfer_after m dst after src e).2.list dst).size
        = (m.list dst).size + 1 := by
    intro xs hr hl hs
    rw [hs.2.2.2.2, hsrc.2.2.2.2, hr.2.2.2.2, hdst.2.2.2.2, hl]
    exact ⟨hlen, rfl⟩
  rw [herase]
  refine ⟨?_, ?_, ?_, ?_⟩
  · rw [transfer_after_eq after hd0 hs0 he0 hsz]
  · rintro (h0 | hmem)
    · obtain ⟨n1, n2, n3⟩ := hnull h0
      obtain ⟨z1, z2⟩ := hsizes n1.readsAs (by simp) n2
      exact ⟨n2, z1, z2, n3⟩
    · obtain ⟨l1, l2, hl⟩ := List.append_of_mem hmem
      by_cases hl2 : l2 = []
      · rw [hl2] at hl
        obtain ⟨n1, n2, n3⟩ := hhead l1 hl
        obtain ⟨z1, z2⟩ := hsizes n1.readsAs (by rw [hl]; simp) n2
        exact ⟨n2, z1, z2, n3⟩
      · obtain ⟨n1, n2, n3⟩ := hinner l1 l2 hl hl2
        obtain ⟨z1, z2⟩ := hsizes n1 (by rw [hl]; simp; omega) n2
        exact ⟨n2, z1, z2, n3⟩
  · intro h0
    exact ⟨(hnull h0).1.readsAs, (hnull h0).1⟩
  · intro l1 l2 hl
    by_cases hl2 : l2 = []
    · subst hl2
      exact ⟨(hhead l1 hl).1.readsAs, fun _ => (hhead l1 hl).1⟩
    · exact ⟨(hinner l1 l2 hl hl2).1, fun h => absurd h hl2⟩

/-- C19, witness: node 11 of the list 2 of `mem_lists` (nodes 11, 12) is transferred into
the list 4 (nodes 21, 22, 23) after its tail 21.  The call succeeds; read from tail to
head the list 4 is 21, 11, 22, 23 with the size 4, and the list 2 is the well-formed list
of node 12 with the size 1. -/
theorem linked_list_transfer_after_contract_witness :
    (linked_list_transfer_after mem_lists 4 21 2 11).1 = LINKED_LIST_SUCCESS ∧
    ReadsAs (linked_list_transfer_after mem_lists 4 21 2 11).2.element
      ((linked_list_transfer_after mem_lists 4 21 2 11).2.list 4) [21, 11, 22, 23] ∧
    IsList (linked_list_transfer_after mem_lists 4 21 2 11).2.element
      ((linked_list_transfer_after mem_lists 4 21 2 11).2.list 2) [12] ∧
    ((linked_list_transfer_after mem_lists 4 21 2 11).2.list 4).size = 4 ∧
    ((linked_list_transfer_after mem_lists 4 21 2 11).2.list 2).size = 1 := by
  have hd : IsList mem_lists.element (mem_lists.list 4) [21, 22, 23] := by decide
  have hs : IsList mem_lists.element (mem_lists.list 2) [11, 12] := by decide
  have k := linked_list_transfer_after_contract mem_lists 4 21 2 11 [21, 22, 23] [11, 12]
    (by decide) (by decide) (by decide) hd hs (by decide) (by decide)
  have k2 := k.2.1 (Or.inr (by decide))
  exact ⟨k.1, (k.2.2.2 [] [22, 23] rfl).1, k2.1, k2.2.2.1, by decide⟩
/-! ## Lemmas on the ring -/

theorem mod_two_cases {x c : Nat} (hx : x < 2 * c) :
    x % c = if x < c then x else x - c := by
  split_ifs with h
  · exact Nat.mod_eq_of_lt h
  · rw [Nat.mod_eq_sub_mod (by omega)]
    exact Nat.mod_eq_of_lt (by omega)

theorem ring_full_front {c head tail len : Nat} (hh : head < c) (ht : tail < c)
    (hl : len ≤ c) (inv : (head + 1) % c = (tail + len) % c) :
    ((head + 1) % c = tail ∧ len ≠ 0) ↔ len = c := by
  rw [mod_two_cases (by omega : head + 1 < 2 * c),
    mod_two_cases (by omega : tail + len < 2 * c)] at inv
  rw [mod_two_cases (by omega : head + 1 < 2 * c)]
  split_ifs at inv ⊢ <;> omega

theorem ring_back_pos {c tail : Nat} (hc : 1 ≤ c) (h2 : 2 * c ≤ SIZE_T_MOD) (ht : tail < c) :
    (tail + size_t_dec c) % SIZE_T_MOD % c = if tail = 0 then c - 1 else tail - 1 := by
  have hd : size_t_dec c = c - 1 := size_t_dec_pos hc (by omega)
  rw [hd, Nat.mod_eq_of_lt (by omega : tail + (c - 1) < SIZE_T_MOD),
    mod_two_cases (by omega : tail + (c - 1) < 2 * c)]
  split_ifs <;> omega

theorem ring_full_back {c head tail len : Nat} (hc : 1 ≤ c) (h2 : 2 * c ≤ SIZE_T_MOD)
    (hh : head < c) (ht : tail < c) (hl : len ≤ c)
    (inv : (head + 1) % c = (tail + len) % c) :
    ((tail + size_t_dec c) % SIZE_T_MOD % c = head ∧ len ≠ 0) ↔ len = c := by
  rw [ring_back_pos hc h2 ht]
  rw [mod_two_cases (by omega : head + 1 < 2 * c),
    mod_two_cases (by omega : tail + len < 2 * c)] at inv
  split_ifs at inv ⊢ <;> omega

theorem ring_inv_front {c head tail len : Nat} (hh : head < c) (ht : tail < c)
    (hl : len < c) (inv : (head + 1) % c = (tail + len) % c) :
    (head + 1) % c < c ∧ ((head + 1) % c + 1) % c = (tail + (len + 1)) % c := by
  rw [mod_two_cases (by omega : head + 1 < 2 * c),
    mod_two_cases (by omega : tail + len < 2 * c)] at inv
  rw [mod_two_cases (by omega : tail + (len + 1) < 2 * c)]
  rw [mod_two_cases (by omega : head + 1 < 2 * c)]
  split_ifs at inv ⊢ with h1 h2 h3 <;>
    first
    | (constructor
       · omega
       · rw [mod_two_cases (by omega)]; split_ifs <;> omega)
    | omega

theorem ring_inv_back {c head tail len : Nat} (hc : 1 ≤ c) (h2 : 2 * c ≤ SIZE_T_MOD)
    (hh : head < c) (ht : tail < c) (hl : len < c)
    (inv : (head + 1) % c = (tail + len) % c) :
    (tail + size_t_dec c) % SIZE_T_MOD % c < c ∧
    (head + 1) % c = ((tail + size_t_dec c) % SIZE_T_MOD % c + (len + 1)) % c := by
  rw [ring_back_pos hc h2 ht]
  rw [inv, mod_two_cases (by omega : tail + len < 2 * c)]
  constructor
  · split_ifs <;> omega
  · rw [mod_two_cases (by split_ifs <;> omega)]
    split_ifs <;> omega

theorem ring_inv_read {c head tail len : Nat} (hh : head < c) (ht : tail < c)
    (hl : len ≤ c) (h0 : 0 < len) (inv : (head + 1) % c = (tail + len) % c) :
    (tail + 1) % c < c ∧ (head + 1) % c = ((tail + 1) % c + (len - 1)) % c := by
  rw [inv, mod_two_cases (by omega : tail + len < 2 * c),
    mod_two_cases (by omega : tail + 1 < 2 * c)]
  constructor
  · split_ifs <;> omega
  · rw [mod_two_cases (by split_ifs <;> omega)]
    split_ifs <;> omega
theorem ring_index_inj {c tail j k : Nat} (ht : tail < c) (hj : j < c) (hk : k < c)
    (hjk : j ≠ k) : (tail + j) % c ≠ (tail + k) % c := by
  rw [mod_two_cases (by omega : tail + j < 2 * c), mod_two_cases (by omega : tail + k < 2 * c)]
  split_ifs <;> omega

theorem ring_index_back {c tail j : Nat} (hc : 1 ≤ c) (h2 : 2 * c ≤ SIZE_T_MOD)
    (ht : tail < c) (hj : j < c) :
    ((tail + size_t_dec c) % SIZE_T_MOD % c + (j + 1)) % c = (tail + j) % c := by
  rw [ring_back_pos hc h2 ht, mod_two_cases (by omega : tail + j < 2 * c),
    mod_two_cases (by split_ifs <;> omega)]
  split_ifs <;> omega

theorem ring_index_back_zero {c tail : Nat} (hc : 1 ≤ c) (h2 : 2 * c ≤ SIZE_T_MOD)
    (ht : tail < c) :
    ((tail + size_t_dec c) % SIZE_T_MOD % c + 0) % c =
      (tail + size_t_dec c) % SIZE_T_MOD % c := by
  rw [Nat.add_zero, Nat.mod_mod]

theorem ring_index_back_ne {c tail j : Nat} (hc : 1 ≤ c) (h2 : 2 * c ≤ SIZE_T_MOD)
    (ht : tail < c) (hj : j + 1 < c) :
    (tail + j) % c ≠ (tail + size_t_dec c) % SIZE_T_MOD % c := by
  rw [ring_back_pos hc h2 ht, mod_two_cases (by omega : tail + j < 2 * c)]
  split_ifs <;> omega

theorem ring_index_read {c tail j : Nat} (ht : tail < c) (hj : j + 1 ≤ c) :
    ((tail + 1) % c + j) % c = (tail + (j + 1)) % c := by
  rw [mod_two_cases (by omega : tail + (j + 1) < 2 * c),
    mod_two_cases (by omega : tail + 1 < 2 * c)]
  rw [mod_two_cases (by split_ifs <;> omega)]
  split_ifs <;> omega

/-- Two different cells of a storage block do not share a byte. -/
theorem cells_disjoint {b es i k x y : Nat} (hik : i ≠ k) (hx : x < es) (hy : y < es) :
    b + i * es + x ≠ b + k * es + y := by
  rcases Nat.lt_or_gt_of_ne hik with h | h
  · have h1 : (i + 1) * es ≤ k * es := Nat.mul_le_mul_right es h
    rw [Nat.succ_mul] at h1
    omega
  · have h1 : (k + 1) * es ≤ i * es := Nat.mul_le_mul_right es h
    rw [Nat.succ_mul] at h1
    omega

/-- A cell of the storage block lies inside the block. -/
theorem cell_in_block {b es c i x : Nat} (hi : i < c) (hx : x < es) :
    b ≤ b + i * es + x ∧ b + i * es + x < b + c * es := by
  have h1 : (i + 1) * es ≤ c * es := Nat.mul_le_mul_right es hi
  rw [Nat.succ_mul] at h1
  omega

theorem memcpy_inside (byte : Nat → Nat) (dst src n i : Nat) (hi : i < n) :
    memcpy byte dst src n (dst + i) = byte (src + i) := by
  unfold memcpy
  rw [if_pos ⟨Nat.le_add_right _ _, by omega⟩, Nat.add_sub_cancel_left]

theorem memcpy_outside (byte : Nat → Nat) (dst src n a : Nat) (ha : a < dst ∨ dst + n ≤ a) :
    memcpy byte dst src n a = byte a := by
  unfold memcpy
  rw [if_neg]
  omega

theorem read_bytes_congr {m m2 : Mem} {a b n : Nat}
    (h : ∀ i, i < n → m2.byte (b + i) = m.byte (a + i)) :
    read_bytes m2 b n = read_bytes m a n := by
  unfold read_bytes
  apply List.map_congr_left
  intro i hi
  exact h i (List.mem_range.1 hi)

theorem read_bytes_length (m : Mem) (a n : Nat) : (read_bytes m a n).length = n := by
  simp [read_bytes]
theorem onlyRing_refl (m : Mem) : OnlyRing m m := rfl

theorem onlyRing_trans {m m1 m2 : Mem} (h1 : OnlyRing m m1) (h2 : OnlyRing m1 m2) :
    OnlyRing m m2 := by
  unfold OnlyRing at *
  cases m; cases m1; cases m2
  simp only [Mem.mk.injEq] at *
  simp_all

theorem onlyRing_slots {m m2 : Mem} (h : OnlyRing m m2) : m2.slots = m.slots := by
  unfold OnlyRing at h; rw [h]

theorem onlyRing_list {m m2 : Mem} (h : OnlyRing m m2) : m2.list = m.list := by
  unfold OnlyRing at h; rw [h]

theorem onlyRing_element {m m2 : Mem} (h : OnlyRing m m2) : m2.element = m.element := by
  unfold OnlyRing at h; rw [h]

theorem onlyRing_task {m m2 : Mem} (h : OnlyRing m m2) : m2.task = m.task := by
  unfold OnlyRing at h; rw [h]

theorem onlyRing_message_queue {m m2 : Mem} (h : OnlyRing m m2) :
    m2.message_queue = m.message_queue := by
  unfold OnlyRing at h; rw [h]

theorem queue_wf_checking {m : Mem} {q : Nat} (h : queue_wf m q) :
    queue_checking m q = QUEUE_SUCCESS := by
  obtain ⟨h1, h2, h3, -⟩ := h
  unfold queue_checking
  rw [if_neg h1, if_neg h2, if_neg h3]

/-- What a successful push or read leaves of the ring `q`: the new control block `v` and
the new bytes `b`. -/
theorem ring_write_facts (m : Mem) (q : Nat) (v w : queue_t) (b : Nat → Nat) :
    (((m.setBytes b).setQueue q v).setQueue q w).queue q = w ∧
    (∀ k, k ≠ q → (((m.setBytes b).setQueue q v).setQueue q w).queue k = m.queue k) ∧
    (((m.setBytes b).setQueue q v).setQueue q w).byte = b ∧
    OnlyRing m (((m.setBytes b).setQueue q v).setQueue q w) := by
  refine ⟨?_, ?_, rfl, rfl⟩
  · simp only [Mem.setQueue, Function.update_same]
  · intro k hk
    simp only [Mem.setQueue, Mem.setBytes, Function.update_noteq hk]
/-- `queue_push_front` on a full ring. -/
theorem queue_push_front_full {m : Mem} {q : Nat} (h : queue_wf m q) (src n : Nat)
    (hf : (m.queue q).length = (m.queue q).size) :
    queue_push_front m q src n = (QUEUE_PREVENTED_OVERRITE, m) := by
  have hck := queue_wf_checking h
  obtain ⟨-, -, -, hc, h2, hh, ht, hl, inv, -⟩ := h
  have hinc : size_t_inc (m.queue q).head = (m.queue q).head + 1 :=
    size_t_inc_pos (by omega)
  unfold queue_push_front
  rw [if_neg (not_not.2 hck)]
  simp only []
  rw [hinc, if_pos ((ring_full_front hh ht hl inv).2 hf)]

theorem queue_push_front_eq {m : Mem} {q : Nat} (h : queue_wf m q) (src n : Nat)
    (hf : (m.queue q).length ≠ (m.queue q).size) :
    queue_push_front m q src n =
      (QUEUE_SUCCESS,
        ((m.setBytes (memcpy m.byte
            (m.slots (m.queue q).data (((m.queue q).head + 1) % (m.queue q).size)) src n)).setQueue
          q { m.queue q with head := ((m.queue q).head + 1) % (m.queue q).size }).setQueue q
          { m.queue q with
            head := ((m.queue q).head + 1) % (m.queue q).size
            length := (m.queue q).length + 1 }) := by
  have hck := queue_wf_checking h
  obtain ⟨-, -, -, hc, h2, hh, ht, hl, inv, -⟩ := h
  have hinc : size_t_inc (m.queue q).head = (m.queue q).head + 1 :=
    size_t_inc_pos (by omega)
  have hlen : size_t_inc (m.queue q).length = (m.queue q).length + 1 :=
    size_t_inc_pos (by omega)
  unfold queue_push_front
  rw [if_neg (not_not.2 hck)]
  simp only []
  rw [hinc, if_neg (fun hcon => hf ((ring_full_front hh ht hl inv).1 hcon))]
  simp only [Mem.setQueue, Mem.setBytes, Function.update_same, hlen]

/-- `queue_push_back` on a full ring. -/
theorem queue_push_back_full {m : Mem} {q : Nat} (h : queue_wf m q) (h2 : 2 * (m.queue q).size ≤ SIZE_T_MOD)
    (src n : Nat)
    (hf : (m.queue q).length = (m.queue q).size) :
    queue_push_back m q src n = (QUEUE_PREVENTED_OVERRITE, m) := by
  have hck := queue_wf_checking h
  obtain ⟨-, -, -, hc, -, hh, ht, hl, inv, -⟩ := h
  unfold queue_push_back
  rw [if_neg (not_not.2 hck)]
  simp only []
  rw [if_pos ((ring_full_back hc h2 hh ht hl inv).2 hf)]

theorem queue_push_back_eq {m : Mem} {q : Nat} (h : queue_wf m q) (h2 : 2 * (m.queue q).size ≤ SIZE_T_MOD)
    (src n : Nat)
    (hf : (m.queue q).length ≠ (m.queue q).size) :
    queue_push_back m q src n =
      (QUEUE_SUCCESS,
        ((m.setBytes (memcpy m.byte
            (m.slots (m.queue q).data
              (((m.queue q).tail + size_t_dec (m.queue q).size) % SIZE_T_MOD %
                (m.queue q).size)) src n)).setQueue
          q { m.queue q with
              tail := ((m.queue q).tail + size_t_dec (m.queue q).size) % SIZE_T_MOD %
                (m.queue q).size }).setQueue q
          { m.queue q with
            tail := ((m.queue q).tail + size_t_dec (m.queue q).size) % SIZE_T_MOD %
              (m.queue q).size
            length := (m.queue q).length + 1 }) := by
  have hck := queue_wf_checking h
  obtain ⟨-, -, -, hc, -, hh, ht, hl, inv, -⟩ := h
  have hlen : size_t_inc (m.queue q).length = (m.queue q).length + 1 :=
    size_t_inc_pos (by omega)
  unfold queue_push_back
  rw [if_neg (not_not.2 hck)]
  simp only []
  rw [if_neg (fun hcon => hf ((ring_full_back hc h2 hh ht hl inv).1 hcon))]
  simp only [Mem.setQueue, Mem.setBytes, Function.update_same, hlen]

/-- `queue_read` on an empty ring. -/
theorem queue_read_empty {m : Mem} {q : Nat} (hck : queue_checking m q = QUEUE_SUCCESS)
    (dst : Nat) (h0 : (m.queue q).length = 0) :
    queue_read m q dst = (QUEUE_NO_ELEMENT, m) := by
  unfold queue_read
  rw [if_neg (not_not.2 hck), if_pos h0]

theorem queue_read_eq {m : Mem} {q : Nat} (h : queue_wf m q) (dst : Nat)
    (h0 : (m.queue q).length ≠ 0) :
    queue_read m q dst =
      (QUEUE_SUCCESS,
        ((m.setBytes (memcpy m.byte dst (m.slots (m.queue q).data (m.queue q).tail)
            (m.queue q).element_size)).setQueue
          q { m.queue q with tail := ((m.queue q).tail + 1) % (m.queue q).size }).setQueue q
          { m.queue q with
            tail := ((m.queue q).tail + 1) % (m.queue q).size
            length := (m.queue q).length - 1 }) := by
  have hck := queue_wf_checking h
  obtain ⟨-, -, -, hc, h2, hh, ht, hl, inv, -⟩ := h
  have hinc : size_t_inc (m.queue q).tail = (m.queue q).tail + 1 :=
    size_t_inc_pos (by omega)
  have hlen : size_t_dec (m.queue q).length = (m.queue q).length - 1 :=
    size_t_dec_pos (by omega) (by omega)
  unfold queue_read
  rw [if_neg (not_not.2 hck), if_neg h0]
  simp only []
  rw [hinc]
  simp only [Mem.setQueue, Mem.setBytes, Function.update_same, hlen]

/-- A ring stays well formed when the slots, the capacity, the element size and the slot
array stay and the new indices are consistent. -/
theorem queue_wf_of {m m2 : Mem} {q : Nat} (h : queue_wf m q) (hs : m2.slots = m.slots)
    (h1 : (m2.queue q).size = (m.queue q).size) (h2 : (m2.queue q).data = (m.queue q).data)
    (h3 : (m2.queue q).element_size = (m.queue q).element_size)
    (hh : (m2.queue q).head < (m.queue q).size) (ht : (m2.queue q).tail < (m.queue q).size)
    (hl : (m2.queue q).length ≤ (m.queue q).size)
    (inv : ((m2.queue q).head + 1) % (m.queue q).size =
      ((m2.queue q).tail + (m2.queue q).length) % (m.queue q).size) :
    queue_wf m2 q := by
  obtain ⟨w1, w2, w3, w4, w5, -, -, -, -, w10⟩ := h
  unfold queue_wf
  rw [hs, h1, h2, h3]
  exact ⟨w1, w2, w3, w4, w5, hh, ht, hl, inv, w10⟩

theorem queue_push_front_wf {m : Mem} {q : Nat} (h : queue_wf m q) (src n : Nat) :
    queue_wf (queue_push_front m q src n).2 q := by
  by_cases hf : (m.queue q).length = (m.queue q).size
  · rw [queue_push_front_full h src n hf]
    exact h
  · rw [queue_push_front_eq h src n hf]
    obtain ⟨f1, -, -, f4⟩ := ring_write_facts m q
      { m.queue q with head := ((m.queue q).head + 1) % (m.queue q).size }
      { m.queue q with
        head := ((m.queue q).head + 1) % (m.queue q).size
        length := (m.queue q).length + 1 }
      (memcpy m.byte
        (m.slots (m.queue q).data (((m.queue q).head + 1) % (m.queue q).size)) src n)
    have hw := h
    obtain ⟨-, -, -, hc, h2, hh, ht, hl, inv, -⟩ := hw
    have hlt : (m.queue q).length < (m.queue q).size := by omega
    obtain ⟨i1, i2⟩ := ring_inv_front hh ht hlt inv
    apply queue_wf_of h (onlyRing_slots f4)
    all_goals rw [f1]
    · exact i1
    · exact ht
    · exact hlt
    · exact i2

theorem queue_push_back_wf {m : Mem} {q : Nat} (h : queue_wf m q) (h2 : 2 * (m.queue q).size ≤ SIZE_T_MOD)
    (src n : Nat) :
    queue_wf (queue_push_back m q src n).2 q := by
  by_cases hf : (m.queue q).length = (m.queue q).size
  · rw [queue_push_back_full h h2 src n hf]
    exact h
  · rw [queue_push_back_eq h h2 src n hf]
    obtain ⟨f1, -, -, f4⟩ := ring_write_facts m q
      { m.queue q with
        tail := ((m.queue q).tail + size_t_dec (m.queue q).size) % SIZE_T_MOD %
          (m.queue q).size }
      { m.queue q with
        tail := ((m.queue q).tail + size_t_dec (m.queue q).size) % SIZE_T_MOD %
          (m.queue q).size
        length := (m.queue q).length + 1 }
      (memcpy m.byte
        (m.slots (m.queue q).data
          (((m.queue q).tail + size_t_dec (m.queue q).size) % SIZE_T_MOD %
            (m.queue q).size)) src n)
    have hw := h
    obtain ⟨-, -, -, hc, -, hh, ht, hl, inv, -⟩ := hw
    have hlt : (m.queue q).length < (m.queue q).size := by omega
    obtain ⟨i1, i2⟩ := ring_inv_back hc h2 hh ht hlt inv
    apply queue_wf_of h (onlyRing_slots f4)
    all_goals rw [f1]
    · exact hh
    · exact i1
    · exact hlt
    · exact i2

theorem queue_read_wf {m : Mem} {q : Nat} (h : queue_wf m q) (dst : Nat) :
    queue_wf (queue_read m q dst).2 q := by
  by_cases h0 : (m.queue q).length = 0
  · rw [queue_read_empty (queue_wf_checking h) dst h0]
    exact h
  · rw [queue_read_eq h dst h0]
    obtain ⟨f1, -, -, f4⟩ := ring_write_facts m q
      { m.queue q with tail := ((m.queue q).tail + 1) % (m.queue q).size }
      { m.queue q with
        tail := ((m.queue q).tail + 1) % (m.queue q).size
        length := (m.queue q).length - 1 }
      (memcpy m.byte dst (m.slots (m.queue q).data (m.queue q).tail) (m.queue q).element_size)
    have hw := h
    obtain ⟨-, -, -, hc, h2, hh, ht, hl, inv, -⟩ := hw
    obtain ⟨i1, i2⟩ := ring_inv_read hh ht hl (Nat.pos_of_ne_zero h0) inv
    apply queue_wf_of h (onlyRing_slots f4)
    all_goals rw [f1]
    · exact hh
    · exact i1
    · show (m.queue q).length - 1 ≤ (m.queue q).size
      omega
    · exact i2

/-- A byte of the cell `i` is not touched by a `memcpy` of `es` bytes into another cell
`k` of the same storage block. -/
theorem memcpy_other_cell (byte : Nat → Nat) (b es i k src x : Nat) (hik : i ≠ k)
    (hx : x < es) :
    memcpy byte (b + k * es) src es (b + i * es + x) = byte (b + i * es + x) := by
  apply memcpy_outside
  by_contra hcon
  have h1 : b + k * es ≤ b + i * es + x := by omega
  have h2 : b + i * es + x < b + k * es + es := by omega
  have h3 : b + i * es + x - (b + k * es) < es := by omega
  have h4 : b + i * es + x = b + k * es + (b + i * es + x - (b + k * es)) := by omega
  exact cells_disjoint hik hx h3 h4

/-- A byte of a cell is not touched by a `memcpy` into a range outside the storage
block. -/
theorem memcpy_outside_block (byte : Nat → Nat) (b es c i dst src x : Nat) (hi : i < c)
    (hx : x < es) (ho : dst + es ≤ b ∨ b + c * es ≤ dst) :
    memcpy byte dst src es (b + i * es + x) = byte (b + i * es + x) := by
  apply memcpy_outside
  have := cell_in_block (b := b) (c := c) hi hx
  omega

/-- The contents of a ring after a successful `queue_push_front` of an element of the
element size: the new element comes last. -/
theorem queue_contents_push_front {m : Mem} {q : Nat} (h : queue_wf m q) (src : Nat)
    (hf : (m.queue q).length ≠ (m.queue q).size) :
    queue_contents (queue_push_front m q src (m.queue q).element_size).2 q =
      queue_contents m q ++ [read_bytes m src (m.queue q).element_size] := by
  rw [queue_push_front_eq h src _ hf]
  obtain ⟨f1, -, f3, f4⟩ := ring_write_facts m q
    { m.queue q with head := ((m.queue q).head + 1) % (m.queue q).size }
    { m.queue q with
      head := ((m.queue q).head + 1) % (m.queue q).size
      length := (m.queue q).length + 1 }
    (memcpy m.byte
      (m.slots (m.queue q).data (((m.queue q).head + 1) % (m.queue q).size)) src
      (m.queue q).element_size)
  obtain ⟨-, -, -, hc, h2, hh, ht, hl, inv, lay⟩ := h
  have hlt : (m.queue q).length < (m.queue q).size := by omega
  have hnp : ((m.queue q).head + 1) % (m.queue q).size < (m.queue q).size :=
    Nat.mod_lt _ (by omega)
  unfold queue_contents queue_cell
  rw [f1, (onlyRing_slots f4)]
  show List.map _ (List.range ((m.queue q).length + 1)) = _
  rw [List.range_succ, List.map_append, List.map_singleton]
  congr 1
  · apply List.map_congr_left
    intro j hj
    have hj2 : j < (m.queue q).length := List.mem_range.1 hj
    have hidx : ((m.queue q).tail + j) % (m.queue q).size < (m.queue q).size :=
      Nat.mod_lt _ (by omega)
    have hne : ((m.queue q).tail + j) % (m.queue q).size ≠
        ((m.queue q).head + 1) % (m.queue q).size := by
      rw [inv]
      exact ring_index_inj ht (by omega) hlt (by omega)
    apply read_bytes_congr
    intro x hx
    show (_ : Mem).byte _ = _
    rw [f3, lay _ hidx, lay _ hnp]
    exact memcpy_other_cell _ _ _ _ _ _ _ hne hx
  · congr 1
    apply read_bytes_congr
    intro x hx
    show (_ : Mem).byte _ = _
    rw [f3, ← inv]
    exact memcpy_inside _ _ _ _ _ hx

/-- The contents of a ring after a successful `queue_push_back` of an element of the
element size: the new element comes first. -/
theorem queue_contents_push_back {m : Mem} {q : Nat} (h : queue_wf m q) (h2 : 2 * (m.queue q).size ≤ SIZE_T_MOD)
    (src : Nat)
    (hf : (m.queue q).length ≠ (m.queue q).size) :
    queue_contents (queue_push_back m q src (m.queue q).element_size).2 q =
      read_bytes m src (m.queue q).element_size :: queue_contents m q := by
  rw [queue_push_back_eq h h2 src _ hf]
  obtain ⟨f1, -, f3, f4⟩ := ring_write_facts m q
    { m.queue q with
      tail := ((m.queue q).tail + size_t_dec (m.queue q).size) % SIZE_T_MOD %
        (m.queue q).size }
    { m.queue q with
      tail := ((m.queue q).tail + size_t_dec (m.queue q).size) % SIZE_T_MOD %
        (m.queue q).size
      length := (m.queue q).length + 1 }
    (memcpy m.byte
      (m.slots (m.queue q).data
        (((m.queue q).tail + size_t_dec (m.queue q).size) % SIZE_T_MOD %
          (m.queue q).size)) src (m.queue q).element_size)
  obtain ⟨-, -, -, hc, -, hh, ht, hl, inv, lay⟩ := h
  have hlt : (m.queue q).length < (m.queue q).size := by omega
  have hnp : ((m.queue q).tail + size_t_dec (m.queue q).size) % SIZE_T_MOD %
      (m.queue q).size < (m.queue q).size := Nat.mod_lt _ (by omega)
  unfold queue_contents queue_cell
  rw [f1, (onlyRing_slots f4)]
  show List.map _ (List.range ((m.queue q).length + 1)) = _
  rw [List.range_succ_eq_map, List.map_cons, List.map_map]
  congr 1
  · apply read_bytes_congr
    intro x hx
    show (_ : Mem).byte _ = _
    rw [f3]
    show memcpy _ _ _ _ (m.slots _ ((_ + 0) % _) + x) = _
    rw [ring_index_back_zero hc h2 ht]
    exact memcpy_inside _ _ _ _ _ hx
  · apply List.map_congr_left
    intro j hj
    have hj2 : j < (m.queue q).length := List.mem_range.1 hj
    have hidx : ((m.queue q).tail + j) % (m.queue q).size < (m.queue q).size :=
      Nat.mod_lt _ (by omega)
    have hne := ring_index_back_ne hc h2 ht (by omega : j + 1 < (m.queue q).size)
    apply read_bytes_congr
    intro x hx
    show (_ : Mem).byte (m.slots _ ((_ + (j + 1)) % _) + x) = _
    rw [f3, ring_index_back hc h2 ht (by omega : j < (m.queue q).size), lay _ hidx,
      lay _ hnp]
    exact memcpy_other_cell _ _ _ _ _ _ _ hne hx

/-- What a successful `queue_read` changes. -/
theorem queue_read_ok {m : Mem} {q : Nat} (h : queue_wf m q) (dst : Nat)
    (h0 : (m.queue q).length ≠ 0) :
    (queue_read m q dst).1 = QUEUE_SUCCESS ∧
    (queue_read m q dst).2.queue q =
      { m.queue q with
        tail := ((m.queue q).tail + 1) % (m.queue q).size
        length := (m.queue q).length - 1 } ∧
    (∀ k, k ≠ q → (queue_read m q dst).2.queue k = m.queue k) ∧
    (queue_read m q dst).2.byte =
      memcpy m.byte dst (m.slots (m.queue q).data (m.queue q).tail)
        (m.queue q).element_size ∧
    OnlyRing m (queue_read m q dst).2 := by
  rw [queue_read_eq h dst h0]
  exact ⟨rfl, ring_write_facts m q _ _ _⟩

/-- What a successful `queue_push_front` changes. -/
theorem queue_push_front_ok {m : Mem} {q : Nat} (h : queue_wf m q) (src n : Nat)
    (hf : (m.queue q).length ≠ (m.queue q).size) :
    (queue_push_front m q src n).1 = QUEUE_SUCCESS ∧
    (queue_push_front m q src n).2.queue q =
      { m.queue q with
        head := ((m.queue q).head + 1) % (m.queue q).size
        length := (m.queue q).length + 1 } ∧
    (∀ k, k ≠ q → (queue_push_front m q src n).2.queue k = m.queue k) ∧
    (queue_push_front m q src n).2.byte =
      memcpy m.byte (m.slots (m.queue q).data (((m.queue q).head + 1) % (m.queue q).size))
        src n ∧
    OnlyRing m (queue_push_front m q src n).2 := by
  rw [queue_push_front_eq h src n hf]
  exact ⟨rfl, ring_write_facts m q _ _ _⟩

/-- What a successful `queue_push_back` changes. -/
theorem queue_push_back_ok {m : Mem} {q : Nat} (h : queue_wf m q) (h2 : 2 * (m.queue q).size ≤ SIZE_T_MOD)
    (src n : Nat)
    (hf : (m.queue q).length ≠ (m.queue q).size) :
    (queue_push_back m q src n).1 = QUEUE_SUCCESS ∧
    (queue_push_back m q src n).2.queue q =
      { m.queue q with
        tail := ((m.queue q).tail + size_t_dec (m.queue q).size) % SIZE_T_MOD %
          (m.queue q).size
        length := (m.queue q).length + 1 } ∧
    (∀ k, k ≠ q → (queue_push_back m q src n).2.queue k = m.queue k) ∧
    (queue_push_back m q src n).2.byte =
      memcpy m.byte (m.slots (m.queue q).data
        (((m.queue q).tail + size_t_dec (m.queue q).size) % SIZE_T_MOD % (m.queue q).size))
        src n ∧
    OnlyRing m (queue_push_back m q src n).2 := by
  rw [queue_push_back_eq h h2 src n hf]
  exact ⟨rfl, ring_write_facts m q _ _ _⟩

/-- A successful `queue_read` into a buffer outside the storage block: the buffer holds
the first element of the contents and the rest stays in the ring. -/
theorem queue_contents_read {m : Mem} {q : Nat} (h : queue_wf m q) (dst : Nat)
    (h0 : (m.queue q).length ≠ 0) (ho : outside_ring m q dst (m.queue q).element_size) :
    read_bytes (queue_read m q dst).2 dst (m.queue q).element_size ::
      queue_contents (queue_read m q dst).2 q = queue_contents m q := by
  obtain ⟨-, f1, -, f3, f4⟩ := queue_read_ok h dst h0
  obtain ⟨-, -, -, hc, h2, hh, ht, hl, inv, lay⟩ := h
  obtain ⟨k, hk⟩ : ∃ k, (m.queue q).length = k + 1 := ⟨(m.queue q).length - 1, by omega⟩
  unfold queue_contents queue_cell
  rw [f1, (onlyRing_slots f4)]
  show _ :: List.map _ (List.range ((m.queue q).length - 1)) = _
  rw [hk, Nat.add_sub_cancel, List.range_succ_eq_map, List.map_cons, List.map_map]
  congr 1
  · apply read_bytes_congr
    intro x hx
    rw [f3, Nat.add_zero, Nat.mod_eq_of_lt ht]
    exact memcpy_inside _ _ _ _ _ hx
  · apply List.map_congr_left
    intro j hj
    have hj2 : j < k := List.mem_range.1 hj
    have hidx : ((m.queue q).tail + (j + 1)) % (m.queue q).size < (m.queue q).size :=
      Nat.mod_lt _ (by omega)
    apply read_bytes_congr
    intro x hx
    show (_ : Mem).byte (m.slots _ ((_ + j) % _) + x) = _
    rw [f3, ring_index_read ht (by omega : j + 1 ≤ (m.queue q).size), lay _ hidx]
    exact memcpy_outside_block _ _ _ _ _ _ _ _ hidx hx ho

theorem setSlot_same (m : Mem) (a i v : Nat) : (m.setSlot a i v).slots a i = v := by
  simp [Mem.setSlot]

theorem setSlot_other (m : Mem) (a i v j : Nat) (h : j ≠ i) :
    (m.setSlot a i v).slots a j = m.slots a j := by
  simp [Mem.setSlot, Function.update_noteq h]

/-- The loop of `queue_create` with an allocated storage block whose cells lie inside the
address space: no cell address wraps and the loop runs to its end. -/
theorem queue_create_slots_spec (d b s : Nat) (hb : b ≠ 0) :
    ∀ (n i : Nat) (m : Mem), (∀ j, i ≤ j → j < i + n → b + j * s < SIZE_T_MOD) →
      (queue_create_slots d b s i n m).1 = QUEUE_SUCCESS ∧
      (∀ j, i ≤ j → j < i + n → (queue_create_slots d b s i n m).2.slots d j = b + j * s) ∧
      (∀ j, j < i → (queue_create_slots d b s i n m).2.slots d j = m.slots d j) ∧
      (queue_create_slots d b s i n m).2.queue = m.queue ∧
      (queue_create_slots d b s i n m).2.byte = m.byte := by
  intro n
  induction n with
  | zero =>
    intro i m _
    exact ⟨rfl, fun j h1 h2 => absurd h2 (by omega), fun j _ => rfl, rfl, rfl⟩
  | succ n ih =>
    intro i m hin
    have hmod : (b + i * s) % SIZE_T_MOD = b + i * s :=
      Nat.mod_eq_of_lt (hin i (le_refl i) (by omega))
    have hne : (m.setSlot d i ((b + i * s) % SIZE_T_MOD)).slots d i ≠ 0 := by
      rw [setSlot_same, hmod]; omega
    have e : queue_create_slots d b s i (n + 1) m =
        queue_create_slots d b s (i + 1) n (m.setSlot d i (b + i * s)) := by
      show (if (m.setSlot d i ((b + i * s) % SIZE_T_MOD)).slots d i = 0 then _ else _) = _
      rw [if_neg hne, hmod]
    rw [e]
    obtain ⟨i1, i2, i3, i4, i5⟩ := ih (i + 1) (m.setSlot d i (b + i * s))
      (fun j h1 h2 => hin j (by omega) (by omega))
    refine ⟨i1, ?_, ?_, i4, i5⟩
    · intro j h1 h2
      by_cases hj : j = i
      · subst hj
        rw [i3 j (by omega), setSlot_same]
      · exact i2 j (by omega) (by omega)
    · intro j hj
      rw [i3 j (by omega), setSlot_other _ _ _ _ _ (by omega)]

/-- The loop of `queue_create` returns `QUEUE_DATA_NO_MEMORY` when the address of one of
its cells wraps to `NULL`. -/
theorem queue_create_slots_null (d b s : Nat) :
    ∀ (n i : Nat) (m : Mem),
      (∃ j, i ≤ j ∧ j < i + n ∧ (b + j * s) % SIZE_T_MOD = 0) →
      (queue_create_slots d b s i n m).1 = QUEUE_DATA_NO_MEMORY := by
  intro n
  induction n with
  | zero =>
    rintro i m ⟨j, h1, h2, -⟩
    exact absurd h2 (by omega)
  | succ n ih =>
    rintro i m ⟨j, h1, h2, h3⟩
    by_cases h0 : (b + i * s) % SIZE_T_MOD = 0
    · have e : queue_create_slots d b s i (n + 1) m =
          (QUEUE_DATA_NO_MEMORY, m.setSlot d i ((b + i * s) % SIZE_T_MOD)) := by
        show (if (m.setSlot d i ((b + i * s) % SIZE_T_MOD)).slots d i = 0 then _ else _) = _
        rw [if_pos (by rw [setSlot_same]; exact h0)]
      rw [e]
    · have hne : (m.setSlot d i ((b + i * s) % SIZE_T_MOD)).slots d i ≠ 0 := by
        rw [setSlot_same]; exact h0
      have e : queue_create_slots d b s i (n + 1) m =
          queue_create_slots d b s (i + 1) n
            (m.setSlot d i ((b + i * s) % SIZE_T_MOD)) := by
        show (if (m.setSlot d i ((b + i * s) % SIZE_T_MOD)).slots d i = 0 then _ else _) = _
        rw [if_neg hne]
      rw [e]
      have hji : j ≠ i := fun hc => h0 (hc ▸ h3)
      exact ih (i + 1) _ ⟨j, by omega, by omega, h3⟩

/-- The function `queue_create` after the two successful allocations of the control block
and of the slot array: the control block is initialised, the slot `0` holds the storage
block and the loop fills the other slots. -/
theorem queue_create_eq (m : Mem) (a d b c s : Nat) (ha : a ≠ 0) (hd : d ≠ 0)
    (hc : 1 ≤ c) (h2 : c < SIZE_T_MOD) :
    queue_create m a d b c s =
      queue_create_slots d b s 1 (c - 1)
        ((m.setQueue a ⟨c, 0, s, c - 1, 0, d⟩).setSlot d 0 b) := by
  have hdec : size_t_dec c = c - 1 := size_t_dec_pos hc (by omega)
  unfold queue_create
  rw [if_neg ha]
  simp only [Mem.setQueue, Function.update_same, Function.update_idem, hdec]
  rw [if_neg hd]
  simp only [Mem.setSlot, Function.update_same]

/-- Without the bound on the storage block `queue_create` does not succeed: for the
capacity `65536` and the element size `65536` the request of the storage block is
`65536 * 65536 mod 2^32 = 0` bytes, and with the block at the address `65536` the cell of
the index `65535` has the address `2^32`, which is `NULL` in 32 bits. -/
theorem queue_create_wrapped_storage (m : Mem) (a d : Nat) (ha : a ≠ 0) (hd : d ≠ 0) :
    (65536 * 65536) % SIZE_T_MOD = 0 ∧
    (queue_create m a d 65536 65536 65536).1 = QUEUE_DATA_NO_MEMORY := by
  refine ⟨by decide, ?_⟩
  rw [queue_create_eq m a d 65536 65536 65536 ha hd (by decide) (by decide)]
  exact queue_create_slots_null d 65536 65536 (65536 - 1) 1 _
    ⟨65535, by decide, by decide, by decide⟩

/-- The function `queue_create` with three successful allocations, the storage block of
`c * s` bytes at `b` lying inside the address space: the ring is empty and well formed. -/
theorem queue_create_spec (m : Mem) (a d b c s : Nat) (ha : a ≠ 0) (hd : d ≠ 0) (hb : b ≠ 0)
    (hc : 1 ≤ c) (h2 : c < SIZE_T_MOD) (hb2 : b < SIZE_T_MOD)
    (hblock : b + c * s ≤ SIZE_T_MOD) :
    (queue_create m a d b c s).1 = QUEUE_SUCCESS ∧
    (queue_create m a d b c s).2.queue a = ⟨c, 0, s, c - 1, 0, d⟩ ∧
    (∀ j, j < c → (queue_create m a d b c s).2.slots d j = b + j * s) ∧
    (queue_create m a d b c s).2.byte = m.byte ∧
    queue_wf (queue_create m a d b c s).2 a := by
  have e := queue_create_eq m a d b c s ha hd hc h2
  have hcell : ∀ j, j < c → b + j * s < SIZE_T_MOD := by
    intro j hj
    rcases Nat.eq_zero_or_pos s with h0 | hpos
    · rw [h0, Nat.mul_zero]
      exact hb2
    · have h1 : (j + 1) * s ≤ c * s := Nat.mul_le_mul_right s hj
      rw [Nat.add_mul, Nat.one_mul] at h1
      omega
  obtain ⟨i1, i2, i3, i4, i5⟩ := queue_create_slots_spec d b s hb (c - 1) 1
    ((m.setQueue a ⟨c, 0, s, c - 1, 0, d⟩).setSlot d 0 b)
    (fun j _ h2 => hcell j (by omega))
  rw [← e] at i1 i2 i3 i4 i5
  have hq : (queue_create m a d b c s).2.queue a = ⟨c, 0, s, c - 1, 0, d⟩ := by
    rw [i4]
    simp [Mem.setQueue, Mem.setSlot]
  have hsl : ∀ j, j < c → (queue_create m a d b c s).2.slots d j = b + j * s := by
    intro j hj
    by_cases h0 : j = 0
    · subst h0
      rw [i3 0 (by omega), setSlot_same]
      omega
    · exact i2 j (by omega) (by omega)
  refine ⟨i1, hq, hsl, ?_, ?_⟩
  · rw [i5]; rfl
  · unfold queue_wf
    rw [hq]
    refine ⟨ha, hd, ?_, hc, h2, by show c - 1 < c; omega, hc, Nat.zero_le _, ?_, ?_⟩
    · show (queue_create m a d b c s).2.slots d 0 ≠ 0
      rw [hsl 0 (by omega)]; omega
    · show (c - 1 + 1) % c = (0 + 0) % c
      rw [Nat.sub_add_cancel hc, Nat.mod_self]
      simp
    · intro j hj
      show (queue_create m a d b c s).2.slots d j = (queue_create m a d b c s).2.slots d 0 + j * s
      rw [hsl j hj, hsl 0 (by omega)]
      omega

/-- Every operation keeps a ring well formed and keeps its capacity. -/
theorem queue_apply_inv {m : Mem} {q : Nat} (h : queue_wf m q) (h2 : 2 * (m.queue q).size ≤ SIZE_T_MOD)
    (op : queue_op) :
    queue_wf (queue_apply q m op) q ∧
    ((queue_apply q m op).queue q).size = (m.queue q).size := by
  cases op with
  | push_front el n =>
    refine ⟨queue_push_front_wf h el n, ?_⟩
    show ((queue_push_front m q el n).2.queue q).size = _
    by_cases hf : (m.queue q).length = (m.queue q).size
    · rw [queue_push_front_full h el n hf]
    · rw [(queue_push_front_ok h el n hf).2.1]
  | push_back el n =>
    refine ⟨queue_push_back_wf h h2 el n, ?_⟩
    show ((queue_push_back m q el n).2.queue q).size = _
    by_cases hf : (m.queue q).length = (m.queue q).size
    · rw [queue_push_back_full h h2 el n hf]
    · rw [(queue_push_back_ok h h2 el n hf).2.1]
  | read el =>
    refine ⟨queue_read_wf h el, ?_⟩
    show ((queue_read m q el).2.queue q).size = _
    by_cases h0 : (m.queue q).length = 0
    · rw [queue_read_empty (queue_wf_checking h) el h0]
    · rw [(queue_read_ok h el h0).2.1]

/-- Every sequence of operations keeps a ring well formed and keeps its capacity. -/
theorem queue_run_inv {q : Nat} (ops : List queue_op) :
    ∀ m : Mem, queue_wf m q → 2 * (m.queue q).size ≤ SIZE_T_MOD →
      queue_wf (queue_run q m ops) q ∧ ((queue_run q m ops).queue q).size = (m.queue q).size := by
  induction ops with
  | nil => exact fun m h _ => ⟨h, rfl⟩
  | cons op ops ih =>
    intro m h h2
    obtain ⟨a1, a2⟩ := queue_apply_inv h h2 op
    obtain ⟨b1, b2⟩ := ih (queue_apply q m op) a1 (by rw [a2]; exact h2)
    exact ⟨b1, b2.trans a2⟩

/-- A `memcpy` of `es` bytes into a cell of the storage block leaves the bytes outside
the block as they are. -/
theorem memcpy_cell_outside (byte : Nat → Nat) (b es c i src x y : Nat) (hi : i < c)
    (hy : y < es) (ho : x + es ≤ b ∨ b + c * es ≤ x) :
    memcpy byte (b + i * es) src es (x + y) = byte (x + y) := by
  apply memcpy_outside
  have h1 : (i + 1) * es ≤ c * es := Nat.mul_le_mul_right es hi
  rw [Nat.succ_mul] at h1
  omega

/-- Pushing elements of the element size with `queue_push_front` while the ring has room:
every push succeeds and the elements are appended to the contents in push order. -/
theorem queue_push_front_all_spec {q es : Nat} (srcs : List Nat) :
    ∀ m : Mem, queue_wf m q → (m.queue q).element_size = es →
      (m.queue q).length + srcs.length ≤ (m.queue q).size →
      (∀ x ∈ srcs, outside_ring m q x es) →
      (queue_push_front_all q es srcs m).1 = srcs.map (fun _ => QUEUE_SUCCESS) ∧
      queue_wf (queue_push_front_all q es srcs m).2 q ∧
      queue_contents (queue_push_front_all q es srcs m).2 q =
        queue_contents m q ++ srcs.map (fun x => read_bytes m x es) ∧
      (queue_push_front_all q es srcs m).2.slots = m.slots ∧
      ((queue_push_front_all q es srcs m).2.queue q).size = (m.queue q).size ∧
      ((queue_push_front_all q es srcs m).2.queue q).data = (m.queue q).data ∧
      ((queue_push_front_all q es srcs m).2.queue q).element_size = es ∧
      ((queue_push_front_all q es srcs m).2.queue q).length =
        (m.queue q).length + srcs.length := by
  induction srcs with
  | nil =>
    intro m h hes _ _
    refine ⟨rfl, h, ?_, rfl, rfl, rfl, hes, rfl⟩
    show queue_contents m q = _
    rw [List.map_nil, List.append_nil]
  | cons src srcs ih =>
    intro m h hes hroom hout
    rw [List.length_cons] at hroom
    have hf : (m.queue q).length ≠ (m.queue q).size := by omega
    obtain ⟨p1, p2, -, p4, p5⟩ := queue_push_front_ok h src es hf
    have hw := queue_push_front_wf h src es
    have hcont := queue_contents_push_front h src hf
    rw [hes] at hcont
    have hes1 : ((queue_push_front m q src es).2.queue q).element_size = es := by
      rw [p2]; exact hes
    have hsz1 : ((queue_push_front m q src es).2.queue q).size = (m.queue q).size := by
      rw [p2]
    have hd1 : ((queue_push_front m q src es).2.queue q).data = (m.queue q).data := by
      rw [p2]
    have hl1 : ((queue_push_front m q src es).2.queue q).length = (m.queue q).length + 1 := by
      rw [p2]
    have hout1 : ∀ x ∈ srcs, outside_ring (queue_push_front m q src es).2 q x es := by
      intro x hx
      have := hout x (List.mem_cons_of_mem _ hx)
      unfold outside_ring at this ⊢
      rw [(onlyRing_slots p5), hsz1, hd1, hes1]
      rw [hes] at this
      exact this
    obtain ⟨i1, i2, i3, i4, i5, i6, i7, i8⟩ :=
      ih (queue_push_front m q src es).2 hw hes1 (by rw [hl1, hsz1]; omega) hout1
    obtain ⟨-, -, -, hc, -, -, -, -, -, lay⟩ := h
    have hnp : ((m.queue q).head + 1) % (m.queue q).size < (m.queue q).size :=
      Nat.mod_lt _ (by omega)
    have hbytes : ∀ x ∈ srcs,
        read_bytes (queue_push_front m q src es).2 x es = read_bytes m x es := by
      intro x hx
      apply read_bytes_congr
      intro y hy
      have ho := hout x (List.mem_cons_of_mem _ hx)
      unfold outside_ring at ho
      rw [hes] at ho
      rw [p4, lay _ hnp, hes]
      exact memcpy_cell_outside _ _ _ _ _ _ _ _ hnp hy ho
    refine ⟨?_, i2, ?_, i4.trans (onlyRing_slots p5), i5.trans hsz1, i6.trans hd1, i7, ?_⟩
    · show (queue_push_front m q src es).1 ::
        (queue_push_front_all q es srcs (queue_push_front m q src es).2).1 = _
      rw [i1, p1]; rfl
    · show queue_contents (queue_push_front_all q es srcs (queue_push_front m q src es).2).2 q
        = _
      rw [i3, hcont, List.append_assoc, List.map_cons, List.singleton_append,
        List.map_congr_left hbytes]
    · show ((queue_push_front_all q es srcs (queue_push_front m q src es).2).2.queue q).length
        = _
      rw [i8, hl1, List.length_cons]
      omega

/-- Reading with `queue_read` into buffers outside the storage block, no more often than
the ring has elements: every read succeeds and the buffers receive the contents in
order. -/
theorem queue_read_all_spec {q : Nat} (dsts : List Nat) :
    ∀ m : Mem, queue_wf m q → dsts.length ≤ (m.queue q).length →
      (∀ x ∈ dsts, outside_ring m q x (m.queue q).element_size) →
      (queue_read_all q dsts m).1 =
        ((queue_contents m q).take dsts.length).map (fun x => (QUEUE_SUCCESS, x)) ∧
      queue_wf (queue_read_all q dsts m).2 q ∧
      queue_contents (queue_read_all q dsts m).2 q = (queue_contents m q).drop dsts.length := by
  induction dsts with
  | nil =>
    intro m h _ _
    exact ⟨rfl, h, rfl⟩
  | cons dst dsts ih =>
    intro m h hlen hout
    rw [List.length_cons] at hlen
    have h0 : (m.queue q).length ≠ 0 := by omega
    obtain ⟨p1, p2, -, -, p5⟩ := queue_read_ok h dst h0
    have hw := queue_read_wf h dst
    have hcont := queue_contents_read h dst h0 (hout dst (List.mem_cons_self _ _))
    have hout1 : ∀ x ∈ dsts,
        outside_ring (queue_read m q dst).2 q x ((queue_read m q dst).2.queue q).element_size := by
      intro x hx
      have := hout x (List.mem_cons_of_mem _ hx)
      unfold outside_ring at this ⊢
      rw [(onlyRing_slots p5), p2]
      exact this
    obtain ⟨i1, i2, i3⟩ := ih (queue_read m q dst).2 hw (by rw [p2]; show _ ≤ _ - 1; omega) hout1
    refine ⟨?_, i2, ?_⟩
    · show ((queue_read m q dst).1, read_bytes (queue_read m q dst).2 dst _) ::
        (queue_read_all q dsts (queue_read m q dst).2).1 = _
      rw [i1, p1, ← hcont, List.length_cons, List.take_succ_cons, List.map_cons]
    · show queue_contents (queue_read_all q dsts (queue_read m q dst).2).2 q = _
      rw [i3, ← hcont, List.length_cons, List.drop_succ_cons]

/-- A newly created ring is empty. -/
theorem queue_contents_create (m : Mem) (a d b c s : Nat) (ha : a ≠ 0) (hd : d ≠ 0) (hb : b ≠ 0)
    (hc : 1 ≤ c) (h2 : c < SIZE_T_MOD) (hb2 : b < SIZE_T_MOD)
    (hblock : b + c * s ≤ SIZE_T_MOD) :
    queue_contents (queue_create m a d b c s).2 a = [] := by
  unfold queue_contents
  rw [(queue_create_spec m a d b c s ha hd hb hc h2 hb2 hblock).2.1]
  rfl

/-! ## Claims on the ring -/

/-- C16. The ring refuses a push exactly when it is full.  Let `st` be a state reached from
`queue_create(c, s)` by any sequence `ops` of `queue_push_front`, `queue_push_back` and
`queue_read` calls with any arguments, where the three allocations of `queue_create` have
succeeded with what was asked for: the control block `a`, the array `d` of `c` slot
pointers (`1 ≤ c` and `c ≤ 2^31`, so that the array exists in the 32-bit address space)
and the storage block `b` of `c * s` bytes, which lies inside the address space
(`b + c * s ≤ 2^32`, so the request `c * s` has not wrapped and no cell address wraps).
Then `queue_create` returns `QUEUE_SUCCESS` and `length ≤ c`; `queue_push_front` and
`queue_push_back` return `QUEUE_PREVENTED_OVERRITE` if and only if `length = c`, and then
leave the memory unchanged; otherwise they return `QUEUE_SUCCESS` and increase `length`
by one. -/
theorem queue_refuses_push_exactly_when_full (m : Mem) (a d b c s : Nat) (ops : List queue_op)
    (ha : a ≠ 0) (hd : d ≠ 0) (hb : b ≠ 0) (hc : 1 ≤ c) (h2 : 2 * c ≤ SIZE_T_MOD)
    (hb2 : b < SIZE_T_MOD) (hblock : b + c * s ≤ SIZE_T_MOD)
    (st : Mem) (hst : st = queue_run a (queue_create m a d b c s).2 ops)
    (element element_size : Nat) :
    (queue_create m a d b c s).1 = QUEUE_SUCCESS ∧
    (st.queue a).length ≤ c ∧
    ((queue_push_front st a element element_size).1 = QUEUE_PREVENTED_OVERRITE ↔
      (st.queue a).length = c) ∧
    ((queue_push_back st a element element_size).1 = QUEUE_PREVENTED_OVERRITE ↔
      (st.queue a).length = c) ∧
    ((st.queue a).length = c →
      (queue_push_front st a element element_size).2 = st ∧
      (queue_push_back st a element element_size).2 = st) ∧
    ((st.queue a).length ≠ c →
      (queue_push_front st a element element_size).1 = QUEUE_SUCCESS ∧
      ((queue_push_front st a element element_size).2.queue a).length =
        (st.queue a).length + 1 ∧
      (queue_push_back st a element element_size).1 = QUEUE_SUCCESS ∧
      ((queue_push_back st a element element_size).2.queue a).length =
        (st.queue a).length + 1) := by
  obtain ⟨c1, c2, -, -, c5⟩ :=
    queue_create_spec m a d b c s ha hd hb hc (by omega) hb2 hblock
  obtain ⟨w, hsz⟩ := queue_run_inv ops (queue_create m a d b c s).2 c5 (by rw [c2]; exact h2)
  rw [← hst] at w hsz
  have hsize : (st.queue a).size = c := by rw [hsz, c2]
  have hle : (st.queue a).length ≤ c := hsize ▸ w.2.2.2.2.2.2.2.1
  have hfull : (st.queue a).length = c →
      queue_push_front st a element element_size = (QUEUE_PREVENTED_OVERRITE, st) ∧
      queue_push_back st a element element_size = (QUEUE_PREVENTED_OVERRITE, st) :=
    fun hf => ⟨queue_push_front_full w _ _ (hf.trans hsize.symm),
      queue_push_back_full w (hsize.symm ▸ h2) _ _ (hf.trans hsize.symm)⟩
  have hfree : (st.queue a).length ≠ c →
      (queue_push_front st a element element_size).1 = QUEUE_SUCCESS ∧
      ((queue_push_front st a element element_size).2.queue a).length =
        (st.queue a).length + 1 ∧
      (queue_push_back st a element element_size).1 = QUEUE_SUCCESS ∧
      ((queue_push_back st a element element_size).2.queue a).length =
        (st.queue a).length + 1 := by
    intro hf
    have hf2 : (st.queue a).length ≠ (st.queue a).size := fun hcon => hf (hcon.trans hsize)
    obtain ⟨p1, p2, -⟩ := queue_push_front_ok w element element_size hf2
    obtain ⟨b1, b2, -⟩ := queue_push_back_ok w (hsize.symm ▸ h2) element element_size hf2
    exact ⟨p1, by rw [p2], b1, by rw [b2]⟩
  refine ⟨c1, hle, ⟨?_, fun hf => by rw [(hfull hf).1]⟩, ⟨?_, fun hf => by rw [(hfull hf).2]⟩,
    fun hf => ⟨by rw [(hfull hf).1], by rw [(hfull hf).2]⟩, hfree⟩
  · intro hp
    by_contra hf
    have := (hfree hf).1
    rw [hp] at this
    exact absurd this (by decide)
  · intro hp
    by_contra hf
    have := (hfree hf).2.2.1
    rw [hp] at this
    exact absurd this (by decide)

/-- C16, witness: on the ring of `mem_ring` (capacity 3) after two pushes at the front, a
read and two pushes at the back, the ring is full and both pushes are refused; after one
more read a push succeeds. -/
theorem queue_refuses_push_exactly_when_full_witness :
    ((queue_run 61 mem_ring
        [queue_op.push_front 500 2, queue_op.push_front 502 2, queue_op.read 2000,
          queue_op.push_back 504 2, queue_op.push_back 500 2]).queue 61).length = 3 ∧
    (queue_push_front (queue_run 61 mem_ring
        [queue_op.push_front 500 2, queue_op.push_front 502 2, queue_op.read 2000,
          queue_op.push_back 504 2, queue_op.push_back 500 2]) 61 502 2).1 =
      QUEUE_PREVENTED_OVERRITE ∧
    (queue_push_back (queue_run 61 mem_ring
        [queue_op.push_front 500 2, queue_op.push_front 502 2, queue_op.read 2000,
          queue_op.push_back 504 2, queue_op.push_back 500 2]) 61 502 2).1 =
      QUEUE_PREVENTED_OVERRITE := by
  have hl : ((queue_run 61 mem_ring
      [queue_op.push_front 500 2, queue_op.push_front 502 2, queue_op.read 2000,
        queue_op.push_back 504 2, queue_op.push_back 500 2]).queue 61).length = 3 := by
    decide
  have k := queue_refuses_push_exactly_when_full
    { Mem.zero with byte := fun a => if 500 ≤ a ∧ a < 506 then a - 499 else 0 }
    61 62 1000 3 2
    [queue_op.push_front 500 2, queue_op.push_front 502 2, queue_op.read 2000,
      queue_op.push_back 504 2, queue_op.push_back 500 2]
    (by decide) (by decide) (by decide) (by decide) (by decide) (by decide) (by decide)
    _ rfl 502 2
  exact ⟨hl, k.2.2.1.2 hl, k.2.2.2.1.2 hl⟩

/-- C15. Ring FIFO round trip.  Let `queue_create(c, s)` be called for a capacity `c ≥ 1`
(a `size_t` value) and an element size `s`, its three allocations succeeding with what was
asked for: the control block `a`, the slot array `d` and the storage block `b` of `c * s`
bytes, which lies inside the address space (`b + c * s ≤ 2^32`, so the request `c * s`
has not wrapped and no cell address wraps).  Let `k ≤ c` elements of `s` bytes, at the
addresses `srcs` outside the new storage block, be pushed with `queue_push_front`.  Then
`queue_create` returns `QUEUE_SUCCESS`, the `k` pushes succeed, and `k` following calls of
`queue_read`, into buffers `dsts` outside the storage block, succeed and each buffer
holds, right after its call, the bytes of the element pushed at the same position: the
elements come back in push order, byte for byte. -/
theorem queue_fifo_round_trip (m : Mem) (a d b c s : Nat) (srcs dsts : List Nat)
    (ha : a ≠ 0) (hd : d ≠ 0) (hb : b ≠ 0) (hc : 1 ≤ c) (hc2 : c < SIZE_T_MOD)
    (hb2 : b < SIZE_T_MOD) (hblock : b + c * s ≤ SIZE_T_MOD)
    (hk : srcs.length ≤ c) (hlen : dsts.length = srcs.length)
    (hsrc : ∀ x ∈ srcs, x + s ≤ b ∨ b + c * s ≤ x)
    (hdst : ∀ x ∈ dsts, x + s ≤ b ∨ b + c * s ≤ x) :
    (queue_create m a d b c s).1 = QUEUE_SUCCESS ∧
    (queue_push_front_all a s srcs (queue_create m a d b c s).2).1 =
      srcs.map (fun _ => QUEUE_SUCCESS) ∧
    (queue_read_all a dsts (queue_push_front_all a s srcs (queue_create m a d b c s).2).2).1 =
      srcs.map (fun x => (QUEUE_SUCCESS, read_bytes m x s)) := by
  obtain ⟨c1, c2, c3, c4, c5⟩ := queue_create_spec m a d b c s ha hd hb hc hc2 hb2 hblock
  have hcont := queue_contents_create m a d b c s ha hd hb hc hc2 hb2 hblock
  have hb0 : (queue_create m a d b c s).2.slots d 0 = b := by
    rw [c3 0 (by omega)]; omega
  have hout : ∀ x ∈ srcs, outside_ring (queue_create m a d b c s).2 a x s := by
    intro x hx
    unfold outside_ring
    rw [c2]
    show x + s ≤ (queue_create m a d b c s).2.slots d 0 ∨
      (queue_create m a d b c s).2.slots d 0 + c * s ≤ x
    rw [hb0]
    exact hsrc x hx
  obtain ⟨p1, p2, p3, p4, p5, p6, p7, p8⟩ :=
    queue_push_front_all_spec srcs (queue_create m a d b c s).2 c5 (by rw [c2])
      (by rw [c2]; show 0 + srcs.length ≤ c; omega) hout
  have hout2 : ∀ x ∈ dsts,
      outside_ring (queue_push_front_all a s srcs (queue_create m a d b c s).2).2 a x
        ((queue_push_front_all a s srcs (queue_create m a d b c s).2).2.queue a).element_size
      := by
    intro x hx
    unfold outside_ring
    rw [p4, p5, p6, p7, c2]
    show x + s ≤ (queue_create m a d b c s).2.slots d 0 ∨
      (queue_create m a d b c s).2.slots d 0 + c * s ≤ x
    rw [hb0]
    exact hdst x hx
  obtain ⟨r1, -, -⟩ :=
    queue_read_all_spec dsts (queue_push_front_all a s srcs (queue_create m a d b c s).2).2 p2
      (by rw [p8, c2, hlen]; show _ ≤ 0 + _; omega) hout2
  refine ⟨c1, p1, ?_⟩
  rw [r1, p3, hcont, List.nil_append, hlen]
  have hl : (srcs.map (fun x => read_bytes (queue_create m a d b c s).2 x s)).length =
      srcs.length := List.length_map _ _
  rw [← hl, List.take_length, List.map_map]
  apply List.map_congr_left
  intro x _
  show (QUEUE_SUCCESS, read_bytes (queue_create m a d b c s).2 x s) = _
  have hrb : read_bytes (queue_create m a d b c s).2 x s = read_bytes m x s :=
    read_bytes_congr (fun i _ => by rw [c4])
  rw [hrb]

/-- C15, witness: on a ring of capacity 3 and element size 2 the elements at the
addresses 500, 502, 504 (bytes 1, 2; 3, 4; 5, 6) are pushed and read back into the buffer
at address 2000. -/
theorem queue_fifo_round_trip_witness :
    (queue_read_all 61 [2000, 2000, 2000]
        (queue_push_front_all 61 2 [500, 502, 504] mem_ring).2).1 =
      [(QUEUE_SUCCESS, [1, 2]), (QUEUE_SUCCESS, [3, 4]), (QUEUE_SUCCESS, [5, 6])] := by
  have k := queue_fifo_round_trip
    { Mem.zero with byte := fun a => if 500 ≤ a ∧ a < 506 then a - 499 else 0 }
    61 62 1000 3 2 [500, 502, 504] [2000, 2000, 2000]
    (by decide) (by decide) (by decide) (by decide) (by decide) (by decide) (by decide)
    (by decide) (by decide) (by decide) (by decide)
  exact k.2.2

/-! ## Lemmas on the message queue -/

theorem OnlyLists.queue {m m2 : Mem} (h : OnlyLists m m2) : m2.queue = m.queue := by
  unfold OnlyLists at h; rw [h]

theorem OnlyLists.slots {m m2 : Mem} (h : OnlyLists m m2) : m2.slots = m.slots := by
  unfold OnlyLists at h; rw [h]

theorem OnlyLists.byte {m m2 : Mem} (h : OnlyLists m m2) : m2.byte = m.byte := by
  unfold OnlyLists at h; rw [h]

theorem OnlyLists.task {m m2 : Mem} (h : OnlyLists m m2) : m2.task = m.task := by
  unfold OnlyLists at h; rw [h]

theorem OnlyLists.message_queue {m m2 : Mem} (h : OnlyLists m m2) :
    m2.message_queue = m.message_queue := by
  unfold OnlyLists at h; rw [h]

theorem queue_checking_congr {m m2 : Mem} (q : Nat) (hq : (m2.queue q).data = (m.queue q).data)
    (hs : m2.slots = m.slots) : queue_checking m2 q = queue_checking m q := by
  unfold queue_checking
  rw [hq, hs]

theorem message_queue_checking_congr {m m2 : Mem} (mq : Nat)
    (h1 : m2.message_queue = m.message_queue)
    (hq : (m2.queue (m.message_queue mq).qcb).data = (m.queue (m.message_queue mq).qcb).data)
    (hs : m2.slots = m.slots) :
    message_queue_checking m2 mq = message_queue_checking m mq := by
  unfold message_queue_checking
  rw [h1, queue_checking_congr _ hq hs]

theorem task_checking_congr {m m2 : Mem} (t : Nat)
    (h : (m2.task t).task_data = (m.task t).task_data) :
    task_checking m2 t = task_checking m t := by
  unfold task_checking
  rw [h]

/-- What `message_queue_checking` guarantees. -/
theorem message_queue_checking_ok {m : Mem} {mq : Nat}
    (h : message_queue_checking m mq = MESSAGE_QUEUE_SUCCESS) :
    mq ≠ 0 ∧ queue_checking m (m.message_queue mq).qcb = QUEUE_SUCCESS ∧
    (m.message_queue mq).receiving_task_list ≠ 0 := by
  unfold message_queue_checking at h
  by_cases h1 : mq = 0
  · rw [if_pos h1] at h
    exact absurd h (by decide)
  · rw [if_neg h1, if_neg (by decide)] at h
    by_cases h2 : queue_checking m (m.message_queue mq).qcb = QUEUE_SUCCESS
    · rw [if_neg (not_not.2 h2)] at h
      by_cases h3 : (m.message_queue mq).receiving_task_list = 0
      · exfalso
        simp [linked_list_checking, h3] at h
        revert h
        decide
      · exact ⟨h1, h2, h3⟩
    · exfalso
      rw [if_pos h2] at h
      have hv : queue_checking m (m.message_queue mq).qcb = QUEUE_IS_NULL ∨
          queue_checking m (m.message_queue mq).qcb = QUEUE_DATA_NO_MEMORY := by
        unfold queue_checking at h2 ⊢
        split_ifs at h2 ⊢ <;> simp_all
      rcases hv with hv | hv <;> rw [hv] at h <;> revert h <;> decide

/-- `message_queue_send` with a waiting receiver: the payload goes to the buffer of the
receiver at the tail of the receiver-wait list. -/
theorem message_queue_send_direct_eq {m : Mem} {mq : Nat} (el t message element_size : Nat)
    (urgent : Bool) {rs : List Nat}
    (hc : message_queue_checking m mq = MESSAGE_QUEUE_SUCCESS)
    (hr : IsList m.element (m.list (m.message_queue mq).receiving_task_list) rs)
    (hne : rs ≠ [])
    (htask : task_checking m (m.element (rs.headD 0)).data = TASK_SUCCESS) :
    message_queue_send m mq el t message element_size urgent =
      ⟨MESSAGE_QUEUE_SUCCESS,
        (m.setBytes (memcpy m.byte (m.task (m.element (rs.headD 0)).data).message message
          element_size)).setMessageSet (m.element (rs.headD 0)).data true,
        rs.headD 0, (m.element (rs.headD 0)).data⟩ := by
  have hsz : (m.list (m.message_queue mq).receiving_task_list).size > 0 := by
    rw [hr.2.2.2.2]
    exact List.length_pos.2 hne
  have htl : (m.list (m.message_queue mq).receiving_task_list).tail = rs.headD 0 := hr.2.2.1
  unfold message_queue_send
  rw [if_neg (not_not.2 hc), if_pos hsz]
  simp only [htl]
  rw [if_neg (not_not.2 htask)]

/-- `message_queue_send` without a waiting receiver: the payload goes to the ring. -/
theorem message_queue_send_ring_eq {m : Mem} {mq : Nat} (el t message element_size : Nat)
    (urgent : Bool) (hc : message_queue_checking m mq = MESSAGE_QUEUE_SUCCESS)
    (hsz : (m.list (m.message_queue mq).receiving_task_list).size = 0) :
    message_queue_send m mq el t message element_size urgent =
      if (if urgent then queue_push_back m (m.message_queue mq).qcb message element_size
          else queue_push_front m (m.message_queue mq).qcb message element_size).1
          ≠ QUEUE_SUCCESS then
        ⟨ERROR_INFO
          (if urgent then queue_push_back m (m.message_queue mq).qcb message element_size
            else queue_push_front m (m.message_queue mq).qcb message element_size).1
          MESSAGE_QUEUE_LENGTH MESSAGE_QUEUE_UNABLE_TO_SEND,
          (if urgent then queue_push_back m (m.message_queue mq).qcb message element_size
            else queue_push_front m (m.message_queue mq).qcb message element_size).2, el, t⟩
      else
        ⟨MESSAGE_QUEUE_SUCCESS,
          (if urgent then queue_push_back m (m.message_queue mq).qcb message element_size
            else queue_push_front m (m.message_queue mq).qcb message element_size).2, el, t⟩ := by
  unfold message_queue_send
  rw [if_neg (not_not.2 hc), if_neg (by omega)]

/-- `message_queue_receive` by a receiver whose rendezvous slot is set. -/
theorem message_queue_receive_parked {m : Mem} {mq t : Nat} (rl re se st message : Nat)
    (hc : message_queue_checking m mq = MESSAGE_QUEUE_SUCCESS)
    (ht : task_checking m t = TASK_SUCCESS) (hset : (m.task t).message_set = true) :
    (message_queue_receive m mq rl re t se st message).status = MESSAGE_QUEUE_SUCCESS ∧
    (message_queue_receive m mq rl re t se st message).mem =
      (m.setMessageSet t false).setMessage t 0 ∧
    (message_queue_receive m mq rl re t se st message).message = (m.task t).message := by
  unfold message_queue_receive
  rw [if_neg (not_not.2 hc), if_neg (not_not.2 ht), if_pos hset]
  simp only []
  split_ifs
  · refine ⟨rfl, rfl, ?_⟩
    simp [Mem.setMessageSet, Mem.setTask]
  · refine ⟨rfl, rfl, ?_⟩
    simp [Mem.setMessageSet, Mem.setTask]

/-- `message_queue_receive` from a ring that holds a message. -/
theorem message_queue_receive_ring {m : Mem} {mq t : Nat} (rl re se st message : Nat)
    (hc : message_queue_checking m mq = MESSAGE_QUEUE_SUCCESS)
    (ht : task_checking m t = TASK_SUCCESS) (hset : (m.task t).message_set = false)
    (hq : queue_wf m (m.message_queue mq).qcb)
    (h0 : (m.queue (m.message_queue mq).qcb).length ≠ 0) :
    (message_queue_receive m mq rl re t se st message).status = MESSAGE_QUEUE_SUCCESS ∧
    (message_queue_receive m mq rl re t se st message).mem =
      (queue_read m (m.message_queue mq).qcb message).2 ∧
    (message_queue_receive m mq rl re t se st message).message = message := by
  have hr : (queue_read m (m.message_queue mq).qcb message).1 ≠ QUEUE_NO_ELEMENT := by
    rw [(queue_read_ok hq message h0).1]
    decide
  unfold message_queue_receive
  rw [if_neg (not_not.2 hc), if_neg (not_not.2 ht), if_neg (by rw [hset]; decide)]
  simp only []
  rw [if_neg hr]
  split_ifs <;> exact ⟨rfl, rfl, rfl⟩

/-- `message_queue_receive` on an empty ring by a receiver whose rendezvous slot is
clear: the receiver is parked. -/
theorem message_queue_receive_empty {m : Mem} {mq t rl re : Nat} (se st message : Nat)
    {ws rs : List Nat}
    (hc : message_queue_checking m mq = MESSAGE_QUEUE_SUCCESS)
    (ht : task_checking m t = TASK_SUCCESS) (hset : (m.task t).message_set = false)
    (h0 : (m.queue (m.message_queue mq).qcb).length = 0)
    (hw : IsList m.element (m.list (m.message_queue mq).receiving_task_list) ws)
    (hrl : rl ≠ 0) (hne : rl ≠ (m.message_queue mq).receiving_task_list)
    (hr : IsList m.element (m.list rl) rs) (hre : re ∈ rs) (hdj : ∀ x ∈ ws, x ∉ rs) :
    (message_queue_receive m mq rl re t se st message).status =
      MESSAGE_QUEUE_UNABLE_TO_RECEIVE ∧
    (message_queue_receive m mq rl re t se st message).message = message ∧
    (message_queue_receive m mq rl re t se st message).mem.task =
      (m.setMessage t message).task ∧
    IsList (message_queue_receive m mq rl re t se st message).mem.element
      ((message_queue_receive m mq rl re t se st message).mem.list
        (m.message_queue mq).receiving_task_list) (ws ++ [re]) ∧
    IsList (message_queue_receive m mq rl re t se st message).mem.element
      ((message_queue_receive m mq rl re t se st message).mem.list rl) (rs.erase re) ∧
    (∀ x, ((message_queue_receive m mq rl re t se st message).mem.element x).data =
      (m.element x).data) ∧
    (message_queue_receive m mq rl re t se st message).mem.queue = m.queue ∧
    (message_queue_receive m mq rl re t se st message).mem.slots = m.slots ∧
    (message_queue_receive m mq rl re t se st message).mem.byte = m.byte ∧
    (message_queue_receive m mq rl re t se st message).mem.message_queue =
      m.message_queue := by
  obtain ⟨-, hqc, hrecv0⟩ := message_queue_checking_ok hc
  have hread := queue_read_empty hqc message h0
  obtain ⟨t1, t2, t3, -, t5, -, t7⟩ :=
    transfer_isList_erase (m := m.setMessage t message) hrecv0 hrl (Ne.symm hne) hr hw hre hdj
  have e : message_queue_receive m mq rl re t se st message =
      ⟨MESSAGE_QUEUE_UNABLE_TO_RECEIVE,
        (linked_list_transfer (m.setMessage t message)
          (m.message_queue mq).receiving_task_list rl re).2, se, st, message⟩ := by
    unfold message_queue_receive
    rw [if_neg (not_not.2 hc), if_neg (not_not.2 ht), if_neg (by rw [hset]; decide)]
    simp only []
    rw [hread, if_pos rfl]
    simp only []
    have hmq : (m.setMessage t message).message_queue = m.message_queue := rfl
    rw [hmq, if_neg (not_not.2 t1)]
  rw [e]
  exact ⟨rfl, rfl, t7.task, t2, t3, t5, t7.queue, t7.slots, t7.byte, t7.message_queue⟩

/-- Receiving from the ring, once for every receiver of `calls`, no more often than the
ring has messages: every receive succeeds and the buffers receive the contents of the
ring in order. -/
theorem message_queue_receive_all_spec {mq : Nat} (rl re : Nat) (calls : List (Nat × Nat)) :
    ∀ m : Mem, message_queue_checking m mq = MESSAGE_QUEUE_SUCCESS →
      queue_wf m (m.message_queue mq).qcb →
      calls.length ≤ (m.queue (m.message_queue mq).qcb).length →
      (∀ c ∈ calls, task_checking m c.1 = TASK_SUCCESS ∧ (m.task c.1).message_set = false ∧
        outside_ring m (m.message_queue mq).qcb c.2
          (m.queue (m.message_queue mq).qcb).element_size) →
      (message_queue_receive_all mq rl re calls m).1 =
        ((queue_contents m (m.message_queue mq).qcb).take calls.length).map
          (fun x => (MESSAGE_QUEUE_SUCCESS, x)) := by
  induction calls with
  | nil => exact fun m _ _ _ _ => rfl
  | cons c calls ih =>
    intro m hc hq hlen hvalid
    rw [List.length_cons] at hlen
    have h0 : (m.queue (m.message_queue mq).qcb).length ≠ 0 := by omega
    obtain ⟨v1, v2, v3⟩ := hvalid c (List.mem_cons_self _ _)
    obtain ⟨g1, g2, g3⟩ := message_queue_receive_ring rl re 0 0 c.2 hc v1 v2 hq h0
    obtain ⟨-, p2, -, -, p5⟩ := queue_read_ok hq c.2 h0
    have hw := queue_read_wf hq c.2
    have hcont := queue_contents_read hq c.2 h0 v3
    rw [← g2] at p2 p5 hw hcont
    have hmq : (message_queue_receive m mq rl re c.1 0 0 c.2).mem.message_queue =
        m.message_queue := onlyRing_message_queue p5
    have hc1 : message_queue_checking (message_queue_receive m mq rl re c.1 0 0 c.2).mem mq =
        MESSAGE_QUEUE_SUCCESS := by
      have h : message_queue_checking (message_queue_receive m mq rl re c.1 0 0 c.2).mem mq =
          message_queue_checking m mq :=
        message_queue_checking_congr mq hmq (by rw [p2]) (onlyRing_slots p5)
      rw [h]
      exact hc
    have hvalid1 : ∀ d ∈ calls,
        task_checking (message_queue_receive m mq rl re c.1 0 0 c.2).mem d.1 = TASK_SUCCESS ∧
        ((message_queue_receive m mq rl re c.1 0 0 c.2).mem.task d.1).message_set = false ∧
        outside_ring (message_queue_receive m mq rl re c.1 0 0 c.2).mem
          ((message_queue_receive m mq rl re c.1 0 0 c.2).mem.message_queue mq).qcb d.2
          ((message_queue_receive m mq rl re c.1 0 0 c.2).mem.queue
            ((message_queue_receive m mq rl re c.1 0 0 c.2).mem.message_queue mq).qcb).element_size
        := by
      intro d hd
      obtain ⟨w1, w2, w3⟩ := hvalid d (List.mem_cons_of_mem _ hd)
      refine ⟨?_, ?_, ?_⟩
      · have h : task_checking (message_queue_receive m mq rl re c.1 0 0 c.2).mem d.1 =
            task_checking m d.1 := task_checking_congr d.1 (by rw [onlyRing_task p5])
        rw [h]
        exact w1
      · rw [onlyRing_task p5]
        exact w2
      · unfold outside_ring at w3 ⊢
        rw [hmq, onlyRing_slots p5, p2]
        exact w3
    have hih := ih (message_queue_receive m mq rl re c.1 0 0 c.2).mem hc1
      (by rw [hmq]; exact hw) (by rw [hmq, p2]; show _ ≤ _ - 1; omega) hvalid1
    show ((message_queue_receive m mq rl re c.1 0 0 c.2).status,
        read_bytes (message_queue_receive m mq rl re c.1 0 0 c.2).mem
          (message_queue_receive m mq rl re c.1 0 0 c.2).message _) ::
      (message_queue_receive_all mq rl re calls
        (message_queue_receive m mq rl re c.1 0 0 c.2).mem).1 = _
    rw [hih, g1, g3, hmq, ← hcont, List.length_cons, List.take_succ_cons, List.map_cons]

/-! ## Further claims on the message queue -/

/-- C13. Receive on an empty queue parks the receiver.  Let `mq` be a message queue
accepted by `message_queue_checking` whose ring is empty and whose receiver-wait list is
a well-formed list `ws`, let the receiver `t` pass `task_checking` with its `message_set`
flag clear, and let `re` be a node of the well-formed running list `rl` (nodes `rs`, none
of them in the wait list).  Then `message_queue_receive` returns
`MESSAGE_QUEUE_UNABLE_TO_RECEIVE`, stores the buffer pointer `message` of the caller in
`t->message`, moves `re` from the running list to the head end of the receiver-wait list,
and leaves the ring (control blocks, slot arrays and payload bytes) unchanged. -/
theorem message_queue_receive_parks_receiver (m : Mem) (mq rl re t se st message : Nat)
    (ws rs : List Nat)
    (hc : message_queue_checking m mq = MESSAGE_QUEUE_SUCCESS)
    (ht : task_checking m t = TASK_SUCCESS) (hset : (m.task t).message_set = false)
    (h0 : (m.queue (m.message_queue mq).qcb).length = 0)
    (hw : IsList m.element (m.list (m.message_queue mq).receiving_task_list) ws)
    (hrl : rl ≠ 0) (hne : rl ≠ (m.message_queue mq).receiving_task_list)
    (hr : IsList m.element (m.list rl) rs) (hre : re ∈ rs) (hdj : ∀ x ∈ ws, x ∉ rs) :
    (message_queue_receive m mq rl re t se st message).status =
      MESSAGE_QUEUE_UNABLE_TO_RECEIVE ∧
    ((message_queue_receive m mq rl re t se st message).mem.task t).message = message ∧
    ((message_queue_receive m mq rl re t se st message).mem.task t).message_set = false ∧
    IsList (message_queue_receive m mq rl re t se st message).mem.element
      ((message_queue_receive m mq rl re t se st message).mem.list
        (m.message_queue mq).receiving_task_list) (ws ++ [re]) ∧
    IsList (message_queue_receive m mq rl re t se st message).mem.element
      ((message_queue_receive m mq rl re t se st message).mem.list rl) (rs.erase re) ∧
    (message_queue_receive m mq rl re t se st message).mem.queue = m.queue ∧
    (message_queue_receive m mq rl re t se st message).mem.slots = m.slots ∧
    (message_queue_receive m mq rl re t se st message).mem.byte = m.byte := by
  obtain ⟨e1, -, e3, e4, e5, -, e7, e8, e9, -⟩ :=
    message_queue_receive_empty se st message hc ht hset h0 hw hrl hne hr hre hdj
  refine ⟨e1, ?_, ?_, e4, e5, e7, e8, e9⟩
  · rw [e3]
    simp [Mem.setMessage, Mem.setTask]
  · rw [e3]
    simp [Mem.setMessage, Mem.setTask, hset]

/-- C13, witness: task 101 (node 11 of the running list 2) receives on the empty queue 60
of `mem_mq_ring` with the buffer at address 3000. -/
theorem message_queue_receive_parks_receiver_witness :
    (message_queue_receive mem_mq_ring 60 2 11 101 0 0 3000).status =
      MESSAGE_QUEUE_UNABLE_TO_RECEIVE ∧
    ((message_queue_receive mem_mq_ring 60 2 11 101 0 0 3000).mem.task 101).message = 3000 ∧
    IsList (message_queue_receive mem_mq_ring 60 2 11 101 0 0 3000).mem.element
      ((message_queue_receive mem_mq_ring 60 2 11 101 0 0 3000).mem.list 63) [11] ∧
    IsList (message_queue_receive mem_mq_ring 60 2 11 101 0 0 3000).mem.element
      ((message_queue_receive mem_mq_ring 60 2 11 101 0 0 3000).mem.list 2) [12] := by
  have k := message_queue_receive_parks_receiver mem_mq_ring 60 2 11 101 0 0 3000 [] [11, 12]
    (by decide) (by decide) (by decide) (by decide) (by decide) (by decide) (by decide)
    (by decide) (by decide) (by decide)
  exact ⟨k.1, k.2.1, k.2.2.2.1, k.2.2.2.2.1⟩

/-- C12. Blocking send on a full queue parks the sender.  Let `mq` be a message queue
accepted by `message_queue_checking` with no receiver waiting (the size of the
receiver-wait list is 0), a well-formed ring that is full (for an urgent send the
capacity is at most `2^31`), and an allocated well-formed sender-wait list `ws`; let `se`
be a node of the well-formed running list `rl` (nodes `rs`, none of them in the wait
list).  Then `message_queue_send_blocking`, urgent or not, returns exactly
`MESSAGE_QUEUE_UNABLE_TO_SEND`, moves `se` from the running list to the head end of the
sender-wait list, and leaves the ring (control blocks, slot arrays and payload bytes) and
the output parameters unchanged. -/
theorem message_queue_send_blocking_parks_sender (m : Mem)
    (mq rl se el t message element_size : Nat) (urgent : Bool) (ws rs : List Nat)
    (hc : message_queue_checking m mq = MESSAGE_QUEUE_SUCCESS)
    (hrecv : (m.list (m.message_queue mq).receiving_task_list).size = 0)
    (hq : queue_wf m (m.message_queue mq).qcb)
    (hcap : urgent = true → 2 * (m.queue (m.message_queue mq).qcb).size ≤ SIZE_T_MOD)
    (hfull : (m.queue (m.message_queue mq).qcb).length = (m.queue (m.message_queue mq).qcb).size)
    (hs0 : (m.message_queue mq).sending_task_list ≠ 0)
    (hw : IsList m.element (m.list (m.message_queue mq).sending_task_list) ws)
    (hrl : rl ≠ 0) (hne : rl ≠ (m.message_queue mq).sending_task_list)
    (hr : IsList m.element (m.list rl) rs) (hse : se ∈ rs) (hdj : ∀ x ∈ ws, x ∉ rs) :
    (message_queue_send_blocking m mq rl se el t message element_size urgent).status =
      MESSAGE_QUEUE_UNABLE_TO_SEND ∧
    IsList (message_queue_send_blocking m mq rl se el t message element_size urgent).mem.element
      ((message_queue_send_blocking m mq rl se el t message element_size urgent).mem.list
        (m.message_queue mq).sending_task_list) (ws ++ [se]) ∧
    IsList (message_queue_send_blocking m mq rl se el t message element_size urgent).mem.element
      ((message_queue_send_blocking m mq rl se el t message element_size urgent).mem.list rl)
      (rs.erase se) ∧
    (message_queue_send_blocking m mq rl se el t message element_size urgent).mem.queue =
      m.queue ∧
    (message_queue_send_blocking m mq rl se el t message element_size urgent).mem.slots =
      m.slots ∧
    (message_queue_send_blocking m mq rl se el t message element_size urgent).mem.byte =
      m.byte ∧
    (message_queue_send_blocking m mq rl se el t message element_size urgent).element = el ∧
    (message_queue_send_blocking m mq rl se el t message element_size urgent).task = t := by
  have hpush : (if urgent then queue_push_back m (m.message_queue mq).qcb message element_size
      else queue_push_front m (m.message_queue mq).qcb message element_size) =
      (QUEUE_PREVENTED_OVERRITE, m) := by
    cases urgent with
    | true =>
      rw [if_pos rfl]
      exact queue_push_back_full hq (hcap rfl) _ _ hfull
    | false =>
      rw [if_neg Bool.false_ne_true]
      exact queue_push_front_full hq _ _ hfull
  have hsend : message_queue_send m mq el t message element_size urgent =
      ⟨ERROR_INFO QUEUE_PREVENTED_OVERRITE MESSAGE_QUEUE_LENGTH MESSAGE_QUEUE_UNABLE_TO_SEND,
        m, el, t⟩ := by
    have hne4 : QUEUE_PREVENTED_OVERRITE ≠ QUEUE_SUCCESS := by decide
    rw [message_queue_send_ring_eq el t message element_size urgent hc hrecv, hpush,
      if_pos hne4]
  obtain ⟨t1, t2, t3, -, -, -, t7⟩ :=
    transfer_isList_erase hs0 hrl (Ne.symm hne) hr hw hse hdj
  have e : message_queue_send_blocking m mq rl se el t message element_size urgent =
      ⟨MESSAGE_QUEUE_UNABLE_TO_SEND,
        (linked_list_transfer m (m.message_queue mq).sending_task_list rl se).2, el, t⟩ := by
    have hne6 : ERROR_INFO QUEUE_PREVENTED_OVERRITE MESSAGE_QUEUE_LENGTH
        MESSAGE_QUEUE_UNABLE_TO_SEND ≠ MESSAGE_QUEUE_SUCCESS := by decide
    have he6 : ERROR_INFO LINKED_LIST_SUCCESS MESSAGE_QUEUE_SENDING_LINKED_LIST_ERROR_REGISTER
        MESSAGE_QUEUE_UNABLE_TO_SEND = MESSAGE_QUEUE_UNABLE_TO_SEND := by decide
    unfold message_queue_send_blocking
    simp only [hsend]
    rw [if_pos hne6, t1, he6]
  rw [e]
  exact ⟨rfl, t2, t3, t7.queue, t7.slots, t7.byte, rfl, rfl⟩

/-- C12, witness: task 101 (node 11 of the running list 2) sends on the full queue 60 of
`mem_mq_full`, urgent and not urgent. -/
theorem message_queue_send_blocking_parks_sender_witness :
    ((message_queue_send_blocking mem_mq_full 60 2 11 0 0 500 2 false).status =
        MESSAGE_QUEUE_UNABLE_TO_SEND ∧
      IsList (message_queue_send_blocking mem_mq_full 60 2 11 0 0 500 2 false).mem.element
        ((message_queue_send_blocking mem_mq_full 60 2 11 0 0 500 2 false).mem.list 64) [11] ∧
      (message_queue_send_blocking mem_mq_full 60 2 11 0 0 500 2 false).mem.queue =
        mem_mq_full.queue) ∧
    ((message_queue_send_blocking mem_mq_full 60 2 11 0 0 500 2 true).status =
        MESSAGE_QUEUE_UNABLE_TO_SEND ∧
      IsList (message_queue_send_blocking mem_mq_full 60 2 11 0 0 500 2 true).mem.element
        ((message_queue_send_blocking mem_mq_full 60 2 11 0 0 500 2 true).mem.list 64) [11] ∧
      (message_queue_send_blocking mem_mq_full 60 2 11 0 0 500 2 true).mem.queue =
        mem_mq_full.queue) := by
  have hq : queue_wf mem_mq_full (mem_mq_full.message_queue 60).qcb := by
    unfold queue_wf; decide
  have k1 := message_queue_send_blocking_parks_sender mem_mq_full 60 2 11 0 0 500 2 false
    [] [11, 12] (by decide) (by decide) hq (by decide) (by decide) (by decide) (by decide)
    (by decide) (by decide) (by decide) (by decide) (by decide)
  have k2 := message_queue_send_blocking_parks_sender mem_mq_full 60 2 11 0 0 500 2 true
    [] [11, 12] (by decide) (by decide) hq (by decide) (by decide) (by decide) (by decide)
    (by decide) (by decide) (by decide) (by decide) (by decide)
  exact ⟨⟨k1.1, k1.2.1, k1.2.2.2.1⟩, ⟨k2.1, k2.2.1, k2.2.2.2.1⟩⟩

/-- C11. Rendezvous round trip.  Let `mq` be a message queue accepted by
`message_queue_checking` with an empty ring and no receiver waiting, and let the receiver
`t` (its node `re` is in the well-formed running list `rl`) pass `task_checking` with its
`message_set` flag clear.  Let `r1` be its `message_queue_receive` with the buffer `buf`,
`s` a following `message_queue_send` of the `n` payload bytes at `p` (urgent or not), and
`r3` the next `message_queue_receive` of `t`.  Then `r1` returns
`MESSAGE_QUEUE_UNABLE_TO_RECEIVE` (the receiver is parked), `s` returns
`MESSAGE_QUEUE_SUCCESS` and names `re` and `t` as the receiver, and `r3` returns
`MESSAGE_QUEUE_SUCCESS`, its output `*message` is `buf`, the `n` bytes behind it are
exactly the payload bytes, the `message_set` flag of `t` is clear again, and the ring is
still empty (no control block of a ring has changed). -/
theorem message_queue_rendezvous_round_trip (m : Mem) (mq rl re t se st buf : Nat)
    (el tk p n : Nat) (urgent : Bool) (rl2 re2 se2 st2 msg2 : Nat) (rs : List Nat)
    (r1 : Received) (s : Out) (r3 : Received)
    (hc : message_queue_checking m mq = MESSAGE_QUEUE_SUCCESS)
    (ht : task_checking m t = TASK_SUCCESS) (hset : (m.task t).message_set = false)
    (h0 : (m.queue (m.message_queue mq).qcb).length = 0)
    (hw : IsList m.element (m.list (m.message_queue mq).receiving_task_list) [])
    (hrl : rl ≠ 0) (hne : rl ≠ (m.message_queue mq).receiving_task_list)
    (hr : IsList m.element (m.list rl) rs) (hre : re ∈ rs) (hdata : (m.element re).data = t)
    (hr1 : r1 = message_queue_receive m mq rl re t se st buf)
    (hs : s = message_queue_send r1.mem mq el tk p n urgent)
    (hr3 : r3 = message_queue_receive s.mem mq rl2 re2 t se2 st2 msg2) :
    r1.status = MESSAGE_QUEUE_UNABLE_TO_RECEIVE ∧
    s.status = MESSAGE_QUEUE_SUCCESS ∧ s.element = re ∧ s.task = t ∧
    r3.status = MESSAGE_QUEUE_SUCCESS ∧
    r3.message = buf ∧
    (∀ i, i < n → r3.mem.byte (buf + i) = m.byte (p + i)) ∧
    read_bytes r3.mem r3.message n = read_bytes m p n ∧
    (r3.mem.task t).message_set = false ∧
    (r3.mem.queue (m.message_queue mq).qcb).length = 0 ∧
    r3.mem.queue = m.queue := by
  obtain ⟨e1, -, e3, e4, -, e6, e7, e8, e9, e10⟩ :=
    message_queue_receive_empty se st buf hc ht hset h0 hw hrl hne hr hre
      (fun x hx => absurd hx (List.not_mem_nil x))
  rw [← hr1] at e1 e3 e4 e6 e7 e8 e9 e10
  rw [List.nil_append] at e4
  -- the state after the first receive
  have hc1 : message_queue_checking r1.mem mq = MESSAGE_QUEUE_SUCCESS := by
    have h : message_queue_checking r1.mem mq = message_queue_checking m mq :=
      message_queue_checking_congr mq e10 (by rw [e7]) e8
    rw [h]
    exact hc
  have htask1 : r1.mem.task t = { m.task t with message := buf } := by
    rw [e3]
    simp [Mem.setMessage, Mem.setTask]
  have ht1 : task_checking r1.mem t = TASK_SUCCESS := by
    have h : task_checking r1.mem t = task_checking m t :=
      task_checking_congr t (by rw [htask1])
    rw [h]
    exact ht
  have hlist1 : IsList r1.mem.element
      (r1.mem.list (r1.mem.message_queue mq).receiving_task_list) [re] := by
    rw [e10]; exact e4
  have hd1 : (r1.mem.element ([re].headD 0)).data = t := by
    show (r1.mem.element re).data = t
    rw [e6, hdata]
  have hsend := message_queue_send_direct_eq el tk p n urgent hc1 hlist1
    (List.cons_ne_nil _ _) (by rw [hd1]; exact ht1)
  rw [← hs, hd1, htask1] at hsend
  -- the state after the send
  have hmem2 : s.mem = (r1.mem.setBytes (memcpy r1.mem.byte buf p n)).setMessageSet t true := by
    rw [hsend]
  have htask2 : s.mem.task t = { m.task t with message := buf, message_set := true } := by
    rw [hmem2]
    simp [Mem.setMessageSet, Mem.setTask, Mem.setBytes, htask1]
  have hc2 : message_queue_checking s.mem mq = MESSAGE_QUEUE_SUCCESS := by
    have h : message_queue_checking s.mem mq = message_queue_checking r1.mem mq :=
      message_queue_checking_congr mq (by rw [hmem2]; rfl) (by rw [hmem2]; rfl)
        (by rw [hmem2]; rfl)
    rw [h]
    exact hc1
  have ht2 : task_checking s.mem t = TASK_SUCCESS := by
    have h : task_checking s.mem t = task_checking m t :=
      task_checking_congr t (by rw [htask2])
    rw [h]
    exact ht
  obtain ⟨f1, f2, f3⟩ := message_queue_receive_parked rl2 re2 se2 st2 msg2 hc2 ht2
    (by rw [htask2])
  rw [← hr3] at f1 f2 f3
  have hmsg : r3.message = buf := by rw [f3, htask2]
  have hbyte : r3.mem.byte = memcpy m.byte buf p n := by
    rw [f2, hmem2, ← e9]
    rfl
  have hq : r3.mem.queue = m.queue := by
    rw [f2, hmem2, ← e7]
    rfl
  have hbytes : ∀ i, i < n → r3.mem.byte (buf + i) = m.byte (p + i) := by
    intro i hi
    rw [hbyte]
    exact memcpy_inside _ _ _ _ _ hi
  refine ⟨e1, by rw [hsend], by rw [hsend]; rfl, by rw [hsend], f1, hmsg, hbytes, ?_, ?_, ?_, hq⟩
  · rw [hmsg]
    exact read_bytes_congr hbytes
  · rw [f2]
    simp [Mem.setMessage, Mem.setMessageSet, Mem.setTask]
  · rw [hq]
    exact h0

/-- C11, witness: on `mem_mq_ring` task 101 receives with the buffer at address 3000 and is
parked, the two payload bytes 1, 2 at address 500 are sent, and task 101 receives again:
the second receive succeeds and returns the buffer 3000 holding 1, 2. -/
theorem message_queue_rendezvous_round_trip_witness :
    (message_queue_receive mem_mq_ring 60 2 11 101 0 0 3000).status =
      MESSAGE_QUEUE_UNABLE_TO_RECEIVE ∧
    (message_queue_receive
      (message_queue_send (message_queue_receive mem_mq_ring 60 2 11 101 0 0 3000).mem
        60 0 0 500 2 false).mem 60 2 11 101 0 0 0).status = MESSAGE_QUEUE_SUCCESS ∧
    (message_queue_receive
      (message_queue_send (message_queue_receive mem_mq_ring 60 2 11 101 0 0 3000).mem
        60 0 0 500 2 false).mem 60 2 11 101 0 0 0).message = 3000 ∧
    read_bytes
      (message_queue_receive
        (message_queue_send (message_queue_receive mem_mq_ring 60 2 11 101 0 0 3000).mem
          60 0 0 500 2 false).mem 60 2 11 101 0 0 0).mem 3000 2 = [1, 2] := by
  have k := message_queue_rendezvous_round_trip mem_mq_ring 60 2 11 101 0 0 3000 0 0 500 2
    false 2 11 0 0 0 [11, 12] _ _ _
    (by decide) (by decide) (by decide) (by decide) (by decide) (by decide) (by decide)
    (by decide) (by decide) (by decide) rfl rfl rfl
  refine ⟨k.1, k.2.2.2.2.1, k.2.2.2.2.2.1, ?_⟩
  have h := k.2.2.2.2.2.2.2.1
  rw [k.2.2.2.2.2.1] at h
  rw [h]
  decide

/-- C14. Urgent messages jump the queue.  Let `mq` be a message queue accepted by
`message_queue_checking` with no receiver waiting and a well-formed ring (capacity at
most `2^31`) that is not full and holds the messages `queue_contents`, `k` of them, in
the order in which they would be received.  A send with `urgent = true` of a message `u`
of the element size succeeds; then `k + 1` receives, by receivers that pass
`task_checking`, have no parked rendezvous message and use buffers outside the storage
block of the ring, all succeed: the first returns the bytes of `u` and the following `k`
return the older messages in their original order. -/
theorem message_queue_urgent_jumps_queue (m : Mem) (mq el tk message rl re : Nat)
    (calls : List (Nat × Nat))
    (hc : message_queue_checking m mq = MESSAGE_QUEUE_SUCCESS)
    (hrecv : (m.list (m.message_queue mq).receiving_task_list).size = 0)
    (hq : queue_wf m (m.message_queue mq).qcb)
    (hcap : 2 * (m.queue (m.message_queue mq).qcb).size ≤ SIZE_T_MOD)
    (hroom : (m.queue (m.message_queue mq).qcb).length ≠ (m.queue (m.message_queue mq).qcb).size)
    (hcalls : calls.length = (m.queue (m.message_queue mq).qcb).length + 1)
    (hvalid : ∀ c ∈ calls, task_checking m c.1 = TASK_SUCCESS ∧
      (m.task c.1).message_set = false ∧
      outside_ring m (m.message_queue mq).qcb c.2
        (m.queue (m.message_queue mq).qcb).element_size) :
    (message_queue_send m mq el tk message (m.queue (m.message_queue mq).qcb).element_size
      true).status = MESSAGE_QUEUE_SUCCESS ∧
    queue_contents
        (message_queue_send m mq el tk message
          (m.queue (m.message_queue mq).qcb).element_size true).mem
        (m.message_queue mq).qcb =
      read_bytes m message (m.queue (m.message_queue mq).qcb).element_size ::
        queue_contents m (m.message_queue mq).qcb ∧
    (message_queue_receive_all mq rl re calls
        (message_queue_send m mq el tk message
          (m.queue (m.message_queue mq).qcb).element_size true).mem).1 =
      (read_bytes m message (m.queue (m.message_queue mq).qcb).element_size ::
        queue_contents m (m.message_queue mq).qcb).map
        (fun x => (MESSAGE_QUEUE_SUCCESS, x)) := by
  obtain ⟨p1, p2, -, -, p5⟩ :=
    queue_push_back_ok hq hcap message (m.queue (m.message_queue mq).qcb).element_size hroom
  have hw := queue_push_back_wf hq hcap message
    (m.queue (m.message_queue mq).qcb).element_size
  have hcont := queue_contents_push_back hq hcap message hroom
  have hsend : message_queue_send m mq el tk message
      (m.queue (m.message_queue mq).qcb).element_size true =
      ⟨MESSAGE_QUEUE_SUCCESS,
        (queue_push_back m (m.message_queue mq).qcb message
          (m.queue (m.message_queue mq).qcb).element_size).2, el, tk⟩ := by
    rw [message_queue_send_ring_eq el tk message _ true hc hrecv]
    simp only [if_true]
    rw [if_neg (not_not.2 p1)]
  rw [hsend]
  have hmq : (queue_push_back m (m.message_queue mq).qcb message
      (m.queue (m.message_queue mq).qcb).element_size).2.message_queue = m.message_queue :=
    onlyRing_message_queue p5
  have hc1 : message_queue_checking (queue_push_back m (m.message_queue mq).qcb message
      (m.queue (m.message_queue mq).qcb).element_size).2 mq = MESSAGE_QUEUE_SUCCESS := by
    have h : message_queue_checking (queue_push_back m (m.message_queue mq).qcb message
        (m.queue (m.message_queue mq).qcb).element_size).2 mq =
        message_queue_checking m mq :=
      message_queue_checking_congr mq hmq (by rw [p2]) (onlyRing_slots p5)
    rw [h]
    exact hc
  have hvalid1 : ∀ d ∈ calls,
      task_checking (queue_push_back m (m.message_queue mq).qcb message
        (m.queue (m.message_queue mq).qcb).element_size).2 d.1 = TASK_SUCCESS ∧
      ((queue_push_back m (m.message_queue mq).qcb message
        (m.queue (m.message_queue mq).qcb).element_size).2.task d.1).message_set = false ∧
      outside_ring (queue_push_back m (m.message_queue mq).qcb message
          (m.queue (m.message_queue mq).qcb).element_size).2
        ((queue_push_back m (m.message_queue mq).qcb message
          (m.queue (m.message_queue mq).qcb).element_size).2.message_queue mq).qcb d.2
        ((queue_push_back m (m.message_queue mq).qcb message
          (m.queue (m.message_queue mq).qcb).element_size).2.queue
          ((queue_push_back m (m.message_queue mq).qcb message
            (m.queue (m.message_queue mq).qcb).element_size).2.message_queue mq).qcb).element_size
      := by
    intro d hd
    obtain ⟨w1, w2, w3⟩ := hvalid d hd
    refine ⟨?_, ?_, ?_⟩
    · have h : task_checking (queue_push_back m (m.message_queue mq).qcb message
          (m.queue (m.message_queue mq).qcb).element_size).2 d.1 = task_checking m d.1 :=
        task_checking_congr d.1 (by rw [onlyRing_task p5])
      rw [h]
      exact w1
    · rw [onlyRing_task p5]
      exact w2
    · unfold outside_ring at w3 ⊢
      rw [hmq, onlyRing_slots p5, p2]
      exact w3
  have hall := message_queue_receive_all_spec rl re calls
    (queue_push_back m (m.message_queue mq).qcb message
      (m.queue (m.message_queue mq).qcb).element_size).2 hc1 (by rw [hmq]; exact hw)
    (by rw [hmq, p2, hcalls]) hvalid1
  rw [hmq, hcont] at hall
  refine ⟨rfl, hcont, ?_⟩
  show (message_queue_receive_all mq rl re calls
    (queue_push_back m (m.message_queue mq).qcb message
      (m.queue (m.message_queue mq).qcb).element_size).2).1 = _
  rw [hall]
  have hl : (read_bytes m message (m.queue (m.message_queue mq).qcb).element_size ::
      queue_contents m (m.message_queue mq).qcb).length = calls.length := by
    rw [hcalls, List.length_cons]
    unfold queue_contents
    rw [List.length_map, List.length_range]
  rw [← hl, List.take_length]

/-- C14, witness: the ring of `mem_mq_two` holds the messages 1, 2 and 3, 4; the urgent
message 5, 6 (at address 504) is sent; the tasks 101, 102 and 101 then receive into the
buffer at address 3000 and get 5, 6, then 1, 2, then 3, 4. -/
theorem message_queue_urgent_jumps_queue_witness :
    queue_contents mem_mq_two 61 = [[1, 2], [3, 4]] ∧
    (message_queue_receive_all 60 2 11 [(101, 3000), (102, 3000), (101, 3000)]
        (message_queue_send mem_mq_two 60 0 0 504 2 true).mem).1 =
      [(MESSAGE_QUEUE_SUCCESS, [5, 6]), (MESSAGE_QUEUE_SUCCESS, [1, 2]),
        (MESSAGE_QUEUE_SUCCESS, [3, 4])] := by
  have hq : queue_wf mem_mq_two (mem_mq_two.message_queue 60).qcb := by
    unfold queue_wf; decide
  have hv : ∀ c ∈ [(101, 3000), (102, 3000), (101, 3000)],
      task_checking mem_mq_two c.1 = TASK_SUCCESS ∧
      (mem_mq_two.task c.1).message_set = false ∧
      outside_ring mem_mq_two (mem_mq_two.message_queue 60).qcb c.2
        (mem_mq_two.queue (mem_mq_two.message_queue 60).qcb).element_size := by
    unfold outside_ring; decide
  have k := message_queue_urgent_jumps_queue mem_mq_two 60 0 0 504 2 11
    [(101, 3000), (102, 3000), (101, 3000)] (by decide) (by decide) hq (by decide)
    (by decide) (by decide) hv
  have hcont : queue_contents mem_mq_two 61 = [[1, 2], [3, 4]] := by decide
  refine ⟨hcont, ?_⟩
  have h := k.2.2
  have hb : read_bytes mem_mq_two 504 2 = [5, 6] := by decide
  exact h.trans (by
    show List.map _ (read_bytes mem_mq_two 504 2 :: queue_contents mem_mq_two 61) = _
    rw [hb, hcont]
    rfl)

/-! ## Lemmas on the kernel state -/

theorem toggle_mem (K : Kernel) : (kernel_toggle_critical_section K).mem = K.mem := by
  unfold kernel_toggle_critical_section; split_ifs <;> rfl

theorem toggle_flag (K : Kernel) :
    (kernel_toggle_critical_section K).g_kernel_critical_section_active =
      !K.g_kernel_critical_section_active := by
  unfold kernel_toggle_critical_section; split_ifs <;> rfl

theorem toggle_toggle_flag (K : Kernel) :
    (kernel_toggle_critical_section
      (kernel_toggle_critical_section K)).g_kernel_critical_section_active =
      K.g_kernel_critical_section_active := by
  rw [toggle_flag, toggle_flag, Bool.not_not]

theorem same_globals_refl (K : Kernel) : same_globals K K :=
  ⟨rfl, rfl, rfl, rfl, rfl, rfl, rfl, rfl, rfl, rfl, rfl, rfl, rfl, rfl⟩

theorem same_globals_trans {K K1 K2 : Kernel} (h1 : same_globals K K1)
    (h2 : same_globals K1 K2) : same_globals K K2 := by
  obtain ⟨a1, a2, a3, a4, a5, a6, a7, a8, a9, a10, a11, a12, a13, a14⟩ := h1
  obtain ⟨b1, b2, b3, b4, b5, b6, b7, b8, b9, b10, b11, b12, b13, b14⟩ := h2
  exact ⟨b1.trans a1, b2.trans a2, b3.trans a3, b4.trans a4, b5.trans a5, b6.trans a6,
    b7.trans a7, b8.trans a8, b9.trans a9, b10.trans a10, b11.trans a11, b12.trans a12,
    b13.trans a13, b14.trans a14⟩

theorem same_globals_toggle (K : Kernel) : same_globals K (kernel_toggle_critical_section K) := by
  unfold kernel_toggle_critical_section
  split_ifs <;> exact same_globals_refl K

theorem same_globals_setMem (K : Kernel) (m : Mem) : same_globals K (K.setMem m) :=
  same_globals_refl K

theorem onlyTasks_refl (m : Mem) : OnlyTasks m m := rfl

theorem onlyTasks_trans {m m1 m2 : Mem} (h1 : OnlyTasks m m1) (h2 : OnlyTasks m1 m2) :
    OnlyTasks m m2 := by
  unfold OnlyTasks at *
  cases m; cases m1; cases m2
  simp only [Mem.mk.injEq] at *
  simp_all

theorem onlyTasks_setTask (m : Mem) (a : Nat) (v : task_t) : OnlyTasks m (m.setTask a v) := rfl

theorem onlyTasks_setTcb (m : Mem) (a : Nat) (v : TCB_sctTCB_t) :
    OnlyTasks m (m.setTcb a v) := rfl

/-- The stores that a change of the tasks leaves alone. -/
theorem onlyTasks_fields {m m2 : Mem} (h : OnlyTasks m m2) :
    m2.slots = m.slots ∧ m2.dictionary = m.dictionary ∧ m2.list = m.list ∧
    m2.element = m.element ∧ m2.semaphore = m.semaphore ∧ m2.mutex = m.mutex := by
  unfold OnlyTasks at h
  rw [h]
  exact ⟨rfl, rfl, rfl, rfl, rfl, rfl⟩

theorem onlyTasks_task_set_state (m : Mem) (t s : Nat) : OnlyTasks m (task_set_state m t s).2 := by
  unfold task_set_state
  split_ifs
  · exact onlyTasks_refl m
  · exact onlyTasks_setTcb m _ _
  · exact onlyTasks_setTcb m _ _

/-- The stores that a change of the lists leaves alone. -/
theorem onlyLists_fields {m m2 : Mem} (h : OnlyLists m m2) :
    m2.slots = m.slots ∧ m2.dictionary = m.dictionary ∧ m2.semaphore = m.semaphore ∧
    m2.mutex = m.mutex ∧ m2.task = m.task ∧ m2.tcb = m.tcb := by
  unfold OnlyLists at h
  rw [h]
  exact ⟨rfl, rfl, rfl, rfl, rfl, rfl⟩

/-- What memory `kernel_reinsert_task` leaves behind: the one of the transfer, with the
state of the task set to `Ready`, when both steps are reached. -/
theorem kernel_reinsert_task_frame (K : Kernel) (source element task : Nat) :
    same_globals K (kernel_reinsert_task K source element task).2 ∧
    (kernel_reinsert_task K source element task).2.g_kernel_critical_section_active =
      K.g_kernel_critical_section_active ∧
    (kernel_reinsert_task K source element task).2.mem.slots = K.mem.slots ∧
    (kernel_reinsert_task K source element task).2.mem.dictionary = K.mem.dictionary ∧
    (kernel_reinsert_task K source element task).2.mem.semaphore = K.mem.semaphore ∧
    (kernel_reinsert_task K source element task).2.mem.mutex = K.mem.mutex ∧
    (kernel_reinsert_task K source element task).2.mem.task = K.mem.task := by
  have hT : ∀ (m : Mem) (t s : Nat), (task_set_state m t s).2.slots = m.slots ∧
      (task_set_state m t s).2.dictionary = m.dictionary ∧
      (task_set_state m t s).2.semaphore = m.semaphore ∧
      (task_set_state m t s).2.mutex = m.mutex ∧
      (task_set_state m t s).2.task = m.task := by
    intro m t s
    unfold task_set_state
    split_ifs <;> exact ⟨rfl, rfl, rfl, rfl, rfl⟩
  obtain ⟨l1, l2, l3, l4, l5, -⟩ := onlyLists_fields (onlyLists_transfer K.mem
    (dictionary_get K.mem K.g_prioritized_tasks
      (K.mem.tcb (K.mem.task task).task_data).u8TaskPrio 0).2 source element)
  unfold kernel_reinsert_task
  simp only []
  split_ifs
  · exact ⟨same_globals_refl K, rfl, rfl, rfl, rfl, rfl, rfl⟩
  · exact ⟨same_globals_refl K, rfl, l1, l2, l3, l4, l5⟩
  · obtain ⟨t1, t2, t3, t4, t5⟩ := hT (K.setMem (linked_list_transfer K.mem
      (dictionary_get K.mem K.g_prioritized_tasks
        (K.mem.tcb (K.mem.task task).task_data).u8TaskPrio 0).2 source element).2).mem
      task TaskState_Ready
    exact ⟨same_globals_refl K, rfl, t1.trans l1, t2.trans l2, t3.trans l3, t4.trans l4,
      t5.trans l5⟩
  · obtain ⟨t1, t2, t3, t4, t5⟩ := hT (K.setMem (linked_list_transfer K.mem
      (dictionary_get K.mem K.g_prioritized_tasks
        (K.mem.tcb (K.mem.task task).task_data).u8TaskPrio 0).2 source element).2).mem
      task TaskState_Ready
    exact ⟨same_globals_refl K, rfl, t1.trans l1, t2.trans l2, t3.trans l3, t4.trans l4,
      t5.trans l5⟩

/-- A composite status with a non-zero reason code is not `0`. -/
theorem ERROR_INFO_ne_zero (s r c : Nat) (hc : 0 < c) (hc2 : c < SIZE_T_MOD) :
    ERROR_INFO s r c ≠ 0 := by
  unfold ERROR_INFO
  intro h
  have h2 : SIZE_T_MOD = 2 ^ 32 := rfl
  obtain ⟨i, hi⟩ := Nat.ne_zero_implies_bit_true (Nat.pos_iff_ne_zero.1 hc)
  have hi32 : i < 32 := by
    by_contra hge
    have hlt : c < 2 ^ i :=
      lt_of_lt_of_le (h2 ▸ hc2) (Nat.pow_le_pow_right (by decide) (by omega))
    rw [Nat.testBit_lt_two_pow hlt] at hi
    exact Bool.false_ne_true hi
  have hb : ((s <<< r ||| c) % 2 ^ 32).testBit i = true := by
    rw [Nat.testBit_mod_two_pow, Nat.testBit_or, hi]
    simp [hi32]
  rw [h2] at h
  rw [h, Nat.zero_testBit] at hb
  exact Bool.false_ne_true hb

/-- `dictionary_get` only reads the dictionary headers and the slots. -/
theorem dictionary_get_congr {m m2 : Mem} (hd : m2.dictionary = m.dictionary)
    (hs : m2.slots = m.slots) (d key v : Nat) :
    dictionary_get m2 d key v = dictionary_get m d key v := by
  unfold dictionary_get dictionary_checking
  rw [hd, hs]

/-- A successful lookup yields a non-null value from a non-null dictionary. -/
theorem dictionary_get_success {m : Mem} {d key v x : Nat}
    (h : dictionary_get m d key v = (DICTIONARY_SUCCESS, x)) :
    x ≠ 0 ∧ d ≠ 0 ∧ (m.dictionary d).data ≠ 0 ∧ m.slots (m.dictionary d).data key = x := by
  unfold dictionary_get dictionary_checking at h
  by_cases h1 : d = 0
  · simp [h1] at h
  · by_cases h2 : (m.dictionary d).data = 0
    · simp [h1, h2] at h
    · by_cases h3 : m.slots (m.dictionary d).data key = 0
      · simp [h1, h2, h3] at h
      · simp [h1, h2, h3] at h
        exact ⟨h ▸ h3, h1, h2, h⟩

/-! ## Claims on `linked_list_insert_after` and on the dictionary -/

/-- The head of a well-formed list has no successor. -/
theorem IsList.head_next {E : Nat → linked_list_element_t} {l : linked_list_t}
    {xs : List Nat} (h : IsList E l xs) : l.head = 0 ∨ (E l.head).next = 0 := by
  rcases List.eq_nil_or_concat xs with rfl | ⟨ys, y, rfl⟩
  · left
    exact h.2.2.2.1
  · right
    rw [List.concat_eq_append] at h
    obtain ⟨-, -, -, -, -, -, -, f8, -, -, -, f12, -⟩ := h.split_facts
    rw [f12]
    exact f8

/-- On a well-formed list `linked_list_insert_after` is `linked_list_push_front`: its
test `head == NULL || head->next == NULL` holds. -/
theorem insert_after_eq_push_front {m : Mem} {l : Nat} (e a d : Nat) {xs : List Nat}
    (hl : l ≠ 0) (h : IsList m.element (m.list l) xs) :
    linked_list_insert_after m l e a d = linked_list_push_front m l a d := by
  unfold linked_list_insert_after
  rw [if_neg (by simp [linked_list_checking, hl]), if_pos h.head_next]

/-- C21 (the specified node is not looked at).  For every well-formed non-empty list with
the nodes `xs` (read from tail to head), every node `e` of it and every fresh node
address `a`, `linked_list_insert_after(list, e, d)` returns `LINKED_LIST_SUCCESS`, the
size grows by one and the new node carries `d`; but the call does what
`linked_list_push_front` does: the list becomes `xs ++ [a]`, the new node is the new
head.  The new node comes immediately after `e` only when `e` is the old head.  For any
other node `e` (`xs = l1 ++ e :: l2` with `l2` not empty) the successor of `e` is the one
it had before, not the new node, and the list is not `l1 ++ e :: a :: l2`. -/
theorem linked_list_insert_after_pushes_front (m : Mem) (l e a d : Nat) (xs : List Nat)
    (hl : l ≠ 0) (h : IsList m.element (m.list l) xs) (he : e ∈ xs) (ha : a ≠ 0)
    (hax : a ∉ xs) :
    linked_list_insert_after m l e a d = linked_list_push_front m l a d ∧
    (linked_list_insert_after m l e a d).1 = LINKED_LIST_SUCCESS ∧
    ((linked_list_insert_after m l e a d).2.list l).size = xs.length + 1 ∧
    ((linked_list_insert_after m l e a d).2.element a).data = d ∧
    IsList (linked_list_insert_after m l e a d).2.element
      ((linked_list_insert_after m l e a d).2.list l) (xs ++ [a]) ∧
    (∀ l1 l2, xs = l1 ++ e :: l2 → l2 ≠ [] →
      ((linked_list_insert_after m l e a d).2.element e).next = l2.headD 0 ∧
      ((linked_list_insert_after m l e a d).2.element e).next ≠ a ∧
      ¬ IsList (linked_list_insert_after m l e a d).2.element
        ((linked_list_insert_after m l e a d).2.list l) (l1 ++ e :: a :: l2)) := by
  have key := insert_after_eq_push_front e a d hl h
  rw [key]
  obtain ⟨p1, p2, p3⟩ := push_front_isList d hl h ha hax
  refine ⟨rfl, p1, ?_, ?_, p2, ?_⟩
  · rw [p2.2.2.2.2, List.length_append]; rfl
  · rw [p3 a, if_pos rfl]
  · intro l1 l2 hx hne
    subst hx
    have hq : l1 ++ e :: l2 ++ [a] = l1 ++ e :: (l2 ++ [a]) := by simp
    rw [hq] at p2
    obtain ⟨-, -, -, -, -, -, -, f8, -⟩ := p2.split_facts
    have hh : (l2 ++ [a]).headD 0 = l2.headD 0 := by
      cases l2 with
      | nil => exact absurd rfl hne
      | cons b bs => rfl
    rw [hh] at f8
    have hmem : l2.headD 0 ∈ l1 ++ e :: l2 :=
      List.mem_append_right _ (List.mem_cons_of_mem _ (headD_mem hne 0))
    have hna : l2.headD 0 ≠ a := fun hc => hax (hc ▸ hmem)
    refine ⟨f8, f8 ▸ hna, ?_⟩
    intro hbad
    obtain ⟨-, -, -, -, -, -, -, g8, -⟩ := hbad.split_facts
    exact hna (f8.symm.trans g8)

theorem linked_list_insert_after_pushes_front_witness :
    IsList mem_lists.element (mem_lists.list 4) [21, 22, 23] ∧
    (linked_list_insert_after mem_lists 4 21 31 7).1 = LINKED_LIST_SUCCESS ∧
    IsList (linked_list_insert_after mem_lists 4 21 31 7).2.element
      ((linked_list_insert_after mem_lists 4 21 31 7).2.list 4) [21, 22, 23, 31] ∧
    ((linked_list_insert_after mem_lists 4 21 31 7).2.element 21).next = 22 ∧
    ¬ IsList (linked_list_insert_after mem_lists 4 21 31 7).2.element
      ((linked_list_insert_after mem_lists 4 21 31 7).2.list 4) [21, 31, 22, 23] := by
  have hs : IsList mem_lists.element (mem_lists.list 4) [21, 22, 23] := by decide
  have k := linked_list_insert_after_pushes_front mem_lists 4 21 31 7 [21, 22, 23]
    (by decide) hs (by decide) (by decide) (by decide)
  have k2 := k.2.2.2.2.2 [] [22, 23] rfl (by decide)
  exact ⟨hs, k.2.1, k.2.2.2.2.1, k2.1, k2.2.2⟩

/-- The loop of `dictionary_create` writes `NULL` into the slots `i, ..., i + n - 1` of
the array `d` and nothing else. -/
theorem dictionary_create_slots_spec (d : Nat) (n : Nat) : ∀ (i : Nat) (m : Mem),
    (dictionary_create_slots d i n m).dictionary = m.dictionary ∧
    (∀ j, i ≤ j → j < i + n → (dictionary_create_slots d i n m).slots d j = 0) ∧
    (∀ j, j < i → (dictionary_create_slots d i n m).slots d j = m.slots d j) := by
  induction n with
  | zero =>
    intro i m
    refine ⟨rfl, ?_, fun j _ => rfl⟩
    intro j h1 h2
    omega
  | succ n ih =>
    intro i m
    obtain ⟨h1, h2, h3⟩ := ih (i + 1) (m.setSlot d i 0)
    refine ⟨h1, ?_, ?_⟩
    · intro j hj1 hj2
      show (dictionary_create_slots d (i + 1) n (m.setSlot d i 0)).slots d j = 0
      by_cases hji : j = i
      · rw [h3 j (by omega), hji]
        simp [Mem.setSlot]
      · exact h2 j (by omega) (by omega)
    · intro j hj
      show (dictionary_create_slots d (i + 1) n (m.setSlot d i 0)).slots d j = m.slots d j
      rw [h3 j (by omega)]
      have hji : j ≠ i := by omega
      simp [Mem.setSlot, hji]

/-- C22. The slot table is a bounded map.  A table of size `n` is a dictionary that
`dictionary_checking` accepts and whose `size` is `n`; `dictionary_create` with two
successful allocations yields such a table, with every slot below `n` empty.  For every
such table, every key `k < n` and every non-null value `v`, `dictionary_add(k, v)` returns
`DICTIONARY_SUCCESS`, after which `dictionary_get(k)` returns `DICTIONARY_SUCCESS` with
`v` and `dictionary_get(j)` for every other key `j` returns what it returned before.  For
every key `k ≥ n`, `dictionary_add` returns `DICTIONARY_OVERFLOW` and leaves the whole
memory unchanged. -/
theorem dictionary_bounded_map (m : Mem) (dictionary n : Nat)
    (hv : dictionary_checking m dictionary = DICTIONARY_SUCCESS)
    (hn : (m.dictionary dictionary).size = n) :
    (∀ k v old, k < n → v ≠ 0 →
      (dictionary_add m dictionary k v).1 = DICTIONARY_SUCCESS ∧
      dictionary_get (dictionary_add m dictionary k v).2 dictionary k old
        = (DICTIONARY_SUCCESS, v) ∧
      (∀ j, j ≠ k →
        dictionary_get (dictionary_add m dictionary k v).2 dictionary j old
          = dictionary_get m dictionary j old)) ∧
    (∀ k v, n ≤ k → dictionary_add m dictionary k v = (DICTIONARY_OVERFLOW, m)) ∧
    (∀ (m0 : Mem) (a d : Nat), a ≠ 0 → d ≠ 0 →
      (dictionary_create m0 a d n).1 = DICTIONARY_SUCCESS ∧
      dictionary_checking (dictionary_create m0 a d n).2 a = DICTIONARY_SUCCESS ∧
      ((dictionary_create m0 a d n).2.dictionary a).size = n ∧
      (∀ j old, j < n →
        dictionary_get (dictionary_create m0 a d n).2 a j old = (DICTIONARY_VALUE_IS_NULL, 0))) := by
  have hd0 : dictionary ≠ 0 := by
    intro hc
    simp [dictionary_checking, hc] at hv
  have hdata : (m.dictionary dictionary).data ≠ 0 := by
    intro hc
    simp [dictionary_checking, hd0, hc] at hv
  refine ⟨?_, ?_, ?_⟩
  · intro k v old hk hv0
    have hadd : dictionary_add m dictionary k v =
        (DICTIONARY_SUCCESS, m.setSlot (m.dictionary dictionary).data k v) := by
      unfold dictionary_add
      rw [if_neg (by rw [hv]; exact fun hc => hc rfl), if_neg (by omega)]
    rw [hadd]
    have hchk : dictionary_checking (m.setSlot (m.dictionary dictionary).data k v) dictionary
        = DICTIONARY_SUCCESS := hv
    refine ⟨rfl, ?_, ?_⟩
    · unfold dictionary_get
      rw [if_neg (by rw [hchk]; exact fun hc => hc rfl)]
      simp [Mem.setSlot, hv0]
    · intro j hj
      unfold dictionary_get
      rw [hchk, hv]
      simp [Mem.setSlot, hj]
  · intro k v hk
    unfold dictionary_add
    rw [if_neg (by rw [hv]; exact fun hc => hc rfl), if_pos (by omega)]
  · intro m0 a d ha hd
    have hc : dictionary_create m0 a d n = (DICTIONARY_SUCCESS,
        dictionary_create_slots d 0 n
          ((m0.setDictionary a { m0.dictionary a with size := n }).setDictionary a
            ⟨d, n⟩)) := by
      simp [dictionary_create, Mem.setDictionary, hd]
    obtain ⟨s1, s2, -⟩ := dictionary_create_slots_spec d n 0
      ((m0.setDictionary a { m0.dictionary a with size := n }).setDictionary a ⟨d, n⟩)
    have hda : (dictionary_create m0 a d n).2.dictionary a = ⟨d, n⟩ := by
      rw [hc]
      show (dictionary_create_slots d 0 n _).dictionary a = _
      rw [s1]
      simp [Mem.setDictionary]
    have hchk : dictionary_checking (dictionary_create m0 a d n).2 a = DICTIONARY_SUCCESS := by
      simp [dictionary_checking, ha, hda, hd]
    refine ⟨by rw [hc], hchk, by rw [hda], ?_⟩
    intro j old hj
    unfold dictionary_get
    rw [if_neg (by rw [hchk]; exact fun hc => hc rfl), hda]
    have hz : (dictionary_create m0 a d n).2.slots d j = 0 := by
      rw [hc]
      exact s2 j (by omega) (by omega)
    simp [hz]

theorem dictionary_bounded_map_witness :
    dictionary_checking (dictionary_create Mem.zero 30 31 4).2 30 = DICTIONARY_SUCCESS ∧
    dictionary_get (dictionary_add (dictionary_create Mem.zero 30 31 4).2 30 2 77).2 30 2 0
      = (DICTIONARY_SUCCESS, 77) ∧
    dictionary_get (dictionary_add (dictionary_create Mem.zero 30 31 4).2 30 2 77).2 30 3 0
      = (DICTIONARY_VALUE_IS_NULL, 0) ∧
    dictionary_add (dictionary_create Mem.zero 30 31 4).2 30 4 77
      = (DICTIONARY_OVERFLOW, (dictionary_create Mem.zero 30 31 4).2) := by
  have hv : dictionary_checking (dictionary_create Mem.zero 30 31 4).2 30
      = DICTIONARY_SUCCESS := by decide
  have k := dictionary_bounded_map (dictionary_create Mem.zero 30 31 4).2 30 4 hv (by decide)
  have k1 := k.1 2 77 0 (by decide) (by decide)
  refine ⟨hv, k1.2.1, ?_, k.2.1 4 77 (by decide)⟩
  rw [k1.2.2 3 (by decide)]
  decide

/-! ## Claims on the registration of tasks and on the events -/

/-- `task_create` writes only the task and its control block. -/
theorem task_create_onlyTasks (m : Mem) (a atcb sp tm id p tq we nc tmo : Nat) :
    OnlyTasks m (task_create m a atcb sp tm id p tq we nc tmo).2 := by
  unfold task_create
  simp only []
  split_ifs
  · exact onlyTasks_refl m
  · exact onlyTasks_trans (onlyTasks_setTask m _ _) (onlyTasks_setTask _ _ _)
  · refine onlyTasks_trans ?_ (onlyTasks_task_set_state _ _ _)
    refine onlyTasks_trans ?_ (onlyTasks_setTcb _ _ _)
    refine onlyTasks_trans ?_ (onlyTasks_setTask _ _ _)
    refine onlyTasks_trans ?_ (onlyTasks_setTask _ _ _)
    refine onlyTasks_trans ?_ (onlyTasks_setTask _ _ _)
    refine onlyTasks_trans ?_ (onlyTasks_setTask _ _ _)
    refine onlyTasks_trans ?_ (onlyTasks_setTask _ _ _)
    refine onlyTasks_trans ?_ (onlyTasks_setTask _ _ _)
    refine onlyTasks_trans ?_ (onlyTasks_setTcb _ _ _)
    refine onlyTasks_trans ?_ (onlyTasks_setTcb _ _ _)
    refine onlyTasks_trans ?_ (onlyTasks_setTcb _ _ _)
    exact onlyTasks_trans (onlyTasks_setTask m _ _) (onlyTasks_setTask _ _ _)

/-- `task_create` with two successful allocations succeeds. -/
theorem task_create_frame (m : Mem) (a atcb sp tm id p tq we nc tmo : Nat) (ha : a ≠ 0)
    (hb : atcb ≠ 0) :
    (task_create m a atcb sp tm id p tq we nc tmo).1 = TASK_SUCCESS ∧
    (task_create m a atcb sp tm id p tq we nc tmo).2.slots = m.slots ∧
    (task_create m a atcb sp tm id p tq we nc tmo).2.dictionary = m.dictionary ∧
    (task_create m a atcb sp tm id p tq we nc tmo).2.list = m.list ∧
    (task_create m a atcb sp tm id p tq we nc tmo).2.element = m.element := by
  obtain ⟨f1, f2, f3, f4, -⟩ := onlyTasks_fields
    (task_create_onlyTasks m a atcb sp tm id p tq we nc tmo)
  refine ⟨?_, f1, f2, f3, f4⟩
  have hd : (((m.setTaskMain a tm).setTaskData a atcb).task a).task_data ≠ 0 := by
    simp [Mem.setTaskData, Mem.setTask, hb]
  unfold task_create
  rw [if_neg ha]
  simp only []
  rw [if_neg hd]

/-- The second half of `kernel_add_task` when the priority group `g` exists and the node
is allocated. -/
theorem kernel_add_task_insert_spec (K : Kernel) (task n p g : Nat) (hn : n ≠ 0)
    (hgrp : dictionary_get K.mem K.g_prioritized_tasks p 0 = (DICTIONARY_SUCCESS, g)) :
    (kernel_add_task_insert K task n p).1 = KERNEL_SUCCESS ∧
    (kernel_add_task_insert K task n p).2.mem = (linked_list_push_front K.mem g n task).2 ∧
    (kernel_add_task_insert K task n p).2.g_available_tasks = size_t_inc K.g_available_tasks ∧
    (kernel_add_task_insert K task n p).2.g_list_of_tasks = K.g_list_of_tasks := by
  have hg0 : g ≠ 0 := (dictionary_get_success hgrp).1
  have q1 := (push_front_spec K.mem g n task hg0 hn).1
  unfold kernel_add_task_insert
  simp only [hgrp, ne_eq, not_true_eq_false, if_false, q1, Kernel.setMem]
  by_cases hp : p > K.g_task_lowest_priority
  · simp only [hp, if_true]
    exact ⟨trivial, trivial, trivial, trivial⟩
  · simp only [hp, if_false]
    exact ⟨trivial, trivial, trivial, trivial⟩

/-- C23 (a duplicate id is accepted).  Let a task be registered under the id `i`
(`dictionary_get` on `g_list_of_tasks` succeeds) and let the priority group `g` of the
priority `p` exist.  Then `kernel_add_task` with the id `i`, when its allocations
succeed, returns `KERNEL_SUCCESS`: the registry is left as it was (the lookup of every id
gives what it gave before, so the new task is not registered), but the new task is pushed
at the head of the priority group `g`, whose size grows by one, and the available-task
count is incremented. -/
theorem kernel_add_task_accepts_duplicate (K : Kernel) (a atcb sp n task_main i p
    time_quantum wanted_events notification_conditions timeout t0 g : Nat)
    (ha : a ≠ 0) (hb : atcb ≠ 0) (hn : n ≠ 0)
    (hreg : dictionary_get K.mem K.g_list_of_tasks i 0 = (DICTIONARY_SUCCESS, t0))
    (hgrp : dictionary_get K.mem K.g_prioritized_tasks p 0 = (DICTIONARY_SUCCESS, g)) :
    (kernel_add_task K a atcb sp n task_main i p time_quantum wanted_events
      notification_conditions timeout).1 = KERNEL_SUCCESS ∧
    (kernel_add_task K a atcb sp n task_main i p time_quantum wanted_events
      notification_conditions timeout).2.g_available_tasks = size_t_inc K.g_available_tasks ∧
    ((kernel_add_task K a atcb sp n task_main i p time_quantum wanted_events
      notification_conditions timeout).2.mem.list g).size = (K.mem.list g).size + 1 ∧
    ((kernel_add_task K a atcb sp n task_main i p time_quantum wanted_events
      notification_conditions timeout).2.mem.list g).head = n ∧
    ((kernel_add_task K a atcb sp n task_main i p time_quantum wanted_events
      notification_conditions timeout).2.mem.element n).data = a ∧
    (∀ j old, dictionary_get (kernel_add_task K a atcb sp n task_main i p time_quantum
      wanted_events notification_conditions timeout).2.mem
      (kernel_add_task K a atcb sp n task_main i p time_quantum wanted_events
        notification_conditions timeout).2.g_list_of_tasks j old =
      dictionary_get K.mem K.g_list_of_tasks j old) := by
  obtain ⟨c1, c2, c3, c4, c5⟩ := task_create_frame K.mem a atcb sp task_main i p time_quantum
    wanted_events notification_conditions timeout ha hb
  have hg0 : g ≠ 0 := (dictionary_get_success hgrp).1
  obtain ⟨-, -, -, q4, q5, -, q7, -, q9⟩ := push_front_spec
    (task_create K.mem a atcb sp task_main i p time_quantum wanted_events
      notification_conditions timeout).2 g n a hg0 hn
  obtain ⟨o1, o2, -⟩ := onlyLists_fields q9
  have hins : kernel_add_task K a atcb sp n task_main i p time_quantum wanted_events
      notification_conditions timeout =
      kernel_add_task_insert (K.setMem (task_create K.mem a atcb sp task_main i p
        time_quantum wanted_events notification_conditions timeout).2) a n p := by
    unfold kernel_add_task
    simp only [c1, ne_eq, not_true_eq_false, if_false, Kernel.setMem]
    rw [dictionary_get_congr c3 c2, hreg]
    simp
  rw [hins]
  obtain ⟨i1, i2, i3, i4⟩ := kernel_add_task_insert_spec
    (K.setMem (task_create K.mem a atcb sp task_main i p time_quantum wanted_events
      notification_conditions timeout).2) a n p g hn
    ((dictionary_get_congr c3 c2 _ p 0).trans hgrp)
  refine ⟨i1, i3, ?_, ?_, ?_, ?_⟩
  · rw [i2]
    exact q7.trans (by rw [c4])
  · rw [i2]
    exact q5
  · rw [i2]
    exact (q4 n).trans (if_pos rfl)
  · intro j old
    rw [i2, i4]
    exact (dictionary_get_congr o2 o1 _ j old).trans (dictionary_get_congr c3 c2 _ j old)

theorem kernel_add_task_accepts_duplicate_witness :
    dictionary_get kernel_example.mem kernel_example.g_list_of_tasks 1 0
      = (DICTIONARY_SUCCESS, 101) ∧
    (kernel_add_task kernel_example 105 205 0 15 0 1 0 100 8 0 10).1 = KERNEL_SUCCESS ∧
    (kernel_add_task kernel_example 105 205 0 15 0 1 0 100 8 0 10).2.g_available_tasks = 5 ∧
    ((kernel_add_task kernel_example 105 205 0 15 0 1 0 100 8 0 10).2.mem.list 2).size = 5 ∧
    ((kernel_add_task kernel_example 105 205 0 15 0 1 0 100 8 0 10).2.mem.list 2).head = 15 ∧
    dictionary_get (kernel_add_task kernel_example 105 205 0 15 0 1 0 100 8 0 10).2.mem 50 1 0
      = (DICTIONARY_SUCCESS, 101) := by
  have hreg : dictionary_get kernel_example.mem kernel_example.g_list_of_tasks 1 0
      = (DICTIONARY_SUCCESS, 101) := by decide
  have k := kernel_add_task_accepts_duplicate kernel_example 105 205 0 15 0 1 0 100 8 0 10
    101 2 (by decide) (by decide) (by decide) hreg (by decide)
  refine ⟨hreg, k.1, k.2.1, k.2.2.1, k.2.2.2.1, ?_⟩
  exact (k.2.2.2.2.2 1 0).trans hreg

/-- A write to the received events of a task leaves the other fields of every task. -/
theorem setReceivedEvents_task (m : Mem) (t v x : Nat) :
    ((m.setReceivedEvents t v).task x).blocked_timeout_list = (m.task x).blocked_timeout_list ∧
    ((m.setReceivedEvents t v).task x).blocked_timeout_list_element
      = (m.task x).blocked_timeout_list_element ∧
    ((m.setReceivedEvents t v).task x).task_data = (m.task x).task_data ∧
    ((m.setReceivedEvents t v).task x).delta_time = (m.task x).delta_time := by
  unfold Mem.setReceivedEvents Mem.setTask
  by_cases hx : x = t
  · subst hx
    simp only [Function.update_same, and_self]
  · simp only [Function.update_noteq hx, and_self]

/-- C27. No spurious wakeup under a filter.  Let `t` be the task registered under
`task_id`, `w` its wanted events and `r` the value that `kernel_event_send` holds in
`received_event` after the notification callback (if the task has one) has run.  Whenever
`(r & w) != w`, `kernel_event_send` returns `KERNEL_SUCCESS` and writes nothing but the
received events of `t`: no list header and no list node is written, so every list holds
the nodes it held and `t` stays in the list that held it; the back-reference
(`blocked_timeout_list`, `blocked_timeout_list_element`) and the delta of every task are
unchanged; no task control block is written, so the state of `t` is not set to `Ready`;
and the scheduler globals and the critical-section flag are as at entry. -/
theorem kernel_event_send_no_spurious_wakeup (call : Nat → Nat → Nat → Nat) (K : Kernel)
    (task_id event t : Nat)
    (hget : dictionary_get K.mem K.g_list_of_tasks task_id 0 = (DICTIONARY_SUCCESS, t))
    (hr : kernel_event_send_filtered call K.mem t event &&&
        (K.mem.task t).event_register.wanted_events
      ≠ (K.mem.task t).event_register.wanted_events) :
    (kernel_event_send call K task_id event).1 = KERNEL_SUCCESS ∧
    (kernel_event_send call K task_id event).2.mem =
      K.mem.setReceivedEvents t ((K.mem.task t).event_register.received_events
        ||| kernel_event_send_filtered call K.mem t event) ∧
    (kernel_event_send call K task_id event).2.mem.element = K.mem.element ∧
    (kernel_event_send call K task_id event).2.mem.list = K.mem.list ∧
    (kernel_event_send call K task_id event).2.mem.tcb = K.mem.tcb ∧
    (∀ x, ((kernel_event_send call K task_id event).2.mem.task x).blocked_timeout_list
        = (K.mem.task x).blocked_timeout_list ∧
      ((kernel_event_send call K task_id event).2.mem.task x).blocked_timeout_list_element
        = (K.mem.task x).blocked_timeout_list_element ∧
      ((kernel_event_send call K task_id event).2.mem.task x).task_data
        = (K.mem.task x).task_data ∧
      ((kernel_event_send call K task_id event).2.mem.task x).delta_time
        = (K.mem.task x).delta_time) ∧
    same_globals K (kernel_event_send call K task_id event).2 ∧
    (kernel_event_send call K task_id event).2.g_kernel_critical_section_active =
      K.g_kernel_critical_section_active := by
  have e1 := toggle_mem K
  have e2 : (kernel_toggle_critical_section K).g_list_of_tasks = K.g_list_of_tasks :=
    (same_globals_toggle K).2.2.1
  have hres : kernel_event_send call K task_id event = (KERNEL_SUCCESS,
      kernel_toggle_critical_section ((kernel_toggle_critical_section K).setMem
        (K.mem.setReceivedEvents t ((K.mem.task t).event_register.received_events
          ||| kernel_event_send_filtered call K.mem t event)))) := by
    unfold kernel_event_send
    simp only [e1, e2, hget, ne_eq, not_true_eq_false, if_false]
    unfold kernel_event_send_filtered at hr
    rw [if_neg hr]
    rfl
  rw [hres]
  refine ⟨rfl, ?_, ?_, ?_, ?_, ?_, ?_, ?_⟩
  · rw [toggle_mem]; rfl
  · rw [toggle_mem]; rfl
  · rw [toggle_mem]; rfl
  · rw [toggle_mem]; rfl
  · intro x
    rw [toggle_mem]
    exact setReceivedEvents_task K.mem t _ x
  · exact same_globals_trans (same_globals_toggle K)
      (same_globals_trans (same_globals_setMem _ _) (same_globals_toggle _))
  · rw [toggle_flag]
    show (!(kernel_toggle_critical_section K).g_kernel_critical_section_active) = _
    rw [toggle_flag, Bool.not_not]

theorem kernel_event_send_no_spurious_wakeup_witness :
    IsList kernel_example_blocked.mem.element (kernel_example_blocked.mem.list 8) [12] ∧
    (kernel_example_blocked.mem.tcb 202).eTaskState = TaskState_Blocked ∧
    kernel_event_send_filtered notification_condition kernel_example_blocked.mem 102 8 = 0 ∧
    (kernel_event_send notification_condition kernel_example_blocked 2 8).1 = KERNEL_SUCCESS ∧
    IsList (kernel_event_send notification_condition kernel_example_blocked 2 8).2.mem.element
      ((kernel_event_send notification_condition kernel_example_blocked 2 8).2.mem.list 8)
      [12] ∧
    ((kernel_event_send notification_condition kernel_example_blocked 2 8).2.mem.tcb
      202).eTaskState = TaskState_Blocked := by
  have k := kernel_event_send_no_spurious_wakeup notification_condition kernel_example_blocked
    2 8 102 (by decide!) (by decide!)
  have h1 : IsList kernel_example_blocked.mem.element (kernel_example_blocked.mem.list 8)
      [12] := by decide!
  have h2 : (kernel_example_blocked.mem.tcb 202).eTaskState = TaskState_Blocked := by decide!
  refine ⟨h1, h2, by decide!, k.1, ?_, ?_⟩
  · rw [k.2.2.1, k.2.2.2.1]
    exact h1
  · rw [k.2.2.2.2.1]
    exact h2

/-- C28 (an error that reads as a timeout).  `KERNEL_LINK_LIST_ERROR_REGISTER` is `4` and
the reason `KERNEL_UNABLE_TO_RECEIVE_EVENTS` is `25 = 0b11001`, whose bit 4 is set: the
sub-component status `LINKED_LIST_NO_MEMORY = 1`, shifted by 4, is absorbed by the
reason and the composite code is `25`, the plain value that signifies a timeout.  So when
the wanted events are not there, the timeout is not `0` and the delay list does not exist
(`g_delayed_tasks == NULL`), `kernel_event_receive_timeout` returns through its error
path with the value `KERNEL_UNABLE_TO_RECEIVE_EVENTS`.  Among the statuses `1, ..., 6` of
the linked list, `1` is the only one that the link-list register loses, and the task
register (`7`) loses none of the statuses `1, ..., 4` of the task. -/
theorem kernel_event_receive_timeout_error_reads_as_timeout (fuel : Nat) (K : Kernel)
    (out : Nat)
    (hw : (K.mem.task K.g_running_task_current).event_register.wanted_events &&&
        (K.mem.task K.g_running_task_current).event_register.received_events
      ≠ (K.mem.task K.g_running_task_current).event_register.wanted_events)
    (ht : (K.mem.task K.g_running_task_current).event_register.timeout ≠ 0)
    (hd : K.g_delayed_tasks = 0) :
    kernel_event_receive_timeout fuel K out =
      some (Blocking.returned
        (ERROR_INFO LINKED_LIST_NO_MEMORY KERNEL_LINK_LIST_ERROR_REGISTER
          KERNEL_UNABLE_TO_RECEIVE_EVENTS) out (kernel_toggle_critical_section K)) ∧
    ERROR_INFO LINKED_LIST_NO_MEMORY KERNEL_LINK_LIST_ERROR_REGISTER
      KERNEL_UNABLE_TO_RECEIVE_EVENTS = KERNEL_UNABLE_TO_RECEIVE_EVENTS ∧
    (∀ s, 1 ≤ s → s ≤ 6 →
      (ERROR_INFO s KERNEL_LINK_LIST_ERROR_REGISTER KERNEL_UNABLE_TO_RECEIVE_EVENTS
        = KERNEL_UNABLE_TO_RECEIVE_EVENTS ↔ s = LINKED_LIST_NO_MEMORY)) ∧
    (∀ s, 1 ≤ s → s ≤ 4 →
      ERROR_INFO s KERNEL_TASK_ERROR_REGISTER KERNEL_UNABLE_TO_RECEIVE_EVENTS
        ≠ KERNEL_UNABLE_TO_RECEIVE_EVENTS) := by
  have e1 := toggle_mem K
  have e2 : (kernel_toggle_critical_section K).g_running_task_current =
      K.g_running_task_current := (same_globals_toggle K).1
  have e3 : (kernel_toggle_critical_section K).g_delayed_tasks = 0 :=
    (same_globals_toggle K).2.2.2.1.trans hd
  refine ⟨?_, by decide, ?_, ?_⟩
  · unfold kernel_event_receive_timeout
    simp only [e1, e2, e3]
    rw [if_neg hw, if_neg ht]
    rfl
  · intro s h1 h2
    interval_cases s <;> decide
  · intro s h1 h2
    interval_cases s <;> decide

theorem kernel_event_receive_timeout_error_reads_as_timeout_witness :
    ((kernel_event_receive_timeout 5 kernel_example_no_delay_list 0).bind
      Blocking.result) = some (KERNEL_UNABLE_TO_RECEIVE_EVENTS, 0) ∧
    ((kernel_event_receive_timeout 5 kernel_example_no_timeout 0).bind
      Blocking.result) = some (KERNEL_UNABLE_TO_RECEIVE_EVENTS, 0) := by
  have k := kernel_event_receive_timeout_error_reads_as_timeout 5
    kernel_example_no_delay_list 0 (by decide) (by decide) rfl
  refine ⟨?_, by decide!⟩
  rw [k.1, k.2.1]
  rfl

/-- C26 (the resumed call always reports a timeout).  When `kernel_event_receive_timeout`
goes on after `kernel_swap_task`, in whatever state `K` the caller is resumed and
whatever events `w` it wanted at entry, the value written to the output is the re-read
register `received_events` and the wanted events are deleted from the register, but the
status returned is `KERNEL_UNABLE_TO_RECEIVE_EVENTS` in every case, also when
`(received & wanted) == wanted` holds for the re-read register: the `KERNEL_SUCCESS` of
line 1407 is assigned to the `status` that the `else` block declares on line 1341, and
line 1419 returns the `status` of the function.  The critical-section flag at the return
is the one found at the resumption.  In `event_scenario` task 101 is parked in the delay
list with delta 10, the event `0x08` sent by task 102 brings it back to its priority
group as `Ready`, and its call returns `KERNEL_UNABLE_TO_RECEIVE_EVENTS` with
`*received_events = 0x08`. -/
theorem kernel_event_receive_timeout_resume_status (K : Kernel) (w : Nat) :
    (kernel_event_receive_timeout_resume K w).1 = KERNEL_UNABLE_TO_RECEIVE_EVENTS ∧
    (kernel_event_receive_timeout_resume K w).1 ≠ KERNEL_SUCCESS ∧
    (kernel_event_receive_timeout_resume K w).2.1 =
      (K.mem.task K.g_running_task_current).event_register.received_events ∧
    ((kernel_event_receive_timeout_resume K w).2.2.mem.task
        K.g_running_task_current).event_register.received_events =
      (K.mem.task K.g_running_task_current).event_register.received_events &&&
        size_t_not (K.mem.task K.g_running_task_current).event_register.wanted_events ∧
    (kernel_event_receive_timeout_resume K w).2.2.g_kernel_critical_section_active =
      K.g_kernel_critical_section_active ∧
    event_scenario.map (fun r =>
      (delay_list_view r.1 5, (r.1.mem.task 101).blocked_timeout_list,
        (r.1.mem.task 101).blocked_timeout_list_element)) = some ([(11, 10, 10)], 7, 11) ∧
    event_scenario.map (fun r =>
      (delay_list_view r.2.1 5, list_walk r.2.1.mem 5 (r.2.1.mem.list 2).tail,
        (r.2.1.mem.tcb 201).eTaskState, (r.2.1.mem.task 101).event_register.received_events)) =
      some ([], [12, 13, 14, 11], TaskState_Ready, 8) ∧
    event_scenario.map (fun r =>
      (r.2.2.1, r.2.2.2.1, (r.2.2.2.2.mem.task 101).event_register.received_events)) =
      some (KERNEL_UNABLE_TO_RECEIVE_EVENTS, 8, 0) := by
  have e1 : ∀ K : Kernel, (kernel_toggle_critical_section
      (kernel_toggle_critical_section K)).mem = K.mem := fun K => by
    rw [toggle_mem, toggle_mem]
  have e2 : ∀ K : Kernel, (kernel_toggle_critical_section
      (kernel_toggle_critical_section K)).g_running_task_current = K.g_running_task_current :=
    fun K => (same_globals_trans (same_globals_toggle K) (same_globals_toggle _)).1
  have e3 : (kernel_toggle_critical_section K).g_running_task_current =
      K.g_running_task_current := (same_globals_toggle K).1
  refine ⟨rfl, ?_, ?_, ?_, ?_, by decide!, by decide!, by decide!⟩
  · show KERNEL_UNABLE_TO_RECEIVE_EVENTS ≠ KERNEL_SUCCESS
    decide
  · unfold kernel_event_receive_timeout_resume kernel_event_receive_finish
    simp only [toggle_mem, e3]
  · unfold kernel_event_receive_timeout_resume kernel_event_receive_finish
    simp only [e1, e2, Kernel.setMem, Mem.setReceivedEvents, Mem.setTask,
      Function.update_same, event_register_t.setReceived]
  · unfold kernel_event_receive_timeout_resume kernel_event_receive_finish
    exact toggle_toggle_flag K

/-! ## Claims on the delay list and the tick handler -/

/-- C24 (a fourth delay is misplaced).  In `kernel_example` the tasks 101, 102, 103 and
104 (nodes 11 to 14 of the priority group 2) call `kernel_delay` with the delays 10, 20,
15 and 12, starting from an empty delay list.  All calls return `KERNEL_SUCCESS`.  After
the first three calls the delay list reads, from its front, node 11 (delta 10, cumulative
10), node 13 (delta 5, cumulative 15), node 12 (delta 5, cumulative 20), as the delta
encoding asks for; but `linked_list_transfer_after` has inserted node 13 after node 11
without writing its `previous` pointer, which is still `NULL`.  The fourth call stops at
node 13, steps back through that pointer and so asks for an insertion at the front: task
104 gets the delta 2 and the cumulative delta 2 instead of 12, it is placed before
task 101 whose cumulative delta 10 is smaller than 12, and the cumulative delta of task
101 changes from 10 to 12. -/
theorem kernel_delay_misplaces_after_inner_insert :
    (kernel_delay_calls 10 2 [(11, 101, 10), (12, 102, 20), (13, 103, 15)]
      kernel_example).map
        (fun r => (r.1, delay_list_view r.2 10, (r.2.mem.element 13).previous))
      = some ([KERNEL_SUCCESS, KERNEL_SUCCESS, KERNEL_SUCCESS],
          [(11, 10, 10), (13, 5, 15), (12, 5, 20)], 0) ∧
    (kernel_delay_calls 10 2 [(11, 101, 10), (12, 102, 20), (13, 103, 15), (14, 104, 12)]
      kernel_example).map (fun r => (r.1, delay_list_view r.2 10))
      = some ([KERNEL_SUCCESS, KERNEL_SUCCESS, KERNEL_SUCCESS, KERNEL_SUCCESS],
          [(14, 2, 2), (11, 10, 12), (13, 3, 15), (12, 5, 20)]) ∧
    delay_list_view kernel_example 10 = [] :=
  ⟨by decide!, by decide!, by decide!⟩

/-- The function `kernel_reinsert_task` on a well-formed source list and priority group:
it succeeds, the node becomes the head of the priority group, leaves the source list, and
the task is marked Ready. -/
theorem kernel_reinsert_task_spec {K : Kernel} {source e t g : Nat} {ys l1 l2 : List Nat}
    (hg : dictionary_get K.mem K.g_prioritized_tasks
      (K.mem.tcb (K.mem.task t).task_data).u8TaskPrio 0 = (DICTIONARY_SUCCESS, g))
    (hs0 : source ≠ 0) (hgs : g ≠ source)
    (hsrc : IsList K.mem.element (K.mem.list source) (l1 ++ e :: l2))
    (hdst : IsList K.mem.element (K.mem.list g) ys)
    (hdj : ∀ x ∈ ys, x ∉ l1 ++ e :: l2)
    (ht : task_checking K.mem t = TASK_SUCCESS) :
    (kernel_reinsert_task K source e t).1 = KERNEL_SUCCESS ∧
    IsList (kernel_reinsert_task K source e t).2.mem.element
      ((kernel_reinsert_task K source e t).2.mem.list g) (ys ++ [e]) ∧
    IsList (kernel_reinsert_task K source e t).2.mem.element
      ((kernel_reinsert_task K source e t).2.mem.list source) (l1 ++ l2) ∧
    ((kernel_reinsert_task K source e t).2.mem.tcb
      ((kernel_reinsert_task K source e t).2.mem.task t).task_data).eTaskState
        = TaskState_Ready := by
  have hg0 : g ≠ 0 := (dictionary_get_success hg).1
  obtain ⟨t1, t2, t3, -, -, -, t7⟩ := transfer_isList hg0 hs0 hgs hsrc hdst hdj
  have htask := (onlyLists_fields t7).2.2.2.2.1
  have hc : task_checking (linked_list_transfer K.mem g source e).2 t = TASK_SUCCESS := by
    unfold task_checking at ht ⊢
    rw [htask]
    exact ht
  have hset : (task_set_state (linked_list_transfer K.mem g source e).2 t TaskState_Ready).2
      = (linked_list_transfer K.mem g source e).2.setTaskState t TaskState_Ready := by
    unfold task_set_state
    rw [if_neg (fun h => h hc)]
    simp
  have hst : ((task_set_state (linked_list_transfer K.mem g source e).2 t
        TaskState_Ready).2.tcb
      ((task_set_state (linked_list_transfer K.mem g source e).2 t
        TaskState_Ready).2.task t).task_data).eTaskState = TaskState_Ready := by
    rw [hset]
    simp [Mem.setTaskState, Mem.setTcb]
  have hl : (task_set_state (linked_list_transfer K.mem g source e).2 t TaskState_Ready).2.list
      = (linked_list_transfer K.mem g source e).2.list := by
    rw [hset]
    rfl
  have hel : (task_set_state (linked_list_transfer K.mem g source e).2 t
      TaskState_Ready).2.element = (linked_list_transfer K.mem g source e).2.element := by
    rw [hset]
    rfl
  unfold kernel_reinsert_task
  simp only []
  rw [hg]
  rw [if_neg (fun h => h rfl)]
  simp only [Kernel.setMem]
  rw [if_neg (fun h => h t1)]
  split_ifs
  · simp only [hl, hel]
    exact ⟨trivial, t2, t3, hst⟩
  · simp only [hl, hel]
    exact ⟨trivial, t2, t3, hst⟩

/-- The tick that finds the delta `0` at the front of the delay list: the front task is
handed to `kernel_reinsert_task`, and the quantum of the running task is decremented. -/
theorem kernel_update_wake {K : Kernel} {t b : Nat}
    (hr : K.g_running_task_current ≠ 0) (hst : K.g_kernel_status = EN_KERNEL_RUNNING)
    (hf : K.g_kernel_critical_section_active = false)
    (hsz : (K.mem.list K.g_delayed_tasks).size > 0)
    (hdata : (K.mem.element (K.mem.list K.g_delayed_tasks).tail).data = t)
    (ha : (K.mem.task t).delta_time = 0)
    (hb : (K.mem.task K.g_running_task_current).time_quantum_remaining = b) (hb0 : b ≠ 0) :
    kernel_update K = some
      ((kernel_reinsert_task K K.g_delayed_tasks (K.mem.list K.g_delayed_tasks).tail t).2.setMem
        ((kernel_reinsert_task K K.g_delayed_tasks
          (K.mem.list K.g_delayed_tasks).tail t).2.mem.setTimeQuantumRemaining
          K.g_running_task_current (size_t_dec b))) := by
  have h1 : ¬ (K.g_running_task_current = 0 ∨ K.g_kernel_status = EN_KERNEL_NOT_INITIALIZED
      ∨ K.g_kernel_status = EN_KERNEL_ERROR) := by
    rw [hst]
    simp [hr]
  have h2 : ¬ K.g_kernel_critical_section_active = true := by
    rw [hf]
    decide
  obtain ⟨fg, -, -, -, -, -, ftask⟩ := kernel_reinsert_task_frame K K.g_delayed_tasks
    (K.mem.list K.g_delayed_tasks).tail t
  have frun := fg.1
  have fstat := fg.2.2.2.2.2.2.2.2.2.2.2.2.1
  unfold kernel_update
  rw [if_neg h1, if_neg h2]
  simp only []
  rw [if_pos hsz, hdata, if_pos ha]
  generalize kernel_reinsert_task K K.g_delayed_tasks (K.mem.list K.g_delayed_tasks).tail t
    = R at frun fstat ftask ⊢
  have h3 : R.2.g_kernel_status ≠ EN_KERNEL_IDLE := by
    rw [fstat, hst]
    decide
  rw [frun, ftask, hb, if_neg (fun h => hb0 h.1), if_neg (fun h => h3 h.1),
    if_pos (Nat.pos_of_ne_zero hb0)]

theorem setMem_flag (K : Kernel) (m : Mem) :
    (K.setMem m).g_kernel_critical_section_active = K.g_kernel_critical_section_active := rfl

theorem bool_not_eq_self (b : Bool) : ((!b) = b) ↔ False := by
  cases b <;> simp

/-- The flag after `kernel_semaphore_release`: it is the one at entry exactly when the
call returns through the guard on the id or with `KERNEL_SUCCESS`. -/
theorem kernel_semaphore_release_flag (K : Kernel) (id : Nat) :
    (kernel_semaphore_release K id).2.g_kernel_critical_section_active =
        K.g_kernel_critical_section_active ↔
      (id ≥ KERNEL_MAX_SEMAPHORE ∨ (kernel_semaphore_release K id).1 = KERNEL_SUCCESS) := by
  have hq := fun (K2 : Kernel) (s e t : Nat) => (kernel_reinsert_task_frame K2 s e t).2.1
  have he := fun (s r : Nat) => ERROR_INFO_ne_zero s r KERNEL_UNABLE_TO_RELEASE_SEMAPHORE
    (by decide) (by decide)
  unfold kernel_semaphore_release
  simp only []
  split_ifs with h1 h2 h3 h4 h5
  · simp [h1]
  · simp only [toggle_flag, bool_not_eq_self, false_iff, not_or]
    exact ⟨h1, he _ _⟩
  · simp only [hq, setMem_flag, toggle_flag, bool_not_eq_self, false_iff, not_or]
    exact ⟨h1, h4⟩
  · simp only [toggle_flag, hq, setMem_flag, Bool.not_not, true_iff]
    exact Or.inr trivial
  · simp only [setMem_flag, toggle_flag, bool_not_eq_self, false_iff, not_or]
    exact ⟨h1, he _ _⟩
  · simp only [toggle_flag, setMem_flag, Bool.not_not, true_iff]
    exact Or.inr trivial

/-- The flag after `kernel_mutex_release`. -/
theorem kernel_mutex_release_flag (K : Kernel) (id : Nat) :
    (kernel_mutex_release K id).2.g_kernel_critical_section_active =
        K.g_kernel_critical_section_active ↔
      (id ≥ KERNEL_MAX_MUTEX ∨ (kernel_mutex_release K id).1 = KERNEL_SUCCESS) := by
  have hq := fun (K2 : Kernel) (s e t : Nat) => (kernel_reinsert_task_frame K2 s e t).2.1
  have he := fun (s r : Nat) => ERROR_INFO_ne_zero s r KERNEL_UNABLE_TO_RELEASE_MUTEX
    (by decide) (by decide)
  unfold kernel_mutex_release
  simp only []
  split_ifs with h1 h2 h3 h4 h5
  · simp [h1]
  · simp only [toggle_flag, bool_not_eq_self, false_iff, not_or]
    exact ⟨h1, he _ _⟩
  · simp only [hq, setMem_flag, toggle_flag, bool_not_eq_self, false_iff, not_or]
    exact ⟨h1, h4⟩
  · simp only [toggle_flag, hq, setMem_flag, Bool.not_not, true_iff]
    exact Or.inr trivial
  · simp only [setMem_flag, toggle_flag, bool_not_eq_self, false_iff, not_or]
    exact ⟨h1, he _ _⟩
  · simp only [toggle_flag, setMem_flag, Bool.not_not, true_iff]
    exact Or.inr trivial

/-- The flag after `kernel_semaphore_acquire_non_blocking`: it is the one at entry unless
the id is below the maximum and not registered. -/
theorem kernel_semaphore_acquire_non_blocking_flag (K : Kernel) (id : Nat) :
    (kernel_semaphore_acquire_non_blocking K id).2.g_kernel_critical_section_active =
        K.g_kernel_critical_section_active ↔
      (id ≥ KERNEL_MAX_SEMAPHORE ∨
        (dictionary_get K.mem K.g_semaphore_list id 0).1 = DICTIONARY_SUCCESS) := by
  have e1 := toggle_mem K
  have e2 : (kernel_toggle_critical_section K).g_semaphore_list = K.g_semaphore_list :=
    (same_globals_toggle K).2.2.2.2.2.2.2.1
  unfold kernel_semaphore_acquire_non_blocking
  simp only [e1, e2]
  split_ifs with h1 h2 h3
  · simp [h1]
  · simp only [toggle_flag, bool_not_eq_self, false_iff, not_or]
    exact ⟨h1, h2⟩
  · simp only [toggle_flag, setMem_flag, Bool.not_not, true_iff]
    exact Or.inr (not_not.1 h2)
  · simp only [toggle_flag, setMem_flag, Bool.not_not, true_iff]
    exact Or.inr (not_not.1 h2)

/-- The flag after `kernel_message_queue_send`: it is the one at entry exactly when the
call returns before it enters the critical section (no identifier, id not registered) or
with `KERNEL_SUCCESS`. -/
theorem kernel_message_queue_send_flag (K : Kernel) (message_queue_identifier id message
    element_size : Nat) (urgent : Bool) :
    (kernel_message_queue_send K message_queue_identifier id message element_size
        urgent).2.g_kernel_critical_section_active = K.g_kernel_critical_section_active ↔
      (message_queue_identifier = 0 ∨
        (dictionary_get K.mem K.g_message_queue_list id 0).1 ≠ DICTIONARY_SUCCESS ∨
        (kernel_message_queue_send K message_queue_identifier id message element_size
          urgent).1 = KERNEL_SUCCESS) := by
  have hq := fun (K2 : Kernel) (s e t : Nat) => (kernel_reinsert_task_frame K2 s e t).2.1
  have he := fun (s r : Nat) => ERROR_INFO_ne_zero s r KERNEL_UNABLE_TO_SEND_MESSAGE
    (by decide) (by decide)
  have he2 : ∀ s r, (ERROR_INFO s r KERNEL_UNABLE_TO_SEND_MESSAGE = 0) ↔ False :=
    fun s r => iff_false_intro (he s r)
  unfold kernel_message_queue_send message_queue_identifier_checking_of
  simp only []
  split_ifs <;>
    simp_all [toggle_flag, hq, setMem_flag, bool_not_eq_self, he2]

/-- The flag after `kernel_event_send`: it is the one at entry exactly when the call
returns `KERNEL_SUCCESS`. -/
theorem kernel_event_send_flag (call : Nat → Nat → Nat → Nat) (K : Kernel)
    (task_id event : Nat) :
    (kernel_event_send call K task_id event).2.g_kernel_critical_section_active =
        K.g_kernel_critical_section_active ↔
      (kernel_event_send call K task_id event).1 = KERNEL_SUCCESS := by
  have hq := fun (K2 : Kernel) (s e t : Nat) => (kernel_reinsert_task_frame K2 s e t).2.1
  have he := fun (s r : Nat) => ERROR_INFO_ne_zero s r KERNEL_UNABLE_TO_SEND_EVENTS
    (by decide) (by decide)
  have he2 : ∀ s r, (ERROR_INFO s r KERNEL_UNABLE_TO_SEND_EVENTS = 0) ↔ False :=
    fun s r => iff_false_intro (he s r)
  unfold kernel_event_send
  simp only []
  split_ifs <;>
    simp only [toggle_flag, hq, setMem_flag, Bool.not_not, true_iff, bool_not_eq_self,
      false_iff, he2, not_false_eq_true]

/-- The flag at the end of the first part of `kernel_event_receive_timeout`: it is the
one at entry exactly when the call has returned `KERNEL_SUCCESS`; at every other return
and at the call of `kernel_swap_task` the critical section is entered. -/
theorem kernel_event_receive_timeout_flag (fuel : Nat) (K : Kernel) (out : Nat) :
    match kernel_event_receive_timeout fuel K out with
    | none => True
    | some b =>
      (b.flag = K.g_kernel_critical_section_active ↔
        b.result.map Prod.fst = some KERNEL_SUCCESS) := by
  have he := fun (s r : Nat) => ERROR_INFO_ne_zero s r KERNEL_UNABLE_TO_RECEIVE_EVENTS
    (by decide) (by decide)
  have h25 : KERNEL_UNABLE_TO_RECEIVE_EVENTS ≠ KERNEL_SUCCESS := by decide
  unfold kernel_event_receive_timeout
  simp only []
  split_ifs with h1 h2 h3
  · simp [Blocking.flag, Blocking.result, kernel_event_receive_finish, setMem_flag,
      toggle_flag]
  · simp [Blocking.flag, Blocking.result, toggle_flag, bool_not_eq_self]
  · simp only [Blocking.flag, Blocking.result, toggle_flag, bool_not_eq_self, false_iff,
      Option.map_some', Option.some.injEq]
    exact he _ _
  · cases hs : kernel_delay_scan (kernel_toggle_critical_section K).g_running_task_current
        ((kernel_toggle_critical_section K).mem.task
          (kernel_toggle_critical_section K).g_running_task_current).event_register.timeout
        fuel (kernel_toggle_critical_section K).mem
        ((kernel_toggle_critical_section K).mem.list
          (kernel_toggle_critical_section K).g_delayed_tasks).tail 0 with
    | none => trivial
    | some s =>
      simp only []
      split_ifs
      · simp only [Blocking.flag, Blocking.result, setMem_flag, toggle_flag,
          bool_not_eq_self, false_iff, Option.map_some', Option.some.injEq]
        exact he _ _
      · simp only [Blocking.flag, Blocking.result, setMem_flag, toggle_flag,
          bool_not_eq_self, false_iff, Option.map_some', Option.some.injEq]
        exact he _ _
      · simp only [Blocking.flag, Blocking.result, setMem_flag, toggle_flag,
          bool_not_eq_self, false_iff, Option.map_some', Option.some.injEq]
        exact he _ _
      · simp [Blocking.flag, Blocking.result, setMem_flag, toggle_flag, bool_not_eq_self]
      · simp only [Blocking.flag, Blocking.result, setMem_flag, toggle_flag,
          bool_not_eq_self, false_iff, Option.map_some', Option.some.injEq]
        exact he _ _
      · simp [Blocking.flag, Blocking.result, setMem_flag, toggle_flag, bool_not_eq_self]

theorem same_tables_refl (m : Mem) : same_tables m m := ⟨rfl, rfl⟩

theorem same_tables_trans {m m1 m2 : Mem} (h1 : same_tables m m1) (h2 : same_tables m1 m2) :
    same_tables m m2 :=
  ⟨h2.1.trans h1.1, h2.2.trans h1.2⟩

theorem registry_kept_refl (K : Kernel) : registry_kept K K :=
  ⟨same_tables_refl _, same_globals_refl K⟩

theorem registry_kept_trans {K K1 K2 : Kernel} (h1 : registry_kept K K1)
    (h2 : registry_kept K1 K2) : registry_kept K K2 :=
  ⟨same_tables_trans h1.1 h2.1, same_globals_trans h1.2 h2.2⟩

theorem registry_kept_reinsert (K : Kernel) (s e t : Nat) :
    registry_kept K (kernel_reinsert_task K s e t).2 := by
  obtain ⟨f1, -, f3, f4, -⟩ := kernel_reinsert_task_frame K s e t
  exact ⟨⟨f3, f4⟩, f1⟩

/-- The lookup in a registry gives the same in two states with the same dictionaries. -/
theorem dictionary_get_same_tables {m m2 : Mem} (h : same_tables m m2) (d key v : Nat) :
    dictionary_get m2 d key v = dictionary_get m d key v :=
  dictionary_get_congr h.2 h.1 d key v

theorem linked_list_delete_loop_frame (l : Nat) : ∀ (fuel : Nat) (m m2 : Mem),
    linked_list_delete_loop l fuel m = some m2 → same_tables m m2 := by
  intro fuel
  induction fuel with
  | zero =>
    intro m m2 h
    simp [linked_list_delete_loop] at h
  | succ n ih =>
    intro m m2 h
    unfold linked_list_delete_loop at h
    split_ifs at h with h1
    · simp only [] at h
      have h2 := ih _ _ h
      exact same_tables_trans ⟨rfl, rfl⟩ h2
    · rw [← Option.some.inj h]
      exact same_tables_refl m

theorem linked_list_delete_frame (fuel : Nat) (m : Mem) (l : Nat) (r : Deleted)
    (h : linked_list_delete fuel m l = some r) : same_tables m r.mem := by
  unfold linked_list_delete at h
  split_ifs at h with h1
  · rw [← Option.some.inj h]
    exact same_tables_refl m
  · cases hl : linked_list_delete_loop l fuel m with
    | none => simp [hl] at h
    | some m2 =>
      rw [hl] at h
      simp only [] at h
      have hf := linked_list_delete_loop_frame l fuel m m2 hl
      split_ifs at h <;> (rw [← Option.some.inj h]; exact hf)

theorem semaphore_delete_frame (fuel : Nat) (m : Mem) (s : Nat) (r : Deleted)
    (h : semaphore_delete fuel m s = some r) : same_tables m r.mem := by
  unfold semaphore_delete at h
  split_ifs at h with h1
  · rw [← Option.some.inj h]
    exact same_tables_refl m
  · cases hl : linked_list_delete fuel m (m.semaphore s).task_waiting_list with
    | none => simp [hl] at h
    | some d =>
      rw [hl] at h
      simp only [] at h
      have hf := linked_list_delete_frame fuel m _ d hl
      split_ifs at h <;>
        (rw [← Option.some.inj h]; exact same_tables_trans hf ⟨rfl, rfl⟩)

theorem mutex_delete_frame (fuel : Nat) (m : Mem) (x : Nat) (r : Deleted)
    (h : mutex_delete fuel m x = some r) : same_tables m r.mem := by
  unfold mutex_delete at h
  split_ifs at h with h1
  · rw [← Option.some.inj h]
    exact same_tables_refl m
  · cases hl : semaphore_delete fuel m (m.mutex x).binary_semaphore with
    | none => simp [hl] at h
    | some d =>
      rw [hl] at h
      simp only [] at h
      have hf := semaphore_delete_frame fuel m _ d hl
      split_ifs at h <;>
        (rw [← Option.some.inj h]; exact same_tables_trans hf ⟨rfl, rfl⟩)

theorem kernel_delete_flush_frame (s : Nat) : ∀ (fuel : Nat) (K : Kernel) (r : Nat × Kernel),
    kernel_delete_flush s fuel K = some r → registry_kept K r.2 := by
  intro fuel
  induction fuel with
  | zero =>
    intro K r h
    simp [kernel_delete_flush] at h
  | succ n ih =>
    intro K r h
    unfold kernel_delete_flush at h
    simp only [] at h
    split_ifs at h with h1 h2
    · rw [← Option.some.inj h]
      exact registry_kept_reinsert K _ _ _
    · exact registry_kept_trans (registry_kept_reinsert K _ _ _) (ih _ _ h)
    · rw [← Option.some.inj h]
      exact registry_kept_refl K

theorem registry_kept_setMem {K K1 : Kernel} {m : Mem} (h : registry_kept K K1)
    (hm : same_tables K1.mem m) : registry_kept K (K1.setMem m) :=
  ⟨same_tables_trans h.1 hm, h.2⟩

/-- `kernel_semaphore_delete` writes no dictionary and no id counter, whatever it
returns. -/
theorem kernel_semaphore_delete_frame (fuel : Nat) (K : Kernel) (id : Nat)
    (r : Nat × Kernel × Nat) (h : kernel_semaphore_delete fuel K id = some r) :
    registry_kept K r.2.1 ∧
    (r.1 = KERNEL_SUCCESS →
      (dictionary_get K.mem K.g_semaphore_list id 0).1 = DICTIONARY_SUCCESS ∧ r.2.2 = 0) := by
  unfold kernel_semaphore_delete at h
  simp only [] at h
  split_ifs at h with h1
  · rw [← Option.some.inj h]
    refine ⟨registry_kept_refl K, fun hc => ?_⟩
    exact absurd hc (ERROR_INFO_ne_zero _ _ _ (by decide) (by decide))
  · cases hf : kernel_delete_flush (dictionary_get K.mem K.g_semaphore_list id 0).2 fuel K with
    | none => simp [hf] at h
    | some f =>
      rw [hf] at h
      simp only [] at h
      have hk := kernel_delete_flush_frame _ fuel K f hf
      split_ifs at h with h2
      · rw [← Option.some.inj h]
        exact ⟨hk, fun hc => absurd hc h2⟩
      · cases hd : semaphore_delete fuel f.2.mem (dictionary_get K.mem K.g_semaphore_list id 0).2 with
        | none => simp [hd] at h
        | some d =>
          rw [hd] at h
          simp only [] at h
          have hm := semaphore_delete_frame fuel _ _ d hd
          split_ifs at h with h3
          · rw [← Option.some.inj h]
            refine ⟨registry_kept_setMem hk hm, fun hc => ?_⟩
            exact absurd hc (ERROR_INFO_ne_zero _ _ _ (by decide) (by decide))
          · rw [← Option.some.inj h]
            exact ⟨registry_kept_setMem hk hm, fun _ => ⟨not_not.1 h1, rfl⟩⟩

/-- `kernel_mutex_delete` writes no dictionary and no id counter, whatever it returns. -/
theorem kernel_mutex_delete_frame (fuel : Nat) (K : Kernel) (id : Nat)
    (r : Nat × Kernel × Nat) (h : kernel_mutex_delete fuel K id = some r) :
    registry_kept K r.2.1 ∧
    (r.1 = KERNEL_SUCCESS →
      (dictionary_get K.mem K.g_mutex_list id 0).1 = DICTIONARY_SUCCESS ∧ r.2.2 = 0) := by
  unfold kernel_mutex_delete at h
  simp only [] at h
  split_ifs at h with h1
  · rw [← Option.some.inj h]
    refine ⟨registry_kept_refl K, fun hc => ?_⟩
    exact absurd hc (ERROR_INFO_ne_zero _ _ _ (by decide) (by decide))
  · cases hf : kernel_delete_flush
        (K.mem.mutex (dictionary_get K.mem K.g_mutex_list id 0).2).binary_semaphore fuel K with
    | none => simp [hf] at h
    | some f =>
      rw [hf] at h
      simp only [] at h
      have hk := kernel_delete_flush_frame _ fuel K f hf
      split_ifs at h with h2
      · rw [← Option.some.inj h]
        exact ⟨hk, fun hc => absurd hc h2⟩
      · cases hd : mutex_delete fuel f.2.mem (dictionary_get K.mem K.g_mutex_list id 0).2 with
        | none => simp [hd] at h
        | some d =>
          rw [hd] at h
          simp only [] at h
          have hm := mutex_delete_frame fuel _ _ d hd
          split_ifs at h with h3
          · rw [← Option.some.inj h]
            refine ⟨registry_kept_setMem hk hm, fun hc => ?_⟩
            exact absurd hc (ERROR_INFO_ne_zero _ _ _ (by decide) (by decide))
          · rw [← Option.some.inj h]
            exact ⟨registry_kept_setMem hk hm, fun _ => ⟨not_not.1 h1, rfl⟩⟩

/-- C29 (error paths return inside the critical section).  For the six facades the
critical-section flag at the return is compared with the flag at entry.
`kernel_semaphore_release` and `kernel_mutex_release` restore it exactly when they return
through the guard on the id or with `KERNEL_SUCCESS`;
`kernel_semaphore_acquire_non_blocking` restores it unless the id is below the maximum and
not registered; `kernel_message_queue_send` restores it exactly when it returns before it
has entered the section or with `KERNEL_SUCCESS`; `kernel_event_send` restores it exactly
when it returns `KERNEL_SUCCESS`; `kernel_event_receive_timeout` restores it, before the
caller is suspended, exactly when it returns `KERNEL_SUCCESS` (its returns for a timeout
of `0` and for an error leave the section entered), and after the resumption it returns
with the flag found at the resumption.  On every other return path the flag is inverted:
the `return` statements of the error paths come before the second
`kernel_toggle_critical_section`.  The last conjuncts show one such path for each facade,
entered with the flag clear and left with the flag set: an id that is not registered
(semaphore and mutex facades), a send to a full queue, an unknown task id, and a wait for
events with the timeout `0`. -/
theorem facades_keep_critical_section_on_error :
    (∀ (K : Kernel) (id : Nat),
      (kernel_semaphore_release K id).2.g_kernel_critical_section_active =
          K.g_kernel_critical_section_active ↔
        (id ≥ KERNEL_MAX_SEMAPHORE ∨ (kernel_semaphore_release K id).1 = KERNEL_SUCCESS)) ∧
    (∀ (K : Kernel) (id : Nat),
      (kernel_semaphore_acquire_non_blocking K id).2.g_kernel_critical_section_active =
          K.g_kernel_critical_section_active ↔
        (id ≥ KERNEL_MAX_SEMAPHORE ∨
          (dictionary_get K.mem K.g_semaphore_list id 0).1 = DICTIONARY_SUCCESS)) ∧
    (∀ (K : Kernel) (id : Nat),
      (kernel_mutex_release K id).2.g_kernel_critical_section_active =
          K.g_kernel_critical_section_active ↔
        (id ≥ KERNEL_MAX_MUTEX ∨ (kernel_mutex_release K id).1 = KERNEL_SUCCESS)) ∧
    (∀ (K : Kernel) (message_queue_identifier id message element_size : Nat) (urgent : Bool),
      (kernel_message_queue_send K message_queue_identifier id message element_size
          urgent).2.g_kernel_critical_section_active = K.g_kernel_critical_section_active ↔
        (message_queue_identifier = 0 ∨
          (dictionary_get K.mem K.g_message_queue_list id 0).1 ≠ DICTIONARY_SUCCESS ∨
          (kernel_message_queue_send K message_queue_identifier id message element_size
            urgent).1 = KERNEL_SUCCESS)) ∧
    (∀ (call : Nat → Nat → Nat → Nat) (K : Kernel) (task_id event : Nat),
      (kernel_event_send call K task_id event).2.g_kernel_critical_section_active =
          K.g_kernel_critical_section_active ↔
        (kernel_event_send call K task_id event).1 = KERNEL_SUCCESS) ∧
    (∀ (fuel : Nat) (K : Kernel) (out : Nat),
      match kernel_event_receive_timeout fuel K out with
      | none => True
      | some b =>
        (b.flag = K.g_kernel_critical_section_active ↔
          b.result.map Prod.fst = some KERNEL_SUCCESS)) ∧
    (∀ (K : Kernel) (w : Nat),
      (kernel_event_receive_timeout_resume K w).2.2.g_kernel_critical_section_active =
        K.g_kernel_critical_section_active) ∧
    kernel_example.g_kernel_critical_section_active = false ∧
    kernel_example_mq_full.g_kernel_critical_section_active = false ∧
    kernel_example_no_timeout.g_kernel_critical_section_active = false ∧
    (kernel_semaphore_release kernel_example 5).2.g_kernel_critical_section_active = true ∧
    (kernel_semaphore_acquire_non_blocking kernel_example
      5).2.g_kernel_critical_section_active = true ∧
    (kernel_mutex_release kernel_example 5).2.g_kernel_critical_section_active = true ∧
    (kernel_message_queue_send kernel_example_mq_full 1 0 500 2
      false).2.g_kernel_critical_section_active = true ∧
    (kernel_event_send notification_condition kernel_example 9
      8).2.g_kernel_critical_section_active = true ∧
    (kernel_event_receive_timeout 5 kernel_example_no_timeout 0).map
      (fun b => (b.result, b.flag)) = some (some (KERNEL_UNABLE_TO_RECEIVE_EVENTS, 0), true) := by
  refine ⟨kernel_semaphore_release_flag, kernel_semaphore_acquire_non_blocking_flag,
    kernel_mutex_release_flag, kernel_message_queue_send_flag, kernel_event_send_flag,
    kernel_event_receive_timeout_flag, ?_, rfl, rfl, rfl, by decide!, by decide!, by decide!,
    by decide!, by decide!, by decide!⟩
  intro K w
  unfold kernel_event_receive_timeout_resume kernel_event_receive_finish
  exact toggle_toggle_flag K

/-- An optional result with a known status and a known `*id` is the result with the state
that `getD` yields. -/
theorem option_triple_eq (o : Option (Nat × Kernel × Nat)) (d : Nat × Kernel × Nat)
    (s i : Nat) (h : o.map (fun r => (r.1, r.2.2)) = some (s, i)) :
    o = some (s, (o.getD d).2.1, i) := by
  cases o with
  | none => simp at h
  | some r =>
    obtain ⟨a, b, c⟩ := r
    simp only [Option.map_some', Option.some.injEq, Prod.mk.injEq] at h
    simp [h.1, h.2]

/-- `kernel_semaphore_create`, when it succeeds, hands out the value of the id counter
and increments the counter. -/
theorem kernel_semaphore_create_id (K : Kernel) (a al id tokens : Nat)
    (h : (kernel_semaphore_create K a al id tokens).1 = KERNEL_SUCCESS) :
    (kernel_semaphore_create K a al id tokens).2.2 = K.g_semaphore_ids ∧
    (kernel_semaphore_create K a al id tokens).2.1.g_semaphore_ids
      = size_t_inc K.g_semaphore_ids := by
  have hn : KERNEL_UNABLE_TO_ADD_SEMAPHORE ≠ KERNEL_SUCCESS := by decide
  have he : ∀ s r, ERROR_INFO s r KERNEL_UNABLE_TO_ADD_SEMAPHORE ≠ KERNEL_SUCCESS :=
    fun s r => ERROR_INFO_ne_zero s r _ (by decide) (by decide)
  unfold kernel_semaphore_create at h ⊢
  simp only [] at h ⊢
  split_ifs at h ⊢
  all_goals first
    | exact absurd h hn
    | exact absurd h (he _ _)
    | exact ⟨rfl, rfl⟩

/-- `kernel_mutex_create`, when it succeeds, hands out the value of the id counter and
increments the counter. -/
theorem kernel_mutex_create_id (K : Kernel) (a as al id : Nat)
    (h : (kernel_mutex_create K a as al id).1 = KERNEL_SUCCESS) :
    (kernel_mutex_create K a as al id).2.2 = K.g_mutex_ids ∧
    (kernel_mutex_create K a as al id).2.1.g_mutex_ids = size_t_inc K.g_mutex_ids := by
  have hn : KERNEL_UNABLE_TO_CREATE_MUTEX ≠ KERNEL_SUCCESS := by decide
  have he : ∀ s r, ERROR_INFO s r KERNEL_UNABLE_TO_CREATE_MUTEX ≠ KERNEL_SUCCESS :=
    fun s r => ERROR_INFO_ne_zero s r _ (by decide) (by decide)
  unfold kernel_mutex_create at h ⊢
  simp only [] at h ⊢
  split_ifs at h ⊢
  all_goals first
    | exact absurd h hn
    | exact absurd h (he _ _)
    | exact ⟨rfl, rfl⟩

/-- C30 (the slot is not cleared).  Whenever `kernel_semaphore_delete` succeeds for the
id `id` (it then sets `*id` to `0`), the dictionaries are as before the call: the registry
lookup of `id` still returns `DICTIONARY_SUCCESS` with the pointer to the released
semaphore, not `DICTIONARY_VALUE_IS_NULL`, so a later facade call on `id` passes the
lookup and works on the released block.  The id counter is unchanged (not decreased), and
a later `kernel_semaphore_create` that succeeds hands out the value of the counter and
increments it.  The same holds for `kernel_mutex_delete`, `g_mutex_list` and
`g_mutex_ids`. -/
theorem kernel_delete_keeps_registry_slot (fuel : Nat) (K K2 : Kernel) (id out : Nat) :
    (kernel_semaphore_delete fuel K id = some (KERNEL_SUCCESS, K2, out) →
      out = 0 ∧
      (∀ key old, dictionary_get K2.mem K2.g_semaphore_list key old
        = dictionary_get K.mem K.g_semaphore_list key old) ∧
      (dictionary_get K2.mem K2.g_semaphore_list id 0).1 = DICTIONARY_SUCCESS ∧
      (dictionary_get K2.mem K2.g_semaphore_list id 0).2 ≠ 0 ∧
      (dictionary_get K2.mem K2.g_semaphore_list id 0).1 ≠ DICTIONARY_VALUE_IS_NULL ∧
      K2.g_semaphore_ids = K.g_semaphore_ids ∧
      (∀ a al i0 tokens, (kernel_semaphore_create K2 a al i0 tokens).1 = KERNEL_SUCCESS →
        (kernel_semaphore_create K2 a al i0 tokens).2.2 = K.g_semaphore_ids ∧
        (kernel_semaphore_create K2 a al i0 tokens).2.1.g_semaphore_ids
          = size_t_inc K.g_semaphore_ids)) ∧
    (kernel_mutex_delete fuel K id = some (KERNEL_SUCCESS, K2, out) →
      out = 0 ∧
      (∀ key old, dictionary_get K2.mem K2.g_mutex_list key old
        = dictionary_get K.mem K.g_mutex_list key old) ∧
      (dictionary_get K2.mem K2.g_mutex_list id 0).1 = DICTIONARY_SUCCESS ∧
      (dictionary_get K2.mem K2.g_mutex_list id 0).2 ≠ 0 ∧
      (dictionary_get K2.mem K2.g_mutex_list id 0).1 ≠ DICTIONARY_VALUE_IS_NULL ∧
      K2.g_mutex_ids = K.g_mutex_ids ∧
      (∀ a as al i0, (kernel_mutex_create K2 a as al i0).1 = KERNEL_SUCCESS →
        (kernel_mutex_create K2 a as al i0).2.2 = K.g_mutex_ids ∧
        (kernel_mutex_create K2 a as al i0).2.1.g_mutex_ids = size_t_inc K.g_mutex_ids)) := by
  constructor
  · intro h
    obtain ⟨⟨ht, hg⟩, hs⟩ := kernel_semaphore_delete_frame fuel K id _ h
    obtain ⟨hs1, hs2⟩ := hs rfl
    have hl : K2.g_semaphore_list = K.g_semaphore_list := hg.2.2.2.2.2.2.2.1
    have hi : K2.g_semaphore_ids = K.g_semaphore_ids := hg.2.2.2.2.2.2.2.2.1
    have hget : ∀ key old, dictionary_get K2.mem K2.g_semaphore_list key old
        = dictionary_get K.mem K.g_semaphore_list key old := by
      intro key old
      rw [hl]
      exact dictionary_get_same_tables ht _ key old
    refine ⟨hs2, hget, (congrArg Prod.fst (hget id 0)).trans hs1, ?_, ?_, hi, ?_⟩
    · rw [hget id 0]
      exact (dictionary_get_success (x := (dictionary_get K.mem K.g_semaphore_list id 0).2)
        (Prod.ext hs1 rfl)).1
    · rw [hget id 0, hs1]
      decide
    · intro a al i0 tokens hc
      rw [← hi]
      exact kernel_semaphore_create_id K2 a al i0 tokens hc
  · intro h
    obtain ⟨⟨ht, hg⟩, hs⟩ := kernel_mutex_delete_frame fuel K id _ h
    obtain ⟨hs1, hs2⟩ := hs rfl
    have hl : K2.g_mutex_list = K.g_mutex_list := hg.2.2.2.2.2.2.2.2.2.1
    have hi : K2.g_mutex_ids = K.g_mutex_ids := hg.2.2.2.2.2.2.2.2.2.2.1
    have hget : ∀ key old, dictionary_get K2.mem K2.g_mutex_list key old
        = dictionary_get K.mem K.g_mutex_list key old := by
      intro key old
      rw [hl]
      exact dictionary_get_same_tables ht _ key old
    refine ⟨hs2, hget, (congrArg Prod.fst (hget id 0)).trans hs1, ?_, ?_, hi, ?_⟩
    · rw [hget id 0]
      exact (dictionary_get_success (x := (dictionary_get K.mem K.g_mutex_list id 0).2)
        (Prod.ext hs1 rfl)).1
    · rw [hget id 0, hs1]
      decide
    · intro a as al i0 hc
      rw [← hi]
      exact kernel_mutex_create_id K2 a as al i0 hc

theorem kernel_delete_keeps_registry_slot_witness :
    kernel_semaphore_delete 2 kernel_example 0
      = some (KERNEL_SUCCESS, kernel_example_semaphore_deleted, 0) ∧
    dictionary_get kernel_example_semaphore_deleted.mem
      kernel_example_semaphore_deleted.g_semaphore_list 0 0 = (DICTIONARY_SUCCESS, 1) ∧
    kernel_example_semaphore_deleted.g_semaphore_ids = 1 ∧
    kernel_mutex_delete 2 kernel_example 0
      = some (KERNEL_SUCCESS, kernel_example_mutex_deleted, 0) ∧
    dictionary_get kernel_example_mutex_deleted.mem
      kernel_example_mutex_deleted.g_mutex_list 0 0 = (DICTIONARY_SUCCESS, 5) ∧
    kernel_example_mutex_deleted.g_mutex_ids = 1 := by
  have hs : kernel_semaphore_delete 2 kernel_example 0
      = some (KERNEL_SUCCESS, kernel_example_semaphore_deleted, 0) :=
    option_triple_eq _ (1, kernel_example, 1) 0 0 (by decide!)
  have hm : kernel_mutex_delete 2 kernel_example 0
      = some (KERNEL_SUCCESS, kernel_example_mutex_deleted, 0) :=
    option_triple_eq _ (1, kernel_example, 1) 0 0 (by decide!)
  have ks := (kernel_delete_keeps_registry_slot 2 kernel_example
    kernel_example_semaphore_deleted 0 0).1 hs
  have km := (kernel_delete_keeps_registry_slot 2 kernel_example
    kernel_example_mutex_deleted 0 0).2 hm
  refine ⟨hs, ?_, ks.2.2.2.2.2.1, hm, ?_, km.2.2.2.2.2.1⟩
  · rw [ks.2.1 0 0]
    decide
  · rw [km.2.1 0 0]
    decide

/-! ## Claims on the critical section, the status machine and the composite codes -/

/-- C36 (the toggle unmasks on entry).  `kernel_toggle_critical_section` inverts the flag,
but it calls `kernel_disable_interrupts` when the flag is set at entry and
`kernel_enable_interrupts` when the flag is clear at entry: after every call the
interrupts are enabled exactly when the flag is set.  Called with the flag clear it
leaves the flag set and the interrupts enabled; called with the flag set it leaves the
flag clear and the interrupts disabled.  So in every state reached by a toggle, flag set
implies interrupts enabled, and flag clear implies interrupts disabled; `kernel_example`
enters the critical section with the interrupts enabled. -/
theorem kernel_toggle_critical_section_unmasks (K : Kernel) :
    (kernel_toggle_critical_section K).g_kernel_critical_section_active
      = !K.g_kernel_critical_section_active ∧
    (kernel_toggle_critical_section K).interrupts_enabled
      = (kernel_toggle_critical_section K).g_kernel_critical_section_active ∧
    (kernel_toggle_critical_section K).interrupts_enabled
      = !K.g_kernel_critical_section_active ∧
    (kernel_toggle_critical_section (kernel_toggle_critical_section K)).interrupts_enabled
      = K.g_kernel_critical_section_active ∧
    kernel_example.g_kernel_critical_section_active = false ∧
    (kernel_toggle_critical_section kernel_example).g_kernel_critical_section_active = true ∧
    (kernel_toggle_critical_section kernel_example).interrupts_enabled = true := by
  refine ⟨?_, ?_, ?_, ?_, rfl, rfl, rfl⟩
  all_goals
    unfold kernel_toggle_critical_section
    cases h : K.g_kernel_critical_section_active <;> simp [h]

/-- C37, counterexample: in `kernel_example` the status is Running.  The call
`kernel_set_status(EN_KERNEL_ERROR)` does not return, and the call
`kernel_set_status(EN_KERNEL_STARTING)`, a transition that is not allowed, does not
return either. -/
theorem kernel_set_status_error_request_blocks :
    kernel_example.g_kernel_status = EN_KERNEL_RUNNING ∧
    kernel_set_status kernel_example EN_KERNEL_ERROR = none ∧
    kernel_set_status kernel_example EN_KERNEL_STARTING = none :=
  ⟨rfl, rfl, rfl⟩

/-- C37 (amended: every other request blocks).  `kernel_set_status` returns, with
`KERNEL_SUCCESS` and the requested status stored, exactly for the four transitions
NotInitialized to Starting, Starting to Running, Idle to Running and Running to Idle.
For every other request the call does not return; this includes every request of
`EN_KERNEL_ERROR`, from whatever status, which falls into the `default` branch of the
`switch`.  In `kernel_example`, whose status is Running, the request of Idle returns with
the status Idle. -/
theorem kernel_set_status_transitions (K : Kernel) (status : Nat) :
    kernel_set_status K EN_KERNEL_ERROR = none ∧
    (kernel_set_status K status = some (KERNEL_SUCCESS, { K with g_kernel_status := status }) ↔
      ((K.g_kernel_status = EN_KERNEL_NOT_INITIALIZED ∧ status = EN_KERNEL_STARTING) ∨
       (K.g_kernel_status = EN_KERNEL_STARTING ∧ status = EN_KERNEL_RUNNING) ∨
       (K.g_kernel_status = EN_KERNEL_IDLE ∧ status = EN_KERNEL_RUNNING) ∨
       (K.g_kernel_status = EN_KERNEL_RUNNING ∧ status = EN_KERNEL_IDLE))) ∧
    (kernel_set_status K status = none ↔
      ¬ ((K.g_kernel_status = EN_KERNEL_NOT_INITIALIZED ∧ status = EN_KERNEL_STARTING) ∨
       (K.g_kernel_status = EN_KERNEL_STARTING ∧ status = EN_KERNEL_RUNNING) ∨
       (K.g_kernel_status = EN_KERNEL_IDLE ∧ status = EN_KERNEL_RUNNING) ∨
       (K.g_kernel_status = EN_KERNEL_RUNNING ∧ status = EN_KERNEL_IDLE))) ∧
    (kernel_set_status kernel_example EN_KERNEL_IDLE).map (fun r => (r.1, r.2.g_kernel_status))
      = some (KERNEL_SUCCESS, EN_KERNEL_IDLE) := by
  have hE : kernel_set_status K EN_KERNEL_ERROR = none := by
    unfold kernel_set_status
    simp
  refine ⟨hE, ?_, ?_, by decide⟩
  · unfold kernel_set_status
    by_cases h1 : status = EN_KERNEL_STARTING
    · subst h1
      by_cases h : K.g_kernel_status = EN_KERNEL_NOT_INITIALIZED <;> simp [h]
    · by_cases h2 : status = EN_KERNEL_RUNNING
      · subst h2
        by_cases h : K.g_kernel_status = EN_KERNEL_STARTING <;>
          by_cases h' : K.g_kernel_status = EN_KERNEL_IDLE <;> simp [h, h']
      · by_cases h3 : status = EN_KERNEL_IDLE
        · subst h3
          by_cases h : K.g_kernel_status = EN_KERNEL_RUNNING <;> simp [h]
        · simp [h1, h2, h3]
  · unfold kernel_set_status
    by_cases h1 : status = EN_KERNEL_STARTING
    · subst h1
      by_cases h : K.g_kernel_status = EN_KERNEL_NOT_INITIALIZED <;> simp [h]
    · by_cases h2 : status = EN_KERNEL_RUNNING
      · subst h2
        by_cases h : K.g_kernel_status = EN_KERNEL_STARTING <;>
          by_cases h' : K.g_kernel_status = EN_KERNEL_IDLE <;> simp [h, h']
      · by_cases h3 : status = EN_KERNEL_IDLE
        · subst h3
          by_cases h : K.g_kernel_status = EN_KERNEL_RUNNING <;> simp [h]
        · simp [h1, h2, h3]

/-- The composite code when the reason fits below the register: the sub-component status
and the reason occupy disjoint bits. -/
theorem ERROR_INFO_disjoint (s r c : Nat) (hc : c < 2 ^ r) (hs : s * 2 ^ r + c < SIZE_T_MOD) :
    ERROR_INFO s r c = s * 2 ^ r + c := by
  unfold ERROR_INFO
  rw [Nat.shiftLeft_eq, Nat.mul_comm s, ← Nat.mul_add_lt_is_or hc, Nat.mul_comm (2 ^ r)]
  exact Nat.mod_eq_of_lt hs

/-- C35 (composite codes collide).  `KERNEL_DICTIONARY_ERROR_REGISTER` is
`DICTIONARY_NO_MEMORY = 1` and `KERNEL_LINK_LIST_ERROR_REGISTER` is `4`, while the reasons
of the kernel go up to `43` and need six bits: the shifted sub-component status overlaps
the reason.  `kernel_semaphore_release` with an id that is not registered returns
`ERROR_INFO(DICTIONARY_VALUE_IS_NULL, 1, KERNEL_UNABLE_TO_RELEASE_SEMAPHORE) = 11`, the
plain reason that the guard on the id returns.  The pairs
`(DICTIONARY_NO_MEMORY, KERNEL_UNABLE_TO_ADD_SEMAPHORE)` and
`(DICTIONARY_VALUE_IS_NULL, KERNEL_UNABLE_TO_ADD_TASK)` both give `11`; for every status
`1, ..., 4` of the dictionary there is a reason that absorbs it.  When the reason is below
`2 ^ r` and the shifted status fits into `size_t`, the code is `s * 2 ^ r + c`, from which
`s` and `c` are recovered by division: this is the case for the registers of the task
(`7`), the message queue (`11`), the semaphore (`14`) and the mutex (`18`) with every
reason up to `43`. -/
theorem ERROR_INFO_not_decodable :
    (kernel_semaphore_release kernel_example 5).1
      = ERROR_INFO DICTIONARY_VALUE_IS_NULL KERNEL_DICTIONARY_ERROR_REGISTER
          KERNEL_UNABLE_TO_RELEASE_SEMAPHORE ∧
    ERROR_INFO DICTIONARY_VALUE_IS_NULL KERNEL_DICTIONARY_ERROR_REGISTER
      KERNEL_UNABLE_TO_RELEASE_SEMAPHORE = KERNEL_UNABLE_TO_RELEASE_SEMAPHORE ∧
    (kernel_semaphore_release kernel_example KERNEL_MAX_SEMAPHORE).1
      = KERNEL_UNABLE_TO_RELEASE_SEMAPHORE ∧
    ERROR_INFO DICTIONARY_NO_MEMORY KERNEL_DICTIONARY_ERROR_REGISTER
        KERNEL_UNABLE_TO_ADD_SEMAPHORE
      = ERROR_INFO DICTIONARY_VALUE_IS_NULL KERNEL_DICTIONARY_ERROR_REGISTER
          KERNEL_UNABLE_TO_ADD_TASK ∧
    ERROR_INFO DICTIONARY_NO_MEMORY KERNEL_DICTIONARY_ERROR_REGISTER
        KERNEL_UNABLE_TO_ACQUIRE_SEMAPHORE
      = ERROR_INFO DICTIONARY_VALUE_IS_NULL KERNEL_DICTIONARY_ERROR_REGISTER
          KERNEL_UNABLE_TO_ACQUIRE_SEMAPHORE ∧
    ERROR_INFO LINKED_LIST_NO_MEMORY KERNEL_LINK_LIST_ERROR_REGISTER
      KERNEL_UNABLE_TO_DELAY_TASK = KERNEL_UNABLE_TO_DELAY_TASK ∧
    (List.range 5).tail.all (fun s => (List.range 44).tail.any (fun c =>
      ERROR_INFO s KERNEL_DICTIONARY_ERROR_REGISTER c == c)) = true ∧
    (∀ s r c, c < 2 ^ r → s * 2 ^ r + c < SIZE_T_MOD →
      ERROR_INFO s r c = s * 2 ^ r + c ∧ ERROR_INFO s r c / 2 ^ r = s ∧
      ERROR_INFO s r c % 2 ^ r = c) ∧
    (∀ s c, c ≤ 43 → s < 2 ^ 14 →
      (ERROR_INFO s KERNEL_TASK_ERROR_REGISTER c / 2 ^ 7 = s ∧
        ERROR_INFO s KERNEL_TASK_ERROR_REGISTER c % 2 ^ 7 = c) ∧
      (ERROR_INFO s KERNEL_MESSAGE_QUEUE_ERROR_REGISTER c / 2 ^ 11 = s ∧
        ERROR_INFO s KERNEL_MESSAGE_QUEUE_ERROR_REGISTER c % 2 ^ 11 = c) ∧
      (ERROR_INFO s KERNEL_SEMAPHORE_ERROR_REGISTER c / 2 ^ 14 = s ∧
        ERROR_INFO s KERNEL_SEMAPHORE_ERROR_REGISTER c % 2 ^ 14 = c) ∧
      (ERROR_INFO s KERNEL_MUTEX_ERROR_REGISTER c / 2 ^ 18 = s ∧
        ERROR_INFO s KERNEL_MUTEX_ERROR_REGISTER c % 2 ^ 18 = c)) := by
  have key : ∀ s r c, c < 2 ^ r → s * 2 ^ r + c < SIZE_T_MOD →
      ERROR_INFO s r c = s * 2 ^ r + c ∧ ERROR_INFO s r c / 2 ^ r = s ∧
      ERROR_INFO s r c % 2 ^ r = c := by
    intro s r c hc hs
    have hp : 0 < 2 ^ r := Nat.two_pow_pos r
    rw [ERROR_INFO_disjoint s r c hc hs]
    refine ⟨rfl, ?_, ?_⟩
    · rw [Nat.add_comm, Nat.add_mul_div_right _ _ hp, Nat.div_eq_of_lt hc, Nat.zero_add]
    · rw [Nat.add_comm, Nat.add_mul_mod_self_right, Nat.mod_eq_of_lt hc]
  refine ⟨by decide!, by decide, by decide, by decide, by decide, by decide, by decide!, key,
    ?_⟩
  intro s c hc hs
  have h7 := key s 7 c (by omega) (by
    show s * 2 ^ 7 + c < 4294967296
    omega)
  have h11 := key s 11 c (by omega) (by
    show s * 2 ^ 11 + c < 4294967296
    omega)
  have h14 := key s 14 c (by
    show c < 16384
    omega) (by
    show s * 2 ^ 14 + c < 4294967296
    omega)
  have h18 := key s 18 c (by
    show c < 262144
    omega) (by
    show s * 2 ^ 18 + c < 4294967296
    omega)
  exact ⟨h7.2, h11.2, h14.2, h18.2⟩

theorem ERROR_INFO_not_decodable_witness :
    ERROR_INFO TASK_DATA_NO_MEMORY KERNEL_TASK_ERROR_REGISTER KERNEL_UNABLE_TO_SCHEDULE_TASK
      = 272 ∧
    ERROR_INFO TASK_DATA_NO_MEMORY KERNEL_TASK_ERROR_REGISTER KERNEL_UNABLE_TO_SCHEDULE_TASK
      / 2 ^ 7 = TASK_DATA_NO_MEMORY ∧
    ERROR_INFO TASK_DATA_NO_MEMORY KERNEL_TASK_ERROR_REGISTER KERNEL_UNABLE_TO_SCHEDULE_TASK
      % 2 ^ 7 = KERNEL_UNABLE_TO_SCHEDULE_TASK :=
  ERROR_INFO_not_decodable.2.2.2.2.2.2.2.1 TASK_DATA_NO_MEMORY KERNEL_TASK_ERROR_REGISTER
    KERNEL_UNABLE_TO_SCHEDULE_TASK (by decide) (by decide)

/-! ## Claims on the promotion of priority groups -/

/-- A list that is empty in the sense of `IsList` has the header `⟨0, 0, 0⟩`. -/
theorem isList_nil_iff (E : Nat → linked_list_element_t) (l : linked_list_t) :
    IsList E l [] ↔ l = ⟨0, 0, 0⟩ := by
  constructor
  · rintro ⟨-, -, h1, h2, h3⟩
    cases l
    simp only [List.headD_nil, List.getLastD_nil, List.length_nil] at h1 h2 h3
    subst h1 h2 h3
    rfl
  · rintro rfl
    exact ⟨List.nodup_nil, trivial, rfl, rfl, rfl⟩

/-- `task_set_state` on a valid task with the state `Ready`. -/
theorem task_set_state_ready {m : Mem} {t : Nat} (h : task_checking m t = TASK_SUCCESS) :
    task_set_state m t TaskState_Ready = (TASK_SUCCESS, m.setTaskState t TaskState_Ready) := by
  unfold task_set_state
  rw [if_neg (fun hc => hc h)]
  simp

/-- `task_checking` looks at the task store only. -/
theorem task_checking_of_task {m m2 : Mem} (h : m2.task = m.task) (t : Nat) :
    task_checking m2 t = task_checking m t := by
  unfold task_checking
  rw [h]

/-- `task_reset_time_quantum_remaining` changes the tasks only and keeps `task_data`. -/
theorem task_reset_time_quantum_remaining_frame (m : Mem) (t : Nat) :
    OnlyTasks m (task_reset_time_quantum_remaining m t).2 ∧
    (∀ x, task_checking (task_reset_time_quantum_remaining m t).2 x = task_checking m x) ∧
    (task_reset_time_quantum_remaining m t).2.tcb = m.tcb ∧
    (task_reset_time_quantum_remaining m t).1 = task_checking m t := by
  unfold task_reset_time_quantum_remaining
  split_ifs with h
  · exact ⟨onlyTasks_refl m, fun _ => rfl, rfl, rfl⟩
  · refine ⟨onlyTasks_setTask _ _ _, ?_, rfl, (not_not.1 h).symm⟩
    intro x
    unfold task_checking Mem.setTimeQuantumRemaining Mem.setTask
    by_cases hx : x = t
    · subst hx
      simp
    · simp [Function.update, hx]

/-- The result of `task_set_state` on a task that is null or valid is `TASK_SUCCESS` or
`TASK_NO_MEMORY`. -/
theorem task_set_state_ready_status (m : Mem) (t : Nat)
    (h : t = 0 ∨ task_checking m t = TASK_SUCCESS) :
    (task_set_state m t TaskState_Ready).1 = TASK_SUCCESS ∨
      (task_set_state m t TaskState_Ready).1 = TASK_NO_MEMORY := by
  rcases h with h | h
  · subst h
    right
    simp [task_set_state, task_checking]
  · left
    rw [task_set_state_ready h]

/-- The first half of `kernel_start_task` on a valid task, the running task being valid
or null: only tasks and control blocks are written, the previous task is recorded, and
the function goes on with the promotion block and the selection of the next task. -/
theorem kernel_start_task_prelude (K : Kernel) (pg e t : Nat)
    (ht : task_checking K.mem t = TASK_SUCCESS)
    (hp : K.g_running_task_current = 0 ∨
      task_checking K.mem K.g_running_task_current = TASK_SUCCESS) :
    ∃ m1, OnlyTasks K.mem m1 ∧
      kernel_start_task K pg e t =
        if (kernel_start_task_inheritance
            { K with mem := m1, g_running_task_previous := K.g_running_task_current }).1
            ≠ KERNEL_SUCCESS then
          some (kernel_start_task_inheritance
            { K with mem := m1, g_running_task_previous := K.g_running_task_current })
        else
          some (KERNEL_SUCCESS, kernel_start_task_select (kernel_start_task_inheritance
            { K with mem := m1, g_running_task_previous := K.g_running_task_current }).2
            pg e t) := by
  have h1 := task_set_state_ready ht
  have o1 : OnlyTasks K.mem (K.mem.setTaskState t TaskState_Ready) := onlyTasks_setTcb _ _ _
  have c1 : ∀ x, task_checking (K.mem.setTaskState t TaskState_Ready) x = task_checking K.mem x :=
    fun x => task_checking_of_task rfl x
  obtain ⟨o2, c2, -, s2⟩ := task_reset_time_quantum_remaining_frame
    (K.mem.setTaskState t TaskState_Ready) t
  have s2' : (task_reset_time_quantum_remaining (K.mem.setTaskState t TaskState_Ready) t).1
      = TASK_SUCCESS := by rw [s2, c1, ht]
  have hp2 : K.g_running_task_current = 0 ∨ task_checking
      (task_reset_time_quantum_remaining (K.mem.setTaskState t TaskState_Ready) t).2
      K.g_running_task_current = TASK_SUCCESS := by
    rcases hp with hp | hp
    · exact Or.inl hp
    · right
      rw [c2, c1, hp]
  have s3 := task_set_state_ready_status
    (task_reset_time_quantum_remaining (K.mem.setTaskState t TaskState_Ready) t).2
    K.g_running_task_current hp2
  have o3 := onlyTasks_task_set_state
    (task_reset_time_quantum_remaining (K.mem.setTaskState t TaskState_Ready) t).2
    K.g_running_task_current TaskState_Ready
  by_cases hq : K.g_running_task_current ≠ 0 ∧
      ((task_reset_time_quantum_remaining (K.mem.setTaskState t TaskState_Ready) t).2.tcb
        ((task_reset_time_quantum_remaining (K.mem.setTaskState t TaskState_Ready) t).2.task
          K.g_running_task_current).task_data).eTaskState ≠ TaskState_Blocked
  · refine ⟨(task_set_state (task_reset_time_quantum_remaining
      (K.mem.setTaskState t TaskState_Ready) t).2 K.g_running_task_current TaskState_Ready).2,
      onlyTasks_trans (onlyTasks_trans o1 o2) o3, ?_⟩
    have hs : ¬ ((task_set_state (task_reset_time_quantum_remaining
        (K.mem.setTaskState t TaskState_Ready) t).2 K.g_running_task_current
        TaskState_Ready).1 ≠ TASK_SUCCESS ∧
      (task_set_state (task_reset_time_quantum_remaining
        (K.mem.setTaskState t TaskState_Ready) t).2 K.g_running_task_current
        TaskState_Ready).1 ≠ TASK_NO_MEMORY) := by
      rcases s3 with s3 | s3
      · exact fun hc => hc.1 s3
      · exact fun hc => hc.2 s3
    unfold kernel_start_task
    simp only []
    rw [h1]
    simp only [Kernel.setMem]
    rw [if_neg (fun hc => hc rfl), if_neg (fun hc => hc s2'), if_pos hq, if_neg hs]
  · refine ⟨(task_reset_time_quantum_remaining (K.mem.setTaskState t TaskState_Ready) t).2,
      onlyTasks_trans o1 o2, ?_⟩
    unfold kernel_start_task
    simp only []
    rw [h1]
    simp only [Kernel.setMem]
    rw [if_neg (fun hc => hc rfl), if_neg (fun hc => hc s2'), if_neg hq,
      if_neg (fun hc => hc.1 rfl)]

/-- The error exit of `kernel_start_task` never returns. -/
theorem kernel_start_task_error_none (K : Kernel) (s : Nat) :
    kernel_start_task_error K s = none := by
  unfold kernel_start_task_error kernel_set_status
  simp

/-- The selection of the next task writes neither the memory nor the bookkeeping of the
promotion. -/
theorem kernel_start_task_select_frame (K : Kernel) (pg e t : Nat) :
    (kernel_start_task_select K pg e t).mem = K.mem ∧
    (kernel_start_task_select K pg e t).inheritance_cooldown = K.inheritance_cooldown ∧
    (kernel_start_task_select K pg e t).g_task_lower_priority = K.g_task_lower_priority ∧
    (kernel_start_task_select K pg e t).g_task_lowest_priority = K.g_task_lowest_priority := by
  unfold kernel_start_task_select
  simp only []
  split_ifs <;> exact ⟨rfl, rfl, rfl, rfl⟩

/-- The promotion block while the cooldown is not `0`: nothing but the reset of the
promotion target happens. -/
theorem kernel_start_task_inheritance_idle (K : Kernel)
    (h : K.inheritance_cooldown ≠ 0 ∨
      (if K.g_task_lower_priority ≤ K.g_dictionary_priority then K.g_task_lowest_priority
        else K.g_task_lower_priority) ≤ K.g_dictionary_priority) :
    (kernel_start_task_inheritance K).1 = KERNEL_SUCCESS ∧
    (kernel_start_task_inheritance K).2.mem = K.mem ∧
    (kernel_start_task_inheritance K).2.inheritance_cooldown = K.inheritance_cooldown ∧
    (kernel_start_task_inheritance K).2.g_task_lower_priority =
      (if K.g_task_lower_priority ≤ K.g_dictionary_priority then K.g_task_lowest_priority
        else K.g_task_lower_priority) ∧
    (kernel_start_task_inheritance K).2.g_task_lowest_priority = K.g_task_lowest_priority ∧
    (kernel_start_task_inheritance K).2.g_dictionary_priority = K.g_dictionary_priority := by
  unfold kernel_start_task_inheritance
  simp only []
  by_cases h1 : K.g_task_lower_priority ≤ K.g_dictionary_priority
  · rw [if_pos h1] at h
    simp only [h1, if_true]
    rw [if_neg (by
      rintro ⟨c1, c2⟩
      rcases h with h | h
      · exact h c1
      · exact absurd c2 (Nat.not_lt.2 h))]
    exact ⟨rfl, rfl, rfl, rfl, rfl, rfl⟩
  · rw [if_neg h1] at h
    simp only [h1, if_false]
    rw [if_neg (by
      rintro ⟨c1, c2⟩
      rcases h with h | h
      · exact h c1
      · exact absurd c2 (Nat.not_lt.2 h))]
    exact ⟨rfl, rfl, rfl, rfl, rfl, rfl⟩

/-- The promotion block succeeds while the cooldown is not `0`. -/
theorem kernel_start_task_inheritance_idle_status (K : Kernel)
    (h : K.inheritance_cooldown ≠ 0) :
    (kernel_start_task_inheritance K).1 = KERNEL_SUCCESS :=
  (kernel_start_task_inheritance_idle K (Or.inl h)).1

/-- One call of `kernel_start_task` while the cooldown is not `0`: when it returns, the
cooldown is what it was and no list has been written. -/
theorem kernel_start_task_cooldown (K : Kernel) (pg e t : Nat) (r : Nat × Kernel)
    (hc : K.inheritance_cooldown ≠ 0) (h : kernel_start_task K pg e t = some r) :
    r.1 = KERNEL_SUCCESS ∧ r.2.inheritance_cooldown = K.inheritance_cooldown ∧
    r.2.mem.list = K.mem.list ∧ r.2.mem.element = K.mem.element := by
  have e1 := kernel_start_task_error_none
  have o1 := onlyTasks_task_set_state K.mem t TaskState_Ready
  have o2 := (task_reset_time_quantum_remaining_frame
    (task_set_state K.mem t TaskState_Ready).2 t).1
  have o3 := onlyTasks_task_set_state
    (task_reset_time_quantum_remaining (task_set_state K.mem t TaskState_Ready).2 t).2
    K.g_running_task_current TaskState_Ready
  have f2 := onlyTasks_fields (onlyTasks_trans o1 o2)
  have f3 := onlyTasks_fields (onlyTasks_trans (onlyTasks_trans o1 o2) o3)
  unfold kernel_start_task at h
  simp only [Kernel.setMem] at h
  split_ifs at h with h1 h2 h3 h4 h5 h6 h7
  all_goals first
    | exact absurd h (by rw [e1]; exact fun hx => Option.noConfusion hx)
    | skip
  all_goals
    simp only [Option.some.injEq] at h
    subst h
  · exact (h5 (kernel_start_task_inheritance_idle_status _ hc)).elim
  · obtain ⟨-, i2, i3, -⟩ := kernel_start_task_inheritance_idle
      { K with
        mem := (task_set_state (task_reset_time_quantum_remaining
          (task_set_state K.mem t TaskState_Ready).2 t).2 K.g_running_task_current
          TaskState_Ready).2
        g_running_task_previous := K.g_running_task_current } (Or.inl hc)
    obtain ⟨s1, s2, -⟩ := kernel_start_task_select_frame (kernel_start_task_inheritance
      { K with
        mem := (task_set_state (task_reset_time_quantum_remaining
          (task_set_state K.mem t TaskState_Ready).2 t).2 K.g_running_task_current
          TaskState_Ready).2
        g_running_task_previous := K.g_running_task_current }).2 pg e t
    refine ⟨rfl, s2.trans i3, ?_, ?_⟩
    · exact (congrArg Mem.list (s1.trans i2)).trans f3.2.2.1
    · exact (congrArg Mem.element (s1.trans i2)).trans f3.2.2.2.1
  · first
    | exact (h6 (kernel_start_task_inheritance_idle_status _ hc)).elim
    | exact (h7 (kernel_start_task_inheritance_idle_status _ hc)).elim
  · obtain ⟨-, i2, i3, -⟩ := kernel_start_task_inheritance_idle
      { K with
        mem := (task_reset_time_quantum_remaining
          (task_set_state K.mem t TaskState_Ready).2 t).2
        g_running_task_previous := K.g_running_task_current } (Or.inl hc)
    obtain ⟨s1, s2, -⟩ := kernel_start_task_select_frame (kernel_start_task_inheritance
      { K with
        mem := (task_reset_time_quantum_remaining
          (task_set_state K.mem t TaskState_Ready).2 t).2
        g_running_task_previous := K.g_running_task_current }).2 pg e t
    refine ⟨rfl, s2.trans i3, ?_, ?_⟩
    · exact (congrArg Mem.list (s1.trans i2)).trans f2.2.2.1
    · exact (congrArg Mem.element (s1.trans i2)).trans f2.2.2.2.1

/-- An optional value whose image is `some` is `some`. -/
theorem option_map_some {α β : Type} {o : Option α} {f : α → β} {v : β}
    (h : o.map f = some v) : ∃ r, o = some r := by
  cases o with
  | none => simp at h
  | some r => exact ⟨r, rfl⟩

/-- C34 (the cooldown is never decremented).  `inheritance_cooldown` is written in one
place only, where the promotion reaches the current priority; no statement decrements
it.  So whenever the cooldown is `c > 0`, every sequence of calls of `kernel_start_task`
that returns leaves it at `c`, not at `c - 1`: every call returns `KERNEL_SUCCESS`, no
list header and no list node is written, and the promotion stays disabled. -/
theorem inheritance_cooldown_never_counts_down (calls : List (Nat × Nat × Nat)) (K : Kernel)
    (r : List Nat × Kernel) (hc : K.inheritance_cooldown ≠ 0)
    (h : kernel_start_task_calls calls K = some r) :
    r.1 = calls.map (fun _ => KERNEL_SUCCESS) ∧
    r.2.inheritance_cooldown = K.inheritance_cooldown ∧
    r.2.mem.list = K.mem.list ∧ r.2.mem.element = K.mem.element := by
  induction calls generalizing K r with
  | nil =>
    simp only [kernel_start_task_calls, Option.some.injEq] at h
    subst h
    exact ⟨rfl, rfl, rfl, rfl⟩
  | cons c cs ih =>
    unfold kernel_start_task_calls at h
    cases h1 : kernel_start_task K c.1 c.2.1 c.2.2 with
    | none => simp [h1] at h
    | some r1 =>
      obtain ⟨a1, a2, a3, a4⟩ := kernel_start_task_cooldown K c.1 c.2.1 c.2.2 r1 hc h1
      cases h2 : kernel_start_task_calls cs r1.2 with
      | none => simp [h1, h2] at h
      | some r2 =>
        obtain ⟨b1, b2, b3, b4⟩ := ih r1.2 r2 (by rw [a2]; exact hc) h2
        simp only [h1, h2, Option.some.injEq] at h
        subst h
        refine ⟨?_, b2.trans a2, b3.trans a3, b4.trans a4⟩
        show r1.1 :: r2.1 = _
        rw [a1, b1]
        rfl

/-- `linked_list_move_linked_list_after` on well-formed lists, the source being empty or
not: the destination takes over the nodes of the source, which ends empty. -/
theorem move_isList_any {m : Mem} {dst src : Nat} {ds ss : List Nat}
    (hd0 : dst ≠ 0) (hs0 : src ≠ 0) (hds : dst ≠ src)
    (hdst : IsList m.element (m.list dst) ds) (hsrc : IsList m.element (m.list src) ss)
    (hdj : ∀ x ∈ ds, x ∉ ss) :
    IsList (linked_list_move_linked_list_after m dst src).2.element
      ((linked_list_move_linked_list_after m dst src).2.list dst) (ds ++ ss) ∧
    IsList (linked_list_move_linked_list_after m dst src).2.element
      ((linked_list_move_linked_list_after m dst src).2.list src) [] ∧
    (∀ x, ((linked_list_move_linked_list_after m dst src).2.element x).data =
        (m.element x).data) ∧
    (∀ l, l ≠ dst → l ≠ src → (linked_list_move_linked_list_after m dst src).2.list l =
      m.list l) ∧
    OnlyLists m (linked_list_move_linked_list_after m dst src).2 := by
  by_cases hne : ss = []
  · subst hne
    have hsz : (m.list src).size = 0 := hsrc.2.2.2.2
    have hmove : linked_list_move_linked_list_after m dst src
        = (LINKED_LIST_SOURCE_IS_EMPTY, m) := by
      simp [linked_list_move_linked_list_after, linked_list_checking, hd0, hs0, hsz]
    rw [hmove, List.append_nil]
    exact ⟨hdst, hsrc, fun _ => rfl, fun _ _ _ => rfl, OnlyLists.refl m⟩
  · obtain ⟨-, m2, m3, m4, m5, m6⟩ := move_isList hd0 hs0 hds hdst hsrc hne hdj
    exact ⟨m2, (isList_nil_iff _ _).2 m3, m4, m5, m6⟩

/-- The promotion block when the cooldown is `0` and the promotion target `M` (after its
reset) is above the current priority: the group of `M` is appended to the group of
`M - 1`, and `M` and the cooldown are updated. -/
theorem kernel_start_task_inheritance_promote (K : Kernel) (lo hi : Nat) (ls hs : List Nat)
    (hc : K.inheritance_cooldown = 0)
    (hM : (if K.g_task_lower_priority ≤ K.g_dictionary_priority then K.g_task_lowest_priority
      else K.g_task_lower_priority) > K.g_dictionary_priority)
    (hlo : dictionary_get K.mem K.g_prioritized_tasks
      (if K.g_task_lower_priority ≤ K.g_dictionary_priority then K.g_task_lowest_priority
        else K.g_task_lower_priority) 0 = (DICTIONARY_SUCCESS, lo))
    (hhi : dictionary_get K.mem K.g_prioritized_tasks
      ((if K.g_task_lower_priority ≤ K.g_dictionary_priority then K.g_task_lowest_priority
        else K.g_task_lower_priority) - 1) 0 = (DICTIONARY_SUCCESS, hi))
    (hne : hi ≠ lo) (hL : IsList K.mem.element (K.mem.list lo) ls)
    (hH : IsList K.mem.element (K.mem.list hi) hs) (hdj : ∀ x ∈ hs, x ∉ ls) :
    (kernel_start_task_inheritance K).1 = KERNEL_SUCCESS ∧
    (kernel_start_task_inheritance K).2.mem
      = (linked_list_move_linked_list_after K.mem hi lo).2 ∧
    (kernel_start_task_inheritance K).2.g_task_lower_priority =
      (if (if K.g_task_lower_priority ≤ K.g_dictionary_priority then K.g_task_lowest_priority
          else K.g_task_lower_priority) - 1 = K.g_dictionary_priority
        then K.g_task_lowest_priority
        else (if K.g_task_lower_priority ≤ K.g_dictionary_priority
          then K.g_task_lowest_priority else K.g_task_lower_priority) - 1) ∧
    (kernel_start_task_inheritance K).2.inheritance_cooldown =
      (if (if K.g_task_lower_priority ≤ K.g_dictionary_priority then K.g_task_lowest_priority
          else K.g_task_lower_priority) - 1 = K.g_dictionary_priority
        then ls.length else 0) ∧
    (kernel_start_task_inheritance K).2.g_task_lowest_priority = K.g_task_lowest_priority ∧
    (kernel_start_task_inheritance K).2.g_dictionary_priority = K.g_dictionary_priority := by
  have hsz : (K.mem.list lo).size = ls.length := hL.2.2.2.2
  unfold kernel_start_task_inheritance
  simp only []
  by_cases h1 : K.g_task_lower_priority ≤ K.g_dictionary_priority
  · rw [if_pos h1] at hM hlo hhi
    simp only [h1, if_true]
    rw [if_pos ⟨hc, hM⟩, hlo]
    simp only [ne_eq, not_true_eq_false, if_false]
    rw [hhi]
    simp only [ne_eq, not_true_eq_false, if_false, Kernel.setMem]
    by_cases h2 : K.g_dictionary_priority = K.g_task_lowest_priority - 1
    · rw [if_pos h2, if_pos h2.symm, if_pos h2.symm]
      exact ⟨rfl, rfl, rfl, hsz, rfl, rfl⟩
    · rw [if_neg h2, if_neg (fun h => h2 h.symm), if_neg (fun h => h2 h.symm)]
      exact ⟨rfl, rfl, rfl, hc, rfl, rfl⟩
  · rw [if_neg h1] at hM hlo hhi
    simp only [h1, if_false]
    rw [if_pos ⟨hc, hM⟩, hlo]
    simp only [ne_eq, not_true_eq_false, if_false]
    rw [hhi]
    simp only [ne_eq, not_true_eq_false, if_false, Kernel.setMem]
    by_cases h2 : K.g_dictionary_priority = K.g_task_lower_priority - 1
    · rw [if_pos h2, if_pos h2.symm, if_pos h2.symm]
      exact ⟨rfl, rfl, rfl, hsz, rfl, rfl⟩
    · rw [if_neg h2, if_neg (fun h => h2 h.symm), if_neg (fun h => h2 h.symm)]
      exact ⟨rfl, rfl, rfl, hc, rfl, rfl⟩

/-- C33 (promotion step).  Let `kernel_start_task` be called for a valid task, the running
task being valid or null, and let `M` be the promotion target after its reset
(`promotion_target`).  If the cooldown is `0` and `M` is above the current priority, the
groups of `M` and `M - 1` being registered, distinct, well formed and disjoint, the call
returns `KERNEL_SUCCESS`; all nodes of the group `M` are appended to the group `M - 1` in
their order (the payloads are unchanged), the group `M` becomes empty and every other
list header is unchanged; `M` becomes `M - 1`, unless `M - 1` equals the current
priority: then `M` is reset to the lowest occupied priority and the cooldown is set to
the number of nodes that were in the group `M`.  If the cooldown is not `0` or `M` is not
above the current priority, the call returns `KERNEL_SUCCESS`, no list header and no
node is written, and the cooldown is unchanged. -/
theorem kernel_start_task_promotion_step (K : Kernel) (pg e t : Nat)
    (ht : task_checking K.mem t = TASK_SUCCESS)
    (hp : K.g_running_task_current = 0 ∨
      task_checking K.mem K.g_running_task_current = TASK_SUCCESS) :
    ((K.inheritance_cooldown ≠ 0 ∨ promotion_target K ≤ K.g_dictionary_priority) →
      ∃ K2, kernel_start_task K pg e t = some (KERNEL_SUCCESS, K2) ∧
        K2.mem.list = K.mem.list ∧ K2.mem.element = K.mem.element ∧
        K2.g_task_lower_priority = promotion_target K ∧
        K2.inheritance_cooldown = K.inheritance_cooldown ∧
        K2.g_task_lowest_priority = K.g_task_lowest_priority) ∧
    (K.inheritance_cooldown = 0 → promotion_target K > K.g_dictionary_priority →
      ∀ lo hi ls hs,
        dictionary_get K.mem K.g_prioritized_tasks (promotion_target K) 0
          = (DICTIONARY_SUCCESS, lo) →
        dictionary_get K.mem K.g_prioritized_tasks (promotion_target K - 1) 0
          = (DICTIONARY_SUCCESS, hi) →
        hi ≠ lo → IsList K.mem.element (K.mem.list lo) ls →
        IsList K.mem.element (K.mem.list hi) hs → (∀ x ∈ hs, x ∉ ls) →
        ∃ K2, kernel_start_task K pg e t = some (KERNEL_SUCCESS, K2) ∧
          IsList K2.mem.element (K2.mem.list hi) (hs ++ ls) ∧
          IsList K2.mem.element (K2.mem.list lo) [] ∧
          (∀ x, (K2.mem.element x).data = (K.mem.element x).data) ∧
          (∀ l, l ≠ hi → l ≠ lo → K2.mem.list l = K.mem.list l) ∧
          K2.g_task_lower_priority =
            (if promotion_target K - 1 = K.g_dictionary_priority
              then K.g_task_lowest_priority else promotion_target K - 1) ∧
          K2.inheritance_cooldown =
            (if promotion_target K - 1 = K.g_dictionary_priority then ls.length else 0) ∧
          K2.g_task_lowest_priority = K.g_task_lowest_priority) := by
  obtain ⟨m1, o1, hk⟩ := kernel_start_task_prelude K pg e t ht hp
  obtain ⟨f1, f2, f3, f4, -, -⟩ := onlyTasks_fields o1
  constructor
  · intro h
    obtain ⟨i1, i2, i3, i4, i5, -⟩ := kernel_start_task_inheritance_idle
      { K with mem := m1, g_running_task_previous := K.g_running_task_current } h
    obtain ⟨s1, s2, s3, s4⟩ := kernel_start_task_select_frame (kernel_start_task_inheritance
      { K with mem := m1, g_running_task_previous := K.g_running_task_current }).2 pg e t
    rw [if_neg (fun hc => hc i1)] at hk
    refine ⟨_, hk, ?_, ?_, s3.trans i4, s2.trans i3, s4.trans i5⟩
    · exact (congrArg Mem.list (s1.trans i2)).trans f3
    · exact (congrArg Mem.element (s1.trans i2)).trans f4
  · intro hc hM lo hi ls hs hlo hhi hne hL hH hdj
    have hlo0 : lo ≠ 0 := (dictionary_get_success hlo).1
    have hhi0 : hi ≠ 0 := (dictionary_get_success hhi).1
    have hL1 : IsList m1.element (m1.list lo) ls := by rw [f3, f4]; exact hL
    have hH1 : IsList m1.element (m1.list hi) hs := by rw [f3, f4]; exact hH
    obtain ⟨i1, i2, i3, i4, i5, -⟩ := kernel_start_task_inheritance_promote
      { K with mem := m1, g_running_task_previous := K.g_running_task_current } lo hi ls hs
      hc hM ((dictionary_get_congr f2 f1 _ _ _).trans hlo)
      ((dictionary_get_congr f2 f1 _ _ _).trans hhi) hne hL1 hH1 hdj
    obtain ⟨s1, s2, s3, s4⟩ := kernel_start_task_select_frame (kernel_start_task_inheritance
      { K with mem := m1, g_running_task_previous := K.g_running_task_current }).2 pg e t
    obtain ⟨v1, v2, v3, v4, -⟩ := move_isList_any hhi0 hlo0 hne hH1 hL1 hdj
    rw [if_neg (fun hc => hc i1)] at hk
    refine ⟨_, hk, ?_, ?_, ?_, ?_, s3.trans i3, s2.trans i4, s4.trans i5⟩
    · rw [s1, i2]
      exact v1
    · rw [s1, i2]
      exact v2
    · intro x
      rw [s1, i2, v3 x, f4]
    · intro l h1 h2
      rw [s1, i2, v4 l h1 h2, f3]

/-! ## Claims on the well-formedness of the lists under the kernel operations -/

/-- The tail of a well-formed list has no predecessor. -/
theorem IsList.tail_previous {E : Nat → linked_list_element_t} {l : linked_list_t}
    {xs : List Nat} (h : IsList E l xs) : l.tail = 0 ∨ (E l.tail).previous = 0 := by
  cases xs with
  | nil =>
    left
    exact h.2.2.1
  | cons y ys =>
    right
    have h2 : IsList E l ([] ++ y :: ys) := h
    obtain ⟨-, -, -, -, -, -, f7, -, -, -, f11, -⟩ := h2.split_facts
    rw [f11]
    exact f7

/-- `linked_list_pop_front` on a well-formed list with at least two nodes: the old head
`x` is released, its predecessor `y` is the new head, and `y->next` still points to
`x`. -/
theorem pop_front_dangling {m : Mem} {l : Nat} (d : Nat) {zs : List Nat} {y x : Nat}
    (hl : l ≠ 0) (h : IsList m.element (m.list l) (zs ++ [y, x])) :
    (linked_list_pop_front m l d).status = LINKED_LIST_SUCCESS ∧
    ((linked_list_pop_front m l d).mem.list l).head = y ∧
    ((linked_list_pop_front m l d).mem.element y).next = x ∧ y ≠ 0 ∧ x ≠ 0 ∧
    ((linked_list_pop_front m l d).mem.list l).size = zs.length + 1 ∧
    (∀ ys, ¬ IsList (linked_list_pop_front m l d).mem.element
      ((linked_list_pop_front m l d).mem.list l) ys) := by
  have h2 : IsList m.element (m.list l) ((zs ++ [y]) ++ [x]) := by simpa using h
  obtain ⟨nd, sg, ht, hh, hs⟩ := h2
  have hh2 : (m.list l).head = x := by rw [hh, getLastD_append]; rfl
  have hs2 : (m.list l).size = (zs ++ [y]).length + 1 := by
    rw [hs, List.length_append]; rfl
  obtain ⟨p1, -, p3, -, p5, p6⟩ := pop_front_step d hl sg ht hh2 hs2
  have hy : IsList m.element (m.list l) (zs ++ y :: [x]) := by simpa using h
  obtain ⟨y0, -, -, -, -, -, -, f8, -, f10, -⟩ := hy.split_facts
  have x0 : x ≠ 0 := f10.1
  have p5' : ((linked_list_pop_front m l d).mem.list l).head = y := by
    rw [p5, getLastD_append]; rfl
  have hnext : ((linked_list_pop_front m l d).mem.element y).next = x := by
    rw [p3, f8]; rfl
  refine ⟨p1, p5', hnext, y0, x0, ?_, ?_⟩
  · rw [p6, List.length_append]; rfl
  · intro ys hys
    rcases hys.head_next with hc | hc
    · exact y0 (p5'.symm.trans hc)
    · rw [p5', hnext] at hc
      exact x0 hc

/-- `linked_list_pop_back` on a well-formed list with at least two nodes: the old tail
`x` is released, its successor `y` is the new tail, and `y->previous` still points to
`x`. -/
theorem pop_back_dangling {m : Mem} {l : Nat} (d : Nat) {zs : List Nat} {x y : Nat}
    (hl : l ≠ 0) (h : IsList m.element (m.list l) (x :: y :: zs)) :
    (linked_list_pop_back m l d).status = LINKED_LIST_SUCCESS ∧
    (linked_list_pop_back m l d).data = (m.element x).data ∧
    ((linked_list_pop_back m l d).mem.list l).tail = y ∧
    ((linked_list_pop_back m l d).mem.element y).previous = x ∧ y ≠ 0 ∧ x ≠ 0 ∧
    ((linked_list_pop_back m l d).mem.list l).size = zs.length + 1 ∧
    (∀ ys, ¬ IsList (linked_list_pop_back m l d).mem.element
      ((linked_list_pop_back m l d).mem.list l) ys) := by
  obtain ⟨nd, sg, ht, hh, hs⟩ := h
  obtain ⟨x0, -, hxn, y0, hyp, -, -⟩ := sg
  have ht2 : (m.list l).tail = x := ht
  have hs2 : (m.list l).size = zs.length + 2 := hs
  have hxn2 : (m.element x).next = y := hxn
  have key : linked_list_pop_back m l d =
      ⟨LINKED_LIST_SUCCESS, (m.setSize l (zs.length + 1)).setTail l y, (m.element x).data⟩ := by
    simp [linked_list_pop_back, linked_list_checking, hl, ht2, x0, hs2, size_t_pred,
      Mem.setSize, Mem.setTail, hxn2]
  rw [key]
  have htl : (((m.setSize l (zs.length + 1)).setTail l y).list l).tail = y := by
    simp [Mem.setSize, Mem.setTail]
  refine ⟨rfl, rfl, htl, hyp, y0, x0, ?_, ?_⟩
  · simp [Mem.setSize, Mem.setTail]
  · intro ys hys
    rcases hys.tail_previous with hc | hc
    · exact y0 (htl.symm.trans hc)
    · rw [htl] at hc
      exact x0 (hyp.symm.trans hc)

/-- `linked_list_pop_inner` hands the head of a non-empty list to `linked_list_pop_front`
and its tail to `linked_list_pop_back`. -/
theorem pop_inner_delegates {m : Mem} {l : Nat} (d : Nat) {xs : List Nat} (hl : l ≠ 0)
    (h : IsList m.element (m.list l) xs) (hne : xs ≠ []) :
    linked_list_pop_inner m l (m.list l).head d
      = linked_list_pop_front m l (m.element (m.list l).head).data ∧
    ((m.list l).tail ≠ (m.list l).head →
      linked_list_pop_inner m l (m.list l).tail d
        = linked_list_pop_back m l (m.element (m.list l).tail).data) := by
  have hh0 : (m.list l).head ≠ 0 := by
    rw [h.2.2.2.1]
    exact h.nonzero _ (getLastD_mem hne 0)
  have ht0 : (m.list l).tail ≠ 0 := by
    rw [h.2.2.1]
    exact h.nonzero _ (headD_mem hne 0)
  have hsz : (m.list l).size ≠ 0 := by
    rw [h.2.2.2.2]
    exact fun hc => hne (List.length_eq_zero.1 hc)
  constructor
  · simp [linked_list_pop_inner, linked_list_checking, hl, hh0, hsz]
  · intro hth
    simp [linked_list_pop_inner, linked_list_checking, hl, ht0, hsz, hth]

/-- `linked_list_pop_inner` on a node `e` between two others: the list `l1 ++ e :: l2`
becomes the well-formed list `l1 ++ l2`. -/
theorem pop_inner_isList {m : Mem} {l e : Nat} (d : Nat) {l1 l2 : List Nat} (hl : l ≠ 0)
    (h : IsList m.element (m.list l) (l1 ++ e :: l2)) (h1 : l1 ≠ []) (h2 : l2 ≠ []) :
    (linked_list_pop_inner m l e d).status = LINKED_LIST_SUCCESS ∧
    (linked_list_pop_inner m l e d).data = (m.element e).data ∧
    IsList (linked_list_pop_inner m l e d).mem.element
      ((linked_list_pop_inner m l e d).mem.list l) (l1 ++ l2) := by
  obtain ⟨e0, e1, e2, n1, n2, n3, f7, f8, s1, s2, f11, f12, f13⟩ := h.split_facts
  have ha : l1.getLastD 0 ∈ l1 := getLastD_mem h1 0
  have hb : l2.headD 0 ∈ l2 := headD_mem h2 0
  have ha0 : l1.getLastD 0 ≠ 0 := Seg_nonzero s1 _ ha
  have hb0 : l2.headD 0 ≠ 0 := Seg_nonzero s2 _ hb
  have hab : l1.getLastD 0 ≠ l2.headD 0 := fun hc => n3 _ ha (by rw [hc]; exact hb)
  have hhead : (m.list l).head = l2.getLastD 0 := by
    rw [f12]; exact getLastD_of_ne_nil h2 _ _
  have htail : (m.list l).tail = l1.headD 0 := by
    rw [f11]
    cases l1 with
    | nil => exact absurd rfl h1
    | cons a as => rfl
  have heh : e ≠ (m.list l).head := by
    rw [hhead]
    exact fun hc => e2 (by rw [hc]; exact getLastD_mem h2 0)
  have het : e ≠ (m.list l).tail := by
    rw [htail]
    exact fun hc => e1 (by rw [hc]; exact headD_mem h1 0)
  have hsz : (m.list l).size ≠ 0 := by rw [f13]; omega
  have key : linked_list_pop_inner m l e d =
      ⟨LINKED_LIST_SUCCESS,
        ((m.setPrevious (l2.headD 0) (l1.getLastD 0)).setNext (l1.getLastD 0)
          (l2.headD 0)).setSize l (l1.length + l2.length), (m.element e).data⟩ := by
    have hE1 : ((m.setPrevious (l2.headD 0) (l1.getLastD 0)).element e).previous
        = l1.getLastD 0 := by
      rw [setPrevious_previous, if_neg (fun hc => e2 (by rw [hc]; exact hb)), f7]
    have hE2 : ((m.setPrevious (l2.headD 0) (l1.getLastD 0)).element e).next
        = l2.headD 0 := by
      rw [setPrevious_next, f8]
    unfold linked_list_pop_inner
    rw [if_neg (by simp [linked_list_checking, hl]), if_neg e0]
    simp only []
    rw [if_neg (fun hc => hsz hc.1), if_neg (fun hc => hsz hc.1), if_neg heh, if_neg het,
      f7, f8, hE1, hE2]
    have hs3 : size_t_pred ((((m.setPrevious (l2.headD 0) (l1.getLastD 0)).setNext
        (l1.getLastD 0) (l2.headD 0)).list l).size) = l1.length + l2.length := by
      rw [setNext_list, setPrevious_list, f13]
      simp [size_t_pred]
    rw [hs3]
  rw [key]
  refine ⟨rfl, rfl, ?_, ?_, ?_, ?_, ?_⟩
  · rw [List.nodup_append]
    exact ⟨n1, n2, fun {a} hx hy => n3 a hx hy⟩
  · rw [Seg_append]
    constructor
    · apply Seg_retarget_end s1 n1
      · intro x hx
        show ((((m.setPrevious (l2.headD 0) (l1.getLastD 0)).setNext (l1.getLastD 0)
          (l2.headD 0)).element x)).previous = _
        rw [setNext_previous, setPrevious_previous,
          if_neg (fun hc => n3 x hx (by rw [hc]; exact hb))]
      · intro x hx hne
        show ((((m.setPrevious (l2.headD 0) (l1.getLastD 0)).setNext (l1.getLastD 0)
          (l2.headD 0)).element x)).next = _
        rw [setNext_next, if_neg hne, setPrevious_next]
      · intro _
        show ((((m.setPrevious (l2.headD 0) (l1.getLastD 0)).setNext (l1.getLastD 0)
          (l2.headD 0)).element (l1.getLastD 0))).next = _
        rw [setNext_next, if_pos rfl]
    · apply Seg_retarget_start s2 n2
      · intro x hx
        show ((((m.setPrevious (l2.headD 0) (l1.getLastD 0)).setNext (l1.getLastD 0)
          (l2.headD 0)).element x)).next = _
        rw [setNext_next, if_neg (fun hc => n3 _ ha (by rw [← hc]; exact hx)), setPrevious_next]
      · intro x hx hne
        show ((((m.setPrevious (l2.headD 0) (l1.getLastD 0)).setNext (l1.getLastD 0)
          (l2.headD 0)).element x)).previous = _
        rw [setNext_previous, setPrevious_previous, if_neg hne]
      · intro _
        show ((((m.setPrevious (l2.headD 0) (l1.getLastD 0)).setNext (l1.getLastD 0)
          (l2.headD 0)).element (l2.headD 0))).previous = _
        rw [setNext_previous, setPrevious_previous, if_pos rfl]
  · show ((((m.setPrevious (l2.headD 0) (l1.getLastD 0)).setNext (l1.getLastD 0)
      (l2.headD 0)).setSize l (l1.length + l2.length)).list l).tail = _
    rw [setSize_list, if_pos rfl, setNext_list, setPrevious_list, htail, headD_append]
    cases l1 with
    | nil => exact absurd rfl h1
    | cons a as => rfl
  · show ((((m.setPrevious (l2.headD 0) (l1.getLastD 0)).setNext (l1.getLastD 0)
      (l2.headD 0)).setSize l (l1.length + l2.length)).list l).head = _
    rw [setSize_list, if_pos rfl, setNext_list, setPrevious_list, hhead, getLastD_append]
    exact getLastD_of_ne_nil h2 _ _
  · show ((((m.setPrevious (l2.headD 0) (l1.getLastD 0)).setNext (l1.getLastD 0)
      (l2.headD 0)).setSize l (l1.length + l2.length)).list l).size = _
    rw [setSize_list, if_pos rfl, List.length_append]

/-- Two chains of `next` pointers that start at the same node and end at `NULL` visit the
same nodes. -/
theorem Seg_next_unique {E E' : Nat → linked_list_element_t}
    (hn : ∀ x, (E' x).next = (E x).next) :
    ∀ (xs ys : List Nat) (p q : Nat), Seg E p xs 0 → Seg E' q ys 0 →
      xs.headD 0 = ys.headD 0 → xs = ys := by
  intro xs
  induction xs with
  | nil =>
    intro ys p q _ hy hh
    cases ys with
    | nil => rfl
    | cons y ys => exact absurd hh.symm hy.1
  | cons x xs ih =>
    intro ys p q hx hy hh
    cases ys with
    | nil => exact absurd hh hx.1
    | cons y ys =>
      have hxy : x = y := hh
      subst hxy
      obtain ⟨-, -, x3, x4⟩ := hx
      obtain ⟨-, -, y3, y4⟩ := hy
      rw [ih ys x x x4 y4 (x3.symm.trans ((hn x).symm.trans y3))]

/-- `linked_list_pop_back` on a list of one node empties the list. -/
theorem pop_back_single {m : Mem} {l : Nat} (d : Nat) {x : Nat} (hl : l ≠ 0)
    (h : IsList m.element (m.list l) [x]) :
    (linked_list_pop_back m l d).status = LINKED_LIST_SUCCESS ∧
    IsList (linked_list_pop_back m l d).mem.element
      ((linked_list_pop_back m l d).mem.list l) [] := by
  obtain ⟨nd, sg, ht, hh, hs⟩ := h
  have hx0 : x ≠ 0 := sg.1
  have e1 : (m.list l).head = x := hh
  have e2 : (m.list l).tail = x := ht
  have e3 : (m.list l).size = 1 := hs
  have c : ((m.setSize l 0).list l).size = 0 ∧
      ((m.setSize l 0).list l).tail = ((m.setSize l 0).list l).head := by
    rw [setSize_list, if_pos rfl]
    exact ⟨rfl, e2.trans e1.symm⟩
  have key : linked_list_pop_back m l d =
      ⟨LINKED_LIST_SUCCESS, ((m.setSize l 0).setTail l 0).setHead l 0, (m.element x).data⟩ := by
    simp [linked_list_pop_back, linked_list_checking, hl, e2, e3, hx0, size_t_pred]
    intro hc
    exact absurd c.2 (hc c.1)
  rw [key]
  refine ⟨rfl, List.nodup_nil, trivial, ?_, ?_, ?_⟩
  · show ((((m.setSize l 0).setTail l 0).setHead l 0).list l).tail = 0
    rw [setHead_list, if_pos rfl, setTail_list, if_pos rfl]
  · show ((((m.setSize l 0).setTail l 0).setHead l 0).list l).head = 0
    rw [setHead_list, if_pos rfl]
  · show ((((m.setSize l 0).setTail l 0).setHead l 0).list l).size = 0
    rw [setHead_list, if_pos rfl, setTail_list, if_pos rfl, setSize_list, if_pos rfl]

/-- The status of `linked_list_move_linked_list_after` on a source that is not empty. -/
theorem move_status_success {m : Mem} {dst src : Nat} (hd0 : dst ≠ 0) (hs0 : src ≠ 0)
    (hsz : (m.list src).size ≠ 0) :
    (linked_list_move_linked_list_after m dst src).1 = LINKED_LIST_SUCCESS := by
  unfold linked_list_move_linked_list_after
  rw [if_neg (by simp [linked_list_checking, hd0]), if_neg (by simp [linked_list_checking, hs0]),
    if_neg hsz]

/-- C39 (`linked_list_pop_front`, `linked_list_pop_back` and the inner case of
`linked_list_transfer_after` leave a list that is not well-formed).  Let the list `l` be
well-formed with the nodes `xs`, read from tail to head (`IsList`: the `previous` pointer of
the tail and the `next` pointer of the head are `NULL`, the `next` pointers lead from the
tail through exactly `size` nodes to the head, and `n->next->previous == n`).

Operations that keep the lists well-formed:
1. `linked_list_push_back` and `linked_list_push_front` with a fresh node, and
   `linked_list_insert_after`, which does what `linked_list_push_front` does;
2. `linked_list_pop_inner` on a node that is neither head nor tail; on the head it is
   `linked_list_pop_front`, on a tail that is not the head it is `linked_list_pop_back`;
3. `linked_list_pop_front` and `linked_list_pop_back` on a list of one node, which becomes
   the empty list;
4. `linked_list_transfer` of a node of `l` to a well-formed list `dst` with other nodes, and
   `linked_list_move_linked_list_after` of the whole non-empty list `l` behind `dst`.

Operations that return `LINKED_LIST_SUCCESS` and leave a list that is not well-formed:
5. `linked_list_pop_front` on a list of two or more nodes: the new head `y` keeps its
   `next` pointer to the removed node, so `head->next` is not `NULL` and no sequence of
   nodes represents the list;
6. `linked_list_pop_back` on a list of two or more nodes: the new tail keeps its
   `previous` pointer to the removed node;
7. `linked_list_transfer_after` of a node `e` of `l` behind a node `after` of `dst` that is
   not the head of `dst`: `after->next == e` and `e->previous == NULL`, so no sequence of
   nodes represents `dst`. -/
theorem linked_list_operations_well_formedness {m : Mem} {l : Nat} {xs : List Nat}
    (hl : l ≠ 0) (h : IsList m.element (m.list l) xs) :
    (∀ a d, a ≠ 0 → a ∉ xs →
      (linked_list_push_back m l a d).1 = LINKED_LIST_SUCCESS ∧
      IsList (linked_list_push_back m l a d).2.element
        ((linked_list_push_back m l a d).2.list l) (a :: xs) ∧
      (linked_list_push_front m l a d).1 = LINKED_LIST_SUCCESS ∧
      IsList (linked_list_push_front m l a d).2.element
        ((linked_list_push_front m l a d).2.list l) (xs ++ [a]) ∧
      (∀ e, linked_list_insert_after m l e a d = linked_list_push_front m l a d)) ∧
    (∀ l1 e l2 d, xs = l1 ++ e :: l2 → l1 ≠ [] → l2 ≠ [] →
      (linked_list_pop_inner m l e d).status = LINKED_LIST_SUCCESS ∧
      IsList (linked_list_pop_inner m l e d).mem.element
        ((linked_list_pop_inner m l e d).mem.list l) (l1 ++ l2)) ∧
    (∀ d, xs ≠ [] →
      linked_list_pop_inner m l (m.list l).head d
        = linked_list_pop_front m l (m.element (m.list l).head).data ∧
      ((m.list l).tail ≠ (m.list l).head →
        linked_list_pop_inner m l (m.list l).tail d
          = linked_list_pop_back m l (m.element (m.list l).tail).data)) ∧
    (∀ x d, xs = [x] →
      (linked_list_pop_front m l d).status = LINKED_LIST_SUCCESS ∧
      IsList (linked_list_pop_front m l d).mem.element
        ((linked_list_pop_front m l d).mem.list l) [] ∧
      (linked_list_pop_back m l d).status = LINKED_LIST_SUCCESS ∧
      IsList (linked_list_pop_back m l d).mem.element
        ((linked_list_pop_back m l d).mem.list l) []) ∧
    (∀ dst ys, dst ≠ 0 → dst ≠ l → IsList m.element (m.list dst) ys → (∀ x ∈ ys, x ∉ xs) →
      (∀ e ∈ xs,
        (linked_list_transfer m dst l e).1 = LINKED_LIST_SUCCESS ∧
        IsList (linked_list_transfer m dst l e).2.element
          ((linked_list_transfer m dst l e).2.list dst) (ys ++ [e]) ∧
        IsList (linked_list_transfer m dst l e).2.element
          ((linked_list_transfer m dst l e).2.list l) (xs.erase e)) ∧
      (xs ≠ [] →
        (linked_list_move_linked_list_after m dst l).1 = LINKED_LIST_SUCCESS ∧
        IsList (linked_list_move_linked_list_after m dst l).2.element
          ((linked_list_move_linked_list_after m dst l).2.list dst) (ys ++ xs) ∧
        IsList (linked_list_move_linked_list_after m dst l).2.element
          ((linked_list_move_linked_list_after m dst l).2.list l) [])) ∧
    (∀ zs y x d, xs = zs ++ [y, x] →
      (linked_list_pop_front m l d).status = LINKED_LIST_SUCCESS ∧
      ((linked_list_pop_front m l d).mem.list l).head = y ∧ y ≠ 0 ∧
      ((linked_list_pop_front m l d).mem.element y).next = x ∧ x ≠ 0 ∧
      (∀ ys, ¬ IsList (linked_list_pop_front m l d).mem.element
        ((linked_list_pop_front m l d).mem.list l) ys)) ∧
    (∀ x y zs d, xs = x :: y :: zs →
      (linked_list_pop_back m l d).status = LINKED_LIST_SUCCESS ∧
      ((linked_list_pop_back m l d).mem.list l).tail = y ∧ y ≠ 0 ∧
      ((linked_list_pop_back m l d).mem.element y).previous = x ∧ x ≠ 0 ∧
      (∀ ys, ¬ IsList (linked_list_pop_back m l d).mem.element
        ((linked_list_pop_back m l d).mem.list l) ys)) ∧
    (∀ dst l1 after l2 e, dst ≠ 0 → dst ≠ l →
      IsList m.element (m.list dst) (l1 ++ after :: l2) → l2 ≠ [] → e ∈ xs →
      (∀ x ∈ l1 ++ after :: l2, x ∉ xs) →
      (linked_list_transfer_after m dst after l e).1 = LINKED_LIST_SUCCESS ∧
      ((linked_list_transfer_after m dst after l e).2.element after).next = e ∧
      ((linked_list_transfer_after m dst after l e).2.element e).previous = 0 ∧
      (∀ ys, ¬ IsList (linked_list_transfer_after m dst after l e).2.element
        ((linked_list_transfer_after m dst after l e).2.list dst) ys)) := by
  refine ⟨?_, ?_, ?_, ?_, ?_, ?_, ?_, ?_⟩
  · intro a d ha hax
    obtain ⟨b1, b2, -⟩ := push_back_isList d hl h ha hax
    obtain ⟨f1, f2, -⟩ := push_front_isList d hl h ha hax
    exact ⟨b1, b2, f1, f2, fun e => insert_after_eq_push_front e a d hl h⟩
  · intro l1 e l2 d hx h1 h2
    subst hx
    obtain ⟨p1, -, p3⟩ := pop_inner_isList d hl h h1 h2
    exact ⟨p1, p3⟩
  · intro d hne
    exact pop_inner_delegates d hl h hne
  · intro x d hx
    subst hx
    obtain ⟨nd, sg, ht, hh, hs⟩ := h
    obtain ⟨p1, -, p3, p4, p5, p6⟩ :=
      pop_front_step d hl (show Seg m.element 0 (([] : List Nat) ++ [x]) 0 from sg) ht hh hs
    obtain ⟨b1, b2⟩ := pop_back_single d hl ⟨nd, sg, ht, hh, hs⟩
    exact ⟨p1, ⟨List.nodup_nil, trivial, p4, p5, p6⟩, b1, b2⟩
  · intro dst ys hd0 hdl hdst hdj
    constructor
    · intro e he
      obtain ⟨t1, t2, t3, -⟩ := transfer_isList_erase hd0 hl hdl h hdst he hdj
      exact ⟨t1, t2, t3⟩
    · intro hne
      obtain ⟨v1, v2, -⟩ := move_isList_any hd0 hl hdl hdst h hdj
      refine ⟨move_status_success hd0 hl ?_, v1, v2⟩
      rw [h.2.2.2.2]
      exact fun hc => hne (List.length_eq_zero.1 hc)
  · intro zs y x d hx
    subst hx
    obtain ⟨p1, p2, p3, p4, p5, -, p7⟩ := pop_front_dangling d hl h
    exact ⟨p1, p2, p4, p3, p5, p7⟩
  · intro x y zs d hx
    subst hx
    obtain ⟨p1, -, p3, p4, p5, p6, -, p8⟩ := pop_back_dangling d hl h
    exact ⟨p1, p3, p5, p4, p6, p8⟩
  · intro dst l1 after l2 e hd0 hdl hdst hl2 he hdj
    obtain ⟨s1, s2, rfl⟩ := List.append_of_mem he
    obtain ⟨t1, t2, -, -, t5, t6, -, t8, -⟩ := transfer_after_inner hd0 hl hdl hdst hl2 h hdj
    refine ⟨t1, t2, t5, ?_⟩
    intro ys hys
    have ha0 : after ≠ 0 := hdst.split_facts.1
    have he0 : e ≠ 0 := h.split_facts.1
    have heq : l1 ++ after :: e :: l2 = ys :=
      Seg_next_unique (fun x => by
          by_cases hx : x = e
          · rw [hx, Function.update_same]
          · rw [Function.update_noteq hx])
        _ _ 0 0 t8.2.1 hys.2.1 (t8.2.2.1.symm.trans hys.2.2.1)
    exact not_isList_of_back_link ha0 he0 t2 t5 ys (heq ▸ by simp) hys

/-- C39, witness: the list 4 of `mem_lists` holds the nodes 21, 22, 23 (tail to head).
`linked_list_pop_inner` on node 22 leaves the well-formed list 21, 23.
`linked_list_pop_front` returns `LINKED_LIST_SUCCESS` and makes node 22 the head, whose
`next` pointer still is 23; `linked_list_pop_back` returns `LINKED_LIST_SUCCESS` and makes
node 22 the tail, whose `previous` pointer still is 21; after either call no sequence of
nodes represents the list. -/
theorem linked_list_operations_well_formedness_witness :
    IsList mem_lists.element (mem_lists.list 4) [21, 22, 23] ∧
    ((linked_list_pop_inner mem_lists 4 22 0).status = LINKED_LIST_SUCCESS ∧
      IsList (linked_list_pop_inner mem_lists 4 22 0).mem.element
        ((linked_list_pop_inner mem_lists 4 22 0).mem.list 4) [21, 23]) ∧
    ((linked_list_pop_front mem_lists 4 0).status = LINKED_LIST_SUCCESS ∧
      ((linked_list_pop_front mem_lists 4 0).mem.list 4).head = 22 ∧
      ((linked_list_pop_front mem_lists 4 0).mem.element 22).next = 23 ∧
      (∀ ys, ¬ IsList (linked_list_pop_front mem_lists 4 0).mem.element
        ((linked_list_pop_front mem_lists 4 0).mem.list 4) ys)) ∧
    ((linked_list_pop_back mem_lists 4 0).status = LINKED_LIST_SUCCESS ∧
      ((linked_list_pop_back mem_lists 4 0).mem.list 4).tail = 22 ∧
      ((linked_list_pop_back mem_lists 4 0).mem.element 22).previous = 21 ∧
      (∀ ys, ¬ IsList (linked_list_pop_back mem_lists 4 0).mem.element
        ((linked_list_pop_back mem_lists 4 0).mem.list 4) ys)) ∧
    (linked_list_transfer_after mem_lists 4 21 2 11).1 = LINKED_LIST_SUCCESS ∧
    (∀ ys, ¬ IsList (linked_list_transfer_after mem_lists 4 21 2 11).2.element
      ((linked_list_transfer_after mem_lists 4 21 2 11).2.list 4) ys) := by
  have hd : IsList mem_lists.element (mem_lists.list 4) [21, 22, 23] := by decide
  have hs : IsList mem_lists.element (mem_lists.list 2) [11, 12] := by decide
  have k := linked_list_operations_well_formedness (show (4 : Nat) ≠ 0 by decide) hd
  have k2 := linked_list_operations_well_formedness (show (2 : Nat) ≠ 0 by decide) hs
  obtain ⟨-, i2, -, -, -, i6, i7, -⟩ := k
  obtain ⟨f1, f2, -, f4, -, f6⟩ := i6 [21] 22 23 0 rfl
  obtain ⟨b1, b2, -, b4, -, b6⟩ := i7 21 22 [23] 0 rfl
  obtain ⟨t1, -, -, t4⟩ := k2.2.2.2.2.2.2.2 4 [] 21 [22, 23] 11 (by decide) (by decide) hd
    (by decide) (by decide) (by decide)
  exact ⟨hd, i2 [21] 22 [23] 0 rfl (by decide) (by decide), ⟨f1, f2, f4, f6⟩,
    ⟨b1, b2, b4, b6⟩, t1, t4⟩

/-! ## The next task after `kernel_reinsert_task` -/

/-- The `else` branch of `kernel_reinsert_task` (lines 1627-1631): when the priority of the
reinserted task is not smaller than the running priority and the kernel is not idle, the
next iterator is the `next` pointer of the current iterator, read after the transfer, and
the next task is the payload of the node it points to. -/
theorem kernel_reinsert_task_next {K : Kernel} {source e t g : Nat} {ys l1 l2 : List Nat}
    (hg : dictionary_get K.mem K.g_prioritized_tasks
      (K.mem.tcb (K.mem.task t).task_data).u8TaskPrio 0 = (DICTIONARY_SUCCESS, g))
    (hs0 : source ≠ 0) (hgs : g ≠ source)
    (hsrc : IsList K.mem.element (K.mem.list source) (l1 ++ e :: l2))
    (hdst : IsList K.mem.element (K.mem.list g) ys)
    (hdj : ∀ x ∈ ys, x ∉ l1 ++ e :: l2)
    (ht : task_checking K.mem t = TASK_SUCCESS)
    (hp : ¬ (K.mem.tcb (K.mem.task t).task_data).u8TaskPrio < K.g_dictionary_priority)
    (hi : K.g_kernel_status ≠ EN_KERNEL_IDLE) :
    (kernel_reinsert_task K source e t).1 = KERNEL_SUCCESS ∧
    (kernel_reinsert_task K source e t).2.g_linked_list_task_iterator_next =
      ((linked_list_transfer K.mem g source e).2.element K.g_linked_list_task_iterator).next ∧
    (kernel_reinsert_task K source e t).2.g_running_task_next =
      ((linked_list_transfer K.mem g source e).2.element
        ((linked_list_transfer K.mem g source e).2.element
          K.g_linked_list_task_iterator).next).data ∧
    (kernel_reinsert_task K source e t).2.g_linked_list_task_iterator =
      K.g_linked_list_task_iterator ∧
    (kernel_reinsert_task K source e t).2.g_priority_group_next = K.g_priority_group_next ∧
    (kernel_reinsert_task K source e t).2.mem.element =
      (linked_list_transfer K.mem g source e).2.element := by
  have hg0 : g ≠ 0 := (dictionary_get_success hg).1
  obtain ⟨t1, t2, t3, -, -, -, t7⟩ := transfer_isList hg0 hs0 hgs hsrc hdst hdj
  have htask := (onlyLists_fields t7).2.2.2.2.1
  have htcb := (onlyLists_fields t7).2.2.2.2.2
  have hc : task_checking (linked_list_transfer K.mem g source e).2 t = TASK_SUCCESS := by
    unfold task_checking at ht ⊢
    rw [htask]
    exact ht
  have hset : (task_set_state (linked_list_transfer K.mem g source e).2 t TaskState_Ready).2
      = (linked_list_transfer K.mem g source e).2.setTaskState t TaskState_Ready := by
    unfold task_set_state
    rw [if_neg (fun h => h hc)]
    simp
  have hel : (task_set_state (linked_list_transfer K.mem g source e).2 t
      TaskState_Ready).2.element = (linked_list_transfer K.mem g source e).2.element := by
    rw [hset]
    rfl
  have hpr : ((task_set_state (linked_list_transfer K.mem g source e).2 t
        TaskState_Ready).2.tcb
      ((task_set_state (linked_list_transfer K.mem g source e).2 t
        TaskState_Ready).2.task t).task_data).u8TaskPrio
        = (K.mem.tcb (K.mem.task t).task_data).u8TaskPrio := by
    rw [hset]
    simp [Mem.setTaskState, Mem.setTcb, htask, htcb]
  unfold kernel_reinsert_task
  simp only []
  rw [hg]
  rw [if_neg (fun h => h rfl)]
  simp only [Kernel.setMem]
  rw [if_neg (fun h => h t1), hpr]
  rw [if_neg (fun h => h.elim hp hi)]
  simp only [hel]
  exact ⟨trivial, trivial, trivial, trivial, trivial, trivial⟩

/-- The successor of a node of a well-formed list: `NULL` for the head, a node of the list
otherwise. -/
theorem IsList.next_of_mem {E : Nat → linked_list_element_t} {l : linked_list_t}
    {xs : List Nat} {x : Nat} (h : IsList E l xs) (hx : x ∈ xs) :
    (x = l.head → (E x).next = 0) ∧
    (x ≠ l.head → (E x).next ≠ 0 ∧ (E x).next ∈ xs) := by
  obtain ⟨a, b, rfl⟩ := List.append_of_mem hx
  obtain ⟨-, -, e2, -, -, -, -, f8, -, s2, -, f12, -⟩ := h.split_facts
  cases b with
  | nil =>
    refine ⟨fun _ => f8, fun hne => absurd f12.symm hne⟩
  | cons y b =>
    have hy : (E x).next = y := f8
    constructor
    · intro hc
      have hm : x ∈ y :: b := by
        rw [hc, f12]
        exact getLastD_mem (List.cons_ne_nil y b) x
      exact absurd hm e2
    · intro _
      rw [hy]
      exact ⟨s2.1, by simp⟩

/-- C40 (the next iterator after `kernel_reinsert_task` can be `NULL`).  Let
`kernel_reinsert_task(source, e, t)` be called in a state that is not idle, for a task
whose priority is a valid index with the well-formed priority group `g` (nodes `ys`) and
is not smaller than the running priority, `e` being a node of the well-formed list
`source`.  The call returns `KERNEL_SUCCESS` and takes the `else` branch of lines
1627-1631, and:
1. when the current iterator is a node of a well-formed group `c` other than `g`, holding
   the nodes `cs`: if the iterator is the head of `c`, then
   `g_linked_list_task_iterator_next` is `NULL` and `g_running_task_next` is what is read
   through the null pointer; if it is not the head, the next iterator is its successor,
   a node of `c`, and the next task is the payload of that node;
2. when the current iterator is a node of `g` itself: if it is the head of `g`, the next
   iterator is the reinserted node `e`; if not, it is its successor in `g`; in both
   cases the next task is the payload of the next iterator. -/
theorem kernel_reinsert_task_next_iterator {K : Kernel} {source e t g : Nat}
    {ys l1 l2 : List Nat}
    (hg : dictionary_get K.mem K.g_prioritized_tasks
      (K.mem.tcb (K.mem.task t).task_data).u8TaskPrio 0 = (DICTIONARY_SUCCESS, g))
    (hs0 : source ≠ 0) (hgs : g ≠ source)
    (hsrc : IsList K.mem.element (K.mem.list source) (l1 ++ e :: l2))
    (hdst : IsList K.mem.element (K.mem.list g) ys)
    (hdj : ∀ x ∈ ys, x ∉ l1 ++ e :: l2)
    (ht : task_checking K.mem t = TASK_SUCCESS)
    (hp : ¬ (K.mem.tcb (K.mem.task t).task_data).u8TaskPrio < K.g_dictionary_priority)
    (hi : K.g_kernel_status ≠ EN_KERNEL_IDLE) :
    (kernel_reinsert_task K source e t).1 = KERNEL_SUCCESS ∧
    (∀ c cs, IsList K.mem.element (K.mem.list c) cs → (∀ x ∈ cs, x ∉ ys) →
      (∀ x ∈ cs, x ∉ l1 ++ e :: l2) → K.g_linked_list_task_iterator ∈ cs →
      (K.g_linked_list_task_iterator = (K.mem.list c).head →
        (kernel_reinsert_task K source e t).2.g_linked_list_task_iterator_next = 0 ∧
        (kernel_reinsert_task K source e t).2.g_running_task_next
          = (K.mem.element 0).data) ∧
      (K.g_linked_list_task_iterator ≠ (K.mem.list c).head →
        (kernel_reinsert_task K source e t).2.g_linked_list_task_iterator_next ≠ 0 ∧
        (kernel_reinsert_task K source e t).2.g_linked_list_task_iterator_next ∈ cs ∧
        (kernel_reinsert_task K source e t).2.g_linked_list_task_iterator_next
          = (K.mem.element K.g_linked_list_task_iterator).next ∧
        (kernel_reinsert_task K source e t).2.g_running_task_next
          = ((kernel_reinsert_task K source e t).2.mem.element
              (kernel_reinsert_task K source e t).2.g_linked_list_task_iterator_next).data)) ∧
    (K.g_linked_list_task_iterator ∈ ys →
      (K.g_linked_list_task_iterator = (K.mem.list g).head →
        (kernel_reinsert_task K source e t).2.g_linked_list_task_iterator_next = e) ∧
      (K.g_linked_list_task_iterator ≠ (K.mem.list g).head →
        (kernel_reinsert_task K source e t).2.g_linked_list_task_iterator_next ∈ ys) ∧
      (kernel_reinsert_task K source e t).2.g_linked_list_task_iterator_next ≠ 0 ∧
      (kernel_reinsert_task K source e t).2.g_running_task_next
        = ((kernel_reinsert_task K source e t).2.mem.element
            (kernel_reinsert_task K source e t).2.g_linked_list_task_iterator_next).data) := by
  have hg0 : g ≠ 0 := (dictionary_get_success hg).1
  obtain ⟨r1, r2, r3, -, -, r6⟩ :=
    kernel_reinsert_task_next hg hs0 hgs hsrc hdst hdj ht hp hi
  obtain ⟨-, t2, -, t4, t5, -, -⟩ := transfer_isList hg0 hs0 hgs hsrc hdst hdj
  have hE : ∀ x, ((kernel_reinsert_task K source e t).2.mem.element x).data
      = (K.mem.element x).data := by
    intro x
    rw [r6]
    exact t5 x
  refine ⟨r1, ?_, ?_⟩
  · intro c cs hcur hcy hcs hit
    have hsame := t4 _ (hcy _ hit) (hcs _ hit)
    rw [hsame] at r2 r3
    obtain ⟨n1, n2⟩ := hcur.next_of_mem hit
    constructor
    · intro hh
      rw [n1 hh] at r2 r3
      exact ⟨r2, r3.trans (t5 0)⟩
    · intro hh
      obtain ⟨n3, n4⟩ := n2 hh
      refine ⟨r2 ▸ n3, r2 ▸ n4, r2, ?_⟩
      rw [r3, r2, hE, t5]
  · intro hit
    have hit2 : K.g_linked_list_task_iterator ∈ ys ++ [e] := List.mem_append_left _ hit
    have hie : K.g_linked_list_task_iterator ≠ e := by
      intro hc
      exact hdj _ hit (by rw [hc]; simp)
    have hnh : K.g_linked_list_task_iterator ≠
        ((linked_list_transfer K.mem g source e).2.list g).head := by
      rw [t2.2.2.2.1, getLastD_append]
      exact hie
    obtain ⟨n3, -⟩ := (t2.next_of_mem hit2).2 hnh
    have hrun : (kernel_reinsert_task K source e t).2.g_running_task_next
        = ((kernel_reinsert_task K source e t).2.mem.element
            (kernel_reinsert_task K source e t).2.g_linked_list_task_iterator_next).data := by
      rw [r3, r2, r6]
    refine ⟨?_, ?_, r2 ▸ n3, hrun⟩
    · intro hh
      obtain ⟨a, b, hab⟩ := List.append_of_mem hit
      have hb : b = [] := by
        cases b with
        | nil => rfl
        | cons y b =>
          exfalso
          have hnd := hdst.1
          rw [hab] at hnd
          have hm : K.g_linked_list_task_iterator ∈ y :: b := by
            rw [hh, hdst.2.2.2.1, hab, getLastD_append, List.getLastD_cons]
            exact getLastD_mem (List.cons_ne_nil y b) _
          rw [List.nodup_append] at hnd
          exact (List.nodup_cons.1 hnd.2.1).1 hm
      rw [hab, hb] at t2
      have t2b : IsList (linked_list_transfer K.mem g source e).2.element
          ((linked_list_transfer K.mem g source e).2.list g)
          (a ++ K.g_linked_list_task_iterator :: [e]) := by simpa using t2
      rw [r2]
      exact t2b.split_facts.2.2.2.2.2.2.2.1
    · intro hh
      obtain ⟨a, b, hab⟩ := List.append_of_mem hit
      have hb : b ≠ [] := by
        intro hb
        apply hh
        rw [hdst.2.2.2.1, hab, hb, getLastD_append]
        rfl
      rw [hab] at t2
      have t2b : IsList (linked_list_transfer K.mem g source e).2.element
          ((linked_list_transfer K.mem g source e).2.list g)
          (a ++ K.g_linked_list_task_iterator :: (b ++ [e])) := by simpa using t2
      rw [r2, t2b.split_facts.2.2.2.2.2.2.2.1, hab, headD_append]
      exact List.mem_append_right _ (List.mem_cons_of_mem _ (headD_mem hb _))

/-- C40, witness: in `kernel_two_groups_delayed` task 104 runs, its node 14 is the head of
the group 2 of the priority 0, and node 15 with task 105 of the priority 1 waits in the
delay list 7.  `kernel_reinsert_task(7, 15, 105)` returns `KERNEL_SUCCESS` with the next
iterator `NULL` and the next task read through it. -/
theorem kernel_reinsert_task_next_iterator_witness :
    kernel_two_groups_delayed.g_linked_list_task_iterator = 14 ∧
    (kernel_two_groups_delayed.mem.list 2).head = 14 ∧
    (kernel_reinsert_task kernel_two_groups_delayed 7 15 105).1 = KERNEL_SUCCESS ∧
    (kernel_reinsert_task kernel_two_groups_delayed 7 15 105).2.g_linked_list_task_iterator_next
      = 0 ∧
    (kernel_reinsert_task kernel_two_groups_delayed 7 15 105).2.g_running_task_next
      = (kernel_two_groups_delayed.mem.element 0).data := by
  have k := @kernel_reinsert_task_next_iterator kernel_two_groups_delayed 7 15 105 20 [16] []
    [] (by decide!) (by decide) (by decide) (by decide!) (by decide!) (by decide)
    (by decide!) (by decide!) (by decide!)
  have k2 := (k.2.1 2 [11, 12, 13, 14] (by decide!) (by decide) (by decide) (by decide!)).1
    (by decide!)
  exact ⟨by decide!, by decide!, k.1, k2.1, k2.2⟩

/-! ## The back-reference of a task that waited with a timeout -/

/-- The nodes and the list headers after `kernel_reinsert_task` are those after its call of
`linked_list_transfer`. -/
theorem kernel_reinsert_task_mem {K : Kernel} {source e t g : Nat} {ys l1 l2 : List Nat}
    (hg : dictionary_get K.mem K.g_prioritized_tasks
      (K.mem.tcb (K.mem.task t).task_data).u8TaskPrio 0 = (DICTIONARY_SUCCESS, g))
    (hs0 : source ≠ 0) (hgs : g ≠ source)
    (hsrc : IsList K.mem.element (K.mem.list source) (l1 ++ e :: l2))
    (hdst : IsList K.mem.element (K.mem.list g) ys)
    (hdj : ∀ x ∈ ys, x ∉ l1 ++ e :: l2)
    (ht : task_checking K.mem t = TASK_SUCCESS) :
    (kernel_reinsert_task K source e t).2.mem.element =
      (linked_list_transfer K.mem g source e).2.element ∧
    (kernel_reinsert_task K source e t).2.mem.list =
      (linked_list_transfer K.mem g source e).2.list := by
  have hg0 : g ≠ 0 := (dictionary_get_success hg).1
  obtain ⟨t1, -, -, -, -, -, t7⟩ := transfer_isList hg0 hs0 hgs hsrc hdst hdj
  have htask := (onlyLists_fields t7).2.2.2.2.1
  have hc : task_checking (linked_list_transfer K.mem g source e).2 t = TASK_SUCCESS := by
    unfold task_checking at ht ⊢
    rw [htask]
    exact ht
  have hset : (task_set_state (linked_list_transfer K.mem g source e).2 t TaskState_Ready).2
      = (linked_list_transfer K.mem g source e).2.setTaskState t TaskState_Ready := by
    unfold task_set_state
    rw [if_neg (fun h => h hc)]
    simp
  have hl : (task_set_state (linked_list_transfer K.mem g source e).2 t TaskState_Ready).2.list
      = (linked_list_transfer K.mem g source e).2.list := by
    rw [hset]
    rfl
  have hel : (task_set_state (linked_list_transfer K.mem g source e).2 t
      TaskState_Ready).2.element = (linked_list_transfer K.mem g source e).2.element := by
    rw [hset]
    rfl
  unfold kernel_reinsert_task
  simp only []
  rw [hg]
  rw [if_neg (fun h => h rfl)]
  simp only [Kernel.setMem]
  rw [if_neg (fun h => h t1)]
  split_ifs
  · simp only [hl, hel]
    exact ⟨trivial, trivial⟩
  · simp only [hl, hel]
    exact ⟨trivial, trivial⟩

/-- The write `task->time_quantum_remaining = v` leaves the other fields of every task. -/
theorem setTimeQuantumRemaining_fields (m : Mem) (a v t : Nat) :
    ((m.setTimeQuantumRemaining a v).task t).task_data = (m.task t).task_data ∧
    ((m.setTimeQuantumRemaining a v).task t).blocked_timeout_list
      = (m.task t).blocked_timeout_list ∧
    ((m.setTimeQuantumRemaining a v).task t).blocked_timeout_list_element
      = (m.task t).blocked_timeout_list_element := by
  unfold Mem.setTimeQuantumRemaining Mem.setTask
  by_cases h : t = a
  · subst h
    simp
  · simp [Function.update, h]

/-- C38 (the tick handler leaves the back-reference).  Let the delay list be well-formed
with the node `e` of the task `t` at its front and the delta `0`, as after the timeout of
`kernel_event_receive_timeout` has run down, with the back-reference of `t` naming the
delay list and the node `e`; let no critical section be active, the kernel be running a
task with a positive remaining quantum, and the priority group `g` of `t` and the
blocked-on-events list be well-formed lists that do not hold `e`.  Then the call of
`kernel_update` returns; afterwards `e` is the head of the priority group `g`, the task is
Ready, `e` is a node neither of the delay list nor of the blocked-on-events list, and
`blocked_timeout_list` and `blocked_timeout_list_element` of `t` still are the delay list
and `e`, both not `NULL`.  (The globals `g_delayed_tasks` and `g_blocked_tasks` are never
written by `kernel_update`.) -/
theorem kernel_update_keeps_blocked_reference (K : Kernel) (e t g b : Nat)
    (ds ps bs : List Nat)
    (hr : K.g_running_task_current ≠ 0) (hst : K.g_kernel_status = EN_KERNEL_RUNNING)
    (hf : K.g_kernel_critical_section_active = false)
    (hd0 : K.g_delayed_tasks ≠ 0)
    (hdl : IsList K.mem.element (K.mem.list K.g_delayed_tasks) (e :: ds))
    (hdata : (K.mem.element e).data = t)
    (hdelta : (K.mem.task t).delta_time = 0)
    (hq : (K.mem.task K.g_running_task_current).time_quantum_remaining = b) (hb0 : b ≠ 0)
    (ht : task_checking K.mem t = TASK_SUCCESS)
    (hg : dictionary_get K.mem K.g_prioritized_tasks
      (K.mem.tcb (K.mem.task t).task_data).u8TaskPrio 0 = (DICTIONARY_SUCCESS, g))
    (hgd : g ≠ K.g_delayed_tasks)
    (hgl : IsList K.mem.element (K.mem.list g) ps) (hdj : ∀ x ∈ ps, x ∉ e :: ds)
    (hbk : IsList K.mem.element (K.mem.list K.g_blocked_tasks) bs)
    (hbg : K.g_blocked_tasks ≠ g) (hbd : K.g_blocked_tasks ≠ K.g_delayed_tasks)
    (hbp : ∀ x ∈ bs, x ∉ ps) (hbs : ∀ x ∈ bs, x ∉ e :: ds)
    (hbl : (K.mem.task t).blocked_timeout_list = K.g_delayed_tasks)
    (hbe : (K.mem.task t).blocked_timeout_list_element = e) :
    ∃ K2, kernel_update K = some K2 ∧
      IsList K2.mem.element (K2.mem.list g) (ps ++ [e]) ∧
      (K2.mem.element e).data = t ∧
      (K2.mem.tcb (K2.mem.task t).task_data).eTaskState = TaskState_Ready ∧
      IsList K2.mem.element (K2.mem.list K.g_delayed_tasks) ds ∧ e ∉ ds ∧
      IsList K2.mem.element (K2.mem.list K.g_blocked_tasks) bs ∧ e ∉ bs ∧
      (K2.mem.task t).blocked_timeout_list = K.g_delayed_tasks ∧
      (K2.mem.task t).blocked_timeout_list ≠ 0 ∧
      (K2.mem.task t).blocked_timeout_list_element = e ∧
      (K2.mem.task t).blocked_timeout_list_element ≠ 0 := by
  have hsz : (K.mem.list K.g_delayed_tasks).size > 0 := by
    rw [hdl.2.2.2.2]
    simp
  have htail : (K.mem.list K.g_delayed_tasks).tail = e := hdl.2.2.1
  have hwake := kernel_update_wake hr hst hf hsz (by rw [htail]; exact hdata) hdelta hq hb0
  rw [htail] at hwake
  have hsrc : IsList K.mem.element (K.mem.list K.g_delayed_tasks) (([] : List Nat) ++ e :: ds) :=
    hdl
  have hdj2 : ∀ x ∈ ps, x ∉ ([] : List Nat) ++ e :: ds := hdj
  have hg0 : g ≠ 0 := (dictionary_get_success hg).1
  obtain ⟨r1, r2, r3, r4⟩ := kernel_reinsert_task_spec hg hd0 hgd hsrc hgl hdj2 ht
  obtain ⟨m1, m2⟩ := kernel_reinsert_task_mem hg hd0 hgd hsrc hgl hdj2 ht
  obtain ⟨-, -, -, t4, t5, t6, -⟩ := transfer_isList hg0 hd0 hgd hsrc hgl hdj2
  obtain ⟨-, -, -, -, -, -, ftask⟩ := kernel_reinsert_task_frame K K.g_delayed_tasks e t
  obtain ⟨q1, q2, q3⟩ := setTimeQuantumRemaining_fields
    (kernel_reinsert_task K K.g_delayed_tasks e t).2.mem K.g_running_task_current
    (size_t_dec b) t
  have he0 : e ≠ 0 := hdl.2.1.1
  have hed : e ∉ ds := (List.nodup_cons.1 hdl.1).1
  have heb : e ∉ bs := fun hc => hbs e hc (List.mem_cons_self _ _)
  refine ⟨_, hwake, r2, ?_, ?_, r3, hed, ?_, heb, ?_, ?_, ?_, ?_⟩
  · show ((kernel_reinsert_task K K.g_delayed_tasks e t).2.mem.element e).data = t
    rw [m1, t5]
    exact hdata
  · show (Mem.tcb _ ((Mem.setTimeQuantumRemaining _ _ _).task t).task_data).eTaskState = _
    rw [q1]
    exact r4
  · show IsList (kernel_reinsert_task K K.g_delayed_tasks e t).2.mem.element
      ((kernel_reinsert_task K K.g_delayed_tasks e t).2.mem.list K.g_blocked_tasks) bs
    rw [m1, m2]
    exact hbk.frame (t6 _ hbg hbd) (fun x hx => t4 x (hbp x hx) (hbs x hx))
  · show ((Mem.setTimeQuantumRemaining _ _ _).task t).blocked_timeout_list = _
    rw [q2, ftask]
    exact hbl
  · show ((Mem.setTimeQuantumRemaining _ _ _).task t).blocked_timeout_list ≠ 0
    rw [q2, ftask, hbl]
    exact hd0
  · show ((Mem.setTimeQuantumRemaining _ _ _).task t).blocked_timeout_list_element = _
    rw [q3, ftask]
    exact hbe
  · show ((Mem.setTimeQuantumRemaining _ _ _).task t).blocked_timeout_list_element ≠ 0
    rw [q3, ftask, hbe]
    exact he0

set_option maxHeartbeats 4000000 in
/-- C38, witness: in `kernel_example_timed_out` task 101 has waited ten ticks in
`kernel_event_receive_timeout` with the timeout 10.  The eleventh call of `kernel_update`
moves its node 11 to the head of the priority group 2 and empties the delay list 7; the
back-reference of task 101 still names the list 7 and the node 11, also after the task has
run again and `kernel_event_receive_timeout` has returned to it. -/
theorem kernel_update_keeps_blocked_reference_witness :
    (∃ K2, kernel_update kernel_example_timed_out = some K2 ∧
      IsList K2.mem.element (K2.mem.list 2) ([12, 13, 14] ++ [11]) ∧
      IsList K2.mem.element (K2.mem.list 7) [] ∧
      IsList K2.mem.element (K2.mem.list 8) [] ∧
      (K2.mem.task 101).blocked_timeout_list = 7 ∧
      (K2.mem.task 101).blocked_timeout_list_element = 11) ∧
    ((kernel_event_receive_timeout_resume (kernel_example_woken.run 2 11 101) 8).2.2.mem.task
      101).blocked_timeout_list = 7 ∧
    ((kernel_event_receive_timeout_resume (kernel_example_woken.run 2 11 101) 8).2.2.mem.task
      101).blocked_timeout_list_element = 11 := by
  have a1 : kernel_example_timed_out.g_running_task_current ≠ 0 := by decide!
  have a2 : kernel_example_timed_out.g_kernel_status = EN_KERNEL_RUNNING := by decide!
  have a3 : kernel_example_timed_out.g_kernel_critical_section_active = false := by decide!
  have a4 : kernel_example_timed_out.g_delayed_tasks = 7 := by decide!
  have a5 : kernel_example_timed_out.g_blocked_tasks = 8 := by decide!
  have a6 : IsList kernel_example_timed_out.mem.element
      (kernel_example_timed_out.mem.list 7) [11] := by decide!
  have a7 : (kernel_example_timed_out.mem.element 11).data = 101 := by decide!
  have a8 : (kernel_example_timed_out.mem.task 101).delta_time = 0 := by decide!
  have a9 : (kernel_example_timed_out.mem.task
      kernel_example_timed_out.g_running_task_current).time_quantum_remaining = 90 := by
    decide!
  have a10 : task_checking kernel_example_timed_out.mem 101 = TASK_SUCCESS := by decide!
  have a11 : dictionary_get kernel_example_timed_out.mem
      kernel_example_timed_out.g_prioritized_tasks
      (kernel_example_timed_out.mem.tcb
        (kernel_example_timed_out.mem.task 101).task_data).u8TaskPrio 0
        = (DICTIONARY_SUCCESS, 2) := by decide!
  have a12 : IsList kernel_example_timed_out.mem.element
      (kernel_example_timed_out.mem.list 2) [12, 13, 14] := by decide!
  have a13 : IsList kernel_example_timed_out.mem.element
      (kernel_example_timed_out.mem.list 8) [] := by decide!
  have a14 : (kernel_example_timed_out.mem.task 101).blocked_timeout_list = 7 := by decide!
  have a15 : (kernel_example_timed_out.mem.task 101).blocked_timeout_list_element = 11 := by
    decide!
  obtain ⟨K2, h1, h2, -, -, h5, -, h7, -, h9, -, h11, -⟩ :=
    kernel_update_keeps_blocked_reference kernel_example_timed_out 11 101 2 90 [] [12, 13, 14]
      [] a1 a2 a3 (a4 ▸ (by decide)) (a4 ▸ a6) a7 a8 a9 (by decide) a10 a11
      (a4 ▸ (by decide)) a12 (by decide) (a5 ▸ a13) (a5 ▸ (by decide))
      (a5 ▸ a4 ▸ (by decide)) (by decide) (by decide) (a4 ▸ a14) a15
  rw [a4] at h5 h9
  rw [a5] at h7
  exact ⟨⟨K2, h1, h2, h5, h7, h9, h11⟩, by decide!, by decide!⟩

/-! ## The lists after a late event -/

/-- A well-formed list of the size `0` has no tail. -/
theorem IsList.tail_of_size_zero {E : Nat → linked_list_element_t} {l : linked_list_t}
    {xs : List Nat} (h : IsList E l xs) (hs : l.size = 0) : l.tail = 0 := by
  have hx : xs = [] := List.length_eq_zero.1 (h.2.2.2.2.symm.trans hs)
  rw [h.2.2.1, hx]
  rfl

set_option maxHeartbeats 4000000 in
/-- C31 (an event sent after the timeout breaks two lists).  The run starts in
`kernel_example`, the state that `kernel_start` leaves for four tasks of one priority
(nodes 11..14 in the priority group 2, delay list 7, blocked-on-events list 8).
1. Task 101 calls `kernel_event_receive_timeout` (wanted events `0x08`, timeout 10): its
   node 11 moves to the delay list, task 102 runs.
2. Eleven calls of `kernel_update`: node 11 is moved back to the head of the group 2, the
   delay list is empty, and the back-reference of task 101 still names the list 7 and the
   node 11.
3. Task 103 calls `kernel_delay(50)`: its node 13 is alone in the delay list, the group 2
   holds 12, 14, 11, and the lists 2, 7 and 8 are well-formed.
4. Task 104 calls `kernel_event_send(1, 0x08)`.  The call returns `KERNEL_SUCCESS`.
   `kernel_reinsert_task` has been called with the list 7 and the node 11, which is the
   head of the group 2: the size of the delay list is `0` while node 13 is still its tail
   and head, the size of the group 2 is `4` while following `next` from its tail visits
   the two nodes 12 and 14, and the `next` pointer of its head 11 is node 11 itself.
   Neither the delay list nor the group 2 is well-formed for any sequence of nodes. -/
theorem kernel_event_send_after_timeout_breaks_lists :
    (list_view kernel_example_receiving 7 6 = ([11, 11, 1], [11]) ∧
      list_view kernel_example_receiving 2 6 = ([14, 12, 3], [12, 13, 14])) ∧
    ((kernel_update_times 11 kernel_example_receiving).map
        (fun K => (list_view K 7 6, list_view K 2 6,
          [(K.mem.task 101).blocked_timeout_list, (K.mem.task 101).blocked_timeout_list_element]))
        = some (([0, 0, 0], []), ([11, 12, 4], [12, 13, 14, 11]), [7, 11]) ∧
      list_view kernel_example_woken 2 6 = ([11, 12, 4], [12, 13, 14, 11])) ∧
    ((kernel_delay 5 (kernel_example_woken.run 2 13 103) 50).map Prod.fst
        = some KERNEL_SUCCESS ∧
      IsList kernel_example_woken_delay.mem.element
        (kernel_example_woken_delay.mem.list 7) [13] ∧
      IsList kernel_example_woken_delay.mem.element
        (kernel_example_woken_delay.mem.list 2) [12, 14, 11] ∧
      IsList kernel_example_woken_delay.mem.element
        (kernel_example_woken_delay.mem.list 8) []) ∧
    (kernel_example_late_event.1 = KERNEL_SUCCESS ∧
      list_view kernel_example_late_event.2 7 6 = ([13, 13, 0], [13]) ∧
      list_view kernel_example_late_event.2 2 6 = ([11, 12, 4], [12, 14]) ∧
      (kernel_example_late_event.2.mem.element 11).next = 11 ∧
      (∀ xs, ¬ IsList kernel_example_late_event.2.mem.element
        (kernel_example_late_event.2.mem.list 7) xs) ∧
      (∀ xs, ¬ IsList kernel_example_late_event.2.mem.element
        (kernel_example_late_event.2.mem.list 2) xs)) := by
  have v7 : list_view kernel_example_late_event.2 7 6 = ([13, 13, 0], [13]) := by decide!
  have v2 : list_view kernel_example_late_event.2 2 6 = ([11, 12, 4], [12, 14]) := by decide!
  have n11 : (kernel_example_late_event.2.mem.element 11).next = 11 := by decide!
  have s7 : (kernel_example_late_event.2.mem.list 7).size = 0 := by decide!
  have t7 : (kernel_example_late_event.2.mem.list 7).tail = 13 := by decide!
  have h2 : (kernel_example_late_event.2.mem.list 2).head = 11 := by decide!
  refine ⟨⟨by decide!, by decide!⟩, ⟨by decide!, by decide!⟩,
    ⟨by decide!, by decide!, by decide!, by decide!⟩,
    by decide!, v7, v2, n11, ?_, ?_⟩
  · intro xs hx
    have h0 := hx.tail_of_size_zero s7
    rw [t7] at h0
    exact absurd h0 (by decide)
  · intro xs hx
    rcases hx.head_next with h0 | h0
    · rw [h2] at h0
      exact absurd h0 (by decide)
    · rw [h2, n11] at h0
      exact absurd h0 (by decide)

/-! ## The compaction of the priorities in `kernel_start` -/

/-- The write of `task_set_priority` changes the control block of the task only. -/
theorem setTaskPrio_fields (m : Mem) (t v : Nat) :
    (m.setTaskPrio t v).element = m.element ∧ (m.setTaskPrio t v).list = m.list ∧
    (m.setTaskPrio t v).task = m.task ∧ (m.setTaskPrio t v).slots = m.slots ∧
    (m.setTaskPrio t v).dictionary = m.dictionary ∧
    ((m.setTaskPrio t v).tcb (m.task t).task_data).u8TaskPrio = v ∧
    (∀ a, a ≠ (m.task t).task_data → (m.setTaskPrio t v).tcb a = m.tcb a) := by
  refine ⟨rfl, rfl, rfl, rfl, rfl, ?_, ?_⟩
  · simp [Mem.setTaskPrio, Mem.setTcb]
  · intro a ha
    simp [Mem.setTaskPrio, Mem.setTcb, Function.update, ha]

/-- The loop that rewrites the priorities of a group: on a chain of nodes that hold valid
tasks it ends with `TASK_SUCCESS` when the fuel exceeds the number of nodes, every task
of the chain has the priority `p` afterwards and nothing else has changed. -/
theorem kernel_start_update_priorities_spec (p : Nat) :
    ∀ (xs : List Nat) (fuel : Nat) (m : Mem) (prev : Nat),
      xs.length < fuel → Seg m.element prev xs 0 →
      (∀ x ∈ xs, task_checking m (m.element x).data = TASK_SUCCESS) →
      ∃ m2, kernel_start_update_priorities p fuel m (xs.headD 0) = some (TASK_SUCCESS, m2) ∧
        m2.element = m.element ∧ m2.list = m.list ∧ m2.task = m.task ∧
        m2.slots = m.slots ∧ m2.dictionary = m.dictionary ∧
        (∀ x ∈ xs, (m2.tcb (node_tcb m x)).u8TaskPrio = p) ∧
        (∀ a, (∀ x ∈ xs, node_tcb m x ≠ a) → m2.tcb a = m.tcb a) := by
  intro xs
  induction xs with
  | nil =>
    intro fuel m prev hf _ _
    obtain ⟨f, rfl⟩ : ∃ f, fuel = f + 1 := ⟨fuel - 1, by simp at hf; omega⟩
    exact ⟨m, by simp [kernel_start_update_priorities], rfl, rfl, rfl, rfl, rfl,
      fun x hx => absurd hx (List.not_mem_nil x), fun a _ => rfl⟩
  | cons x xs ih =>
    intro fuel m prev hf hseg hok
    obtain ⟨f, rfl⟩ : ∃ f, fuel = f + 1 := ⟨fuel - 1, by simp at hf; omega⟩
    obtain ⟨hx0, -, hnext, hrest⟩ := hseg
    have hokx := hok x (List.mem_cons_self _ _)
    obtain ⟨e1, e2, e3, e4, e5, e6, e7⟩ := setTaskPrio_fields m (m.element x).data p
    have hrest1 : Seg (m.setTaskPrio (m.element x).data p).element x xs 0 := by
      rw [e1]; exact hrest
    have hok1 : ∀ y ∈ xs, task_checking (m.setTaskPrio (m.element x).data p)
        ((m.setTaskPrio (m.element x).data p).element y).data = TASK_SUCCESS := by
      intro y hy
      have := hok y (List.mem_cons_of_mem _ hy)
      unfold task_checking at this ⊢
      rw [e1, e3]
      exact this
    obtain ⟨m2, i1, i2, i3, i4, i5, i6, i7, i8⟩ :=
      ih f (m.setTaskPrio (m.element x).data p) x (by simpa using hf) hrest1 hok1
    have hnt : ∀ y, node_tcb (m.setTaskPrio (m.element x).data p) y = node_tcb m y := by
      intro y
      unfold node_tcb
      rw [e1, e3]
    refine ⟨m2, ?_, i2.trans e1, i3.trans e2, i4.trans e3, i5.trans e4, i6.trans e5, ?_, ?_⟩
    · have hstep : kernel_start_update_priorities p (f + 1) m x
          = kernel_start_update_priorities p f (m.setTaskPrio (m.element x).data p)
              (xs.headD 0) := by
        have hts : task_set_priority m (m.element x).data p
            = (TASK_SUCCESS, m.setTaskPrio (m.element x).data p) := by
          unfold task_set_priority
          rw [if_neg (fun h => h hokx)]
        rw [kernel_start_update_priorities, if_neg hx0]
        simp only []
        rw [hts]
        simp only []
        rw [if_neg (fun h => h rfl), e1, hnext]
      exact hstep.trans i1
    · intro y hy
      by_cases hex : ∃ z ∈ xs, node_tcb m z = node_tcb m y
      · obtain ⟨z, hz, hzy⟩ := hex
        rw [← hzy, ← hnt z]
        exact i7 z hz
      · have hall : ∀ z ∈ xs, node_tcb (m.setTaskPrio (m.element x).data p) z
            ≠ node_tcb m y := by
          intro z hz hc
          exact hex ⟨z, hz, (hnt z).symm.trans hc⟩
        rw [i8 _ hall]
        rcases List.mem_cons.1 hy with rfl | hy2
        · exact e6
        · exact absurd ⟨y, hy2, rfl⟩ hex
    · intro a ha
      have h1 : ∀ z ∈ xs, node_tcb (m.setTaskPrio (m.element x).data p) z ≠ a := by
        intro z hz
        rw [hnt]
        exact ha z (List.mem_cons_of_mem _ hz)
      rw [i8 a h1]
      exact e7 a (fun hc => ha x (List.mem_cons_self _ _) hc.symm)

/-- Moving a list behind an empty destination writes list headers only. -/
theorem move_into_empty_element {m : Mem} {dst : Nat} (src : Nat)
    (hz : (m.list dst).size = 0) :
    (linked_list_move_linked_list_after m dst src).2.element = m.element := by
  unfold linked_list_move_linked_list_after
  split_ifs <;> rfl

/-- The lookups in the table of the priority groups depend on the dictionaries only. -/
theorem priority_group_of_congr {K K2 : Kernel}
    (hg : K2.g_prioritized_tasks = K.g_prioritized_tasks)
    (hd : K2.mem.dictionary = K.mem.dictionary) (hs : K2.mem.slots = K.mem.slots) (r : Nat) :
    dictionary_get K2.mem K2.g_prioritized_tasks r 0
      = dictionary_get K.mem K.g_prioritized_tasks r 0 := by
  rw [hg]
  exact dictionary_get_congr hd hs _ _ _

/-- A lookup in a valid table of the priority groups. -/
theorem priority_table_get {K : Kernel} {c : Nat → List Nat} (hT : priority_table K c)
    {r : Nat} (hr : r < KERNEL_MAX_TASK) :
    dictionary_get K.mem K.g_prioritized_tasks r 0
      = (DICTIONARY_SUCCESS, priority_group_of K r) ∧ priority_group_of K r ≠ 0 := by
  have h1 : dictionary_get K.mem K.g_prioritized_tasks r 0
      = (DICTIONARY_SUCCESS, priority_group_of K r) := Prod.ext (hT.1 r hr) rfl
  exact ⟨h1, (dictionary_get_success h1).1⟩

/-- One compaction step keeps the table valid: the group of the priority `q` gets the
priority `p` written into its tasks and is moved into the empty group of the priority
`p`.  The nodes and the tasks are not written. -/
theorem priority_table_move {K : Kernel} (K2 : Kernel) {c : Nat → List Nat} {p q : Nat}
    {m2 : Mem}
    (hT : priority_table K c) (hp : p < KERNEL_MAX_TASK) (hq : q < KERNEL_MAX_TASK)
    (hcp : c p = []) (hcq : c q ≠ [])
    (hm2 : m2.element = K.mem.element ∧ m2.list = K.mem.list ∧ m2.task = K.mem.task ∧
      m2.slots = K.mem.slots ∧ m2.dictionary = K.mem.dictionary ∧
      (∀ x ∈ c q, (m2.tcb (node_tcb K.mem x)).u8TaskPrio = p) ∧
      (∀ a, (∀ x ∈ c q, node_tcb K.mem x ≠ a) → m2.tcb a = K.mem.tcb a))
    (hg : K2.g_prioritized_tasks = K.g_prioritized_tasks)
    (hmem : K2.mem = (linked_list_move_linked_list_after m2 (priority_group_of K p)
      (priority_group_of K q)).2) :
    priority_table K2 (Function.update (Function.update c p (c q)) q []) ∧
    K2.mem.element = K.mem.element ∧ K2.mem.task = K.mem.task ∧
    (∀ r, priority_group_of K2 r = priority_group_of K r) := by
  obtain ⟨T1, T2, T3, T4, T5, T6⟩ := hT
  obtain ⟨u1, u2, u3, u4, u5, u6, u7⟩ := hm2
  have hpq : p ≠ q := fun h => hcq (h ▸ hcp)
  have hA : ∀ r, r < KERNEL_MAX_TASK → priority_group_of K r ≠ 0 := fun r hr =>
    (priority_table_get ⟨T1, T2, T3, T4, T5, T6⟩ hr).2
  have hdst : IsList m2.element (m2.list (priority_group_of K p)) [] := by
    rw [u1, u2, ← hcp]
    exact T3 p hp
  have hsrc : IsList m2.element (m2.list (priority_group_of K q)) (c q) := by
    rw [u1, u2]
    exact T3 q hq
  obtain ⟨v1, v2, -, v4, v5⟩ := move_isList_any (hA p hp) (hA q hq) (T2 p hp q hq hpq)
    hdst hsrc (fun x hx => absurd hx (List.not_mem_nil x))
  have hz : (m2.list (priority_group_of K p)).size = 0 := hdst.2.2.2.2
  have v6 := move_into_empty_element (priority_group_of K q) hz
  obtain ⟨w1, w2, -, -, w5, w6⟩ := onlyLists_fields v5
  rw [← hmem] at v1 v2 v4 v6 w1 w2 w5 w6
  have hel : K2.mem.element = K.mem.element := v6.trans u1
  have htask : K2.mem.task = K.mem.task := w5.trans u3
  have hget : ∀ r, dictionary_get K2.mem K2.g_prioritized_tasks r 0
      = dictionary_get K.mem K.g_prioritized_tasks r 0 := fun r =>
    priority_group_of_congr hg (w2.trans u5) (w1.trans u4) r
  have hgrp : ∀ r, priority_group_of K2 r = priority_group_of K r := by
    intro r
    unfold priority_group_of
    rw [hget]
  have hnt : ∀ x, node_tcb K2.mem x = node_tcb K.mem x := by
    intro x
    unfold node_tcb
    rw [hel, htask]
  have hc2 : ∀ r, Function.update (Function.update c p (c q)) q [] r
      = if r = q then [] else if r = p then c q else c r := by
    intro r
    by_cases h1 : r = q
    · rw [h1, Function.update_same, if_pos rfl]
    · rw [Function.update_noteq h1, if_neg h1]
      by_cases h2 : r = p
      · rw [h2, Function.update_same, if_pos rfl]
      · rw [Function.update_noteq h2, if_neg h2]
  have hmemc : ∀ r, r < KERNEL_MAX_TASK → ∀ x,
      x ∈ Function.update (Function.update c p (c q)) q [] r →
      r ≠ q ∧ ((r = p ∧ x ∈ c q) ∨ (r ≠ p ∧ x ∈ c r)) := by
    intro r hr x hx
    rw [hc2] at hx
    by_cases h1 : r = q
    · rw [if_pos h1] at hx
      exact absurd hx (List.not_mem_nil x)
    · rw [if_neg h1] at hx
      by_cases h2 : r = p
      · rw [if_pos h2] at hx
        exact ⟨h1, Or.inl ⟨h2, hx⟩⟩
      · rw [if_neg h2] at hx
        exact ⟨h1, Or.inr ⟨h2, hx⟩⟩
  -- the old group of every node of the new table
  have hold : ∀ r, r < KERNEL_MAX_TASK → ∀ x,
      x ∈ Function.update (Function.update c p (c q)) q [] r →
      ∃ r0, r0 < KERNEL_MAX_TASK ∧ x ∈ c r0 ∧ (r = p → r0 = q) ∧ (r ≠ p → r0 = r) := by
    intro r hr x hx
    obtain ⟨h1, h2 | h2⟩ := hmemc r hr x hx
    · exact ⟨q, hq, h2.2, fun _ => rfl, fun h => absurd h2.1 h⟩
    · exact ⟨r, hr, h2.2, fun h => absurd h h2.1, fun _ => rfl⟩
  refine ⟨⟨?_, ?_, ?_, ?_, ?_, ?_⟩, hel, htask, hgrp⟩
  · intro r hr
    rw [hget]
    exact T1 r hr
  · intro r hr s hs hrs
    rw [hgrp, hgrp]
    exact T2 r hr s hs hrs
  · intro r hr
    rw [hgrp, hc2]
    by_cases h1 : r = q
    · rw [if_pos h1, h1]
      exact v2
    · rw [if_neg h1]
      by_cases h2 : r = p
      · rw [if_pos h2, h2]
        exact v1
      · rw [if_neg h2, hel]
        have hl : K2.mem.list (priority_group_of K r) = K.mem.list (priority_group_of K r) := by
          rw [v4 _ (T2 r hr p hp h2) (T2 r hr q hq h1), u2]
        rw [hl]
        exact T3 r hr
  · intro r hr s hs hrs x hx hy
    obtain ⟨r0, hr0, hxr, a1, a2⟩ := hold r hr x hx
    obtain ⟨s0, hs0, hxs, b1, b2⟩ := hold s hs x hy
    have hne : r0 ≠ s0 := by
      intro hc
      by_cases h1 : r = p
      · by_cases h2 : s = p
        · exact hrs (h1.trans h2.symm)
        · have e1 := a1 h1
          have e2 := b2 h2
          have h3 := (hmemc s hs x hy).1
          exact h3 (e2.symm.trans (hc.symm.trans e1))
      · by_cases h2 : s = p
        · have e1 := a2 h1
          have e2 := b1 h2
          have h3 := (hmemc r hr x hx).1
          exact h3 (e1.symm.trans (hc.trans e2))
        · exact hrs ((a2 h1).symm.trans (hc.trans (b2 h2)))
    exact T4 r0 hr0 s0 hs0 hne x hxr hxs
  · intro r hr x hx
    obtain ⟨h1, h2 | h2⟩ := hmemc r hr x hx
    · constructor
      · have := (T5 q hq x h2.2).1
        unfold task_checking at this ⊢
        rw [hel, htask]
        exact this
      · rw [hnt, w6, h2.1]
        exact u6 x h2.2
    · constructor
      · have := (T5 r hr x h2.2).1
        unfold task_checking at this ⊢
        rw [hel, htask]
        exact this
      · rw [hnt, w6, u7]
        · exact (T5 r hr x h2.2).2
        · intro y hy
          have hxy : y ≠ x := fun hc => T4 q hq r hr (fun h => h1 h.symm) y hy (hc ▸ h2.2)
          exact T6 q hq r hr y hy x h2.2 hxy
  · intro r hr s hs x hx y hy hxy
    obtain ⟨r0, hr0, hxr, -, -⟩ := hold r hr x hx
    obtain ⟨s0, hs0, hys, -, -⟩ := hold s hs y hy
    rw [hnt, hnt]
    exact T6 r0 hr0 s0 hs0 x hxr y hys hxy

/-- The inner loop of the compaction, started for the empty group of the priority `p`
with the groups of the priorities `p, ..., lower - 1` empty: either it finds the first
non-empty group `q`, rewrites its priorities and moves it into the group `p`, or all
groups from `p` on are empty and nothing is written. -/
theorem kernel_start_fill_spec {fuel p : Nat} {c : Nat → List Nat} (hp : p < KERNEL_MAX_TASK)
    (hcp : c p = []) (hfuel : ∀ r < KERNEL_MAX_TASK, (c r).length < fuel) :
    ∀ (n lower : Nat) (K : Kernel), lower + n = KERNEL_MAX_TASK → priority_table K c →
      (∀ j, p ≤ j → j < lower → c j = []) →
      (∃ q K2, lower ≤ q ∧ q < KERNEL_MAX_TASK ∧ c q ≠ [] ∧ (∀ j, p ≤ j → j < q → c j = []) ∧
        kernel_start_fill fuel p (priority_group_of K p) n lower K = some (KERNEL_SUCCESS, K2) ∧
        priority_table K2 (Function.update (Function.update c p (c q)) q []) ∧
        K2.mem.element = K.mem.element ∧ K2.mem.task = K.mem.task ∧
        K2.g_task_lowest_priority = p ∧ K2.g_task_lower_priority = p ∧
        K2.g_prioritized_tasks = K.g_prioritized_tasks ∧
        K2.g_kernel_status = K.g_kernel_status) ∨
      ((∀ j, p ≤ j → j < KERNEL_MAX_TASK → c j = []) ∧
        kernel_start_fill fuel p (priority_group_of K p) n lower K = some (KERNEL_SUCCESS, K)) := by
  intro n
  induction n with
  | zero =>
    intro lower K hn hT hemp
    right
    refine ⟨fun j h1 h2 => hemp j h1 (by omega), rfl⟩
  | succ n ih =>
    intro lower K hn hT hemp
    have hl : lower < KERNEL_MAX_TASK := by omega
    obtain ⟨hget, hA⟩ := priority_table_get hT hl
    have hlist := hT.2.2.1 lower hl
    by_cases hc : c lower = []
    · have hsz : (K.mem.list (priority_group_of K lower)).size = 0 := by
        rw [hlist.2.2.2.2, hc]
        rfl
      have hstep : kernel_start_fill fuel p (priority_group_of K p) (n + 1) lower K
          = kernel_start_fill fuel p (priority_group_of K p) n (lower + 1) K := by
        rw [kernel_start_fill]
        simp only []
        rw [hget]
        simp only []
        rw [if_neg (by decide), if_neg (fun h => h rfl), if_pos hsz]
      rw [hstep]
      have hemp2 : ∀ j, p ≤ j → j < lower + 1 → c j = [] := by
        intro j h1 h2
        by_cases h3 : j = lower
        · rw [h3]; exact hc
        · exact hemp j h1 (by omega)
      rcases ih (lower + 1) K (by omega) hT hemp2 with ⟨q, K2, h1, h2⟩ | h
      · exact Or.inl ⟨q, K2, by omega, h2⟩
      · exact Or.inr h
    · left
      have hsz : (K.mem.list (priority_group_of K lower)).size ≠ 0 := by
        rw [hlist.2.2.2.2]
        exact fun h => hc (List.length_eq_zero.1 h)
      have htl : (K.mem.list (priority_group_of K lower)).tail = (c lower).headD 0 :=
        hlist.2.2.1
      obtain ⟨m2, y1, y2⟩ := kernel_start_update_priorities_spec p (c lower) fuel K.mem 0
        (hfuel lower hl) hlist.2.1 (fun x hx => (hT.2.2.2.2.1 lower hl x hx).1)
      have hstep : kernel_start_fill fuel p (priority_group_of K p) (n + 1) lower K
          = some (KERNEL_SUCCESS,
              (Kernel.setMem { K.setMem m2 with
                  g_task_lower_priority := p
                  g_task_lowest_priority := p }
                (linked_list_move_linked_list_after m2 (priority_group_of K p)
                  (priority_group_of K lower)).2)) := by
        rw [kernel_start_fill]
        simp only []
        rw [hget]
        simp only []
        rw [if_neg (by decide), if_neg (fun h => h rfl), if_neg hsz, htl, y1]
        simp only []
        rw [if_neg (fun h => h rfl)]
        rfl
      obtain ⟨z1, z2, z3, -⟩ := priority_table_move (Kernel.setMem { K.setMem m2 with
                  g_task_lower_priority := p
                  g_task_lowest_priority := p }
                (linked_list_move_linked_list_after m2 (priority_group_of K p)
                  (priority_group_of K lower)).2) hT hp hl hcp hc y2 rfl rfl
      exact ⟨lower, _, le_refl _, hl, hc, hemp, hstep, z1, z2, z3, rfl, rfl, rfl, rfl⟩

theorem groups_compacted_refl (c : Nat → List Nat) : groups_compacted c c :=
  ⟨fun p _ _ => ⟨p, le_refl p, rfl⟩, fun p hp _ => ⟨p, hp, le_refl p, rfl⟩,
    fun p q hpq _ _ _ => ⟨p, q, hpq, le_refl q, rfl, rfl⟩⟩

theorem groups_compacted_trans {c c1 c2 : Nat → List Nat} (h1 : groups_compacted c c1)
    (h2 : groups_compacted c1 c2) : groups_compacted c c2 := by
  obtain ⟨a1, a2, a3⟩ := h1
  obtain ⟨b1, b2, b3⟩ := h2
  refine ⟨?_, ?_, ?_⟩
  · intro p hp hc
    obtain ⟨p1, hp1, e1⟩ := a1 p hp hc
    obtain ⟨p2, hp2, e2⟩ := b1 p1 (lt_of_le_of_lt hp1 hp) (e1 ▸ hc)
    exact ⟨p2, le_trans hp2 hp1, e2.trans e1⟩
  · intro p2 hp2 hc
    obtain ⟨p1, hp1, l1, e1⟩ := b2 p2 hp2 hc
    obtain ⟨p, hp, l, e⟩ := a2 p1 hp1 (e1 ▸ hc)
    exact ⟨p, hp, le_trans l1 l, e.trans e1⟩
  · intro p q hpq hq hcp hcq
    obtain ⟨p1, q1, l1, l2, e1, e2⟩ := a3 p q hpq hq hcp hcq
    obtain ⟨p2, q2, k1, k2, f1, f2⟩ := b3 p1 q1 l1 (lt_of_le_of_lt l2 hq) (e1 ▸ hcp)
      (e2 ▸ hcq)
    exact ⟨p2, q2, k1, le_trans k2 l2, f1.trans e1, f2.trans e2⟩

/-- The groups after one move of the compaction. -/
theorem update_move_apply (c : Nat → List Nat) (p q r : Nat) :
    Function.update (Function.update c p (c q)) q [] r
      = if r = q then [] else if r = p then c q else c r := by
  by_cases h1 : r = q
  · rw [h1, Function.update_same, if_pos rfl]
  · rw [Function.update_noteq h1, if_neg h1]
    by_cases h2 : r = p
    · rw [h2, Function.update_same, if_pos rfl]
    · rw [Function.update_noteq h2, if_neg h2]

theorem groups_compacted_move {c : Nat → List Nat} {p q : Nat} (hpq : p < q)
    (hq : q < KERNEL_MAX_TASK) (hcq : c q ≠ []) (hemp : ∀ j, p ≤ j → j < q → c j = []) :
    groups_compacted c (Function.update (Function.update c p (c q)) q []) := by
  have hsame : ∀ r, c r ≠ [] → r ≠ q →
      Function.update (Function.update c p (c q)) q [] r = c r := by
    intro r hr hrq
    rw [update_move_apply, if_neg hrq, if_neg]
    intro hrp
    exact hr (hrp ▸ hemp p (le_refl p) hpq)
  have hp2 : Function.update (Function.update c p (c q)) q [] p = c q := by
    rw [update_move_apply, if_neg (Nat.ne_of_lt hpq), if_pos rfl]
  have hout : ∀ r, c r ≠ [] → r ≠ q → r < p ∨ q < r := by
    intro r hr hrq
    by_cases h : r < p
    · exact Or.inl h
    · right
      by_contra h2
      exact hr (hemp r (by omega) (by omega))
  refine ⟨?_, ?_, ?_⟩
  · intro r hr hc
    by_cases hrq : r = q
    · exact ⟨p, by omega, by rw [hp2, hrq]⟩
    · exact ⟨r, le_refl r, hsame r hc hrq⟩
  · intro r hr hc
    rw [update_move_apply] at hc
    by_cases hrq : r = q
    · rw [if_pos hrq] at hc
      exact absurd rfl hc
    · by_cases hrp : r = p
      · exact ⟨q, hq, by omega, by rw [hrp, hp2]⟩
      · rw [if_neg hrq, if_neg hrp] at hc
        exact ⟨r, hr, le_refl r, (hsame r hc hrq).symm⟩
  · intro a b hab hb hca hcb
    by_cases haq : a = q
    · have hbq : b ≠ q := by omega
      exact ⟨p, b, by omega, le_refl b, by rw [hp2, haq], hsame b hcb hbq⟩
    · by_cases hbq : b = q
      · have ha := hout a hca haq
        exact ⟨a, p, by omega, by omega, hsame a hca haq, by rw [hp2, hbq]⟩
      · exact ⟨a, b, hab, le_refl b, hsame a hca haq, hsame b hcb hbq⟩

theorem compaction_state_keep {p low : Nat} {c : Nat → List Nat} (hp : p < KERNEL_MAX_TASK)
    (h : compaction_state p c low) (hc : c p ≠ []) : compaction_state (p + 1) c low := by
  rcases h with ⟨a1, a2⟩ | ⟨s, b1, b2, b3, b4⟩ | ⟨p0, c1, c2, c3, c4⟩
  · left
    refine ⟨fun i hi => ?_, a2⟩
    by_cases h : i = p
    · rw [h]; exact hc
    · exact a1 i (by omega)
  · exact absurd b4 hc
  · exact absurd (c3 p c1 hp) hc

theorem compaction_state_none {p low : Nat} {c : Nat → List Nat} (hp : p < KERNEL_MAX_TASK)
    (h : compaction_state p c low) (hemp : ∀ j, p ≤ j → j < KERNEL_MAX_TASK → c j = []) :
    compaction_state (p + 1) c low := by
  right
  right
  rcases h with ⟨a1, a2⟩ | ⟨s, b1, b2, b3, b4⟩ | ⟨p0, c1, c2, c3, c4⟩
  · exact ⟨p, by omega, a1, hemp, a2⟩
  · refine ⟨p, by omega, fun i hi => b2 i (by omega), hemp, ?_, ?_⟩
    · intro j hj hcj
      by_contra hlt
      exact hcj (hemp j (by omega) hj)
    · intro _
      rw [b3]
      exact ⟨by omega, b2 s (le_refl s)⟩
  · exact ⟨p0, by omega, c2, c3, c4⟩

theorem compaction_state_move {p q low : Nat} {c : Nat → List Nat}
    (h : compaction_state p c low) (hpq : p < q) (hq : q < KERNEL_MAX_TASK)
    (hcq : c q ≠ []) (hemp : ∀ j, p ≤ j → j < q → c j = []) :
    compaction_state (p + 1) (Function.update (Function.update c p (c q)) q []) p := by
  have hbelow : ∀ i < p, c i ≠ [] := by
    rcases h with ⟨a1, -⟩ | ⟨s, b1, b2, -, -⟩ | ⟨p0, c1, -, c3, -⟩
    · exact a1
    · exact fun i hi => b2 i (by omega)
    · exact absurd (c3 q (by omega) hq) hcq
  right
  left
  refine ⟨p, rfl, ?_, rfl, ?_⟩
  · intro i hi
    rw [update_move_apply, if_neg (by omega)]
    by_cases hip : i = p
    · rw [if_pos hip]
      exact hcq
    · rw [if_neg hip]
      exact hbelow i (by omega)
  · rw [update_move_apply]
    by_cases h1 : p + 1 = q
    · rw [if_pos h1]
    · rw [if_neg h1, if_neg (by omega)]
      exact hemp (p + 1) (by omega) (by omega)

/-- At the end of the compaction loop the occupied groups are a prefix, and the tracked
lowest occupied priority is its last index. -/
theorem compaction_state_final {c : Nat → List Nat} {low : Nat}
    (h : compaction_state TASK_MAX_PRIORITY c low) :
    ∃ k, k ≤ KERNEL_MAX_TASK ∧ (∀ i < k, c i ≠ []) ∧
      (∀ j, k ≤ j → j < KERNEL_MAX_TASK → c j = []) ∧ (1 ≤ k → low = k - 1) := by
  have e1 : TASK_MAX_PRIORITY = 63 := rfl
  have e2 : KERNEL_MAX_TASK = 64 := rfl
  rw [e1] at h
  rw [e2]
  rcases h with ⟨a1, a2, a3⟩ | ⟨s, b1, b2, b3, b4⟩ | ⟨p0, c1, c2, c3, c4, c5⟩
  · rw [e2] at a2 a3
    by_cases h63 : c 63 = []
    · refine ⟨63, by omega, a1, ?_, ?_⟩
      · intro j h1 h2
        have : j = 63 := by omega
        rw [this]
        exact h63
      · intro _
        have h62 := a2 62 (by omega) (a1 62 (by omega))
        obtain ⟨l1, l2⟩ := a3 ⟨62, by omega, a1 62 (by omega)⟩
        have : low ≠ 63 := fun hc => l2 (hc ▸ h63)
        omega
    · refine ⟨64, le_refl _, ?_, ?_, ?_⟩
      · intro i hi
        by_cases h : i = 63
        · rw [h]; exact h63
        · exact a1 i (by omega)
      · intro j h1 h2
        omega
      · intro _
        have h1 := a2 63 (by omega) h63
        obtain ⟨l1, -⟩ := a3 ⟨63, by omega, h63⟩
        omega
  · refine ⟨63, by omega, fun i hi => b2 i (by omega), ?_, ?_⟩
    · intro j h1 h2
      have : j = 63 := by omega
      rw [this]
      exact b4
    · intro _
      omega
  · rw [e2] at c3 c4 c5
    refine ⟨p0, by omega, c2, c3, ?_⟩
    intro hk
    have h1 := c4 (p0 - 1) (by omega) (c2 (p0 - 1) (by omega))
    obtain ⟨l1, l2⟩ := c5 ⟨p0 - 1, by omega, c2 (p0 - 1) (by omega)⟩
    have : low < p0 := by
      by_contra hge
      exact l2 (c3 low (by omega) l1)
    omega

/-- The compaction loop from the loop variable `p` on: it runs to its end and leaves a
valid table whose groups are the groups before, moved to smaller priorities. -/
theorem kernel_start_compact_spec (fuel : Nat) :
    ∀ (n p : Nat) (K : Kernel) (c : Nat → List Nat), p + n = TASK_MAX_PRIORITY →
      priority_table K c → (∀ r < KERNEL_MAX_TASK, (c r).length < fuel) →
      compaction_state p c K.g_task_lowest_priority →
      ∃ K2 c2, kernel_start_compact fuel n p K = some (KERNEL_SUCCESS, K2) ∧
        priority_table K2 c2 ∧
        compaction_state TASK_MAX_PRIORITY c2 K2.g_task_lowest_priority ∧
        groups_compacted c c2 ∧
        K2.mem.element = K.mem.element ∧ K2.mem.task = K.mem.task ∧
        K2.g_prioritized_tasks = K.g_prioritized_tasks ∧
        K2.g_kernel_status = K.g_kernel_status := by
  intro n
  induction n with
  | zero =>
    intro p K c hn hT _ hst
    have hp : p = TASK_MAX_PRIORITY := by omega
    rw [hp] at hst
    exact ⟨K, c, rfl, hT, hst, groups_compacted_refl c, rfl, rfl, rfl, rfl⟩
  | succ n ih =>
    intro p K c hn hT hfuel hst
    have e1 : TASK_MAX_PRIORITY = 63 := rfl
    have e2 : KERNEL_MAX_TASK = 64 := rfl
    have hp : p < KERNEL_MAX_TASK := by omega
    obtain ⟨hget, hA⟩ := priority_table_get hT hp
    have hlist := hT.2.2.1 p hp
    by_cases hc : c p = []
    · have hsz : ¬ (K.mem.list (priority_group_of K p)).size > 0 := by
        rw [hlist.2.2.2.2, hc]
        simp
      have hstep : kernel_start_compact fuel (n + 1) p K
          = match kernel_start_fill fuel p (priority_group_of K p)
                (TASK_MAX_PRIORITY + 1 - p) p K with
            | none => none
            | some r =>
              if r.1 ≠ KERNEL_SUCCESS then some r
              else kernel_start_compact fuel n (p + 1) r.2 := by
        rw [kernel_start_compact, hget]
        rw [if_neg (fun h => h rfl), if_neg hsz]
      rw [hstep]
      rcases kernel_start_fill_spec hp hc hfuel (TASK_MAX_PRIORITY + 1 - p) p K (by omega) hT
          (fun j h1 h2 => absurd h2 (by omega)) with
        ⟨q, K1, f1, f2, f3, f4, f5, f6, f7, f8, f9, -, f11, f12⟩ | ⟨g1, g2⟩
      · rw [f5]
        simp only []
        rw [if_neg (fun h => h rfl)]
        have hpq : p < q := by
          rcases Nat.lt_or_ge p q with h | h
          · exact h
          · have : q = p := by omega
            exact absurd (this ▸ hc) f3
        have hfuel1 : ∀ r < KERNEL_MAX_TASK,
            (Function.update (Function.update c p (c q)) q [] r).length < fuel := by
          intro r hr
          rw [update_move_apply]
          split_ifs
          · exact lt_of_le_of_lt (Nat.zero_le _) (hfuel r hr)
          · exact hfuel q f2
          · exact hfuel r hr
        have hst1 : compaction_state (p + 1)
            (Function.update (Function.update c p (c q)) q []) K1.g_task_lowest_priority := by
          rw [f9]
          exact compaction_state_move hst hpq f2 f3 f4
        obtain ⟨K2, c2, i1, i2, i3, i4, i5, i6, i7, i8⟩ :=
          ih (p + 1) K1 _ (by omega) f6 hfuel1 hst1
        exact ⟨K2, c2, i1, i2, i3,
          groups_compacted_trans (groups_compacted_move hpq f2 f3 f4) i4,
          i5.trans f7, i6.trans f8, i7.trans f11, i8.trans f12⟩
      · rw [g2]
        simp only []
        rw [if_neg (fun h => h rfl)]
        exact ih (p + 1) K c (by omega) hT hfuel (compaction_state_none hp hst g1)
    · have hsz : (K.mem.list (priority_group_of K p)).size > 0 := by
        rw [hlist.2.2.2.2]
        exact List.length_pos.2 hc
      have hstep : kernel_start_compact fuel (n + 1) p K
          = kernel_start_compact fuel n (p + 1) K := by
        rw [kernel_start_compact, hget]
        rw [if_neg (fun h => h rfl), if_pos hsz]
      rw [hstep]
      exact ih (p + 1) K c (by omega) hT hfuel (compaction_state_keep hp hst hc)

/-- C32.  Let the table of the priority groups be valid with the groups `c` (every
priority below `KERNEL_MAX_TASK` has a well-formed group, every node holds a valid task
of its own whose priority field is the priority of its group), let the tracked lowest
occupied priority be the greatest priority with a task, as `kernel_add_task` leaves it,
and let the kernel be in the status from which `kernel_start` may be called.  Then the
first part of `kernel_start`, run with more fuel than any group has nodes, reaches the end
of the compaction loop with `KERNEL_SUCCESS`, and there are groups `c2` and a number `k`
with:
* the table is valid with the groups `c2`: in particular no node is in two groups or
  twice in a group, and every task of the group `p` has the priority field `p`;
* the groups `0, ..., k - 1` are not empty and the groups from `k` on are empty;
* every group of `c` is a group of `c2` at a priority that is not greater, every group of
  `c2` is a group of `c`, so no node is lost and none appears;
* two nodes with different priorities before, the first smaller, are in two groups
  after, the first again at the smaller priority;
* for `1 ≤ k` the tracked lowest occupied priority is `k - 1`;
* the nodes and the tasks are not written: every node keeps its payload. -/
theorem kernel_start_compaction_dense_prefix (fuel : Nat) (K : Kernel) (c : Nat → List Nat)
    (hs : K.g_kernel_status = EN_KERNEL_NOT_INITIALIZED)
    (hT : priority_table K c)
    (hlow : lowest_tracked c K.g_task_lowest_priority)
    (hfuel : ∀ r < KERNEL_MAX_TASK, (c r).length < fuel) :
    ∃ K2 c2 k, kernel_start_compaction fuel K = some (KERNEL_SUCCESS, K2) ∧
      priority_table K2 c2 ∧
      (∀ p < KERNEL_MAX_TASK, (c2 p).Nodup ∧ ∀ x ∈ c2 p,
        (∀ q < KERNEL_MAX_TASK, x ∈ c2 q → q = p) ∧
        (K2.mem.tcb (K2.mem.task (K2.mem.element x).data).task_data).u8TaskPrio = p) ∧
      k ≤ KERNEL_MAX_TASK ∧ (∀ p < k, c2 p ≠ []) ∧
      (∀ p, k ≤ p → p < KERNEL_MAX_TASK → c2 p = []) ∧
      groups_compacted c c2 ∧
      (∀ p < KERNEL_MAX_TASK, ∀ x ∈ c p, ∃ p2 ≤ p, x ∈ c2 p2) ∧
      (∀ p2 < KERNEL_MAX_TASK, ∀ x ∈ c2 p2, ∃ p < KERNEL_MAX_TASK, x ∈ c p) ∧
      (∀ p q x y, p < q → q < KERNEL_MAX_TASK → x ∈ c p → y ∈ c q →
        ∃ p2 q2, p2 < q2 ∧ q2 < KERNEL_MAX_TASK ∧ x ∈ c2 p2 ∧ y ∈ c2 q2) ∧
      (1 ≤ k → K2.g_task_lowest_priority = k - 1) ∧
      K2.mem.element = K.mem.element ∧ K2.mem.task = K.mem.task := by
  have hset : kernel_set_status K EN_KERNEL_STARTING
      = some (KERNEL_SUCCESS, { K with g_kernel_status := EN_KERNEL_STARTING }) := by
    unfold kernel_set_status
    rw [if_pos rfl, if_neg (fun h => h hs)]
  have hT1 : priority_table { K with g_kernel_status := EN_KERNEL_STARTING } c := hT
  obtain ⟨K2, c2, r1, r2, r3, r4, r5, r6, -, -⟩ :=
    kernel_start_compact_spec fuel TASK_MAX_PRIORITY 0
      { K with g_kernel_status := EN_KERNEL_STARTING } c (by omega) hT1 hfuel
      (Or.inl ⟨fun i hi => absurd hi (Nat.not_lt_zero i), hlow⟩)
  obtain ⟨k, k1, k2, k3, k4⟩ := compaction_state_final r3
  have hne : ∀ {l : List Nat} {x : Nat}, x ∈ l → l ≠ [] := fun hx hl => by
    rw [hl] at hx
    exact absurd hx (List.not_mem_nil _)
  refine ⟨K2, c2, k, ?_, r2, ?_, k1, k2, k3, r4, ?_, ?_, ?_, k4, r5, r6⟩
  · unfold kernel_start_compaction
    rw [hset]
    exact r1
  · intro p hp
    refine ⟨(r2.2.2.1 p hp).1, fun x hx => ⟨?_, (r2.2.2.2.2.1 p hp x hx).2⟩⟩
    intro q hq hxq
    by_contra hqp
    exact r2.2.2.2.1 q hq p hp hqp x hxq hx
  · intro p hp x hx
    obtain ⟨p2, h1, h2⟩ := r4.1 p hp (hne hx)
    exact ⟨p2, h1, h2 ▸ hx⟩
  · intro p2 hp2 x hx
    obtain ⟨p, h1, -, h3⟩ := r4.2.1 p2 hp2 (hne hx)
    exact ⟨p, h1, h3 ▸ hx⟩
  · intro p q x y hpq hq hx hy
    obtain ⟨p2, q2, h1, h2, h3, h4⟩ := r4.2.2 p q hpq hq (hne hx) (hne hy)
    exact ⟨p2, q2, h1, lt_of_le_of_lt h2 hq, h3 ▸ hx, h4 ▸ hy⟩

/-! ## Evaluations on the kernel with five tasks -/

set_option maxHeartbeats 4000000 in
theorem inheritance_cooldown_never_counts_down_witness :
    kernel_five_tasks_promoted.inheritance_cooldown = 3 ∧
    ∃ r, kernel_start_task_calls [(1002, 13, 103), (1002, 14, 104), (1002, 15, 105)]
        kernel_five_tasks_promoted = some r ∧
      r.1 = [KERNEL_SUCCESS, KERNEL_SUCCESS, KERNEL_SUCCESS] ∧
      r.2.inheritance_cooldown = 3 := by
  have hc : kernel_five_tasks_promoted.inheritance_cooldown = 3 := by decide!
  have hm : (kernel_start_task_calls [(1002, 13, 103), (1002, 14, 104), (1002, 15, 105)]
      kernel_five_tasks_promoted).map (fun r => r.1.length) = some 3 := by decide!
  obtain ⟨r, hr⟩ := option_map_some hm
  have k := inheritance_cooldown_never_counts_down
    [(1002, 13, 103), (1002, 14, 104), (1002, 15, 105)] kernel_five_tasks_promoted r
    (by rw [hc]; decide) hr
  exact ⟨hc, r, hr, k.1, k.2.1.trans hc⟩


theorem kernel_start_task_promotion_step_witness :
    ∃ K2, kernel_start_task kernel_two_groups 2 12 102 = some (KERNEL_SUCCESS, K2) ∧
      IsList K2.mem.element (K2.mem.list 2) ([11, 12, 13, 14] ++ [15, 16]) ∧
      IsList K2.mem.element (K2.mem.list 20) [] ∧
      K2.g_task_lower_priority = 1 ∧ K2.inheritance_cooldown = 2 := by
  obtain ⟨K2, h1, h2, h3, -, -, h6, h7, -⟩ :=
    (kernel_start_task_promotion_step kernel_two_groups 2 12 102 (by decide)
      (Or.inr (by decide))).2 (by decide) (by decide) 20 2 [15, 16] [11, 12, 13, 14]
      (by decide) (by decide) (by decide) (by decide) (by decide) (by decide)
  exact ⟨K2, h1, h2, h3, h6, h7⟩

/-- The groups of `kernel_five_tasks` have different nodes. -/
theorem five_tasks_groups_disjoint (p q : Nat) (hpq : p ≠ q) :
    ∀ x ∈ five_tasks_groups p, x ∉ five_tasks_groups q := by
  intro x hx hy
  unfold five_tasks_groups at hx hy
  split_ifs at hx hy <;> simp at hx hy <;> omega

/-- The node of the task `x + 90` of `kernel_five_tasks` is `x`, and its control block is at
`x + 190`. -/
theorem five_tasks_groups_tcb (p : Nat) :
    ∀ x ∈ five_tasks_groups p, node_tcb kernel_five_tasks.mem x = x + 190 := by
  have hall : node_tcb kernel_five_tasks.mem 11 = 201 ∧
      node_tcb kernel_five_tasks.mem 12 = 202 ∧ node_tcb kernel_five_tasks.mem 13 = 203 ∧
      node_tcb kernel_five_tasks.mem 14 = 204 ∧ node_tcb kernel_five_tasks.mem 15 = 205 := by
    decide!
  obtain ⟨h11, h12, h13, h14, h15⟩ := hall
  intro x hx
  unfold five_tasks_groups at hx
  split_ifs at hx <;> simp at hx
  · rcases hx with rfl | rfl
    · exact h11
    · exact h12
  · rcases hx with rfl | rfl
    · exact h13
    · exact h14
  · rw [hx]
    exact h15

set_option maxHeartbeats 4000000 in
set_option maxRecDepth 100000 in
theorem priority_table_five_tasks : priority_table kernel_five_tasks five_tasks_groups := by
  have hdec : (∀ p < KERNEL_MAX_TASK,
        (dictionary_get kernel_five_tasks.mem kernel_five_tasks.g_prioritized_tasks p 0).1
          = DICTIONARY_SUCCESS) ∧
      (∀ p < KERNEL_MAX_TASK, ∀ q < KERNEL_MAX_TASK, p ≠ q →
        priority_group_of kernel_five_tasks p ≠ priority_group_of kernel_five_tasks q) ∧
      (∀ p < KERNEL_MAX_TASK, IsList kernel_five_tasks.mem.element
        (kernel_five_tasks.mem.list (priority_group_of kernel_five_tasks p))
        (five_tasks_groups p)) ∧
      (∀ p < KERNEL_MAX_TASK, ∀ x ∈ five_tasks_groups p,
        task_checking kernel_five_tasks.mem (kernel_five_tasks.mem.element x).data
          = TASK_SUCCESS ∧
        (kernel_five_tasks.mem.tcb (node_tcb kernel_five_tasks.mem x)).u8TaskPrio = p) := by
    decide!
  obtain ⟨d1, d2, d3, d5⟩ := hdec
  refine ⟨d1, d2, d3, ?_, d5, ?_⟩
  · intro p _ q _ hpq
    exact five_tasks_groups_disjoint p q hpq
  · intro p _ q _ x hx y hy hxy
    rw [five_tasks_groups_tcb p x hx, five_tasks_groups_tcb q y hy]
    omega

set_option maxHeartbeats 4000000 in
set_option maxRecDepth 100000 in
/-- C32, witness: `kernel_five_tasks` is the state after `kernel_init` and five calls of
`kernel_add_task` with the priorities 0, 0, 3, 3 and 10.  The compaction ends with
`KERNEL_SUCCESS`; the groups of the priorities 0, 1 and 2 hold the nodes 11 and 12, 13
and 14, and 15, the group of the priority 3 is empty, and the tracked lowest occupied
priority is 2. -/
theorem kernel_start_compaction_dense_prefix_witness :
    (∃ K2 c2 k, kernel_start_compaction 5 kernel_five_tasks = some (KERNEL_SUCCESS, K2) ∧
      priority_table K2 c2 ∧ k ≤ KERNEL_MAX_TASK ∧ (∀ p < k, c2 p ≠ []) ∧
      (∀ p, k ≤ p → p < KERNEL_MAX_TASK → c2 p = []) ∧
      groups_compacted five_tasks_groups c2 ∧
      (1 ≤ k → K2.g_task_lowest_priority = k - 1)) ∧
    (kernel_start_compaction 5 kernel_five_tasks).map
        (fun r => (r.1, priority_groups_view r.2 5 4, r.2.g_task_lowest_priority))
      = some (KERNEL_SUCCESS, [[11, 12], [13, 14], [15], []], 2) := by
  have hs : kernel_five_tasks.g_kernel_status = EN_KERNEL_NOT_INITIALIZED := by decide!
  have hl : kernel_five_tasks.g_task_lowest_priority = 10 := by decide!
  have hlow : lowest_tracked five_tasks_groups kernel_five_tasks.g_task_lowest_priority := by
    rw [hl]
    unfold lowest_tracked
    decide
  obtain ⟨K2, c2, k, h1, h2, -, h4, h5, h6, h7, -, -, -, h11, -, -⟩ :=
    kernel_start_compaction_dense_prefix 5 kernel_five_tasks five_tasks_groups hs
      priority_table_five_tasks hlow (by decide)
  exact ⟨⟨K2, c2, k, h1, h2, h4, h5, h6, h7, h11⟩, by decide!⟩
end BeeOS
